import Mathlib

/-!
# The name server of `src/nameserver/name_server_impl.cc`

A shallow embedding of `rtidb::nameserver::NameServerImpl`: the table catalog, the
counters kept in the coordination store, and the handlers and task bodies that
change them.  Every member function that is embedded keeps its C++ name and takes
the name server state as an explicit argument; a function that writes to the
state returns the new state.

Conventions.

* `uint32_t` and `uint64_t` values are natural numbers; an addition that can wrap
  is reduced modulo `2 ^ 32` or `2 ^ 64` where the source performs it.
* A `std::map` is an association list; `find` returns the first entry of a key.
* A protobuf message is a structure.  Fields that no embedded function reads or
  writes are left out.  Serialising a message and parsing it back is the identity,
  so a store node holds the message itself.
* The calls that leave the process (coordination store, tablet clients) take their
  outcome from a schedule that is part of the state, one entry per call; the four
  tablet calls of `RecoverEndpointTable` take theirs from an argument.
* The threads of the OP engine are passes over the queues that run one after the
  other, each as a whole; the clock is an argument of the pass that reads it.
* A task body that changes a table writes through the pointer that the catalog
  holds: in the embedding the entry of the catalog is assigned before the store is
  called.
* The declarations of `name_server_impl.h` are not among the sources.  A default
  argument is written out at the call: `INVALID_PARENT_ID` for `parent_id`, the
  flag `name_server_task_concurrency` for `concurrency`.
-/

set_option linter.unusedVariables false

namespace rtidb

/-! ## Messages -/

/-- The message `PartitionMeta`: one replica of a partition.  The field `offset` is
optional, `none` when it is not set; a message that does not set
`tablet_has_partition` reads it as true. -/
structure PartitionMeta where
  endpoint : String
  is_leader : Bool
  is_alive : Bool
  offset : Option Nat := none
  tablet_has_partition : Bool := true
  deriving DecidableEq, Repr

/-- The message `TermPair`: the term of a leader and the offset it started at. -/
structure TermPair where
  term : Nat
  offset : Nat
  deriving DecidableEq, Repr

/-- The message `TablePartition`. -/
structure TablePartition where
  pid : Nat
  partition_meta : List PartitionMeta
  term_offset : List TermPair
  deriving DecidableEq, Repr

/-- The message `ColumnDesc` of a schema. -/
structure ColumnDesc where
  name : String
  type : String
  add_ts_idx : Bool
  is_ts_col : Bool
  deriving DecidableEq, Repr

/-- The message `ColumnKey`: an index over the columns `col_name`. -/
structure ColumnKey where
  index_name : String
  col_name : List String
  ts_name : List String
  deriving DecidableEq, Repr

/-- The message `TableInfo`.  An optional scalar field is an `Option`. -/
structure TableInfo where
  name : String
  tid : Nat
  ttl : Nat
  ttl_type : String
  partition_num : Option Nat
  replica_num : Option Nat
  column_desc : List ColumnDesc
  column_desc_v1 : List ColumnDesc
  column_key : List ColumnKey
  added_column_desc : List ColumnDesc
  table_partition : List TablePartition
  deriving DecidableEq, Repr

/-- The enum `TaskStatus`. -/
inductive TaskStatus where
  | kInited
  | kDoing
  | kDone
  | kFailed
  | kCanceled
  deriving DecidableEq, Repr

/-- The enum `TaskType`. -/
inductive TaskType where
  | kMakeSnapshot
  | kPauseSnapshot
  | kRecoverSnapshot
  | kSendSnapshot
  | kLoadTable
  | kAddReplica
  | kAddTableInfo
  | kDelReplica
  | kDelTableInfo
  | kDropTable
  | kUpdateTableInfo
  | kUpdatePartitionStatus
  | kSelectLeader
  | kChangeLeader
  | kUpdateLeaderInfo
  | kRecoverTable
  | kCheckBinlogSyncProgress
  deriving DecidableEq, Repr

/-- The enum `OPType`. -/
inductive OPType where
  | kMakeSnapshotOP
  | kAddReplicaOP
  | kDelReplicaOP
  | kChangeLeaderOP
  | kOfflineReplicaOP
  | kMigrateOP
  | kReAddReplicaOP
  | kReAddReplicaNoSendOP
  | kReAddReplicaWithDropOP
  | kReAddReplicaSimplifyOP
  | kReLoadTableOP
  | kUpdatePartitionStatusOP
  | kRecoverTableOP
  deriving DecidableEq, Repr

/-- The message `TaskInfo`.  The optional field `endpoint` and the field
`is_rpc_send` have the values of a message on which they were never set unless
they are given. -/
structure TaskInfo where
  op_id : Nat
  op_type : OPType
  task_type : TaskType
  status : TaskStatus
  endpoint : Option String := none
  is_rpc_send : Bool := false
  deriving DecidableEq, Repr

/-- The message `ChangeLeaderData`, the payload of a ChangeLeaderOP. -/
structure ChangeLeaderData where
  name : String
  tid : Nat
  pid : Nat
  follower : List String
  candidate_leader : Option String
  leader : String
  offset : Nat
  term : Nat
  deriving DecidableEq, Repr

/-- The message `AddReplicaNSRequest`, the payload of an AddReplicaOP. -/
structure AddReplicaNSRequest where
  name : String
  pid : Nat
  endpoint : String
  deriving DecidableEq, Repr

/-- The message `RecoverTableData`, the payload of the ReAddReplicaOPs. -/
structure RecoverTableData where
  endpoint : String
  offset_delta : Nat
  deriving DecidableEq, Repr

/-- The bytes of `OPInfo.data`, by the message they parse as. -/
inductive OPPayload where
  | changeLeaderData (d : ChangeLeaderData)
  | addReplicaNSRequest (request : AddReplicaNSRequest)
  | recoverTableData (d : RecoverTableData)
  | other (bytes : String)
  deriving DecidableEq, Repr

/-- The message `OPInfo`, the header of an OP. -/
structure OPInfo where
  op_id : Nat
  op_type : OPType
  task_index : Nat
  data : OPPayload
  task_status : TaskStatus
  name : String
  pid : Nat
  parent_id : Nat
  vec_idx : Option Nat
  start_time : Nat := 0
  end_time : Nat := 0
  deriving DecidableEq, Repr

/-- The class `Task` without its closure: the endpoint and the `TaskInfo`. -/
structure Task where
  endpoint_ : String
  task_info_ : TaskInfo
  deriving DecidableEq, Repr

/-- The class `OPData`. -/
structure OPData where
  op_info_ : OPInfo
  task_list_ : List Task
  deriving DecidableEq, Repr

/-- The enum `TabletState`. -/
inductive TabletState where
  | kTabletHealthy
  | kTabletOffline
  deriving DecidableEq, Repr

/-- The class `TabletInfo` without its client stub. -/
structure TabletInfo where
  state_ : TabletState
  ctime_ : Nat
  deriving DecidableEq, Repr

/-! ## Machine integers -/

/-- The value `UINT32_MAX`. -/
def UINT32_MAX : Nat := 4294967295

/-- The value `UINT64_MAX`. -/
def UINT64_MAX : Nat := 18446744073709551615

/-- A value stored into a `uint32_t`. -/
def u32 (n : Nat) : Nat := n % 4294967296

/-- A value stored into a `uint64_t`. -/
def u64 (n : Nat) : Nat := n % 18446744073709551616

/-- The constant `MAX_ADD_TABLE_FIELD_COUNT`. -/
def MAX_ADD_TABLE_FIELD_COUNT : Nat := 63

/-! ## Containers -/

/-- The comparison of two `std::string`s, byte by byte, on their characters. -/
def charsLt : List Char → List Char → Bool
  | [], [] => false
  | [], _ :: _ => true
  | _ :: _, [] => false
  | a :: as, b :: bs =>
    if a.toNat < b.toNat then true
    else if b.toNat < a.toNat then false
    else charsLt as bs

/-- The order `operator<` of `std::string`. -/
def strLt (a b : String) : Bool := charsLt a.data b.data

/-- The entry of key `k` in a `std::map`, as `find` returns it. -/
def mapFind {β : Type} (k : String) : List (String × β) → Option β
  | [] => none
  | (k', v) :: m => if k' = k then some v else mapFind k m

/-- Assignment through the iterator that `find` returned: the entry of key `k`
gets the value `v`; a map without the key is unchanged. -/
def mapAssign {β : Type} (k : String) (v : β) : List (String × β) → List (String × β)
  | [] => []
  | (k', v') :: m => if k' = k then (k', v) :: m else (k', v') :: mapAssign k v m

/-- The call `std::map::insert`: no effect when the key is present, otherwise the
entry is placed in key order. -/
def mapInsert {β : Type} (k : String) (v : β) (m : List (String × β)) : List (String × β) :=
  match mapFind k m with
  | some _ => m
  | none => List.orderedInsert (fun a b : String × β => strLt b.1 a.1 = false) (k, v) m

/-- Apply `f` to the element at position `i`, as a write through
`mutable_...(i)` does. -/
def modifyNth {α : Type} (f : α → α) : Nat → List α → List α
  | _, [] => []
  | 0, a :: l => f a :: l
  | n + 1, a :: l => a :: modifyNth f n l

/-- The first element that satisfies `p`, with its position. -/
def firstWith {α : Type} (p : α → Bool) : List α → Option (Nat × α)
  | [] => none
  | a :: l => if p a then some (0, a) else (firstWith p l).map (fun r => (r.1 + 1, r.2))

/-! ## The coordination store -/

/-- The content of a store node.  Numbers are written with `std::to_string` and
read with `std::stoull`; messages are written serialised. -/
inductive ZkValue where
  | num (n : Nat)
  | text (s : String)
  | table (t : TableInfo)
  | op (o : OPInfo)
  deriving DecidableEq, Repr

/-- Modelled from the spec: the class `ZkClient` (zk/zk_client.h) is not part of
the sources.  It is the "Metadata Store Adapter" of the specification: a
hierarchy of nodes with `get`, `put` (fails on a node that does not exist) and
`create` (fails on a node that exists), each write atomic.  `faults` schedules
the calls that fail for a reason of the service itself: every call takes the head
of the list, and fails when it is `true`. -/
structure ZkClient where
  nodes : List (String × ZkValue)
  faults : List Bool
  deriving DecidableEq, Repr

namespace ZkClient

/-- Whether the next call is answered by the service, and the client after it. -/
def next (zk : ZkClient) : Bool × ZkClient :=
  match zk.faults with
  | [] => (true, zk)
  | b :: rest => (!b, { zk with faults := rest })

/-- Modelled from the spec: `ZkClient::GetNodeValue`, the `get` of the store. -/
def GetNodeValue (zk : ZkClient) (node : String) : Option ZkValue × ZkClient :=
  let r := zk.next
  if r.1 then (mapFind node zk.nodes, r.2) else (none, r.2)

/-- Modelled from the spec: `ZkClient::SetNodeValue`, the `put` of the store. -/
def SetNodeValue (zk : ZkClient) (node : String) (value : ZkValue) : Bool × ZkClient :=
  let r := zk.next
  if r.1 then
    match mapFind node zk.nodes with
    | some _ => (true, { r.2 with nodes := mapAssign node value zk.nodes })
    | none => (false, r.2)
  else (false, r.2)

/-- Modelled from the spec: `ZkClient::CreateNode`, the `create` of the store. -/
def CreateNode (zk : ZkClient) (node : String) (value : ZkValue) : Bool × ZkClient :=
  let r := zk.next
  if r.1 then
    match mapFind node zk.nodes with
    | some _ => (false, r.2)
    | none => (true, { r.2 with nodes := zk.nodes ++ [(node, value)] })
  else (false, r.2)

/-- Modelled from the spec: `ZkClient::DeleteNode`, the `delete` of the store.  It
fails on a node that does not exist. -/
def DeleteNode (zk : ZkClient) (node : String) : Bool × ZkClient :=
  let r := zk.next
  if r.1 then
    match mapFind node zk.nodes with
    | some _ => (true, { r.2 with nodes := zk.nodes.filter (fun e => e.1 ≠ node) })
    | none => (false, r.2)
  else (false, r.2)

/-- The rest of `path` after the prefix `pre`, when `path` starts with it. -/
def stripPrefix : List Char → List Char → Option (List Char)
  | [], path => some path
  | _ :: _, [] => none
  | c :: pre, d :: path => if c = d then stripPrefix pre path else none

/-- The name of the node at `path` as a child of `parent`, when it is one. -/
def childName (parent path : String) : Option String :=
  match stripPrefix (parent.data ++ ['/']) path.data with
  | some name => if name = [] ∨ '/' ∈ name then none else some (String.mk name)
  | none => none

/-- Modelled from the spec: `ZkClient::IsExistNode`, 0 for a node that exists, 1
for one that does not, -1 when the service does not answer.  A node exists when
it holds a value or has a node below it. -/
def IsExistNode (zk : ZkClient) (node : String) : Int × ZkClient :=
  let r := zk.next
  if r.1 then
    if (mapFind node zk.nodes).isSome
        || zk.nodes.any (fun e => (stripPrefix (node.data ++ ['/']) e.1.data).isSome) then
      (0, r.2)
    else (1, r.2)
  else (-1, r.2)

/-- Modelled from the spec: `ZkClient::GetChildren`, the `children` of the store:
the names of the nodes directly below `path`, in the order of the store; it fails
on a node that does not exist. -/
def GetChildren (zk : ZkClient) (path : String) : Option (List String) × ZkClient :=
  let r := zk.next
  if r.1 then
    if (mapFind path zk.nodes).isSome
        || zk.nodes.any (fun e => (stripPrefix (path.data ++ ['/']) e.1.data).isSome) then
      (some (zk.nodes.filterMap (fun e => childName path e.1)), r.2)
    else (none, r.2)
  else (none, r.2)

end ZkClient

/-! ## The name server -/

/-- The gflags the embedded functions read. -/
structure Flags where
  partition_num : Nat
  replica_num : Nat
  absolute_ttl_max : Nat
  latest_ttl_max : Nat
  max_op_num : Nat := 10000
  tablet_heartbeat_timeout : Nat := 300000
  name_server_task_concurrency : Nat := 2
  deriving DecidableEq, Repr

/-- The members of `NameServerImpl` that the embedded functions use.
`tablet_replies_` schedules the answers of the tablet clients: every RPC takes
the head of the list, `none` for a call that fails and `some n` for one that
succeeds and returns `n` (an offset, where the call returns one).
`task_thread_pool_` holds the closures `task->fun_` that `AddTask` was called
with, in the order of the calls: each as the task it belongs to and the id of
the OP that held the task.
Paths of store nodes are written relative to the flag `zk_root_path`. -/
structure NameServerImpl where
  tablets_ : List (String × TabletInfo)
  table_info_ : List (String × TableInfo)
  zk_client_ : ZkClient
  table_index_ : Nat
  term_ : Nat
  op_index_ : Nat
  running_ : Bool
  auto_failover_ : Bool
  task_vec_ : List (List OPData)
  tablet_replies_ : List (Option Nat)
  flags : Flags
  done_op_list_ : List OPData := []
  offline_endpoint_map_ : List (String × Nat) := []
  task_thread_pool_ : List (Nat × Task) := []
  follower_ : Bool := false
  deriving DecidableEq, Repr

namespace NameServerImpl

/-- The member `zk_table_index_node_`, below `zk_root_path`. -/
def zk_table_index_node_ : String := "/table/table_index"

/-- The member `zk_table_data_path_`, below `zk_root_path`. -/
def zk_table_data_path_ : String := "/table/table_data"

/-- The member `zk_term_node_`, below `zk_root_path`. -/
def zk_term_node_ : String := "/table/term"

/-- The member `zk_op_index_node_`, below `zk_root_path`. -/
def zk_op_index_node_ : String := "/op/op_index"

/-- The member `zk_table_changed_notify_node_`, below `zk_root_path`. -/
def zk_table_changed_notify_node_ : String := "/table/notify"

/-- The member `zk_auto_failover_node_`, below `zk_root_path`. -/
def zk_auto_failover_node_ : String := "/config/auto_failover"

/-- The member `zk_zone_data_path_`, below `zk_root_path`. -/
def zk_zone_data_path_ : String := "/cluster"

/-- The answer of a tablet client to the next RPC, and the schedule after it. -/
def nextReply : List (Option Nat) → Option Nat × List (Option Nat)
  | [] => (some 0, [])
  | r :: rest => (r, rest)

/-- The function `NameServerImpl::NotifyTableChanged` (lines 5188-5201): add one to
the counter of the notify node.  Its failures are only logged.  A node that
holds no number is left as it is. -/
def NotifyTableChanged (ns : NameServerImpl) : NameServerImpl :=
  match ns.zk_client_.GetNodeValue zk_table_changed_notify_node_ with
  | (some (ZkValue.num value), zk) =>
    { ns with zk_client_ := (zk.SetNodeValue zk_table_changed_notify_node_ (ZkValue.num (u64 (value + 1)))).2 }
  | (_, zk) => { ns with zk_client_ := zk }

/-- The loop of `FindRunningOP` over the queues: the first non-empty queue whose
front OP has the given id yields that OP. -/
def findFront (op_id : Nat) : List (List OPData) → Option OPData
  | [] => none
  | [] :: rest => findFront op_id rest
  | (front :: _) :: rest =>
    if front.op_info_.op_id = op_id then some front else findFront op_id rest

/-- The function `NameServerImpl::FindRunningOP` (lines 4835-4846): the OP at the
front of a queue that has the given id. -/
def FindRunningOP (ns : NameServerImpl) (op_id : Nat) : Option OPData :=
  findFront op_id ns.task_vec_

/-- A write `op_data->op_info_.set_data(value)` through the pointer that
`FindRunningOP` returned: the OP it found gets the new payload, in its queue. -/
def setFrontData (op_id : Nat) (data : OPPayload) : List (List OPData) → List (List OPData)
  | [] => []
  | [] :: rest => [] :: setFrontData op_id data rest
  | (front :: q) :: rest =>
    if front.op_info_.op_id = op_id then
      ({ front with op_info_ := { front.op_info_ with data := data } } :: q) :: rest
    else (front :: q) :: setFrontData op_id data rest

/-- The call `ChangeLeaderData::ParseFromString` on the payload of an OP. -/
def parseChangeLeaderData : OPPayload → Option ChangeLeaderData
  | OPPayload.changeLeaderData d => some d
  | _ => none

/-- The scan of `UpdateLeaderInfo` (lines 5139-5146) over the replicas of the
partition, from position `meta_idx` on: `old_leader_index` is the last replica
that is leader and alive, `new_leader_index` the last other replica at
`leader_endpoint`.  The value `none` stands for `-1`. -/
def scanLeaderIndex (leader_endpoint : String) :
    List PartitionMeta → Nat → Option Nat × Option Nat → Option Nat × Option Nat
  | [], _, acc => acc
  | meta :: rest, meta_idx, acc =>
    if meta.is_leader && meta.is_alive then
      scanLeaderIndex leader_endpoint rest (meta_idx + 1) (some meta_idx, acc.2)
    else if meta.endpoint = leader_endpoint then
      scanLeaderIndex leader_endpoint rest (meta_idx + 1) (acc.1, some meta_idx)
    else
      scanLeaderIndex leader_endpoint rest (meta_idx + 1) acc

/-- The write `old_leader_meta->set_is_alive(false)` (lines 5149-5153), made when
`old_leader_index >= 0`. -/
def markOldLeader (old_leader_index : Option Nat) (table_partition : TablePartition) :
    TablePartition :=
  match old_leader_index with
  | some i =>
    { table_partition with
      partition_meta :=
        modifyNth (fun m => { m with is_alive := false }) i table_partition.partition_meta }
  | none => table_partition

/-- The writes of lines 5160-5165: `new_leader_meta->set_is_leader(true)` and the
new `term_offset` entry `(term, offset + 1)`. -/
def markNewLeader (new_leader_index : Nat) (d : ChangeLeaderData)
    (table_partition : TablePartition) : TablePartition :=
  { table_partition with
    partition_meta :=
      modifyNth (fun m => { m with is_leader := true }) new_leader_index
        table_partition.partition_meta
    term_offset := table_partition.term_offset ++ [{ term := d.term, offset := u64 (d.offset + 1) }] }

/-- The table `t` with its partition at position `idx` replaced by `f` of it. -/
def withPartition (t : TableInfo) (idx : Nat) (f : TablePartition → TablePartition) : TableInfo :=
  { t with table_partition := modifyNth f idx t.table_partition }

/-- The function `NameServerImpl::UpdateLeaderInfo` (lines 5108-5186).  The table is
held through a pointer, so each write to a replica is a write to the catalog, also
on the paths that end with the task failed. -/
def UpdateLeaderInfo (ns : NameServerImpl) (task_info : TaskInfo) : NameServerImpl × TaskInfo :=
  match FindRunningOP ns task_info.op_id with
  | none => (ns, { task_info with status := TaskStatus.kFailed })
  | some op_data =>
    match parseChangeLeaderData op_data.op_info_.data with
    | none => (ns, { task_info with status := TaskStatus.kFailed })
    | some change_leader_data =>
      let leader_endpoint := change_leader_data.leader
      let name := change_leader_data.name
      let pid := change_leader_data.pid
      match mapFind name ns.table_info_ with
      | none => (ns, { task_info with status := TaskStatus.kFailed })
      | some table =>
        match firstWith (fun tp => tp.pid = pid) table.table_partition with
        | none => (ns, { task_info with status := TaskStatus.kFailed })
        | some (idx, table_partition) =>
          let found := scanLeaderIndex leader_endpoint table_partition.partition_meta 0 (none, none)
          let table1 := withPartition table idx (markOldLeader found.1)
          match found.2 with
          | none =>
            ({ ns with table_info_ := mapAssign name table1 ns.table_info_ },
              { task_info with status := TaskStatus.kFailed })
          | some new_leader_index =>
            let table2 := withPartition table1 idx (markNewLeader new_leader_index change_leader_data)
            let ns2 := { ns with table_info_ := mapAssign name table2 ns.table_info_ }
            let r := ns2.zk_client_.SetNodeValue (zk_table_data_path_ ++ "/" ++ name) (ZkValue.table table2)
            if r.1 then
              (NotifyTableChanged { ns2 with zk_client_ := r.2 },
                { task_info with status := TaskStatus.kDone })
            else
              ({ ns2 with zk_client_ := r.2 }, { task_info with status := TaskStatus.kFailed })

/-- The test of `SelectLeader` under auto-failover (lines 4860-4874): whether the
first partition with this pid has a replica that is alive and leader. -/
def leaderIsAlive (table : TableInfo) (pid : Nat) : Bool :=
  match firstWith (fun tp => decide (tp.pid = pid)) table.table_partition with
  | none => false
  | some (_, tp) => tp.partition_meta.any (fun m => m.is_alive && m.is_leader)

/-- The loop of `SelectLeader` over the followers (lines 4887-4917).  Each
follower must be a healthy tablet and answer `FollowOfNoOne` with its offset;
the result is `max_offset` and `leader_endpoint_vec`, or `none` when the task
fails.  The tablet replies that the calls took are consumed. -/
def followOfNoOne (tablets : List (String × TabletInfo)) :
    List String → List (Option Nat) → Nat × List String →
      Option (Nat × List String) × List (Option Nat)
  | [], replies, acc => (some acc, replies)
  | endpoint :: rest, replies, acc =>
    match mapFind endpoint tablets with
    | none => (none, replies)
    | some tablet =>
      if tablet.state_ ≠ TabletState.kTabletHealthy then (none, replies)
      else
        match nextReply replies with
        | (none, replies1) => (none, replies1)
        | (some offset, replies1) =>
          if offset > acc.1 ∨ acc.2 = [] then
            followOfNoOne tablets rest replies1 (offset, [endpoint])
          else if offset = acc.1 then
            followOfNoOne tablets rest replies1 (acc.1, acc.2 ++ [endpoint])
          else
            followOfNoOne tablets rest replies1 acc

/-- The choice of the leader among `leader_endpoint_vec` (lines 4931-4944): the
candidate of the payload, which must be in the vector, or the element at
`rand_.Next() % size`.  The value `none` is a failed task; for an empty vector
without candidate the source computes a remainder by zero, and the model has no
leader either. -/
def chooseLeader (candidate_leader : Option String) (leader_endpoint_vec : List String)
    (rand_next : Nat) : Option String :=
  match candidate_leader with
  | some candidate => if candidate ∈ leader_endpoint_vec then some candidate else none
  | none =>
    if leader_endpoint_vec = [] then none
    else leader_endpoint_vec[rand_next % leader_endpoint_vec.length]?

/-- The guard of `SelectLeader` (lines 4853-4875): under auto-failover the table
must exist and the partition must have no replica that is alive and leader. -/
def selectLeaderGuard (ns : NameServerImpl) (name : String) (pid : Nat) : Bool :=
  if ns.auto_failover_ then
    match mapFind name ns.table_info_ with
    | none => false
    | some table => !leaderIsAlive table pid
  else true

/-- The end of `SelectLeader` (lines 4918-4956): the leader is chosen and written,
with `max_offset` and the term `cur_term + 1`, into the payload of the OP. -/
def writeLeader (ns : NameServerImpl) (task_info : TaskInfo) (rand_next : Nat)
    (cur_term : Nat) (max_offset : Nat) (leader_endpoint_vec : List String) :
    NameServerImpl × TaskInfo :=
  match FindRunningOP ns task_info.op_id with
  | none => (ns, { task_info with status := TaskStatus.kFailed })
  | some op_data =>
    match parseChangeLeaderData op_data.op_info_.data with
    | none => (ns, { task_info with status := TaskStatus.kFailed })
    | some change_leader_data =>
      match chooseLeader change_leader_data.candidate_leader leader_endpoint_vec rand_next with
      | none => (ns, { task_info with status := TaskStatus.kFailed })
      | some leader_endpoint =>
        let value := OPPayload.changeLeaderData
          { change_leader_data with
            leader := leader_endpoint, offset := max_offset, term := u64 (cur_term + 1) }
        ({ ns with task_vec_ := setFrontData task_info.op_id value ns.task_vec_ },
          { task_info with status := TaskStatus.kDone })

/-- The function `NameServerImpl::SelectLeader` (lines 4848-4957).  The argument
`rand_next` is the value that `rand_.Next()` returns when it is called. -/
def SelectLeader (ns : NameServerImpl) (name : String) (tid pid : Nat)
    (follower_endpoint : List String) (task_info : TaskInfo) (rand_next : Nat) :
    NameServerImpl × TaskInfo :=
  if !selectLeaderGuard ns name pid then
    (ns, { task_info with status := TaskStatus.kFailed })
  else
    let r := ns.zk_client_.SetNodeValue zk_term_node_ (ZkValue.num (u64 (ns.term_ + 2)))
    if !r.1 then ({ ns with zk_client_ := r.2 }, { task_info with status := TaskStatus.kFailed })
    else
      let cur_term := u64 (ns.term_ + 1)
      let ns1 := { ns with zk_client_ := r.2, term_ := u64 (ns.term_ + 2) }
      let f := followOfNoOne ns1.tablets_ follower_endpoint ns1.tablet_replies_ (0, [])
      let ns2 := { ns1 with tablet_replies_ := f.2 }
      match f.1 with
      | none => (ns2, { task_info with status := TaskStatus.kFailed })
      | some found => writeLeader ns2 task_info rand_next cur_term found.1 found.2

/-- The number of replicas of a partition that are leader and alive. -/
def aliveLeaderCount (tp : TablePartition) : Nat :=
  tp.partition_meta.countP (fun m => m.is_leader && m.is_alive)

/-! ### CheckTableMeta and FillColumnKey -/

/-- The test `type == "float" || type == "double"`. -/
def isFloatOrDouble (type : String) : Bool := type = "float" || type = "double"

/-- The first loop of `CheckTableMeta` (lines 1194-1200): an index column of type
float or double ends the check (`none`); every other column is inserted into
`column_map`, name to type. -/
def checkColumns : List ColumnDesc → List (String × String) → Option (List (String × String))
  | [], column_map => some column_map
  | column_desc :: rest, column_map =>
    if column_desc.add_ts_idx && isFloatOrDouble column_desc.type then none
    else checkColumns rest (mapInsert column_desc.name column_desc.type column_map)

/-- The body of the second loop of `CheckTableMeta` (lines 1203-1223) for one
`column_key`; `true` when the key passes. -/
def checkColumnKey (column_map : List (String × String)) (column_key : ColumnKey) : Bool :=
  match column_key.col_name with
  | [] =>
    match mapFind column_key.index_name column_map with
    | none => false
    | some type => !isFloatOrDouble type
  | names =>
    names.all (fun column_name =>
      match mapFind column_name column_map with
      | none => true
      | some type => !isFloatOrDouble type)

/-- The function `NameServerImpl::CheckTableMeta` (lines 1191-1236). -/
def CheckTableMeta (table_info : TableInfo) : Int :=
  if table_info.column_desc_v1.length > 0 then
    match checkColumns table_info.column_desc_v1 [] with
    | none => -1
    | some column_map =>
      if table_info.column_key.length > 0 then
        if table_info.column_key.all (checkColumnKey column_map) then 0 else -1
      else 0
  else if table_info.column_desc.length > 0 then
    if table_info.column_desc.any (fun c => c.add_ts_idx && isFloatOrDouble c.type) then -1
    else 0
  else 0

/-- The function `NameServerImpl::FillColumnKey` (lines 1238-1271): the return
value and the table with its column keys filled in. -/
def FillColumnKey (table_info : TableInfo) : Int × TableInfo :=
  if table_info.column_desc_v1.length = 0 then (0, table_info)
  else if table_info.column_key.length > 0 then
    (0, { table_info with
          column_key := table_info.column_key.map (fun column_key =>
            if column_key.col_name.length = 0 then
              { column_key with col_name := [column_key.index_name] }
            else column_key) })
  else
    let ts_vec := (table_info.column_desc_v1.filter (fun c => c.is_ts_col)).map ColumnDesc.name
    let index_vec := (table_info.column_desc_v1.filter (fun c => c.add_ts_idx)).map ColumnDesc.name
    if ts_vec.length > 1 then (-1, table_info)
    else
      (0, { table_info with
            column_key := index_vec.map (fun index =>
              { index_name := index, col_name := [], ts_name := ts_vec.take 1 }) })

/-! ### SetPartitionInfo -/

/-- The map `endpoint_pid_bucked` after lines 1282-1286: every tablet that is
healthy, with the count zero. -/
def healthyBuckets : List (String × TabletInfo) → List (String × Nat) → List (String × Nat)
  | [], bucked => bucked
  | (endpoint, tablet) :: rest, bucked =>
    if tablet.state_ = TabletState.kTabletHealthy then
      healthyBuckets rest (mapInsert endpoint 0 bucked)
    else healthyBuckets rest bucked

/-- The statement `m[endpoint]++` on a map that holds the endpoint. -/
def mapIncr (endpoint : String) (m : List (String × Nat)) : List (String × Nat) :=
  match mapFind endpoint m with
  | some n => mapAssign endpoint (u64 (n + 1)) m
  | none => m

/-- The body of the loop of lines 1304-1314 for one replica of the catalog: a
replica that is alive on a healthy tablet counts for its endpoint in
`endpoint_pid_bucked`, and in `endpoint_leader` when it is a leader. -/
def countReplica (acc : List (String × Nat) × List (String × Nat)) (m : PartitionMeta) :
    List (String × Nat) × List (String × Nat) :=
  if (mapFind m.endpoint acc.1).isNone || !m.is_alive then acc
  else (mapIncr m.endpoint acc.1, if m.is_leader then mapIncr m.endpoint acc.2 else acc.2)

/-- The loops of lines 1301-1316 over the whole catalog. -/
def countReplicas (catalog : List (String × TableInfo))
    (acc : List (String × Nat) × List (String × Nat)) :
    List (String × Nat) × List (String × Nat) :=
  catalog.foldl (fun acc1 entry =>
    entry.2.table_partition.foldl (fun acc2 tp => tp.partition_meta.foldl countReplica acc2)
      acc1) acc

/-- The loop of lines 1321-1328: `pos` is the position of the first endpoint with
the least count. -/
def minPos : List (String × Nat) → Nat → Nat → Nat → Nat
  | [], _, pos, _ => pos
  | (_, count) :: rest, index, pos, min =>
    if count < min then minPos rest (index + 1) index count
    else minPos rest (index + 1) pos min

/-- The loop of lines 1334-1344 for one partition, with `n` replicas still to
place: the replicas, all with `is_leader = false`, and the position of the replica
that `leader_partition_meta` points to.  A new replica has `is_alive = true`, the
default of the field.  `pos` is an `int` in the source and is a natural number
here. -/
def placeReplicas (endpoint_vec : List String) (endpoint_leader : List (String × Nat)) :
    Nat → Nat → Nat → Nat → Option Nat → List PartitionMeta × Option Nat
  | 0, _, _, _, leader => ([], leader)
  | n + 1, idx, pos, min_leader_num, leader =>
    let endpoint := endpoint_vec.getD (pos % endpoint_vec.length) ""
    let count := (mapFind endpoint endpoint_leader).getD 0
    let r :=
      if count < min_leader_num then
        placeReplicas endpoint_vec endpoint_leader n (idx + 1) (pos + 1) (u32 count) (some idx)
      else
        placeReplicas endpoint_vec endpoint_leader n (idx + 1) (pos + 1) min_leader_num leader
    ({ endpoint := endpoint, is_leader := false, is_alive := true } :: r.1, r.2)

/-- The replicas of one partition after lines 1345-1348: the chosen replica is the
leader. -/
def flagLeader (placed : List PartitionMeta × Option Nat) : List PartitionMeta :=
  match placed.2 with
  | some k => modifyNth (fun m => { m with is_leader := true }) k placed.1
  | none => placed.1

/-- The map `endpoint_leader` after lines 1345-1348: the endpoint of the chosen
replica has one leader more. -/
def countLeader (placed : List PartitionMeta × Option Nat)
    (endpoint_leader : List (String × Nat)) : List (String × Nat) :=
  match placed.2 with
  | some k =>
    match placed.1[k]? with
    | some m =>
      match mapFind m.endpoint endpoint_leader with
      | some n => mapAssign m.endpoint (u64 (n + 1)) endpoint_leader
      | none => mapInsert m.endpoint 1 endpoint_leader
    | none => endpoint_leader
  | none => endpoint_leader

/-- The loop of lines 1329-1349, with `n` partitions still to add. -/
def placePartitions (endpoint_vec : List String) (replica_num : Nat) :
    Nat → Nat → Nat → List (String × Nat) → List TablePartition
  | 0, _, _, _ => []
  | n + 1, pid, pos, endpoint_leader =>
    let placed := placeReplicas endpoint_vec endpoint_leader replica_num 0 pos UINT32_MAX none
    { pid := pid, partition_meta := flagLeader placed, term_offset := [] } ::
      placePartitions endpoint_vec replica_num n (pid + 1) (pos + replica_num)
        (countLeader placed endpoint_leader)

/-- The value of `partition_num` in `SetPartitionInfo` (lines 1274-1277). -/
def effectivePartitionNum (ns : NameServerImpl) (table_info : TableInfo) : Nat :=
  match table_info.partition_num with
  | some n => if n > 0 then n else ns.flags.partition_num
  | none => ns.flags.partition_num

/-- The value of `replica_num` in `SetPartitionInfo` (lines 1289-1292). -/
def effectiveReplicaNum (ns : NameServerImpl) (table_info : TableInfo) : Nat :=
  match table_info.replica_num with
  | some n =>
    if n > 0 then n
    else min ns.flags.replica_num (u32 (healthyBuckets ns.tablets_ []).length)
  | none => min ns.flags.replica_num (u32 (healthyBuckets ns.tablets_ []).length)

/-- The function `NameServerImpl::SetPartitionInfo` (lines 1273-1353): the return
value and the table with the partitions added. -/
def SetPartitionInfo (ns : NameServerImpl) (table_info : TableInfo) : Int × TableInfo :=
  let partition_num := effectivePartitionNum ns table_info
  let endpoint_pid_bucked := healthyBuckets ns.tablets_ []
  let replica_num := effectiveReplicaNum ns table_info
  if endpoint_pid_bucked.length < replica_num then (-1, table_info)
  else
    let counted := countReplicas ns.table_info_ (endpoint_pid_bucked, endpoint_pid_bucked)
    let endpoint_vec := counted.1.map Prod.fst
    let pos := minPos counted.1 0 0 UINT64_MAX
    (0, { table_info with
          table_partition := table_info.table_partition ++
            placePartitions endpoint_vec replica_num partition_num 0 pos counted.2 })

/-- The number of replicas that the catalog records, over all tables and
partitions. -/
def replicaCount (catalog : List (String × TableInfo)) : Nat :=
  (catalog.map (fun entry =>
    (entry.2.table_partition.map (fun tp => tp.partition_meta.length)).sum)).sum

/-! ### CreateTable -/

/-- The class `SchemaCodec` (base/schema_codec.h), which is not part of the
sources, by the two results that the name server looks at: `ConvertColumnDesc`
yields the columns or fails, and `Encode` succeeds or not. -/
structure SchemaCodec where
  ConvertColumnDesc : TableInfo → Option (List ColumnDesc)
  ConvertColumnDescAdded : TableInfo → Nat → Option (List ColumnDesc)
  Encode : List ColumnDesc → Bool

/-- The inner loop of `CreateTableOnTablet` (lines 1409-1455) over the replicas of
one partition.  A replica of the wanted role must be on a healthy tablet; for a
leader the pair `(term, 0)` is appended to `term_offset` before the RPC
`CreateTable` is sent.  The result is whether all went well, the tablet replies
left, and the `term_offset` list. -/
def createOnReplicas (tablets : List (String × TabletInfo)) (is_leader : Bool) (term : Nat) :
    List PartitionMeta → List (Option Nat) → List TermPair →
      Bool × List (Option Nat) × List TermPair
  | [], replies, term_offset => (true, replies, term_offset)
  | m :: rest, replies, term_offset =>
    if m.is_leader != is_leader then
      createOnReplicas tablets is_leader term rest replies term_offset
    else
      match mapFind m.endpoint tablets with
      | none => (false, replies, term_offset)
      | some tablet =>
        if tablet.state_ ≠ TabletState.kTabletHealthy then (false, replies, term_offset)
        else
          let term_offset1 :=
            if is_leader then term_offset ++ [{ term := term, offset := 0 }] else term_offset
          match nextReply replies with
          | (none, replies1) => (false, replies1, term_offset1)
          | (some _, replies1) =>
            createOnReplicas tablets is_leader term rest replies1 term_offset1

/-- The outer loop of `CreateTableOnTablet` (lines 1405-1456) over the partitions. -/
def createOnPartitions (tablets : List (String × TabletInfo)) (is_leader : Bool) (term : Nat) :
    List TablePartition → List (Option Nat) → Bool × List (Option Nat) × List TablePartition
  | [], replies => (true, replies, [])
  | tp :: rest, replies =>
    let r := createOnReplicas tablets is_leader term tp.partition_meta replies tp.term_offset
    if r.1 then
      let r2 := createOnPartitions tablets is_leader term rest r.2.1
      (r2.1, r2.2.1, { tp with term_offset := r.2.2 } :: r2.2.2)
    else (false, r.2.1, { tp with term_offset := r.2.2 } :: rest)

/-- The function `NameServerImpl::CreateTableOnTablet` (lines 1355-1458).  The table
is held through a pointer, so the `term_offset` entries it adds stay in the table
also when it fails.  A failure of `codec.Encode` returns `false`, which is the
`int` 0.  The arguments `columns` and `endpoint_map` only shape the requests to
the tablets; of `columns` the result of `Encode` is kept. -/
def CreateTableOnTablet (ns : NameServerImpl) (table_info : TableInfo) (is_leader : Bool)
    (codec_ok : Bool) (term : Nat) : Int × NameServerImpl × TableInfo :=
  if table_info.ttl_type = "kLatestTime" ∨ table_info.ttl_type = "kAbsoluteTime" then
    if !codec_ok then (0, ns, table_info)
    else
      let r := createOnPartitions ns.tablets_ is_leader term table_info.table_partition
        ns.tablet_replies_
      (if r.1 then 0 else -1, { ns with tablet_replies_ := r.2.1 },
        { table_info with table_partition := r.2.2 })
  else (-1, ns, table_info)

/-- The test of lines 2244-2249 on the pids of a request: the greatest pid, the
last element of `pid_set`, is the number of partitions minus one. -/
def pidCheck (table_partition : List TablePartition) : Bool :=
  (table_partition.map TablePartition.pid).foldl max 0 = table_partition.length - 1

/-- Lines 2243-2263 of `CreateTable`: the pids of a request with partitions are
checked (code 307), and a request without partitions gets them from
`SetPartitionInfo` (code 314).  The code 0 stands for no response yet. -/
def placeTable (ns : NameServerImpl) (table_info : TableInfo) : Int × TableInfo :=
  if table_info.table_partition.length > 0 then
    if pidCheck table_info.table_partition then (0, table_info) else (307, table_info)
  else if (SetPartitionInfo ns table_info).1 < 0 then (314, table_info)
  else (0, (SetPartitionInfo ns table_info).2)

/-- Lines 2279-2316 of `CreateTable`: the table is created on the tablets, followers
first, then written to the store and entered into the catalog. -/
def commitTable (ns : NameServerImpl) (codec : SchemaCodec) (table_info : TableInfo)
    (cur_term : Nat) : NameServerImpl × Int :=
  match codec.ConvertColumnDesc table_info with
  | none => (ns, 315)
  | some columns =>
    let followers := CreateTableOnTablet ns table_info false (codec.Encode columns) cur_term
    if followers.1 < 0 then (followers.2.1, 316)
    else
      let leaders := CreateTableOnTablet followers.2.1 followers.2.2 true
        (codec.Encode columns) cur_term
      if leaders.1 < 0 then (leaders.2.1, 316)
      else
        let c := leaders.2.1.zk_client_.CreateNode
          (zk_table_data_path_ ++ "/" ++ leaders.2.2.name) (ZkValue.table leaders.2.2)
        if !c.1 then ({ leaders.2.1 with zk_client_ := c.2 }, 304)
        else
          (NotifyTableChanged
            { leaders.2.1 with
              zk_client_ := c.2,
              table_info_ := mapInsert leaders.2.2.name leaders.2.2 leaders.2.1.table_info_ },
            0)

/-- The function `NameServerImpl::CreateTable` (lines 2201-2318): the state it leaves
and the response code.  The task `DropTableOnTablet` that a failure hands to the
thread pool runs later and is not part of the call. -/
def CreateTable (ns : NameServerImpl) (codec : SchemaCodec) (request : TableInfo) :
    NameServerImpl × Int :=
  if !ns.running_ then (ns, 300)
  else if CheckTableMeta request < 0 then (ns, 307)
  else if (FillColumnKey request).1 < 0 then (ns, 307)
  else if (mapFind (FillColumnKey request).2.name ns.table_info_).isSome then (ns, 101)
  else if ((FillColumnKey request).2.ttl_type = "kAbsoluteTime" ∧
        (FillColumnKey request).2.ttl > ns.flags.absolute_ttl_max)
      ∨ ((FillColumnKey request).2.ttl_type = "kLatestTime" ∧
        (FillColumnKey request).2.ttl > ns.flags.latest_ttl_max) then
    (ns, 307)
  else if (placeTable ns (FillColumnKey request).2).1 ≠ 0 then
    (ns, (placeTable ns (FillColumnKey request).2).1)
  else
    let r := ns.zk_client_.SetNodeValue zk_table_index_node_
      (ZkValue.num (u64 (ns.table_index_ + 1)))
    if !r.1 then ({ ns with zk_client_ := r.2 }, 304)
    else
      let ns1 := { ns with zk_client_ := r.2, table_index_ := u64 (ns.table_index_ + 1) }
      commitTable ns1 codec
        { (placeTable ns (FillColumnKey request).2).2 with tid := u32 ns1.table_index_ }
        ns1.term_

/-! ### AddTableField -/

/-- The loop of `AddTableField` over `tablets_` (lines 2119-2134): the map
`tablet_client_map` of the tablets that hold a replica of the table, or `none`
when one of them is not healthy. -/
def replicaTablets (endpoint_vec : List String) :
    List (String × TabletInfo) → List (String × Unit) → Option (List (String × Unit))
  | [], tablet_client_map => some tablet_client_map
  | (endpoint, tablet) :: rest, tablet_client_map =>
    if endpoint ∉ endpoint_vec then replicaTablets endpoint_vec rest tablet_client_map
    else if tablet.state_ ≠ TabletState.kTabletHealthy then none
    else replicaTablets endpoint_vec rest (mapInsert endpoint () tablet_client_map)

/-- The loop of lines 2163-2173: the RPC `UpdateTableMetaForAddField` to each
tablet in turn, until one fails. -/
def updateTableMetaForAddField :
    List (String × Unit) → List (Option Nat) → Bool × List (Option Nat)
  | [], replies => (true, replies)
  | _ :: rest, replies =>
    match nextReply replies with
    | (none, replies1) => (false, replies1)
    | (some _, replies1) => updateTableMetaForAddField rest replies1

/-- The test of lines 2084-2111: the name of the new column is the name of a
column of the table, or of a column added before. -/
def fieldNameRepeated (table_info : TableInfo) (col_name : String) : Bool :=
  (if table_info.column_desc_v1.length > 0 then
      table_info.column_desc_v1.any (fun column => column.name = col_name)
    else table_info.column_desc.any (fun column => column.name = col_name))
  || table_info.added_column_desc.any (fun column => column.name = col_name)

/-- The function `NameServerImpl::AddTableField` (lines 2053-2199): the state it
leaves and the response code, `none` on the two paths that return without
setting one. -/
def AddTableField (ns : NameServerImpl) (codec : SchemaCodec) (name : String)
    (column_desc : ColumnDesc) : NameServerImpl × Option Int :=
  if !ns.running_ then (ns, some 300)
  else
    match mapFind name ns.table_info_ with
    | none => (ns, some 100)
    | some table_info =>
      if table_info.added_column_desc.length = MAX_ADD_TABLE_FIELD_COUNT then (ns, some 324)
      else if fieldNameRepeated table_info column_desc.name then (ns, some 323)
      else
        let endpoint_vec :=
          (table_info.table_partition.map (fun tp =>
            tp.partition_meta.map PartitionMeta.endpoint)).flatten
        match replicaTablets endpoint_vec ns.tablets_ [] with
        | none => (ns, some 303)
        | some tablet_client_map =>
          let converted :=
            if table_info.added_column_desc.length > 0 then
              codec.ConvertColumnDescAdded table_info table_info.added_column_desc.length
            else codec.ConvertColumnDesc table_info
          match converted with
          | none => (ns, none)
          | some columns =>
            let column : ColumnDesc :=
              { name := column_desc.name, type := column_desc.type, add_ts_idx := false,
                is_ts_col := false }
            if !codec.Encode (columns ++ [column]) then (ns, none)
            else
              let u := updateTableMetaForAddField tablet_client_map ns.tablet_replies_
              let ns1 := { ns with tablet_replies_ := u.2 }
              if !u.1 then (ns1, some 325)
              else
                let table_info_zk :=
                  { table_info with
                    added_column_desc := table_info.added_column_desc ++ [column_desc] }
                let r := ns1.zk_client_.SetNodeValue (zk_table_data_path_ ++ "/" ++ table_info_zk.name)
                  (ZkValue.table table_info_zk)
                if !r.1 then ({ ns1 with zk_client_ := r.2 }, some 304)
                else
                  (NotifyTableChanged
                    { ns1 with zk_client_ := r.2,
                               table_info_ := mapAssign name table_info_zk ns1.table_info_ },
                    some 0)

/-! ### CreateOPData and Recover -/

/-- The function `NameServerImpl::CreateOPData` (lines 2840-2857): the return value,
the state, and the new OP when there is one. -/
def CreateOPData (ns : NameServerImpl) (op_type : OPType) (value : OPPayload)
    (name : String) (pid : Nat) (parent_id : Nat) : Int × NameServerImpl × Option OPData :=
  let r := ns.zk_client_.SetNodeValue zk_op_index_node_ (ZkValue.num (u64 (ns.op_index_ + 1)))
  if !r.1 then (-1, { ns with zk_client_ := r.2 }, none)
  else
    let ns1 := { ns with zk_client_ := r.2, op_index_ := u64 (ns.op_index_ + 1) }
    (0, ns1,
      some { op_info_ :=
               { op_id := ns1.op_index_, op_type := op_type, task_index := 0, data := value,
                 task_status := TaskStatus.kInited, name := name, pid := pid,
                 parent_id := parent_id, vec_idx := none },
             task_list_ := [] })

/-- The outcome of reading a counter in `Recover`. -/
inductive CounterRead where
  | threw
  | failed (zk : ZkClient)
  | value (n : Nat) (zk : ZkClient)

/-- The pattern of lines 86-97 (and 98-109, 110-121) of `Recover` for one counter
node: a node that cannot be read is created with the value 1, and `Recover`
fails when it cannot be created; a node that is read gives its number.
`std::stoull` throws on a value that is no number, or no 64-bit number. -/
def recoverCounter (zk : ZkClient) (node : String) : CounterRead :=
  match zk.GetNodeValue node with
  | (none, zk1) =>
    let c := zk1.CreateNode node (ZkValue.num 1)
    if !c.1 then CounterRead.failed c.2 else CounterRead.value 1 c.2
  | (some (ZkValue.num n), zk1) =>
    if n ≤ UINT64_MAX then CounterRead.value n zk1 else CounterRead.threw
  | (some _, _) => CounterRead.threw

/-- The pattern of lines 122-128 and 151-157: a node that cannot be read is
created; the result is `false` when it cannot be created. -/
def ensureNode (zk : ZkClient) (node : String) (value : ZkValue) : Bool × ZkClient :=
  match zk.GetNodeValue node with
  | (none, zk1) => zk1.CreateNode node value
  | (some _, zk1) => (true, zk1)

/-- Lines 129-141 of `Recover`: the auto-failover node is created from the flag of
the process when it cannot be read, and gives the flag when it is read.  The
result is `none` when the node cannot be created. -/
def recoverAutoFailover (zk : ZkClient) (auto_failover : Bool) : Option Bool × ZkClient :=
  match zk.GetNodeValue zk_auto_failover_node_ with
  | (none, zk1) =>
    let c := zk1.CreateNode zk_auto_failover_node_
      (ZkValue.text (if auto_failover then "true" else "false"))
    (if c.1 then some auto_failover else none, c.2)
  | (some value, zk1) => (some (decide (value = ZkValue.text "true")), zk1)

/-- Lines 142-150 of `Recover`: the zone term.  A node that cannot be read is
created, and `std::stoull` then throws on the empty `value`; so it does on a
node that holds no number. -/
def recoverZoneTerm (zk : ZkClient) : CounterRead :=
  match zk.GetNodeValue (zk_zone_data_path_ ++ "/term") with
  | (none, zk1) =>
    let c := zk1.CreateNode (zk_zone_data_path_ ++ "/term") (ZkValue.num 1)
    if !c.1 then CounterRead.failed c.2 else CounterRead.threw
  | (some (ZkValue.num n), zk1) =>
    if n ≤ UINT64_MAX then CounterRead.value n zk1 else CounterRead.threw
  | (some _, _) => CounterRead.threw

/-- What the parts of `Recover` that are not embedded produce.  `UpdateTablets`
assigns `tablets_` (from the endpoints that `GetNodes` returned, `none` when
that call fails); `RecoverTableInfo` and `UpdateTableStatus` assign
`table_info_` (`none`: `RecoverTableInfo` fails); `RecoverOPTask`,
`RecoverOfflineTablet` and `UpdateTaskStatus` assign `task_vec_` (`none`:
`RecoverOPTask` fails).  None of them writes to the store or to a counter. -/
structure RecoverEnv where
  tablets : Option (List (String × TabletInfo))
  table_info : Option (List (String × TableInfo))
  task_vec : Option (List (List OPData))

/-- The sequencing of the steps of `Recover`: a step that throws (`none`) or
returns `false` ends the function. -/
def andThen (r : Option (Bool × NameServerImpl))
    (f : NameServerImpl → Option (Bool × NameServerImpl)) : Option (Bool × NameServerImpl) :=
  match r with
  | none => none
  | some (false, ns) => some (false, ns)
  | some (true, ns) => f ns

/-- Lines 86-97 of `Recover`: the table index. -/
def recoverTableIndex (ns : NameServerImpl) : Option (Bool × NameServerImpl) :=
  match recoverCounter ns.zk_client_ zk_table_index_node_ with
  | CounterRead.threw => none
  | CounterRead.failed zk => some (false, { ns with zk_client_ := zk })
  | CounterRead.value n zk => some (true, { ns with zk_client_ := zk, table_index_ := n })

/-- Lines 98-109 of `Recover`: the term. -/
def recoverTerm (ns : NameServerImpl) : Option (Bool × NameServerImpl) :=
  match recoverCounter ns.zk_client_ zk_term_node_ with
  | CounterRead.threw => none
  | CounterRead.failed zk => some (false, { ns with zk_client_ := zk })
  | CounterRead.value n zk => some (true, { ns with zk_client_ := zk, term_ := n })

/-- Lines 110-121 of `Recover`: the OP index. -/
def recoverOpIndex (ns : NameServerImpl) : Option (Bool × NameServerImpl) :=
  match recoverCounter ns.zk_client_ zk_op_index_node_ with
  | CounterRead.threw => none
  | CounterRead.failed zk => some (false, { ns with zk_client_ := zk })
  | CounterRead.value n zk => some (true, { ns with zk_client_ := zk, op_index_ := n })

/-- Lines 122-128 of `Recover`: the notify node. -/
def recoverNotify (ns : NameServerImpl) : Option (Bool × NameServerImpl) :=
  let n := ensureNode ns.zk_client_ zk_table_changed_notify_node_ (ZkValue.num 1)
  some (n.1, { ns with zk_client_ := n.2 })

/-- Lines 129-141 of `Recover`: the auto-failover flag. -/
def recoverAutoFailoverFlag (ns : NameServerImpl) : Option (Bool × NameServerImpl) :=
  match recoverAutoFailover ns.zk_client_ ns.auto_failover_ with
  | (none, zk) => some (false, { ns with zk_client_ := zk })
  | (some auto_failover, zk) =>
    some (true, { ns with zk_client_ := zk, auto_failover_ := auto_failover })

/-- Lines 142-164 of `Recover`: the nodes of the zone.  The members `zone_term_`,
`zone_name_` and `follower_` are not part of the state; their nodes are read
and created as in the source. -/
def recoverZone (ns : NameServerImpl) : Option (Bool × NameServerImpl) :=
  match recoverZoneTerm ns.zk_client_ with
  | CounterRead.threw => none
  | CounterRead.failed zk => some (false, { ns with zk_client_ := zk })
  | CounterRead.value _ zk =>
    let z := ensureNode zk (zk_zone_data_path_ ++ "/name") (ZkValue.text "")
    if !z.1 then some (false, { ns with zk_client_ := z.2 })
    else
      some (true,
        { ns with zk_client_ := (z.2.GetNodeValue (zk_zone_data_path_ ++ "/follower")).2 })

/-- Lines 165-180 of `Recover`: the catalog and the OPs, as `env` gives them.
`RecoverTableInfo` and `RecoverOPTask` clear what they rebuild before they can
fail. -/
def recoverCatalog (env : RecoverEnv) (ns : NameServerImpl) : Option (Bool × NameServerImpl) :=
  match env.table_info with
  | none => some (false, { ns with table_info_ := [] })
  | some table_info =>
    match env.task_vec with
    | none =>
      some (false,
        { ns with table_info_ := table_info, task_vec_ := ns.task_vec_.map (fun _ => []) })
    | some task_vec => some (true, { ns with table_info_ := table_info, task_vec_ := task_vec })

/-- The function `NameServerImpl::Recover` (lines 76-181).  The result is `none` when
`std::stoull` throws, and otherwise the return value and the state. -/
def Recover (ns : NameServerImpl) (env : RecoverEnv) : Option (Bool × NameServerImpl) :=
  match env.tablets with
  | none => some (false, ns)
  | some tablets =>
    andThen (andThen (andThen (andThen (andThen (andThen
      (recoverTableIndex { ns with tablets_ := tablets })
      recoverTerm) recoverOpIndex) recoverNotify) recoverAutoFailoverFlag) recoverZone)
      (recoverCatalog env)

/-- The function `NameServerImpl::OnLocked` (lines 3262-3273): `Recover`, whose
failure is only logged, and then `running_` is set.  The result is `none` when
`Recover` throws. -/
def OnLocked (ns : NameServerImpl) (env : RecoverEnv) : Option NameServerImpl :=
  (Recover ns env).map (fun r => { r.2 with running_ := true })

/-- How a counter (the member `get`, kept in the store node `node`) can differ
between two states: not at all; or the node was missing, has been created, and
both hold 1; or the node was there and the member now holds its number. -/
abbrev counterStep (node : String) (get : NameServerImpl → Nat) (ns ns' : NameServerImpl) :
    Prop :=
  (get ns' = get ns ∧
    mapFind node ns'.zk_client_.nodes = mapFind node ns.zk_client_.nodes) ∨
  (mapFind node ns.zk_client_.nodes = none ∧ get ns' = 1 ∧
    mapFind node ns'.zk_client_.nodes = some (ZkValue.num 1)) ∨
  (mapFind node ns.zk_client_.nodes = some (ZkValue.num (get ns')) ∧
    mapFind node ns'.zk_client_.nodes = some (ZkValue.num (get ns')))

/-- A sequence of calls of `AddTableField`, each with the table name and the new
column, and the state they leave. -/
def addTableFields (codec : SchemaCodec) :
    NameServerImpl → List (String × ColumnDesc) → NameServerImpl
  | ns, [] => ns
  | ns, (name, column_desc) :: rest =>
    addTableFields codec (AddTableField ns codec name column_desc).1 rest

/-- An event of the life of the name server that bears on OP ids: a call of
`CreateOPData`, or a run of `Recover`. -/
inductive OpEvent where
  | create (op_type : OPType) (value : OPPayload) (name : String) (pid : Nat)
      (parent_id : Nat)
  | recover (env : RecoverEnv)

/-- The op_ids that the calls of `CreateOPData` hand out over a sequence of events,
in order.  A `Recover` that throws ends the process and the sequence. -/
def opIds : NameServerImpl → List OpEvent → List Nat
  | _, [] => []
  | ns, OpEvent.create op_type value name pid parent_id :: rest =>
    match CreateOPData ns op_type value name pid parent_id with
    | (_, ns1, some op_data) => op_data.op_info_.op_id :: opIds ns1 rest
    | (_, ns1, none) => opIds ns1 rest
  | ns, OpEvent.recover env :: rest =>
    match Recover ns env with
    | none => []
    | some (_, ns1) => opIds ns1 rest

/-- The invariant on one partition: the terms of its `term_offset` list increase
strictly, and none exceeds `term`. -/
abbrev termOffsetOk (term : Nat) (tp : TablePartition) : Prop :=
  (tp.term_offset.map TermPair.term).Pairwise (fun a b => a < b) ∧
    ∀ x ∈ tp.term_offset, x.term ≤ term

/-- The invariant on the catalog: every partition of every table satisfies
`termOffsetOk` for the term counter `term_`. -/
abbrev termOffsetInv (ns : NameServerImpl) : Prop :=
  ∀ e ∈ ns.table_info_, ∀ tp ∈ e.2.table_partition, termOffsetOk ns.term_ tp

/-! ### The OP engine -/

/-- The member `zk_op_data_path_`, below `zk_root_path`. -/
def zk_op_data_path_ : String := "/op/op_data"

/-- The constant `INVALID_PARENT_ID` (name_server_impl.h): the greatest `uint64_t`. -/
def INVALID_PARENT_ID : Nat := UINT64_MAX

/-- The store node of an OP: `zk_op_data_path_ + "/" + std::to_string(op_id)`. -/
def opNode (op_id : Nat) : String := zk_op_data_path_ ++ "/" ++ toString op_id

/-- One loop `for (const auto& op_list : task_vec_)` whose body works on one queue
and on some other state `σ`, the store for instance: the queues in turn. -/
def forQueues {σ : Type} (body : σ → List OPData → σ × List OPData) :
    σ → List (List OPData) → σ × List (List OPData)
  | s, [] => (s, [])
  | s, op_list :: rest =>
    ((forQueues body (body s op_list).1 rest).1,
      (body s op_list).2 :: (forQueues body (body s op_list).1 rest).2)

/-- The function `NameServerImpl::DeleteDoneOP` (lines 2899-2920) as a loop over
`done_op_list_`: while the list is longer than `max_op_num` its front is removed,
after the store node of a Failed front was deleted; a deletion that fails ends
the loop. -/
def deleteDoneOP (max_op_num : Nat) : ZkClient → List OPData → ZkClient × List OPData
  | zk, [] => (zk, [])
  | zk, op_data :: rest =>
    if (op_data :: rest).length > max_op_num then
      if op_data.op_info_.task_status = TaskStatus.kFailed then
        if (zk.DeleteNode (opNode op_data.op_info_.op_id)).1 then
          deleteDoneOP max_op_num (zk.DeleteNode (opNode op_data.op_info_.op_id)).2 rest
        else ((zk.DeleteNode (opNode op_data.op_info_.op_id)).2, op_data :: rest)
      else deleteDoneOP max_op_num zk rest
    else (zk, op_data :: rest)

/-- The function `NameServerImpl::DeleteDoneOP` (lines 2899-2920).  The flag
`max_op_num` is the value it has as a `uint32_t`. -/
def DeleteDoneOP (ns : NameServerImpl) : NameServerImpl :=
  { ns with
    zk_client_ := (deleteDoneOP ns.flags.max_op_num ns.zk_client_ ns.done_op_list_).1
    done_op_list_ := (deleteDoneOP ns.flags.max_op_num ns.zk_client_ ns.done_op_list_).2 }

/-- The index of the queue that `AddOPData` selects (lines 2860-2863). -/
def selectQueue (ns : NameServerImpl) (op_data : OPData) (concurrency : Nat) : Nat :=
  if concurrency < ns.task_vec_.length ∧ concurrency > 0 then
    u32 (op_data.op_info_.pid % concurrency)
  else u32 (op_data.op_info_.pid % ns.task_vec_.length)

/-- The search for the parent in a queue and the insertion right after it (lines
2876-2884); `none` when no OP of the queue has the id `parent_id`. -/
def insertAfterParent (parent_id : Nat) (op_data : OPData) : List OPData → Option (List OPData)
  | [] => none
  | front :: rest =>
    if front.op_info_.op_id = parent_id then some (front :: op_data :: rest)
    else (insertAfterParent parent_id op_data rest).map (fun l => front :: l)

/-- The OP with the write `op_data->op_info_.set_vec_idx(idx)` (line 2864). -/
def withVecIdx (op_data : OPData) (idx : Nat) : OPData :=
  { op_data with op_info_ := { op_data.op_info_ with vec_idx := some idx } }

/-- Lines 2874-2893 of `AddOPData`: the OP enters the queue `idx`, right after its
parent, or at the end when it has none; `none` when the parent is not in the
queue. -/
def enqueueOP (op_data : OPData) (idx : Nat) (task_vec : List (List OPData)) :
    Option (List (List OPData)) :=
  if op_data.op_info_.parent_id ≠ INVALID_PARENT_ID then
    (insertAfterParent op_data.op_info_.parent_id op_data (task_vec.getD idx [])).map
      (fun op_list => modifyNth (fun _ => op_list) idx task_vec)
  else some (modifyNth (fun op_list => op_list ++ [op_data]) idx task_vec)

/-- The function `NameServerImpl::AddOPData` (lines 2859-2897): the return value and
the state.  The OP that enters the queue is the argument with `vec_idx` set. -/
def AddOPData (ns : NameServerImpl) (op_data : OPData) (concurrency : Nat) :
    Int × NameServerImpl :=
  let op_data1 := withVecIdx op_data (selectQueue ns op_data concurrency)
  let c := ns.zk_client_.CreateNode (opNode op_data1.op_info_.op_id) (ZkValue.op op_data1.op_info_)
  if !c.1 then (-1, { ns with zk_client_ := c.2 })
  else
    match enqueueOP op_data1 (selectQueue ns op_data concurrency) ns.task_vec_ with
    | some task_vec => (0, DeleteDoneOP { ns with zk_client_ := c.2, task_vec_ := task_vec })
    | none => (-1, { ns with zk_client_ := c.2 })

/-- The writes of `CancelOP` to the OP it found (lines 1888-1891): the OP and all
its tasks get the status Canceled. -/
def cancel (op_data : OPData) : OPData :=
  { op_info_ := { op_data.op_info_ with task_status := TaskStatus.kCanceled }
    task_list_ := op_data.task_list_.map (fun task =>
      { task with task_info_ := { task.task_info_ with status := TaskStatus.kCanceled } }) }

/-- The inner loop of `CancelOP` (lines 1882-1887) with the writes: the first OP
of the queue with the id is canceled. -/
def cancelFirst (op_id : Nat) : List OPData → Option (List OPData)
  | [] => none
  | op_data :: rest =>
    if op_data.op_info_.op_id = op_id then some (cancel op_data :: rest)
    else (cancelFirst op_id rest).map (fun l => op_data :: l)

/-- The outer loop of `CancelOP` (lines 1878-1897): the first queue that holds an OP
with the id. -/
def cancelInQueues (op_id : Nat) : List (List OPData) → Option (List (List OPData))
  | [] => none
  | op_list :: rest =>
    match cancelFirst op_id op_list with
    | some l => some (l :: rest)
    | none => (cancelInQueues op_id rest).map (fun r => op_list :: r)

/-- The function `NameServerImpl::CancelOP` (lines 1860-1904): the state and the
response code. -/
def CancelOP (ns : NameServerImpl) (op_id : Nat) : NameServerImpl × Int :=
  if !ns.running_ then (ns, 300)
  else if ns.auto_failover_ then (ns, 301)
  else
    match cancelInQueues op_id ns.task_vec_ with
    | some task_vec => ({ ns with task_vec_ := task_vec }, 0)
    | none => (ns, 312)


/-- The body of the scan of `ProcessTask` for one queue (lines 975-1015), on the
store and the thread pool.  An OP that is Inited becomes Doing once its header is
written; the closure of a head task that is Inited is handed to the thread pool
and the task becomes Doing.  The wait on the condition variable for a task that
is Doing for long changes nothing. -/
def processQueue (now : Nat) (s : ZkClient × List (Nat × Task)) :
    List OPData → (ZkClient × List (Nat × Task)) × List OPData
  | [] => (s, [])
  | op_data :: rest =>
    match op_data.task_list_ with
    | [] => (s, op_data :: rest)
    | task :: tasks =>
      if op_data.op_info_.task_status = TaskStatus.kFailed
          ∨ op_data.op_info_.task_status = TaskStatus.kCanceled then (s, op_data :: rest)
      else
        let started : OPInfo :=
          { op_data.op_info_ with start_time := now, task_status := TaskStatus.kDoing }
        let w := s.1.SetNodeValue (opNode op_data.op_info_.op_id) (ZkValue.op started)
        if op_data.op_info_.task_status = TaskStatus.kInited ∧ w.1 = false then
          ((w.2, s.2),
            { op_data with op_info_ := { started with task_status := TaskStatus.kInited } } :: rest)
        else
          let op_info := if op_data.op_info_.task_status = TaskStatus.kInited then started
            else op_data.op_info_
          let zk := if op_data.op_info_.task_status = TaskStatus.kInited then w.2 else s.1
          if task.task_info_.status = TaskStatus.kInited then
            ((zk, s.2 ++ [(op_data.op_info_.op_id, task)]),
              { op_info_ := op_info,
                task_list_ :=
                  { task with task_info_ := { task.task_info_ with status := TaskStatus.kDoing } }
                    :: tasks } :: rest)
          else ((zk, s.2), { op_info_ := op_info, task_list_ := task :: tasks } :: rest)

/-- One round of the loop of `NameServerImpl::ProcessTask` (lines 954-1026) up to
the calls of `UpdateZKTaskStatus` and `DeleteTask`: the scan of the queues.  The
loop ends when the name server is not running. -/
def processTasks (ns : NameServerImpl) (now : Nat) : NameServerImpl :=
  if !ns.running_ then ns
  else
    let r := forQueues (processQueue now) (ns.zk_client_, ns.task_thread_pool_) ns.task_vec_
    { ns with zk_client_ := r.1.1, task_thread_pool_ := r.1.2, task_vec_ := r.2 }

/-- The body of the loop of `UpdateZKTaskStatus` for one queue (lines 826-853). -/
def updateZKQueue (zk : ZkClient) : List OPData → ZkClient × List OPData
  | [] => (zk, [])
  | op_data :: rest =>
    match op_data.task_list_ with
    | [] => (zk, op_data :: rest)
    | task :: tasks =>
      if task.task_info_.status = TaskStatus.kDone then
        let op_info : OPInfo :=
          { op_data.op_info_ with task_index := u32 (op_data.op_info_.task_index + 1) }
        let w := zk.SetNodeValue (opNode op_data.op_info_.op_id) (ZkValue.op op_info)
        if w.1 then (w.2, { op_info_ := op_info, task_list_ := tasks } :: rest)
        else (w.2, op_data :: rest)
      else (zk, op_data :: rest)

/-- The function `NameServerImpl::UpdateZKTaskStatus` (lines 824-856). -/
def UpdateZKTaskStatus (ns : NameServerImpl) : NameServerImpl :=
  { ns with
    zk_client_ := (forQueues updateZKQueue ns.zk_client_ ns.task_vec_).1
    task_vec_ := (forQueues updateZKQueue ns.zk_client_ ns.task_vec_).2 }

/-- The first loop of `DeleteTask` (lines 863-877): the ids of the front OPs that
have no task left, or a Failed head task, or the status Canceled. -/
def doneTaskVec : List (List OPData) → List Nat
  | [] => []
  | [] :: rest => doneTaskVec rest
  | (op_data :: _) :: rest =>
    match op_data.task_list_ with
    | [] => op_data.op_info_.op_id :: doneTaskVec rest
    | task :: _ =>
      if task.task_info_.status = TaskStatus.kFailed
          ∨ op_data.op_info_.task_status = TaskStatus.kCanceled then
        op_data.op_info_.op_id :: doneTaskVec rest
      else doneTaskVec rest

/-- The RPC `DeleteOPTask` to every healthy tablet (lines 881-896): whether one of
them failed, and the schedule of replies that is left. -/
def deleteOPTask : List (String × TabletInfo) → List (Option Nat) → Bool × List (Option Nat)
  | [], replies => (false, replies)
  | (_, tablet) :: rest, replies =>
    if tablet.state_ ≠ TabletState.kTabletHealthy then deleteOPTask rest replies
    else
      ((nextReply replies).1.isNone || (deleteOPTask rest (nextReply replies).2).1,
        (deleteOPTask rest (nextReply replies).2).2)

/-- Whether a queue is not empty and its front OP has the id. -/
def frontHasId (op_id : Nat) : List OPData → Bool
  | [] => false
  | op_data :: _ => op_data.op_info_.op_id = op_id

/-- The writes of lines 920-921 of `DeleteTask` to an OP whose head task is Failed:
the OP is Failed and has an end time. -/
def markFailed (now : Nat) (op_data : OPData) : OPData :=
  { op_data with
    op_info_ := { op_data.op_info_ with task_status := TaskStatus.kFailed, end_time := now } }

/-- The writes of lines 937-941 of `DeleteTask` to an OP whose store node was
deleted: the OP has an end time, and an OP that was Doing is Done and has no task
left. -/
def markEnded (now : Nat) (op_data : OPData) : OPData :=
  if op_data.op_info_.task_status = TaskStatus.kDoing then
    { op_info_ := { op_data.op_info_ with end_time := now, task_status := TaskStatus.kDone }
      task_list_ := [] }
  else { op_data with op_info_ := { op_data.op_info_ with end_time := now } }

/-- The body of the last loop of `DeleteTask` for one id of `done_task_vec` (lines
899-947).  An OP with a Failed head task becomes Failed, its header is written
(a failure is only logged), and it moves to `done_op_list_`.  Any other OP moves
there once its store node is deleted, as Done when it was Doing. -/
def deleteOne (now : Nat) (ns : NameServerImpl) (op_id : Nat) : NameServerImpl :=
  match firstWith (frontHasId op_id) ns.task_vec_ with
  | none => ns
  | some (_, []) => ns
  | some (index, op_data :: _) =>
    if (op_data.task_list_.head?.map (fun task => task.task_info_.status))
        = some TaskStatus.kFailed then
      { ns with
        zk_client_ :=
          (ns.zk_client_.SetNodeValue (opNode op_id)
            (ZkValue.op (markFailed now op_data).op_info_)).2
        done_op_list_ := ns.done_op_list_ ++ [markFailed now op_data]
        task_vec_ := modifyNth List.tail index ns.task_vec_ }
    else if (ns.zk_client_.DeleteNode (opNode op_id)).1 then
      { ns with
        zk_client_ := (ns.zk_client_.DeleteNode (opNode op_id)).2
        done_op_list_ := ns.done_op_list_ ++ [markEnded now op_data]
        task_vec_ := modifyNth List.tail index ns.task_vec_ }
    else { ns with zk_client_ := (ns.zk_client_.DeleteNode (opNode op_id)).2 }

/-- The function `NameServerImpl::DeleteTask` (lines 858-952). -/
def DeleteTask (ns : NameServerImpl) (now : Nat) : NameServerImpl :=
  if (doneTaskVec ns.task_vec_).isEmpty then ns
  else if (deleteOPTask ns.tablets_ ns.tablet_replies_).1 then
    { ns with tablet_replies_ := (deleteOPTask ns.tablets_ ns.tablet_replies_).2 }
  else
    (doneTaskVec ns.task_vec_).foldl (deleteOne now)
      { ns with tablet_replies_ := (deleteOPTask ns.tablets_ ns.tablet_replies_).2 }


/-- A write `task->task_info_->set_status(status)` to the head task of the front
OP of a queue. -/
def setHeadStatus (status : TaskStatus) : List OPData → List OPData
  | [] => []
  | op_data :: rest =>
    match op_data.task_list_ with
    | [] => op_data :: rest
    | task :: tasks =>
      { op_data with
        task_list_ := { task with task_info_ := { task.task_info_ with status := status } }
          :: tasks } :: rest

/-- The head task of the front OP of a queue, with the id of the OP, when that
task is Doing: the task that `UpdateTaskStatus` may write to. -/
def doingHead : List OPData → Option (Nat × Task)
  | [] => none
  | op_data :: _ =>
    match op_data.task_list_ with
    | [] => none
    | task :: _ =>
      if task.task_info_.status = TaskStatus.kDoing then some (op_data.op_info_.op_id, task)
      else none

/-- The body of the loop of lines 739-760 for one queue: the head task that is
Doing on the tablet `endpoint`, which is offline, becomes Failed. -/
def failOffline (endpoint : String) (op_list : List OPData) : List OPData :=
  match doingHead op_list with
  | none => op_list
  | some (_, task) =>
    if task.task_info_.endpoint = some endpoint then setHeadStatus TaskStatus.kFailed op_list
    else op_list

/-- The first loop of `UpdateTaskStatus` (lines 731-765): the tasks on the tablets
that are offline for `tablet_heartbeat_timeout` or longer. -/
def failOfflineTasks (cur_time timeout : Nat) :
    List (String × TabletInfo) → List (List OPData) → List (List OPData)
  | [], task_vec => task_vec
  | (endpoint, tablet) :: rest, task_vec =>
    if tablet.state_ ≠ TabletState.kTabletHealthy then
      if cur_time < u64 (tablet.ctime_ + timeout) then
        failOfflineTasks cur_time timeout rest task_vec
      else failOfflineTasks cur_time timeout rest (task_vec.map (failOffline endpoint))
    else failOfflineTasks cur_time timeout rest task_vec

/-- The body of the loop of lines 776-813 for one queue and the answer `response`
of the tablet `endpoint`: the head task that is Doing takes the status that the
tablet reports for it, other than Inited; a task the tablet does not report
becomes Failed when it runs on that tablet and was sent (or on recovery). -/
def mirrorStatus (is_recover_op : Bool) (endpoint : String) (response : List TaskInfo)
    (op_list : List OPData) : List OPData :=
  match doingHead op_list with
  | none => op_list
  | some (op_id, task) =>
    match response.find? (fun r => r.op_id = op_id ∧ r.task_type = task.task_info_.task_type) with
    | some r =>
      if r.status ≠ TaskStatus.kInited ∧ task.task_info_.status ≠ r.status then
        setHeadStatus r.status op_list
      else op_list
    | none =>
      if (is_recover_op || task.task_info_.is_rpc_send)
          ∧ task.task_info_.endpoint = some endpoint then
        setHeadStatus TaskStatus.kFailed op_list
      else op_list

/-- The second loop of `UpdateTaskStatus` (lines 768-816) over the healthy tablets.
`GetTaskStatus` is the answer of each tablet to the RPC of that name, `none`
when the call fails. -/
def mirrorTablets (is_recover_op : Bool) (GetTaskStatus : String → Option (List TaskInfo)) :
    List (String × TabletInfo) → List (List OPData) → List (List OPData)
  | [], task_vec => task_vec
  | (endpoint, tablet) :: rest, task_vec =>
    if tablet.state_ ≠ TabletState.kTabletHealthy then
      mirrorTablets is_recover_op GetTaskStatus rest task_vec
    else
      match GetTaskStatus endpoint with
      | none => mirrorTablets is_recover_op GetTaskStatus rest task_vec
      | some response =>
        mirrorTablets is_recover_op GetTaskStatus rest
          (task_vec.map (mirrorStatus is_recover_op endpoint response))

/-- The function `NameServerImpl::UpdateTaskStatus` (lines 727-822), at the time
`cur_time` in milliseconds.  No task closure runs during the call, so
`task_rpc_version_` does not change and the loop over the tablets is not left
early. -/
def UpdateTaskStatus (ns : NameServerImpl) (is_recover_op : Bool) (cur_time : Nat)
    (GetTaskStatus : String → Option (List TaskInfo)) : NameServerImpl :=
  { ns with
    task_vec_ :=
      mirrorTablets is_recover_op GetTaskStatus ns.tablets_
        (failOfflineTasks cur_time ns.flags.tablet_heartbeat_timeout ns.tablets_ ns.task_vec_) }

/-- The function `NameServerImpl::SkipDoneTask` (lines 428-475): the return value
and the OP. -/
def SkipDoneTask (op_data : OPData) : Bool × OPData :=
  if op_data.op_info_.task_status = TaskStatus.kInited then (true, op_data)
  else if op_data.task_list_.isEmpty then (false, op_data)
  else if op_data.op_info_.task_index > op_data.task_list_.length - 1 then (false, op_data)
  else
    match op_data.task_list_.drop op_data.op_info_.task_index with
    | [] => (true, { op_data with task_list_ := [] })
    | task :: tasks =>
      let status :=
        if op_data.op_info_.task_status = TaskStatus.kFailed then TaskStatus.kFailed
        else
          match task.task_info_.task_type with
          | TaskType.kSelectLeader => TaskStatus.kInited
          | TaskType.kUpdateLeaderInfo => TaskStatus.kInited
          | TaskType.kUpdatePartitionStatus => TaskStatus.kInited
          | TaskType.kUpdateTableInfo => TaskStatus.kInited
          | TaskType.kRecoverTable => TaskStatus.kInited
          | TaskType.kAddTableInfo => TaskStatus.kInited
          | TaskType.kCheckBinlogSyncProgress => TaskStatus.kInited
          | _ => TaskStatus.kDoing
      (true,
        { op_data with
          task_list_ := { task with task_info_ := { task.task_info_ with status := status } }
            :: tasks })


/-! ### Recovery of the catalog and of the OPs -/

/-- The function `NameServerImpl::RecoverOfflineTablet` (lines 183-192).  The checks
it schedules on the thread pool run later. -/
def RecoverOfflineTablet (ns : NameServerImpl) : NameServerImpl :=
  { ns with
    offline_endpoint_map_ :=
      ns.tablets_.foldl (fun m tablet =>
        if tablet.2.state_ ≠ TabletState.kTabletHealthy then mapInsert tablet.1 tablet.2.ctime_ m
        else m) [] }

/-- The loop of `RecoverTableInfo` over the names of the tables (lines 206-221). -/
def recoverTables : List String → ZkClient → List (String × TableInfo) →
    ZkClient × List (String × TableInfo)
  | [], zk, catalog => (zk, catalog)
  | table_name :: rest, zk, catalog =>
    match zk.GetNodeValue (zk_table_data_path_ ++ "/" ++ table_name) with
    | (some (ZkValue.table table_info), zk1) =>
      recoverTables rest zk1 (mapInsert table_name table_info catalog)
    | (_, zk1) => recoverTables rest zk1 catalog

/-- The function `NameServerImpl::RecoverTableInfo` (lines 194-223): the return
value and the state. -/
def RecoverTableInfo (ns : NameServerImpl) : Bool × NameServerImpl :=
  match ns.zk_client_.GetChildren zk_table_data_path_ with
  | (none, zk) =>
    ((zk.IsExistNode zk_table_data_path_).1 > 0,
      { ns with table_info_ := [], zk_client_ := (zk.IsExistNode zk_table_data_path_).2 })
  | (some table_vec, zk) =>
    (true,
      { ns with
        table_info_ := (recoverTables table_vec zk []).2
        zk_client_ := (recoverTables table_vec zk []).1 })

/-- The task builders `Create...OPTask` and `Create...Task` of the OP types other
than ChangeLeaderOP, taken as a parameter: each reads the tablets, the catalog
and the header of the OP, and gives the tasks of the OP, or `none` for the
return value -1. -/
structure OPTaskBuilders where
  build : OPType → List (String × TabletInfo) → List (String × TableInfo) → OPInfo →
    Option (List Task)

/-- The functions `CreateSelectLeaderTask`, `CreateChangeLeaderTask` and
`CreateUpdateLeaderInfoTask` (lines 4798-4833), without the closure. -/
def createLeaderTask (op_index : Nat) (op_type : OPType) (task_type : TaskType) : Task :=
  { endpoint_ := ""
    task_info_ :=
      { op_id := op_index, op_type := op_type, task_type := task_type,
        status := TaskStatus.kInited } }

/-- The function `NameServerImpl::CreateChangeLeaderOPTask` (lines 3219-3260): the
tasks of the OP, `none` for the return value -1. -/
def CreateChangeLeaderOPTask (op_info : OPInfo) : Option (List Task) :=
  match parseChangeLeaderData op_info.data with
  | none => none
  | some _ =>
    some [createLeaderTask op_info.op_id OPType.kChangeLeaderOP TaskType.kSelectLeader,
      createLeaderTask op_info.op_id OPType.kChangeLeaderOP TaskType.kChangeLeader,
      createLeaderTask op_info.op_id OPType.kChangeLeaderOP TaskType.kUpdateLeaderInfo]

/-- The `switch` of `RecoverOPTask` over the type of the OP (lines 255-361). -/
def createOPTask (builders : OPTaskBuilders) (ns : NameServerImpl) (op_info : OPInfo) :
    Option (List Task) :=
  match op_info.op_type with
  | OPType.kChangeLeaderOP => CreateChangeLeaderOPTask op_info
  | op_type => builders.build op_type ns.tablets_ ns.table_info_ op_info

/-- The order of the `sort` of `RecoverOPTask` (lines 385-393): by `parent_id`, then
by `op_id`. -/
def opBefore (a b : OPData) : Bool :=
  if a.op_info_.parent_id < b.op_info_.parent_id then true
  else if a.op_info_.parent_id > b.op_info_.parent_id then false
  else a.op_info_.op_id < b.op_info_.op_id

/-- The call `std::list::sort` with that order, which keeps the order of OPs that
compare equal. -/
def sortQueue (op_list : List OPData) : List OPData :=
  op_list.insertionSort (fun a b => opBefore b a = false)

/-- The body of the loop of `RecoverOPTask` for one OP (lines 240-377), on the
queues and `done_op_list_`. -/
def recoverOP (builders : OPTaskBuilders) (ns : NameServerImpl) (value : Option ZkValue)
    (acc : List (List OPData) × List OPData) : List (List OPData) × List OPData :=
  match value with
  | some (ZkValue.op op_info) =>
    if op_info.task_status = TaskStatus.kDone then acc
    else
      match createOPTask builders ns op_info with
      | none => acc
      | some task_list =>
        let skipped := SkipDoneTask { op_info_ := op_info, task_list_ := task_list }
        if !skipped.1 then acc
        else if skipped.2.op_info_.task_status = TaskStatus.kFailed
            ∨ skipped.2.op_info_.task_status = TaskStatus.kCanceled then
          (acc.1, acc.2 ++ [skipped.2])
        else
          let idx :=
            match op_info.vec_idx with
            | some vec_idx =>
              if vec_idx < acc.1.length then vec_idx else u32 (op_info.pid % acc.1.length)
            | none => u32 (op_info.pid % acc.1.length)
          (modifyNth (fun op_list => op_list ++ [skipped.2]) idx acc.1, acc.2)
  | _ => acc

/-- The loop of `RecoverOPTask` over the ids of the OPs (lines 239-378). -/
def recoverOPs (builders : OPTaskBuilders) (ns : NameServerImpl) :
    List String → ZkClient → List (List OPData) × List OPData →
      ZkClient × List (List OPData) × List OPData
  | [], zk, acc => (zk, acc)
  | op_id :: rest, zk, acc =>
    recoverOPs builders ns rest (zk.GetNodeValue (zk_op_data_path_ ++ "/" ++ op_id)).2
      (recoverOP builders ns (zk.GetNodeValue (zk_op_data_path_ ++ "/" ++ op_id)).1 acc)

/-- The function `NameServerImpl::RecoverOPTask` (lines 225-396): the return value
and the state. -/
def RecoverOPTask (builders : OPTaskBuilders) (ns : NameServerImpl) : Bool × NameServerImpl :=
  match ns.zk_client_.GetChildren zk_op_data_path_ with
  | (none, zk) =>
    ((zk.IsExistNode zk_op_data_path_).1 > 0,
      { ns with
        task_vec_ := ns.task_vec_.map (fun _ => [])
        zk_client_ := (zk.IsExistNode zk_op_data_path_).2 })
  | (some op_vec, zk) =>
    let r := recoverOPs builders ns op_vec zk (ns.task_vec_.map (fun _ => []), ns.done_op_list_)
    (true,
      { ns with
        task_vec_ := r.2.1.map sortQueue
        done_op_list_ := r.2.2
        zk_client_ := r.1 })

/-- Lines 166-177 of `Recover`, without the call of `UpdateTableStatus` between
them: `RecoverTableInfo`, then `RecoverOPTask`, then `RecoverOfflineTablet`; a
failure of one of the first two ends the recovery. -/
def recoverStructures (builders : OPTaskBuilders) (ns : NameServerImpl) :
    Bool × NameServerImpl :=
  if !(RecoverTableInfo ns).1 then (false, (RecoverTableInfo ns).2)
  else if !(RecoverOPTask builders (RecoverTableInfo ns).2).1 then
    (false, (RecoverOPTask builders (RecoverTableInfo ns).2).2)
  else (true, RecoverOfflineTablet (RecoverOPTask builders (RecoverTableInfo ns).2).2)

/-! ### The passes of the engine -/

/-- A write of a task closure to the `TaskInfo` it holds (`WrapTaskFun`, lines
4161-4169, and the `set_status` calls of the task functions): the task at
position `task_pos` of the OP at position `op_pos` of the queue `index` gets the
status and the flag `is_rpc_send`. -/
def writeTaskStatus (ns : NameServerImpl) (index op_pos task_pos : Nat) (status : TaskStatus)
    (is_rpc_send : Bool) : NameServerImpl :=
  { ns with
    task_vec_ :=
      modifyNth (modifyNth (fun op_data : OPData =>
        { op_data with
          task_list_ :=
            modifyNth (fun task : Task =>
              { task with
                task_info_ :=
                  { task.task_info_ with status := status, is_rpc_send := is_rpc_send } })
              task_pos op_data.task_list_ }) op_pos) index ns.task_vec_ }

/-- One pass of the engine over the queues: a round of the scan of `ProcessTask`,
`UpdateZKTaskStatus`, `DeleteTask`, or `UpdateTaskStatus`. -/
inductive EnginePass where
  | scan (now : Nat)
  | zkStatus
  | reap (now : Nat)
  | poll (is_recover_op : Bool) (cur_time : Nat)
      (GetTaskStatus : String → Option (List TaskInfo))

/-- The state after a pass. -/
def enginePass (ns : NameServerImpl) : EnginePass → NameServerImpl
  | EnginePass.scan now => processTasks ns now
  | EnginePass.zkStatus => UpdateZKTaskStatus ns
  | EnginePass.reap now => DeleteTask ns now
  | EnginePass.poll is_recover_op cur_time GetTaskStatus =>
    UpdateTaskStatus ns is_recover_op cur_time GetTaskStatus

/-- The state after a sequence of passes. -/
def runEngine (ns : NameServerImpl) (passes : List EnginePass) : NameServerImpl :=
  passes.foldl enginePass ns

/-- An OP that `CancelOP` has written to: the OP and all its tasks are Canceled. -/
abbrev isCanceled (op_data : OPData) : Prop :=
  op_data.op_info_.task_status = TaskStatus.kCanceled ∧
    ∀ task ∈ op_data.task_list_, task.task_info_.status = TaskStatus.kCanceled

/-- What holds of a canceled OP `op_id` from pass to pass: in the queues it is
Canceled with all its tasks, no closure of it is in the thread pool, in
`done_op_list_` it is Canceled, and it is in a queue or in `done_op_list_`. -/
abbrev canceledInv (op_id : Nat) (ns : NameServerImpl) : Prop :=
  (∀ q ∈ ns.task_vec_, ∀ op_data ∈ q, op_data.op_info_.op_id = op_id → isCanceled op_data) ∧
  (∀ x ∈ ns.task_thread_pool_, x.1 ≠ op_id) ∧
  (∀ op_data ∈ ns.done_op_list_, op_data.op_info_.op_id = op_id →
    op_data.op_info_.task_status = TaskStatus.kCanceled) ∧
  ((∃ q ∈ ns.task_vec_, ∃ op_data ∈ q, op_data.op_info_.op_id = op_id) ∨
    ∃ op_data ∈ ns.done_op_list_, op_data.op_info_.op_id = op_id)

/-- What identifies a task, whatever its status: endpoint, OP and type. -/
abbrev taskIds (task_list : List Task) : List (String × Nat × OPType × TaskType) :=
  task_list.map (fun task =>
    (task.endpoint_, task.task_info_.op_id, task.task_info_.op_type, task.task_info_.task_type))

/-- The same OP with the same tasks, whatever the statuses. -/
abbrev sameOP (op_data op_data' : OPData) : Prop :=
  op_data'.op_info_.op_id = op_data.op_info_.op_id ∧
    taskIds op_data'.task_list_ = taskIds op_data.task_list_

/-- How a queue changes in one step: OPs leave from its front; or it holds the
same OPs with the same tasks; or the head task of its front OP, which is Done,
is taken off. -/
abbrev queueStep (q q' : List OPData) : Prop :=
  List.IsSuffix q' q ∨ List.Forall₂ sameOP q q' ∨
    ∃ (op_data : OPData) (rest : List OPData) (task : Task) (tasks : List Task)
        (op_info : OPInfo),
      q = op_data :: rest ∧ op_data.task_list_ = task :: tasks ∧
      task.task_info_.status = TaskStatus.kDone ∧ op_info.op_id = op_data.op_info_.op_id ∧
      q' = { op_info_ := op_info, task_list_ := tasks } :: rest

/-- The closure `x` is that of the head task of the front OP of a queue. -/
abbrev isHeadTask (ns : NameServerImpl) (x : Nat × Task) : Prop :=
  ∃ q ∈ ns.task_vec_, ∃ (op_data : OPData) (rest : List OPData) (tasks : List Task),
    q = op_data :: rest ∧ op_data.task_list_ = x.2 :: tasks ∧ x.1 = op_data.op_info_.op_id ∧
      x.2.task_info_.status = TaskStatus.kInited

/-- The front OP of a queue after `UpdateZKTaskStatus` took its head task off. -/
def advanced (op_data : OPData) : OPData :=
  { op_info_ := { op_data.op_info_ with task_index := u32 (op_data.op_info_.task_index + 1) }
    task_list_ := op_data.task_list_.tail }

/-- The relation of the queues before and after a pass of `DeleteTask`: each queue
lost OPs from its front and nothing else changed. -/
abbrev frontsRemoved (task_vec task_vec' : List (List OPData)) : Prop :=
  List.Forall₂ (fun q q' => List.IsSuffix q' q) task_vec task_vec'

/-- What a pass of `DeleteTask` keeps true from one id to the next: the OPs it
added to `done_op_list_` with the status Done have no store node. -/
abbrev doneNodesGone (ns ns1 : NameServerImpl) : Prop :=
  ∃ moved, ns1.done_op_list_ = ns.done_op_list_ ++ moved ∧
    ∀ op_data ∈ moved, op_data.op_info_.task_status = TaskStatus.kDone →
      mapFind (opNode op_data.op_info_.op_id) ns1.zk_client_.nodes = none

/-- The task types that `SkipDoneTask` sets to Inited, to be run again. -/
def rerunTaskTypes : List TaskType :=
  [TaskType.kSelectLeader, TaskType.kUpdateLeaderInfo, TaskType.kUpdatePartitionStatus,
    TaskType.kUpdateTableInfo, TaskType.kRecoverTable, TaskType.kAddTableInfo,
    TaskType.kCheckBinlogSyncProgress]

/-- Something that happens to the queues: a pass of the engine, or a write of a
task closure to its task. -/
inductive EngineEvent where
  | pass (p : EnginePass)
  | write (index op_pos task_pos : Nat) (status : TaskStatus) (is_rpc_send : Bool)

/-- The state after an event. -/
def engineStep (ns : NameServerImpl) : EngineEvent → NameServerImpl
  | EngineEvent.pass p => enginePass ns p
  | EngineEvent.write index op_pos task_pos status is_rpc_send =>
    writeTaskStatus ns index op_pos task_pos status is_rpc_send

/-- The state after a sequence of events. -/
def runEvents (ns : NameServerImpl) (events : List EngineEvent) : NameServerImpl :=
  events.foldl engineStep ns

/-- The queue holds the same OPs with the same tasks. -/
abbrev sameQueue (q q' : List OPData) : Prop := List.Forall₂ sameOP q q'

/-- Every queue holds the same OPs with the same tasks. -/
abbrev sameQueues (task_vec task_vec' : List (List OPData)) : Prop :=
  List.Forall₂ sameQueue task_vec task_vec'

/-- The closures that a step hands to the thread pool are those of head tasks of
front OPs, in the state before the step. -/
abbrev submitsHeads (ns ns' : NameServerImpl) : Prop :=
  ∃ new, ns'.task_thread_pool_ = ns.task_thread_pool_ ++ new ∧ ∀ x ∈ new, isHeadTask ns x

/-- The number of OPs in the queues with the id. -/
def countId (op_id : Nat) (task_vec : List (List OPData)) : Nat :=
  (task_vec.map (fun q => q.countP (fun op_data => op_data.op_info_.op_id = op_id))).sum

/-- The OPs of a queue with the id are Canceled with all their tasks. -/
abbrev canceledIn (op_id : Nat) (q : List OPData) : Prop :=
  ∀ op_data ∈ q, op_data.op_info_.op_id = op_id → isCanceled op_data

/-- The ids of the OPs of a queue, in order. -/
abbrev queueIds (q : List OPData) : List Nat := q.map (fun op_data => op_data.op_info_.op_id)

/-- The queues hold the same ids and the OPs with the id are still Canceled. -/
abbrev keptCanceled (op_id : Nat) (task_vec task_vec' : List (List OPData)) : Prop :=
  (∀ q ∈ task_vec', canceledIn op_id q) ∧ task_vec'.map queueIds = task_vec.map queueIds

/-! ### The catalog tasks of the OPs -/

/-- The end of a catalog task: the table, which the task has written through the
pointer that the catalog holds, is serialised and set as the value of its store
node.  A failed call leaves the task Failed; after a successful one the task is
Done, and `notify` tells whether `NotifyTableChanged` is called. -/
def storeTable (ns : NameServerImpl) (name : String) (table : TableInfo) (task_info : TaskInfo)
    (notify : Bool) : NameServerImpl × TaskInfo :=
  if !(ns.zk_client_.SetNodeValue (zk_table_data_path_ ++ "/" ++ name)
      (ZkValue.table table)).1 then
    ({ ns with
        table_info_ := mapAssign name table ns.table_info_
        zk_client_ := (ns.zk_client_.SetNodeValue (zk_table_data_path_ ++ "/" ++ name)
          (ZkValue.table table)).2 },
      { task_info with status := TaskStatus.kFailed })
  else if notify then
    (NotifyTableChanged
      { ns with
        table_info_ := mapAssign name table ns.table_info_
        zk_client_ := (ns.zk_client_.SetNodeValue (zk_table_data_path_ ++ "/" ++ name)
          (ZkValue.table table)).2 },
      { task_info with status := TaskStatus.kDone })
  else
    ({ ns with
        table_info_ := mapAssign name table ns.table_info_
        zk_client_ := (ns.zk_client_.SetNodeValue (zk_table_data_path_ ++ "/" ++ name)
          (ZkValue.table table)).2 },
      { task_info with status := TaskStatus.kDone })

/-- The writes of lines 4329-4332: `add_partition_meta()` with the endpoint, not
leader and not alive. -/
def addPartitionMeta (endpoint : String) (table_partition : TablePartition) : TablePartition :=
  { table_partition with
    partition_meta :=
      table_partition.partition_meta ++
        [{ endpoint := endpoint, is_leader := false, is_alive := false }] }

/-- The function `NameServerImpl::AddTableInfo` (lines 4310-4350).  It does not read
`running_`.  A table without a partition of this pid is stored as it is. -/
def AddTableInfo (ns : NameServerImpl) (name endpoint : String) (pid : Nat)
    (task_info : TaskInfo) : NameServerImpl × TaskInfo :=
  match mapFind name ns.table_info_ with
  | none => (ns, { task_info with status := TaskStatus.kFailed })
  | some table =>
    match firstWith (fun tp => decide (tp.pid = pid)) table.table_partition with
    | none => storeTable ns name table task_info false
    | some (idx, table_partition) =>
      if table_partition.partition_meta.any (fun m => decide (m.endpoint = endpoint)) then
        (ns, { task_info with status := TaskStatus.kFailed })
      else storeTable ns name (withPartition table idx (addPartitionMeta endpoint)) task_info false

/-- The scan of `UpdateTableInfo` (lines 4486-4495) over the replicas of the
partition, from position `meta_idx` on: `src_endpoint_index` is the last replica
at `src_endpoint`, `des_endpoint_index` the last other replica at `des_endpoint`.
The value `none` stands for `-1`. -/
def scanEndpointIndex (src_endpoint des_endpoint : String) :
    List PartitionMeta → Nat → Option Nat × Option Nat → Option Nat × Option Nat
  | [], _, acc => acc
  | meta :: rest, meta_idx, acc =>
    if meta.endpoint = src_endpoint then
      scanEndpointIndex src_endpoint des_endpoint rest (meta_idx + 1) (some meta_idx, acc.2)
    else if meta.endpoint = des_endpoint then
      scanEndpointIndex src_endpoint des_endpoint rest (meta_idx + 1) (acc.1, some meta_idx)
    else
      scanEndpointIndex src_endpoint des_endpoint rest (meta_idx + 1) acc

/-- The writes of lines 4506-4522: without a replica at `des_endpoint` the replica
at `src_endpoint_index` gets that endpoint, alive and not leader; with one, that
one becomes alive and not leader and `DeleteSubrange(src_endpoint_index, 1)`
removes the source. -/
def moveReplica (src_endpoint_index : Nat) (des_endpoint_index : Option Nat)
    (des_endpoint : String) (table_partition : TablePartition) : TablePartition :=
  match des_endpoint_index with
  | none =>
    { table_partition with
      partition_meta :=
        modifyNth (fun m => { m with endpoint := des_endpoint, is_alive := true, is_leader := false })
          src_endpoint_index table_partition.partition_meta }
  | some des_index =>
    { table_partition with
      partition_meta :=
        (modifyNth (fun m => { m with is_alive := true, is_leader := false }) des_index
          table_partition.partition_meta).eraseIdx src_endpoint_index }

/-- The function `NameServerImpl::UpdateTableInfo` (lines 4473-4540).  It does not
read `running_`.  A table without a partition of this pid is stored as it is. -/
def UpdateTableInfo (ns : NameServerImpl) (src_endpoint name : String) (pid : Nat)
    (des_endpoint : String) (task_info : TaskInfo) : NameServerImpl × TaskInfo :=
  match mapFind name ns.table_info_ with
  | none => (ns, { task_info with status := TaskStatus.kFailed })
  | some table =>
    match firstWith (fun tp => decide (tp.pid = pid)) table.table_partition with
    | none => storeTable ns name table task_info true
    | some (idx, table_partition) =>
      match (scanEndpointIndex src_endpoint des_endpoint table_partition.partition_meta 0
          (none, none)).1 with
      | none => (ns, { task_info with status := TaskStatus.kFailed })
      | some src_endpoint_index =>
        storeTable ns name
          (withPartition table idx
            (moveReplica src_endpoint_index
              (scanEndpointIndex src_endpoint des_endpoint table_partition.partition_meta 0
                (none, none)).2 des_endpoint))
          task_info true

/-- The function `NameServerImpl::DelTableInfo` (lines 4566-4620).  A name server
that is not running, and a table without a partition of this pid, leave the task
as it is. -/
def DelTableInfo (ns : NameServerImpl) (name endpoint : String) (pid : Nat)
    (task_info : TaskInfo) : NameServerImpl × TaskInfo :=
  if !ns.running_ then (ns, task_info)
  else
    match mapFind name ns.table_info_ with
    | none => (ns, { task_info with status := TaskStatus.kFailed })
    | some table =>
      match firstWith (fun tp => decide (tp.pid = pid)) table.table_partition with
      | none => (ns, task_info)
      | some (idx, table_partition) =>
        match firstWith (fun m => decide (m.endpoint = endpoint))
            table_partition.partition_meta with
        | none => (ns, { task_info with status := TaskStatus.kFailed })
        | some (meta_idx, _) =>
          storeTable ns name
            (withPartition table idx (fun tp =>
              { tp with partition_meta := tp.partition_meta.eraseIdx meta_idx }))
            task_info true

/-- The function `NameServerImpl::UpdatePartitionStatus` (lines 4622-4670).  A name
server that is not running leaves the task as it is. -/
def UpdatePartitionStatus (ns : NameServerImpl) (name endpoint : String) (pid : Nat)
    (is_leader is_alive : Bool) (task_info : TaskInfo) : NameServerImpl × TaskInfo :=
  if !ns.running_ then (ns, task_info)
  else
    match mapFind name ns.table_info_ with
    | none => (ns, { task_info with status := TaskStatus.kFailed })
    | some table =>
      match firstWith (fun tp => decide (tp.pid = pid)) table.table_partition with
      | none => (ns, { task_info with status := TaskStatus.kFailed })
      | some (idx, table_partition) =>
        match firstWith (fun m => decide (m.endpoint = endpoint))
            table_partition.partition_meta with
        | none => (ns, { task_info with status := TaskStatus.kFailed })
        | some (meta_idx, _) =>
          storeTable ns name
            (withPartition table idx (fun tp =>
              { tp with
                partition_meta :=
                  modifyNth (fun m => { m with is_leader := is_leader, is_alive := is_alive })
                    meta_idx tp.partition_meta }))
            task_info true

/-! ### UpdateTableAliveStatus and ShowTable -/

/-- The message `UpdateTableAliveRequest`. -/
structure UpdateTableAliveRequest where
  name : String
  endpoint : String
  pid : Option Nat
  is_alive : Bool
  deriving DecidableEq, Repr

/-- The body of the loop of `UpdateTableAliveStatus` for one partition (lines
4709-4725): the partition after it, and whether it was updated. -/
def setAliveStatus (request : UpdateTableAliveRequest) (table_partition : TablePartition) :
    TablePartition × Bool :=
  if request.pid.isSome ∧ request.pid ≠ some table_partition.pid then (table_partition, false)
  else
    match firstWith (fun m => decide (m.endpoint = request.endpoint))
        table_partition.partition_meta with
    | none => (table_partition, false)
    | some (meta_idx, _) =>
      ({ table_partition with
         partition_meta :=
           modifyNth (fun m => { m with is_alive := request.is_alive }) meta_idx
             table_partition.partition_meta }, true)

/-- The function `NameServerImpl::UpdateTableAliveStatus` (lines 4672-4747): the
state it leaves and the response code.  The table is copied, the copy is
changed and stored, and only then placed in the catalog. -/
def UpdateTableAliveStatus (ns : NameServerImpl) (request : UpdateTableAliveRequest) :
    NameServerImpl × Int :=
  if !ns.running_ then (ns, 300)
  else if ns.auto_failover_ then (ns, 301)
  else if (mapFind request.endpoint ns.tablets_).isNone then (ns, 302)
  else
    match mapFind request.name ns.table_info_ with
    | none => (ns, 100)
    | some table =>
      if (table.table_partition.map (setAliveStatus request)).any (fun r => r.2) then
        if (ns.zk_client_.SetNodeValue (zk_table_data_path_ ++ "/" ++ request.name)
            (ZkValue.table
              { table with
                table_partition :=
                  (table.table_partition.map (setAliveStatus request)).map (fun r => r.1) })).1 then
          ({ NotifyTableChanged
               { ns with
                 zk_client_ :=
                   (ns.zk_client_.SetNodeValue (zk_table_data_path_ ++ "/" ++ request.name)
                     (ZkValue.table
                       { table with
                         table_partition :=
                           (table.table_partition.map (setAliveStatus request)).map
                             (fun r => r.1) })).2 } with
             table_info_ :=
               mapAssign request.name
                 { table with
                   table_partition :=
                     (table.table_partition.map (setAliveStatus request)).map (fun r => r.1) }
                 ns.table_info_ }, 0)
        else
          ({ ns with
             zk_client_ :=
               (ns.zk_client_.SetNodeValue (zk_table_data_path_ ++ "/" ++ request.name)
                 (ZkValue.table
                   { table with
                     table_partition :=
                       (table.table_partition.map (setAliveStatus request)).map
                         (fun r => r.1) })).2 }, 304)
      else (ns, 321)

/-- The function `NameServerImpl::ShowTable` (lines 1963-1984): the response code
and the tables of the response; `name` is the name of the request when it has
one. -/
def ShowTable (ns : NameServerImpl) (name : Option String) : Int × List TableInfo :=
  if !ns.running_ || ns.follower_ then (300, [])
  else
    (0, (ns.table_info_.filter (fun kv => !(name.isSome && name != some kv.1))).map
      (fun kv => kv.2))

/-! ### ChangeLeader -/

/-- The loop of `CreateChangeLeaderOP` over the replicas (lines 3153-3173): the
endpoints of the replicas of the first partition with this pid that are alive,
not leader, and on a tablet that is Healthy. -/
def healthyFollowers (ns : NameServerImpl) (table : TableInfo) (pid : Nat) : List String :=
  match firstWith (fun tp => decide (tp.pid = pid)) table.table_partition with
  | none => []
  | some (_, table_partition) =>
    (table_partition.partition_meta.filter (fun m =>
      m.is_alive && !m.is_leader &&
        match mapFind m.endpoint ns.tablets_ with
        | some tablet => decide (tablet.state_ = TabletState.kTabletHealthy)
        | none => false)).map (fun m => m.endpoint)

/-- Lines 3175-3178 of `CreateChangeLeaderOP`: with `need_restore` a candidate
that is not among the followers is added to them. -/
def withCandidate (follower_endpoint : List String) (candidate_leader : String)
    (need_restore : Bool) : List String :=
  if need_restore ∧ candidate_leader ≠ "" ∧ candidate_leader ∉ follower_endpoint then
    follower_endpoint ++ [candidate_leader]
  else follower_endpoint

/-- Lines 3200-3216 of `CreateChangeLeaderOP`, with the payload built: `CreateOPData`
with the default `parent_id` of its declaration, `CreateChangeLeaderOPTask`,
`AddOPData`. -/
def addChangeLeaderOP (ns : NameServerImpl) (name : String) (pid : Nat)
    (change_leader_data : ChangeLeaderData) (concurrency : Nat) : Int × NameServerImpl :=
  match CreateOPData ns OPType.kChangeLeaderOP (OPPayload.changeLeaderData change_leader_data)
      name pid INVALID_PARENT_ID with
  | (_, ns1, none) => (-1, ns1)
  | (_, ns1, some op_data) =>
    match CreateChangeLeaderOPTask op_data.op_info_ with
    | none => (-1, ns1)
    | some task_list =>
      if (AddOPData ns1 { op_data with task_list_ := task_list } concurrency).1 < 0 then
        (-1, (AddOPData ns1 { op_data with task_list_ := task_list } concurrency).2)
      else (0, (AddOPData ns1 { op_data with task_list_ := task_list } concurrency).2)

/-- The function `NameServerImpl::CreateChangeLeaderOP` (lines 3143-3217): the
return value and the state.  Without a follower it returns 0 and creates no
OP. -/
def CreateChangeLeaderOP (ns : NameServerImpl) (name : String) (pid : Nat)
    (candidate_leader : String) (need_restore : Bool) (concurrency : Nat) :
    Int × NameServerImpl :=
  match mapFind name ns.table_info_ with
  | none => (-1, ns)
  | some table =>
    if withCandidate (healthyFollowers ns table pid) candidate_leader need_restore = [] then
      (0, ns)
    else if candidate_leader ≠ "" ∧
        candidate_leader ∉ withCandidate (healthyFollowers ns table pid) candidate_leader
          need_restore then
      (-1, ns)
    else
      addChangeLeaderOP ns name pid
        { name := name, tid := table.tid, pid := pid,
          follower := withCandidate (healthyFollowers ns table pid) candidate_leader need_restore,
          candidate_leader := if candidate_leader ≠ "" then some candidate_leader else none,
          leader := "", offset := 0, term := 0 }
        concurrency

/-- The message `ChangeLeaderRequest`. -/
structure ChangeLeaderRequest where
  name : String
  pid : Nat
  candidate_leader : Option String
  deriving DecidableEq, Repr

/-- The loop of the RPC `ChangeLeader` over the replicas of the partition (lines
1608-1619): the alive replicas that are not leader; `none` when a replica is
alive and leader and the request names no candidate. -/
def aliveFollowers (has_candidate_leader : Bool) : List PartitionMeta → Option (List String)
  | [] => some []
  | meta :: rest =>
    if meta.is_alive then
      if !meta.is_leader then
        (aliveFollowers has_candidate_leader rest).map (fun l => meta.endpoint :: l)
      else if !has_candidate_leader then none
      else aliveFollowers has_candidate_leader rest
    else aliveFollowers has_candidate_leader rest

/-- Lines 1623-1640 of the RPC `ChangeLeader`: the followers must not be empty;
the candidate is that of the request unless it is "auto"; `CreateChangeLeaderOP`
is called with the default `concurrency` of its declaration, the flag
`name_server_task_concurrency`. -/
def changeLeaderOf (ns : NameServerImpl) (request : ChangeLeaderRequest)
    (follower_endpoint : List String) : NameServerImpl × Int :=
  if follower_endpoint = [] then (ns, 310)
  else if (CreateChangeLeaderOP ns request.name request.pid
      (match request.candidate_leader with
        | some candidate => if candidate ≠ "auto" then candidate else ""
        | none => "")
      false ns.flags.name_server_task_concurrency).1 < 0 then
    ((CreateChangeLeaderOP ns request.name request.pid
      (match request.candidate_leader with
        | some candidate => if candidate ≠ "auto" then candidate else ""
        | none => "")
      false ns.flags.name_server_task_concurrency).2, 305)
  else
    ((CreateChangeLeaderOP ns request.name request.pid
      (match request.candidate_leader with
        | some candidate => if candidate ≠ "auto" then candidate else ""
        | none => "")
      false ns.flags.name_server_task_concurrency).2, 0)

/-- The function `NameServerImpl::ChangeLeader`, the RPC (lines 1563-1641): the
state it leaves and the response code.  It does not read `follower_`. -/
def ChangeLeader (ns : NameServerImpl) (request : ChangeLeaderRequest) : NameServerImpl × Int :=
  if !ns.running_ then (ns, 300)
  else if ns.auto_failover_ then (ns, 301)
  else
    match mapFind request.name ns.table_info_ with
    | none => (ns, 100)
    | some table =>
      if request.pid > u32 (u32 table.table_partition.length + 4294967295) then (ns, 308)
      else
        match firstWith (fun tp => decide (tp.pid = request.pid)) table.table_partition with
        | none => changeLeaderOf ns request []
        | some (_, table_partition) =>
          if table_partition.partition_meta.length = 1 then (ns, 134)
          else
            match aliveFollowers request.candidate_leader.isSome
                table_partition.partition_meta with
            | none => (ns, 309)
            | some follower_endpoint => changeLeaderOf ns request follower_endpoint

/-! ### OfflineEndpointInternal -/

/-- A call of one of the functions that create an OP, with its arguments. -/
inductive OPRequest where
  | updatePartitionStatusOP (name : String) (pid : Nat) (endpoint : String)
      (is_leader is_alive : Bool) (parent_id : Nat) (concurrency : Nat)
  | changeLeaderOP (name : String) (pid : Nat) (candidate_leader : String)
      (need_restore : Bool) (concurrency : Nat)
  | offlineReplicaOP (name : String) (pid : Nat) (endpoint : String) (concurrency : Nat)
  | reLoadTableOP (name : String) (pid : Nat) (endpoint : String) (parent_id : Nat)
      (concurrency : Nat)
  | reAddReplicaOP (name : String) (pid : Nat) (endpoint : String) (offset_delta : Nat)
      (parent_id : Nat) (concurrency : Nat)
  | reAddReplicaWithDropOP (name : String) (pid : Nat) (endpoint : String) (offset_delta : Nat)
      (parent_id : Nat) (concurrency : Nat)
  | reAddReplicaNoSendOP (name : String) (pid : Nat) (endpoint : String) (offset_delta : Nat)
      (parent_id : Nat) (concurrency : Nat)
  | reAddReplicaSimplifyOP (name : String) (pid : Nat) (endpoint : String) (offset_delta : Nat)
      (parent_id : Nat) (concurrency : Nat)
  deriving DecidableEq, Repr

/-- The scan of `OfflineEndpointInternal` (lines 1700-1709) over the replicas of a
partition, from position `meta_idx` on: `alive_leader` is the endpoint of the last
replica that is leader and alive, `endpoint_index` the last replica at
`endpoint`.  The value `none` stands for `-1`. -/
def scanAliveLeader (endpoint : String) :
    List PartitionMeta → Nat → String × Option Nat → String × Option Nat
  | [], _, acc => acc
  | meta :: rest, meta_idx, acc =>
    scanAliveLeader endpoint rest (meta_idx + 1)
      (if meta.is_leader && meta.is_alive then meta.endpoint else acc.1,
        if meta.endpoint = endpoint then some meta_idx else acc.2)

/-- Lines 1713-1725 of `OfflineEndpointInternal`: the call for a partition that
has the replica `partition_meta` at `endpoint`, with `alive_leader` from the
scan. -/
def offlineReplica (name endpoint : String) (concurrency pid : Nat) (alive_leader : String)
    (partition_meta : PartitionMeta) : Option OPRequest :=
  if partition_meta.is_leader ∨ alive_leader = "" then
    if alive_leader = "" ∨ alive_leader = endpoint then
      some (OPRequest.changeLeaderOP name pid "" false concurrency)
    else none
  else some (OPRequest.offlineReplicaOP name pid endpoint concurrency)

/-- The body of the loop of `OfflineEndpointInternal` for one partition (lines
1691-1725): the call that it makes, if any. -/
def offlinePartition (name endpoint : String) (concurrency : Nat)
    (table_partition : TablePartition) : Option OPRequest :=
  if table_partition.partition_meta.length = 1 ∧
      (table_partition.partition_meta.map (fun m => m.endpoint))[0]? = some endpoint then
    some (OPRequest.updatePartitionStatusOP name table_partition.pid endpoint true false
      INVALID_PARENT_ID concurrency)
  else
    match (scanAliveLeader endpoint table_partition.partition_meta 0 ("", none)).2 with
    | none => none
    | some endpoint_index =>
      match table_partition.partition_meta[endpoint_index]? with
      | none => none
      | some partition_meta =>
        offlineReplica name endpoint concurrency table_partition.pid
          (scanAliveLeader endpoint table_partition.partition_meta 0 ("", none)).1 partition_meta

/-- The function `NameServerImpl::OfflineEndpointInternal` (lines 1687-1728), as
the calls of `CreateUpdatePartitionStatusOP`, `CreateChangeLeaderOP` and
`CreateOfflineReplicaOP` that it makes, in their order.  The three functions read
the catalog and do not write it, so the calls follow from the catalog at
entry. -/
def OfflineEndpointInternal (ns : NameServerImpl) (endpoint : String) (concurrency : Nat) :
    List OPRequest :=
  ns.table_info_.flatMap (fun kv =>
    kv.2.table_partition.filterMap (offlinePartition kv.1 endpoint concurrency))

/-! ### The calls of SelectLeader to the tablets -/

/-- The arguments of a call `FollowOfNoOne(tid, pid, term, offset)` to the tablet
at `endpoint`. -/
structure FollowOfNoOneCall where
  endpoint : String
  tid : Nat
  pid : Nat
  term : Nat
  deriving DecidableEq, Repr

/-- The calls that the loop `followOfNoOne` makes, with the same tests in the same
order: one for each follower on a healthy tablet, until a follower is not on one
or a call fails. -/
def followOfNoOneCalls (tablets : List (String × TabletInfo)) (tid pid cur_term : Nat) :
    List String → List (Option Nat) → List FollowOfNoOneCall
  | [], _ => []
  | endpoint :: rest, replies =>
    match mapFind endpoint tablets with
    | none => []
    | some tablet =>
      if tablet.state_ ≠ TabletState.kTabletHealthy then []
      else
        { endpoint := endpoint, tid := tid, pid := pid, term := cur_term } ::
          (match nextReply replies with
            | (none, _) => []
            | (some _, replies1) => followOfNoOneCalls tablets tid pid cur_term rest replies1)

/-- The calls `FollowOfNoOne` that `SelectLeader` makes (lines 4853-4917): none when
the guard or the write of the term fails, otherwise those of the loop, with
`cur_term`. -/
def SelectLeaderCalls (ns : NameServerImpl) (name : String) (tid pid : Nat)
    (follower_endpoint : List String) : List FollowOfNoOneCall :=
  if !selectLeaderGuard ns name pid then []
  else if !(ns.zk_client_.SetNodeValue zk_term_node_ (ZkValue.num (u64 (ns.term_ + 2)))).1 then []
  else
    followOfNoOneCalls ns.tablets_ tid pid (u64 (ns.term_ + 1)) follower_endpoint
      ns.tablet_replies_

/-! ### The task builders of AddReplicaOP and ReAddReplicaOP -/

/-- The function `NameServerImpl::GetLeader` (lines 3878-3893): the endpoint of the
first replica, in the first partition with this pid, that is leader and alive;
`none` for the return value -1. -/
def GetLeader (table_info : TableInfo) (pid : Nat) : Option String :=
  match firstWith (fun tp => decide (tp.pid = pid)) table_info.table_partition with
  | none => none
  | some (_, table_partition) =>
    (table_partition.partition_meta.find? (fun m => m.is_leader && m.is_alive)).map
      (fun m => m.endpoint)

/-- What the functions `Create...Task` for a task on a tablet share (for instance
lines 4190-4199): no task when the endpoint is not a Healthy tablet; otherwise a
task on the endpoint, Inited, whose `TaskInfo` names the endpoint. -/
def createTabletTask (ns : NameServerImpl) (endpoint : String) (op_index : Nat)
    (op_type : OPType) (task_type : TaskType) : Option Task :=
  match mapFind endpoint ns.tablets_ with
  | none => none
  | some tablet =>
    if tablet.state_ ≠ TabletState.kTabletHealthy then none
    else
      some { endpoint_ := endpoint
             task_info_ :=
               { op_id := op_index, op_type := op_type, task_type := task_type,
                 status := TaskStatus.kInited, endpoint := some endpoint } }

/-- The function `NameServerImpl::CreatePauseSnapshotTask` (lines 4188-4203), without
the closure. -/
def CreatePauseSnapshotTask (ns : NameServerImpl) (endpoint : String) (op_index : Nat)
    (op_type : OPType) (tid pid : Nat) : Option Task :=
  createTabletTask ns endpoint op_index op_type TaskType.kPauseSnapshot

/-- The function `NameServerImpl::CreateRecoverSnapshotTask` (lines 4205-4220),
without the closure. -/
def CreateRecoverSnapshotTask (ns : NameServerImpl) (endpoint : String) (op_index : Nat)
    (op_type : OPType) (tid pid : Nat) : Option Task :=
  createTabletTask ns endpoint op_index op_type TaskType.kRecoverSnapshot

/-- The function `NameServerImpl::CreateSendSnapshotTask` (lines 4222-4239), without
the closure. -/
def CreateSendSnapshotTask (ns : NameServerImpl) (endpoint : String) (op_index : Nat)
    (op_type : OPType) (tid pid : Nat) (des_endpoint : String) : Option Task :=
  createTabletTask ns endpoint op_index op_type TaskType.kSendSnapshot

/-- The function `NameServerImpl::CreateLoadTableTask` (lines 4241-4278), without the
closure and the table meta that it holds. -/
def CreateLoadTableTask (ns : NameServerImpl) (endpoint : String) (op_index : Nat)
    (op_type : OPType) (name : String) (tid pid : Nat) (is_leader : Bool) : Option Task :=
  createTabletTask ns endpoint op_index op_type TaskType.kLoadTable

/-- The function `NameServerImpl::CreateAddReplicaTask` (lines 4280-4297), without
the closure. -/
def CreateAddReplicaTask (ns : NameServerImpl) (endpoint : String) (op_index : Nat)
    (op_type : OPType) (tid pid : Nat) (des_endpoint : String) : Option Task :=
  createTabletTask ns endpoint op_index op_type TaskType.kAddReplica

/-- The function `NameServerImpl::CreateAddTableInfoTask` (lines 4299-4308), without
the closure: it never fails, and the task is on the endpoint. -/
def CreateAddTableInfoTask (name : String) (pid : Nat) (endpoint : String) (op_index : Nat)
    (op_type : OPType) : Option Task :=
  some { endpoint_ := endpoint
         task_info_ :=
           { op_id := op_index, op_type := op_type, task_type := TaskType.kAddTableInfo,
             status := TaskStatus.kInited } }

/-- The function `NameServerImpl::CreateCheckBinlogSyncProgressTask` (lines
4388-4399), without the closure: it never fails. -/
def CreateCheckBinlogSyncProgressTask (op_index : Nat) (op_type : OPType) (name : String)
    (pid : Nat) (follower : String) (offset_delta : Nat) : Option Task :=
  some { endpoint_ := ""
         task_info_ :=
           { op_id := op_index, op_type := op_type,
             task_type := TaskType.kCheckBinlogSyncProgress, status := TaskStatus.kInited } }

/-- The function `NameServerImpl::CreateUpdatePartitionStatusTask` (lines 4553-4564),
without the closure: it never fails. -/
def CreateUpdatePartitionStatusTask (name : String) (pid : Nat) (endpoint : String)
    (is_leader is_alive : Bool) (op_index : Nat) (op_type : OPType) : Option Task :=
  some { endpoint_ := ""
         task_info_ :=
           { op_id := op_index, op_type := op_type,
             task_type := TaskType.kUpdatePartitionStatus, status := TaskStatus.kInited } }

/-- The tasks that a builder has pushed so far, with one more: `none` once a
`Create...Task` has returned no task. -/
def pushTask (task_list : Option (List Task)) (task : Option Task) : Option (List Task) :=
  match task_list, task with
  | some l, some t => some (l ++ [t])
  | _, _ => none

/-- The call `AddReplicaNSRequest::ParseFromString` on the payload of an OP. -/
def parseAddReplicaNSRequest : OPPayload → Option AddReplicaNSRequest
  | OPPayload.addReplicaNSRequest request => some request
  | _ => none

/-- The call `RecoverTableData::ParseFromString` on the payload of an OP. -/
def parseRecoverTableData : OPPayload → Option RecoverTableData
  | OPPayload.recoverTableData d => some d
  | _ => none

/-- Lines 2438-2496 of `CreateAddReplicaOPTask`: the eight tasks, in the order in
which they are pushed. -/
def addReplicaTasks (ns : NameServerImpl) (op_index : Nat) (request : AddReplicaNSRequest)
    (tid : Nat) (leader_endpoint : String) (delta : Nat) : Option (List Task) :=
  pushTask (pushTask (pushTask (pushTask (pushTask (pushTask (pushTask (pushTask (some [])
    (CreatePauseSnapshotTask ns leader_endpoint op_index OPType.kAddReplicaOP tid request.pid))
    (CreateSendSnapshotTask ns leader_endpoint op_index OPType.kAddReplicaOP tid request.pid
      request.endpoint))
    (CreateLoadTableTask ns request.endpoint op_index OPType.kAddReplicaOP request.name tid
      request.pid false))
    (CreateAddReplicaTask ns leader_endpoint op_index OPType.kAddReplicaOP tid request.pid
      request.endpoint))
    (CreateRecoverSnapshotTask ns leader_endpoint op_index OPType.kAddReplicaOP tid request.pid))
    (CreateAddTableInfoTask request.name request.pid request.endpoint op_index
      OPType.kAddReplicaOP))
    (CreateCheckBinlogSyncProgressTask op_index OPType.kAddReplicaOP request.name request.pid
      request.endpoint delta))
    (CreateUpdatePartitionStatusTask request.name request.pid request.endpoint false true
      op_index OPType.kAddReplicaOP)

/-- The function `NameServerImpl::CreateAddReplicaOPTask` (lines 2413-2500): the
tasks of the OP, `none` for the return value -1.  The argument `delta` is the flag
`check_binlog_sync_progress_delta`. -/
def CreateAddReplicaOPTask (ns : NameServerImpl) (op_info : OPInfo) (delta : Nat) :
    Option (List Task) :=
  match parseAddReplicaNSRequest op_info.data with
  | none => none
  | some request =>
    match mapFind request.endpoint ns.tablets_ with
    | none => none
    | some tablet =>
      if tablet.state_ ≠ TabletState.kTabletHealthy then none
      else
        match mapFind request.name ns.table_info_ with
        | none => none
        | some table =>
          match GetLeader table request.pid with
          | none => none
          | some leader_endpoint =>
            if leader_endpoint = "" then none
            else addReplicaTasks ns op_info.op_id request table.tid leader_endpoint delta

/-- Lines 3594-3645 of `CreateReAddReplicaTask`: the seven tasks, in the order in
which they are pushed. -/
def reAddReplicaTasks (ns : NameServerImpl) (op_index : Nat) (name : String) (pid : Nat)
    (d : RecoverTableData) (tid : Nat) (leader_endpoint : String) : Option (List Task) :=
  pushTask (pushTask (pushTask (pushTask (pushTask (pushTask (pushTask (some [])
    (CreatePauseSnapshotTask ns leader_endpoint op_index OPType.kReAddReplicaOP tid pid))
    (CreateSendSnapshotTask ns leader_endpoint op_index OPType.kReAddReplicaOP tid pid
      d.endpoint))
    (CreateLoadTableTask ns d.endpoint op_index OPType.kReAddReplicaOP name tid pid false))
    (CreateAddReplicaTask ns leader_endpoint op_index OPType.kReAddReplicaOP tid pid d.endpoint))
    (CreateRecoverSnapshotTask ns leader_endpoint op_index OPType.kReAddReplicaOP tid pid))
    (CreateCheckBinlogSyncProgressTask op_index OPType.kReAddReplicaOP name pid d.endpoint
      d.offset_delta))
    (CreateUpdatePartitionStatusTask name pid d.endpoint false true op_index
      OPType.kReAddReplicaOP)

/-- The function `NameServerImpl::CreateReAddReplicaTask` (lines 3571-3649): the
tasks of the OP, `none` for the return value -1. -/
def CreateReAddReplicaTask (ns : NameServerImpl) (op_info : OPInfo) : Option (List Task) :=
  match parseRecoverTableData op_info.data with
  | none => none
  | some d =>
    match mapFind op_info.name ns.table_info_ with
    | none => none
    | some table =>
      match GetLeader table op_info.pid with
      | none => none
      | some leader_endpoint =>
        if leader_endpoint = "" then none
        else reAddReplicaTasks ns op_info.op_id op_info.name op_info.pid d table.tid
          leader_endpoint

/-! ### MatchTermOffset -/

/-- The call `std::map<uint64_t, uint64_t>::insert`: no effect when the key is
present, otherwise the entry is placed in key order. -/
def termMapInsert (term offset : Nat) (term_map : List (Nat × Nat)) : List (Nat × Nat) :=
  if term_map.any (fun e => decide (e.1 = term)) then term_map
  else List.orderedInsert (fun a b : Nat × Nat => a.1 ≤ b.1) (term, offset) term_map

/-- The loop of lines 4123-4126: the `term_offset` entries of the partition enter
`term_map`, in their order. -/
def termMapOf (term_offset : List TermPair) : List (Nat × Nat) :=
  term_offset.foldl (fun term_map p => termMapInsert p.term p.offset term_map) []

/-- Lines 4130-4158 of `MatchTermOffset`, on `term_map`.  The entries from the one
of `term` on are what `find` and then `iter++` reach; the last entry is
`rbegin()`. -/
def matchTermOffset (term_map : List (Nat × Nat)) (term offset : Nat) : Int :=
  match term_map.dropWhile (fun e => decide (e.1 ≠ term)) with
  | [] => 1
  | (_, start) :: rest =>
    if start > offset then
      if term_map.getLast?.map (fun e => e.2) = some (u64 (offset + 1)) then 0 else 1
    else
      match rest with
      | [] => 0
      | (_, next) :: _ => if next ≤ offset then 1 else 0

/-- The function `NameServerImpl::MatchTermOffset` (lines 4106-4159).  The test of
`has_table` and `offset` comes before the table is looked up. -/
def MatchTermOffset (ns : NameServerImpl) (name : String) (pid : Nat) (has_table : Bool)
    (term offset : Nat) : Int :=
  if !has_table ∧ offset = 0 then 1
  else
    match mapFind name ns.table_info_ with
    | none => -1
    | some table =>
      match firstWith (fun tp => decide (tp.pid = pid)) table.table_partition with
      | none => matchTermOffset [] term offset
      | some (_, table_partition) =>
        matchTermOffset (termMapOf table_partition.term_offset) term offset

/-! ### RecoverEndpointTable -/

/-- The constant `OFFLINE_LEADER_ENDPOINT` (line 41). -/
def OFFLINE_LEADER_ENDPOINT : String := "OFFLINE_LEADER_ENDPOINT"

/-- How the loop of `RecoverEndpointTable` over the replicas ends: with the status
that it gave the task before it returned, or with the values of `endpoint`,
`leader_tablet_ptr`, `tablet_ptr` and `has_follower`. -/
inductive RecoverScan where
  | exit (status : TaskStatus)
  | found (endpoint : String) (leader_tablet_ptr tablet_ptr : Option TabletInfo)
      (has_follower : Bool)
  deriving DecidableEq, Repr

/-- Lines 3400-3420 of `RecoverEndpointTable`, for one replica: `endpoint` and
`leader_tablet_ptr` after them, `none` when the task has failed.  The tablet of a
replica that is leader and alive must be Healthy; a replica that is leader and not
alive takes the place of `OFFLINE_LEADER_ENDPOINT`. -/
def scanLeaderTablet (tablets : List (String × TabletInfo)) (partition_meta : PartitionMeta)
    (endpoint : String) (leader_tablet_ptr : Option TabletInfo) :
    Option (String × Option TabletInfo) :=
  if partition_meta.is_leader then
    if partition_meta.is_alive then
      match mapFind partition_meta.endpoint tablets with
      | none => none
      | some tablet =>
        if tablet.state_ ≠ TabletState.kTabletHealthy then none else some (endpoint, some tablet)
    else if endpoint = OFFLINE_LEADER_ENDPOINT then some (partition_meta.endpoint, leader_tablet_ptr)
    else some (endpoint, leader_tablet_ptr)
  else some (endpoint, leader_tablet_ptr)

/-- The loop of `RecoverEndpointTable` over the replicas of the partition (lines
3398-3445); `size` is `partition_meta_size()`. -/
def recoverScan (tablets : List (String × TabletInfo)) (size : Nat) :
    List PartitionMeta → String → Option TabletInfo → Option TabletInfo → RecoverScan
  | [], endpoint, leader_tablet_ptr, tablet_ptr =>
    RecoverScan.found endpoint leader_tablet_ptr tablet_ptr true
  | partition_meta :: rest, endpoint, leader_tablet_ptr, tablet_ptr =>
    match scanLeaderTablet tablets partition_meta endpoint leader_tablet_ptr with
    | none => RecoverScan.exit TaskStatus.kFailed
    | some (endpoint1, leader1) =>
      if partition_meta.endpoint = endpoint1 then
        if partition_meta.is_alive then RecoverScan.exit TaskStatus.kDone
        else
          match mapFind endpoint1 tablets with
          | none => RecoverScan.exit TaskStatus.kFailed
          | some tablet =>
            if tablet.state_ ≠ TabletState.kTabletHealthy then
              RecoverScan.exit TaskStatus.kFailed
            else if size = 1 then RecoverScan.found endpoint1 leader1 (some tablet) false
            else recoverScan tablets size rest endpoint1 leader1 (some tablet)
      else recoverScan tablets size rest endpoint1 leader1 tablet_ptr

/-- What `GetTermPair` returns through its reference arguments. -/
structure TermPairResponse where
  term : Nat
  offset : Nat
  has_table : Bool
  is_leader : Bool
  deriving DecidableEq, Repr

/-- The outcomes of the calls that `RecoverEndpointTable` makes to the tablets, each
at most once: `GetTermPair` to the target (`none` when it fails), `ChangeRole` and
`DeleteBinlog` to the target, `GetManifest` to the leader (the offset of the
manifest, `none` when it fails). -/
structure RecoverReplies where
  GetTermPair : Option TermPairResponse
  ChangeRole : Bool
  DeleteBinlog : Bool
  GetManifest : Option Nat
  deriving DecidableEq, Repr

/-- Lines 3515-3527 of `RecoverEndpointTable`: the call for a partition with
followers; `matched` is `ret_code == 0 && offset >= manifest.offset()`. -/
def reAddReplicaRequest (name : String) (pid : Nat) (endpoint : String)
    (offset_delta parent_id concurrency : Nat) (has_table matched : Bool) : OPRequest :=
  if has_table then
    if matched then
      OPRequest.reAddReplicaSimplifyOP name pid endpoint offset_delta parent_id concurrency
    else OPRequest.reAddReplicaWithDropOP name pid endpoint offset_delta parent_id concurrency
  else
    if matched then
      OPRequest.reAddReplicaNoSendOP name pid endpoint offset_delta parent_id concurrency
    else OPRequest.reAddReplicaOP name pid endpoint offset_delta parent_id concurrency

/-- Lines 3478-3533 of `RecoverEndpointTable`, for a partition with followers: the
call that creates the child OP, if one is made, and the task. -/
def recoverFollower (ns : NameServerImpl) (replies : RecoverReplies) (name : String)
    (pid : Nat) (endpoint : String) (offset_delta concurrency : Nat) (task_info : TaskInfo)
    (r : TermPairResponse) : Option OPRequest × TaskInfo :=
  if r.has_table = true ∧ r.is_leader = true ∧ replies.ChangeRole = false then
    (none, { task_info with status := TaskStatus.kFailed })
  else if r.has_table = false ∧ replies.DeleteBinlog = false then
    (none, { task_info with status := TaskStatus.kFailed })
  else if MatchTermOffset ns name pid r.has_table r.term r.offset < 0 then
    (none, { task_info with status := TaskStatus.kFailed })
  else
    match replies.GetManifest with
    | none => (none, { task_info with status := TaskStatus.kFailed })
    | some manifest_offset =>
      (some (reAddReplicaRequest name pid endpoint offset_delta task_info.op_id concurrency
          r.has_table
          (decide (MatchTermOffset ns name pid r.has_table r.term r.offset = 0
            ∧ r.offset ≥ manifest_offset))),
        { task_info with status := TaskStatus.kDone })

/-- Lines 3449-3534 of `RecoverEndpointTable`, after the loop has ended with
`endpoint`, the two tablets and `has_follower`. -/
def recoverFound (ns : NameServerImpl) (replies : RecoverReplies) (name : String) (pid : Nat)
    (endpoint : String) (leader_tablet_ptr tablet_ptr : Option TabletInfo) (has_follower : Bool)
    (offset_delta concurrency : Nat) (task_info : TaskInfo) : Option OPRequest × TaskInfo :=
  if (has_follower = true ∧ leader_tablet_ptr.isNone) ∨ tablet_ptr.isNone then
    (none, { task_info with status := TaskStatus.kFailed })
  else
    match replies.GetTermPair with
    | none => (none, { task_info with status := TaskStatus.kFailed })
    | some r =>
      if has_follower = false then
        (some (if r.has_table then
            OPRequest.updatePartitionStatusOP name pid endpoint true true task_info.op_id
              concurrency
          else OPRequest.reLoadTableOP name pid endpoint task_info.op_id concurrency),
          { task_info with status := TaskStatus.kDone })
      else recoverFollower ns replies name pid endpoint offset_delta concurrency task_info r

/-- The function `NameServerImpl::RecoverEndpointTable` (lines 3373-3534), the body
of the task RecoverTable: the call `Create...OP` that it makes, if any, and the
task.  The return values of these calls are not read.  A name server that is not
running leaves the task as it is. -/
def RecoverEndpointTable (ns : NameServerImpl) (replies : RecoverReplies) (name : String)
    (pid : Nat) (endpoint : String) (offset_delta concurrency : Nat) (task_info : TaskInfo) :
    Option OPRequest × TaskInfo :=
  if !ns.running_ then (none, task_info)
  else
    match mapFind name ns.table_info_ with
    | none => (none, { task_info with status := TaskStatus.kFailed })
    | some table =>
      match firstWith (fun tp => decide (tp.pid = pid)) table.table_partition with
      | none =>
        recoverFound ns replies name pid endpoint none none true offset_delta concurrency
          task_info
      | some (_, table_partition) =>
        match recoverScan ns.tablets_ table_partition.partition_meta.length
            table_partition.partition_meta endpoint none none with
        | RecoverScan.exit status => (none, { task_info with status := status })
        | RecoverScan.found endpoint1 leader_tablet_ptr tablet_ptr has_follower =>
          recoverFound ns replies name pid endpoint1 leader_tablet_ptr tablet_ptr has_follower
            offset_delta concurrency task_info

/-! ### CheckBinlogSyncProgress -/

/-- The loop of `CheckBinlogSyncProgress` over the replicas (lines 4436-4452):
`leader_offset` and `follower_offset`, or `none` when a replica has not
`tablet_has_partition`, which ends the task as Done. -/
def scanOffsets (follower : String) : List PartitionMeta → Nat × Nat → Option (Nat × Nat)
  | [], acc => some acc
  | meta :: rest, acc =>
    if !meta.tablet_has_partition then none
    else
      match meta.offset with
      | none => scanOffsets follower rest acc
      | some offset =>
        if meta.is_leader && meta.is_alive then scanOffsets follower rest (offset, acc.2)
        else if meta.endpoint = follower then scanOffsets follower rest (acc.1, offset)
        else scanOffsets follower rest acc

/-- The function `NameServerImpl::CheckBinlogSyncProgress` (lines 4414-4471): the
task, and whether the function has handed itself to `DelayTask` again. -/
def CheckBinlogSyncProgress (ns : NameServerImpl) (name : String) (pid : Nat) (follower : String)
    (offset_delta : Nat) (task_info : TaskInfo) : TaskInfo × Bool :=
  if task_info.status ≠ TaskStatus.kDoing then (task_info, false)
  else
    match mapFind name ns.table_info_ with
    | none => ({ task_info with status := TaskStatus.kFailed }, false)
    | some table =>
      match firstWith (fun tp => decide (tp.pid = pid)) table.table_partition with
      | none => (task_info, ns.running_)
      | some (_, table_partition) =>
        match scanOffsets follower table_partition.partition_meta (0, 0) with
        | none => ({ task_info with status := TaskStatus.kDone }, false)
        | some found =>
          if found.1 ≤ u64 (found.2 + offset_delta) then
            ({ task_info with status := TaskStatus.kDone }, false)
          else (task_info, ns.running_)

/-! ### UpdateEndpointTableAlive -/

/-- The body of the loop of `UpdateEndpointTableAlive` for one partition (lines
4759-4781): the partition after it, and whether a replica was written.  A
partition with exactly one alive replica is skipped when `is_alive` is false.  The
counter `alive_cnt` stays below `partition_meta_size()`, an `int`, so the
`uint32_t` does not wrap. -/
def setEndpointAlive (endpoint : String) (is_alive : Bool) (table_partition : TablePartition) :
    TablePartition × Bool :=
  if table_partition.partition_meta.countP (fun m => m.is_alive) = 1 ∧ is_alive = false then
    (table_partition, false)
  else
    ({ table_partition with
       partition_meta :=
         table_partition.partition_meta.map (fun m =>
           if m.endpoint = endpoint then { m with is_alive := is_alive } else m) },
      table_partition.partition_meta.any (fun m => decide (m.endpoint = endpoint)))

/-- The table after the loop over its partitions. -/
def setTableAlive (endpoint : String) (is_alive : Bool) (table : TableInfo) : TableInfo :=
  { table with
    table_partition := table.table_partition.map (fun tp => (setEndpointAlive endpoint is_alive tp).1) }

/-- The loop of `UpdateEndpointTableAlive` over the tables (lines 4755-4793): whether
it ran to its end, the catalog and the store.  The tables are written in place; a
table with an update is stored, and a failed store call ends the loop. -/
def updateTablesAlive (endpoint : String) (is_alive : Bool) :
    List (String × TableInfo) → ZkClient → Bool × List (String × TableInfo) × ZkClient
  | [], zk => (true, [], zk)
  | (name, table) :: rest, zk =>
    if (table.table_partition.map (setEndpointAlive endpoint is_alive)).any (fun r => r.2) then
      if !(zk.SetNodeValue (zk_table_data_path_ ++ "/" ++ name)
          (ZkValue.table (setTableAlive endpoint is_alive table))).1 then
        (false, (name, setTableAlive endpoint is_alive table) :: rest,
          (zk.SetNodeValue (zk_table_data_path_ ++ "/" ++ name)
            (ZkValue.table (setTableAlive endpoint is_alive table))).2)
      else
        ((updateTablesAlive endpoint is_alive rest
            (zk.SetNodeValue (zk_table_data_path_ ++ "/" ++ name)
              (ZkValue.table (setTableAlive endpoint is_alive table))).2).1,
          (name, setTableAlive endpoint is_alive table) ::
            (updateTablesAlive endpoint is_alive rest
              (zk.SetNodeValue (zk_table_data_path_ ++ "/" ++ name)
                (ZkValue.table (setTableAlive endpoint is_alive table))).2).2.1,
          (updateTablesAlive endpoint is_alive rest
            (zk.SetNodeValue (zk_table_data_path_ ++ "/" ++ name)
              (ZkValue.table (setTableAlive endpoint is_alive table))).2).2.2)
    else
      ((updateTablesAlive endpoint is_alive rest zk).1,
        (name, setTableAlive endpoint is_alive table) ::
          (updateTablesAlive endpoint is_alive rest zk).2.1,
        (updateTablesAlive endpoint is_alive rest zk).2.2)

/-- The function `NameServerImpl::UpdateEndpointTableAlive` (lines 4749-4796): the
return value and the state. -/
def UpdateEndpointTableAlive (ns : NameServerImpl) (endpoint : String) (is_alive : Bool) :
    Int × NameServerImpl :=
  if !ns.running_ then (0, ns)
  else if !(updateTablesAlive endpoint is_alive ns.table_info_ ns.zk_client_).1 then
    (-1,
      { ns with
        table_info_ := (updateTablesAlive endpoint is_alive ns.table_info_ ns.zk_client_).2.1
        zk_client_ := (updateTablesAlive endpoint is_alive ns.table_info_ ns.zk_client_).2.2 })
  else
    (0,
      NotifyTableChanged
        { ns with
          table_info_ := (updateTablesAlive endpoint is_alive ns.table_info_ ns.zk_client_).2.1
          zk_client_ := (updateTablesAlive endpoint is_alive ns.table_info_ ns.zk_client_).2.2 })

/-! ### The task ChangeLeader -/

/-- The function `NameServerImpl::ChangeLeader(task_info)`, the body of the task
ChangeLeader (lines 4959-5006): the state, the task, and the followers that
`ChangeRole` is called with, if it is called.  The result is `none` when
`std::find` does not find the leader among the followers: `erase` is then called
with the end iterator, which is undefined. -/
def ChangeLeaderTask (ns : NameServerImpl) (task_info : TaskInfo) :
    Option (NameServerImpl × TaskInfo × Option (List String)) :=
  match FindRunningOP ns task_info.op_id with
  | none => some (ns, { task_info with status := TaskStatus.kFailed }, none)
  | some op_data =>
    match parseChangeLeaderData op_data.op_info_.data with
    | none => some (ns, { task_info with status := TaskStatus.kFailed }, none)
    | some change_leader_data =>
      match mapFind change_leader_data.leader ns.tablets_ with
      | none => some (ns, { task_info with status := TaskStatus.kFailed }, none)
      | some tablet =>
        if tablet.state_ ≠ TabletState.kTabletHealthy then
          some (ns, { task_info with status := TaskStatus.kFailed }, none)
        else if change_leader_data.leader ∉ change_leader_data.follower then none
        else
          some ({ ns with tablet_replies_ := (nextReply ns.tablet_replies_).2 },
            { task_info with
              status :=
                if (nextReply ns.tablet_replies_).1.isSome then TaskStatus.kDone
                else TaskStatus.kFailed },
            some (change_leader_data.follower.erase change_leader_data.leader))

/-- The vector `follower_endpoint` that `CreateChangeLeaderOPTask` fills from the
payload of the OP and binds into the SelectLeader task (lines 3220-3235); `none`
when the payload does not parse and no task is built. -/
def selectLeaderFollowers (op_info : OPInfo) : Option (List String) :=
  match parseChangeLeaderData op_info.data with
  | none => none
  | some change_leader_data => some change_leader_data.follower

/-! ### Statements about the replicas -/

/-- A replica that is leader and alive. -/
abbrev aliveLeader (m : PartitionMeta) : Prop := m.is_leader = true ∧ m.is_alive = true

/-- What holds of `max_offset` and `leader_endpoint_vec`, the pair `acc`, in the
loop of `SelectLeader` after the followers of `done` have answered, each with its
offset: no offset is above `max_offset`, the vector holds the followers that
answered `max_offset`, and it is empty only before the first answer. -/
abbrev maxOffsetInv (acc : Nat × List String) (done : List (String × Nat)) : Prop :=
  (∀ p ∈ done, p.2 ≤ acc.1) ∧ (∀ e, e ∈ acc.2 ↔ ∃ p ∈ done, p.1 = e ∧ p.2 = acc.1) ∧
    (acc.2 = [] → done = [])

/-! ### A cluster to evaluate on

The state of scenario S2 of the specification, cut down to partition 0 of table
"t": replicas on "a:1" (leader) and "b:1", both alive, and a ChangeLeaderOP at the
head of queue 0 whose SelectLeader task has chosen "b:1". -/

/-- The table "t" of the scenario. -/
def scenarioTable : TableInfo :=
  { name := "t", tid := 2, ttl := 0, ttl_type := "kAbsoluteTime",
    partition_num := some 1, replica_num := some 2,
    column_desc := [], column_desc_v1 := [], column_key := [], added_column_desc := [],
    table_partition :=
      [{ pid := 0,
         partition_meta :=
           [{ endpoint := "a:1", is_leader := true, is_alive := true },
            { endpoint := "b:1", is_leader := false, is_alive := true }],
         term_offset := [{ term := 1, offset := 0 }] }] }

/-- The payload of the ChangeLeaderOP after its SelectLeader task. -/
def scenarioPayload : ChangeLeaderData :=
  { name := "t", tid := 2, pid := 0, follower := ["b:1"], candidate_leader := none,
    leader := "b:1", offset := 10, term := 3 }

/-- The ChangeLeaderOP of the scenario. -/
def scenarioOp : OPData :=
  { op_info_ :=
      { op_id := 2, op_type := OPType.kChangeLeaderOP, task_index := 2,
        data := OPPayload.changeLeaderData scenarioPayload,
        task_status := TaskStatus.kDoing, name := "t", pid := 0,
        parent_id := UINT64_MAX, vec_idx := some 0 },
    task_list_ := [] }

/-- The name server of the scenario. -/
def scenarioNs : NameServerImpl :=
  { tablets_ :=
      [("a:1", { state_ := TabletState.kTabletHealthy, ctime_ := 0 }),
       ("b:1", { state_ := TabletState.kTabletHealthy, ctime_ := 0 }),
       ("c:1", { state_ := TabletState.kTabletHealthy, ctime_ := 0 })],
    table_info_ := [("t", scenarioTable)],
    zk_client_ :=
      { nodes :=
          [("/table/table_index", ZkValue.num 2), ("/table/term", ZkValue.num 3),
           ("/op/op_index", ZkValue.num 2), ("/table/notify", ZkValue.num 2),
           ("/config/auto_failover", ZkValue.text "false"),
           ("/cluster/term", ZkValue.num 1), ("/cluster/name", ZkValue.text "zone"),
           ("/table/table_data/t", ZkValue.table scenarioTable)],
        faults := [] },
    table_index_ := 2, term_ := 3, op_index_ := 2,
    running_ := true, auto_failover_ := false,
    task_vec_ := [[scenarioOp]],
    tablet_replies_ := [],
    flags := { partition_num := 8, replica_num := 3, absolute_ttl_max := 43200,
               latest_ttl_max := 1000 } }

/-- The request of scenario S1: table "u" with 3 partitions of 2 replicas, placed by
the name server. -/
def scenarioRequest : TableInfo :=
  { name := "u", tid := 0, ttl := 0, ttl_type := "kAbsoluteTime",
    partition_num := some 3, replica_num := some 2,
    column_desc := [], column_desc_v1 := [], column_key := [], added_column_desc := [],
    table_partition := [] }

/-- A codec that converts and encodes every schema. -/
def scenarioCodec : SchemaCodec :=
  { ConvertColumnDesc := fun _ => some [],
    ConvertColumnDescAdded := fun _ _ => some [],
    Encode := fun _ => true }

/-- The SelectLeader task of the scenario. -/
def scenarioSelect : TaskInfo :=
  { op_id := 2, op_type := OPType.kChangeLeaderOP, task_type := TaskType.kSelectLeader,
    status := TaskStatus.kDoing }

/-- What the parts of `Recover` that are not embedded produce in the scenario: the
tablets, the catalog and the queues as they are. -/
def scenarioEnv : RecoverEnv :=
  { tablets := some scenarioNs.tablets_, table_info := some scenarioNs.table_info_,
    task_vec := some scenarioNs.task_vec_ }

/-- Three events of the scenario: an OP is created, the name server recovers, and
another OP is created. -/
def scenarioEvents : List OpEvent :=
  [OpEvent.create OPType.kMakeSnapshotOP (OPPayload.other "") "t" 0 UINT64_MAX,
   OpEvent.recover scenarioEnv,
   OpEvent.create OPType.kMakeSnapshotOP (OPPayload.other "") "t" 0 UINT64_MAX]

/-- A name server before its first leader acquisition, on a store that holds the
zone term and nothing else. -/
def freshNs : NameServerImpl :=
  { tablets_ := [], table_info_ := [],
    zk_client_ := { nodes := [("/cluster/term", ZkValue.num 1)], faults := [] },
    table_index_ := 0, term_ := 0, op_index_ := 0,
    running_ := false, auto_failover_ := false,
    task_vec_ := [[]],
    tablet_replies_ := [],
    flags := { partition_num := 8, replica_num := 3, absolute_ttl_max := 43200,
               latest_ttl_max := 1000 } }

/-- What the parts of `Recover` that are not embedded produce for `freshNs`: three
healthy tablets, an empty catalog and an empty queue. -/
def freshEnv : RecoverEnv :=
  { tablets := some scenarioNs.tablets_, table_info := some [], task_vec := some [[]] }

/-- A request that brings its partitions: two, both with the pid 1. -/
def duplicatePidRequest : TableInfo :=
  { name := "v", tid := 0, ttl := 0, ttl_type := "kAbsoluteTime",
    partition_num := none, replica_num := none,
    column_desc := [], column_desc_v1 := [], column_key := [], added_column_desc := [],
    table_partition :=
      [{ pid := 1,
         partition_meta := [{ endpoint := "a:1", is_leader := true, is_alive := true }],
         term_offset := [] },
       { pid := 1,
         partition_meta := [{ endpoint := "b:1", is_leader := true, is_alive := true }],
         term_offset := [] }] }

/-- A request for more replicas than there are healthy tablets in the scenario. -/
def manyReplicasRequest : TableInfo :=
  { name := "w", tid := 0, ttl := 0, ttl_type := "kAbsoluteTime",
    partition_num := some 3, replica_num := some 4,
    column_desc := [], column_desc_v1 := [], column_key := [], added_column_desc := [],
    table_partition := [] }

/-- A schema with two columns of one name, the second of type float, and a column
key over that name. -/
def shadowedFloatTable : TableInfo :=
  { name := "x", tid := 0, ttl := 0, ttl_type := "kAbsoluteTime",
    partition_num := none, replica_num := none,
    column_desc := [],
    column_desc_v1 :=
      [{ name := "a", type := "string", add_ts_idx := false, is_ts_col := false },
       { name := "a", type := "float", add_ts_idx := false, is_ts_col := false }],
    column_key := [{ index_name := "k", col_name := ["a"], ts_name := [] }],
    added_column_desc := [],
    table_partition := [] }

/-- A schema with a string column and a float column, and a column key over the
string column. -/
def indexedStringTable : TableInfo :=
  { name := "y", tid := 0, ttl := 0, ttl_type := "kAbsoluteTime",
    partition_num := none, replica_num := none,
    column_desc := [],
    column_desc_v1 :=
      [{ name := "a", type := "string", add_ts_idx := true, is_ts_col := false },
       { name := "b", type := "float", add_ts_idx := false, is_ts_col := false }],
    column_key := [{ index_name := "k", col_name := ["a"], ts_name := [] }],
    added_column_desc := [],
    table_partition := [] }

/-- The schema that `CheckTableMeta` reads (lines 1192 and 1226): `column_desc_v1`
when it is not empty, otherwise `column_desc`. -/
def effectiveSchema (table_info : TableInfo) : List ColumnDesc :=
  if table_info.column_desc_v1.length > 0 then table_info.column_desc_v1
  else table_info.column_desc

/-- The column names that `CheckTableMeta` looks up for a column key (lines
1203-1222): the names of `col_name`, or `index_name` when `col_name` is empty. -/
def keyNames (column_key : ColumnKey) : List String :=
  match column_key.col_name with
  | [] => [column_key.index_name]
  | names => names

/-- The scenario table with 63 added columns. -/
def fullTable : TableInfo :=
  { scenarioTable with
    added_column_desc :=
      List.replicate 63 { name := "x", type := "string", add_ts_idx := false, is_ts_col := false } }

/-- The name server of the scenario with the table of 63 added columns. -/
def fullNs : NameServerImpl :=
  { scenarioNs with table_info_ := [("t", fullTable)] }

/-- A column to add. -/
def scenarioColumn : ColumnDesc :=
  { name := "y", type := "string", add_ts_idx := false, is_ts_col := false }

/-- An OP as `RecoverOPTask` hands it to `SkipDoneTask`: the ChangeLeaderOP of the
scenario, Doing, with one task done, and the three tasks rebuilt. -/
def recoveredOp : OPData :=
  { op_info_ := { scenarioOp.op_info_ with task_index := 1 }
    task_list_ :=
      [createLeaderTask 2 OPType.kChangeLeaderOP TaskType.kSelectLeader,
        createLeaderTask 2 OPType.kChangeLeaderOP TaskType.kChangeLeader,
        createLeaderTask 2 OPType.kChangeLeaderOP TaskType.kUpdateLeaderInfo] }

/-- A name server with two empty queues, otherwise that of the scenario. -/
def engineNs : NameServerImpl :=
  { scenarioNs with task_vec_ := [[], []] }

/-- A ChangeLeaderOP as `CreateChangeLeaderOP` hands it to `AddOPData`: Inited, with
its three tasks Inited, and without a parent. -/
def engineOp : OPData :=
  { op_info_ :=
      { op_id := 7, op_type := OPType.kChangeLeaderOP, task_index := 0,
        data := OPPayload.changeLeaderData scenarioPayload, task_status := TaskStatus.kInited,
        name := "t", pid := 0, parent_id := INVALID_PARENT_ID, vec_idx := none }
    task_list_ :=
      [createLeaderTask 7 OPType.kChangeLeaderOP TaskType.kSelectLeader,
        createLeaderTask 7 OPType.kChangeLeaderOP TaskType.kChangeLeader,
        createLeaderTask 7 OPType.kChangeLeaderOP TaskType.kUpdateLeaderInfo] }

/-- An OP for partition 2 that names the OP 7 as its parent. -/
def childOp : OPData :=
  { op_info_ :=
      { op_id := 8, op_type := OPType.kChangeLeaderOP, task_index := 0,
        data := OPPayload.changeLeaderData scenarioPayload, task_status := TaskStatus.kInited,
        name := "t", pid := 2, parent_id := 7, vec_idx := none }
    task_list_ := [createLeaderTask 8 OPType.kChangeLeaderOP TaskType.kSelectLeader] }

/-- The OP 7 while it runs: Doing, its first task Done. -/
def runningOp : OPData :=
  { op_info_ := { (withVecIdx engineOp 0).op_info_ with task_status := TaskStatus.kDoing }
    task_list_ :=
      [{ endpoint_ := "",
         task_info_ :=
           { op_id := 7, op_type := OPType.kChangeLeaderOP, task_type := TaskType.kSelectLeader,
             status := TaskStatus.kDone } },
        createLeaderTask 7 OPType.kChangeLeaderOP TaskType.kChangeLeader,
        createLeaderTask 7 OPType.kChangeLeaderOP TaskType.kUpdateLeaderInfo] }

/-- The name server with the OP 7 at the front of the first queue, and its node in
the store. -/
def runningNs : NameServerImpl :=
  { scenarioNs with
    task_vec_ := [[runningOp], []]
    zk_client_ :=
      { nodes := scenarioNs.zk_client_.nodes ++ [("/op/op_data/7", ZkValue.op runningOp.op_info_)],
        faults := [] } }

/-- The name server when all tasks of the OP 7 are done and taken off. -/
def finishedNs : NameServerImpl :=
  { runningNs with
    task_vec_ :=
      [[{ op_info_ := { runningOp.op_info_ with task_index := 3 }, task_list_ := [] }], []] }

/-- A name server that keeps at most one finished OP and holds three: the OP 5,
Failed, with its node in the store, and the OPs 6 and 7, Done. -/
def trimNs : NameServerImpl :=
  { scenarioNs with
    task_vec_ := [[], []]
    flags := { scenarioNs.flags with max_op_num := 1 }
    zk_client_ :=
      { nodes := scenarioNs.zk_client_.nodes ++
          [("/op/op_data/5",
            ZkValue.op { engineOp.op_info_ with op_id := 5, task_status := TaskStatus.kFailed })],
        faults := [] }
    done_op_list_ :=
      [{ op_info_ := { engineOp.op_info_ with op_id := 5, task_status := TaskStatus.kFailed },
         task_list_ := [] },
        { op_info_ := { engineOp.op_info_ with op_id := 6, task_status := TaskStatus.kDone },
          task_list_ := [] },
        { op_info_ := { engineOp.op_info_ with op_id := 7, task_status := TaskStatus.kDone },
          task_list_ := [] }] }

/-- The header of a ChangeLeaderOP that failed at its second task, as `DeleteTask`
wrote it to the store. -/
def failedOpInfo : OPInfo :=
  { op_id := 5, op_type := OPType.kChangeLeaderOP, task_index := 1,
    data := OPPayload.changeLeaderData scenarioPayload, task_status := TaskStatus.kFailed,
    name := "t", pid := 0, parent_id := INVALID_PARENT_ID, vec_idx := some 0 }

/-- A name server before a recovery, on a store that holds the table "t" and the
failed OP 5. -/
def recoverNs : NameServerImpl :=
  { scenarioNs with
    task_vec_ := [[]]
    zk_client_ :=
      { nodes := scenarioNs.zk_client_.nodes ++ [("/op/op_data/5", ZkValue.op failedOpInfo)],
        faults := [] } }

/-- Task builders that build nothing. -/
def noBuilders : OPTaskBuilders := { build := fun _ _ _ _ => none }

/-- The table "t" after its leader "a:1" died: the replica on "b:1" is the only one
alive, and it is not leader. -/
def deadLeaderTable : TableInfo :=
  { scenarioTable with
    table_partition :=
      [{ pid := 0,
         partition_meta :=
           [{ endpoint := "a:1", is_leader := true, is_alive := false },
            { endpoint := "b:1", is_leader := false, is_alive := true }],
         term_offset := [{ term := 1, offset := 0 }] }] }

/-- A name server with two empty queues and that table in its catalog and in the
store, auto-failover off. -/
def deadLeaderNs : NameServerImpl :=
  { engineNs with
    table_info_ := [("t", deadLeaderTable)]
    zk_client_ :=
      { engineNs.zk_client_ with
        nodes := mapAssign "/table/table_data/t" (ZkValue.table deadLeaderTable)
          engineNs.zk_client_.nodes } }

/-- That name server when the tablets "a:1" and "b:1" are offline: without
auto-failover the catalog still has the replica on "b:1" alive. -/
def offlineFollowerNs : NameServerImpl :=
  { deadLeaderNs with
    tablets_ :=
      [("a:1", { state_ := TabletState.kTabletOffline, ctime_ := 0 }),
       ("b:1", { state_ := TabletState.kTabletOffline, ctime_ := 0 }),
       ("c:1", { state_ := TabletState.kTabletHealthy, ctime_ := 0 })] }

/-- The name server `deadLeaderNs` of a follower cluster: `follower_` is true. -/
def followerNs : NameServerImpl :=
  { deadLeaderNs with follower_ := true }

/-- The request to change the leader of partition 0 of "t", without a candidate. -/
def changeLeaderRequest : ChangeLeaderRequest :=
  { name := "t", pid := 0, candidate_leader := none }

/-- The name server `engineNs` after `OnLostLock`: `running_` is false. -/
def stoppedNs : NameServerImpl :=
  { engineNs with running_ := false }

/-- The name server `engineNs` on a store whose next call fails. -/
def faultyNs : NameServerImpl :=
  { engineNs with zk_client_ := { engineNs.zk_client_ with faults := [true] } }

/-- A task of a MigrateOP while it runs. -/
def migrateTask : TaskInfo :=
  { op_id := 7, op_type := OPType.kMigrateOP, task_type := TaskType.kAddTableInfo,
    status := TaskStatus.kDoing }

/-- The name server `engineNs` after `AddOPData` of the OP 7 and then of its child,
the OP 8: both are in the store and in queue 0, the child right after its
parent. -/
def storedOpsNs : NameServerImpl :=
  (AddOPData (AddOPData engineNs engineOp 2).2 childOp 2).2

/-- A partition whose leader slot "a:1" is not alive while "b:1" is leader and
alive. -/
def twoLeaderSlots : TablePartition :=
  { pid := 0,
    partition_meta :=
      [{ endpoint := "a:1", is_leader := true, is_alive := false },
       { endpoint := "b:1", is_leader := true, is_alive := true },
       { endpoint := "c:1", is_leader := false, is_alive := true }],
    term_offset := [] }

/-- The table "t" with offsets: the leader on "a:1" is at 100 and has not
`tablet_has_partition`, the follower on "b:1" is at 10. -/
def laggingTable : TableInfo :=
  { scenarioTable with
    table_partition :=
      [{ pid := 0,
         partition_meta :=
           [{ endpoint := "a:1", is_leader := true, is_alive := true, offset := some 100,
              tablet_has_partition := false },
            { endpoint := "b:1", is_leader := false, is_alive := true, offset := some 10 }],
         term_offset := [{ term := 1, offset := 0 }] }] }

/-- A CheckBinlogSyncProgress task while it runs. -/
def doingTask : TaskInfo :=
  { op_id := 7, op_type := OPType.kAddReplicaOP, task_type := TaskType.kCheckBinlogSyncProgress,
    status := TaskStatus.kDoing }

/-- The header of an AddReplicaOP that adds a replica of partition 0 of "t" on
"c:1". -/
def addReplicaOp : OPInfo :=
  { op_id := 9, op_type := OPType.kAddReplicaOP, task_index := 0,
    data := OPPayload.addReplicaNSRequest { name := "t", pid := 0, endpoint := "c:1" },
    task_status := TaskStatus.kInited, name := "t", pid := 0, parent_id := INVALID_PARENT_ID,
    vec_idx := none }

/-- The header of a ReAddReplicaOP for the same table, partition and endpoint. -/
def reAddReplicaOp : OPInfo :=
  { addReplicaOp with
    op_type := OPType.kReAddReplicaOP
    data := OPPayload.recoverTableData { endpoint := "c:1", offset_delta := 5 } }

/-- The table "t" with its follower on "b:1" not alive. -/
def deadFollowerTable : TableInfo :=
  { scenarioTable with
    table_partition :=
      [{ pid := 0,
         partition_meta :=
           [{ endpoint := "a:1", is_leader := true, is_alive := true },
            { endpoint := "b:1", is_leader := false, is_alive := false }],
         term_offset := [{ term := 1, offset := 0 }] }] }

/-- A name server with that table in its catalog. -/
def deadFollowerNs : NameServerImpl :=
  { engineNs with table_info_ := [("t", deadFollowerTable)] }

/-- Replies of the tablets to `RecoverEndpointTable`: the target has the table, as a
follower, at term 1 and offset 20; the manifest of the leader is at offset 10. -/
def okReplies : RecoverReplies :=
  { GetTermPair := some { term := 1, offset := 20, has_table := true, is_leader := false },
    ChangeRole := true, DeleteBinlog := true, GetManifest := some 10 }

/-- A RecoverTable task while it runs. -/
def recoverTask : TaskInfo :=
  { op_id := 7, op_type := OPType.kRecoverTableOP, task_type := TaskType.kRecoverTable,
    status := TaskStatus.kDoing }

/-- The table "t" with one replica, on "b:1", which is not alive. -/
def singleReplicaTable : TableInfo :=
  { scenarioTable with
    table_partition :=
      [{ pid := 0,
         partition_meta := [{ endpoint := "b:1", is_leader := true, is_alive := false }],
         term_offset := [{ term := 1, offset := 0 }] }] }

/-- A name server with that table in its catalog. -/
def singleReplicaNs : NameServerImpl :=
  { engineNs with table_info_ := [("t", singleReplicaTable)] }

/-- The table "t" after three terms of its partition, recorded out of order. -/
def termsTable : TableInfo :=
  { scenarioTable with
    table_partition :=
      [{ pid := 0,
         partition_meta :=
           [{ endpoint := "a:1", is_leader := true, is_alive := true },
            { endpoint := "b:1", is_leader := false, is_alive := true }],
         term_offset :=
           [{ term := 1, offset := 0 }, { term := 5, offset := 30 }, { term := 3, offset := 10 }] }] }

/-- A name server with that table in its catalog. -/
def termsNs : NameServerImpl :=
  { engineNs with table_info_ := [("t", termsTable)] }

/-- A request that brings its partition: pid 0 with two replicas, both leader. -/
def twoLeaderRequest : TableInfo :=
  { name := "u", tid := 0, ttl := 0, ttl_type := "kAbsoluteTime",
    partition_num := none, replica_num := none,
    column_desc := [], column_desc_v1 := [], column_key := [], added_column_desc := [],
    table_partition :=
      [{ pid := 0,
         partition_meta :=
           [{ endpoint := "a:1", is_leader := true, is_alive := true },
            { endpoint := "b:1", is_leader := true, is_alive := true }],
         term_offset := [] }] }

/-- A request that brings its partition: pid 0 with a leader and a follower. -/
def placedRequest : TableInfo :=
  { name := "u", tid := 0, ttl := 0, ttl_type := "kAbsoluteTime",
    partition_num := none, replica_num := none,
    column_desc := [], column_desc_v1 := [], column_key := [], added_column_desc := [],
    table_partition :=
      [{ pid := 0,
         partition_meta :=
           [{ endpoint := "a:1", is_leader := true, is_alive := true },
            { endpoint := "b:1", is_leader := false, is_alive := true }],
         term_offset := [] }] }

/-- The same request with an entry in the term-offset list of its partition, of
term 9. -/
def staleTermRequest : TableInfo :=
  { placedRequest with
    table_partition :=
      [{ pid := 0,
         partition_meta :=
           [{ endpoint := "a:1", is_leader := true, is_alive := true },
            { endpoint := "b:1", is_leader := false, is_alive := true }],
         term_offset := [{ term := 9, offset := 0 }] }] }

/-- The UpdateLeaderInfo task of the scenario. -/
def scenarioTask : TaskInfo :=
  { op_id := 2, op_type := OPType.kChangeLeaderOP, task_type := TaskType.kUpdateLeaderInfo,
    status := TaskStatus.kDoing }

end NameServerImpl

/-! ## Containers: lemmas -/

theorem length_modifyNth {α : Type} (f : α → α) (i : Nat) (l : List α) :
    (modifyNth f i l).length = l.length := by
  induction l generalizing i with
  | nil => cases i <;> rfl
  | cons a l ih =>
    cases i with
    | zero => rfl
    | succ n => simp [modifyNth, ih]

theorem getElem?_modifyNth {α : Type} (f : α → α) (i k : Nat) (l : List α) :
    (modifyNth f i l)[k]? = if k = i then (l[k]?).map f else l[k]? := by
  induction l generalizing i k with
  | nil => cases i <;> simp [modifyNth]
  | cons a l ih =>
    cases i with
    | zero =>
      cases k with
      | zero => simp [modifyNth]
      | succ k => simp [modifyNth]
    | succ n =>
      cases k with
      | zero => simp [modifyNth]
      | succ k => simp [modifyNth, ih]

theorem modifyNth_modifyNth {α : Type} (f g : α → α) (i : Nat) (l : List α) :
    modifyNth g i (modifyNth f i l) = modifyNth (fun a => g (f a)) i l := by
  induction l generalizing i with
  | nil => cases i <;> rfl
  | cons a l ih =>
    cases i with
    | zero => rfl
    | succ n => simp [modifyNth, ih]

theorem countP_modifyNth_le {α : Type} (p : α → Bool) (f : α → α) (i : Nat) (l : List α) :
    (modifyNth f i l).countP p ≤ l.countP p + 1 := by
  induction l generalizing i with
  | nil => cases i <;> simp [modifyNth]
  | cons a l ih =>
    cases i with
    | zero =>
      simp only [modifyNth, List.countP_cons]
      split <;> split <;> omega
    | succ n =>
      simp only [modifyNth, List.countP_cons]
      have := ih n
      omega

theorem countP_modifyNth_drop {α : Type} (p : α → Bool) (f : α → α) (i : Nat) (l : List α)
    (a : α) (ha : l[i]? = some a) (hp : p a = true) (hf : p (f a) = false) :
    (modifyNth f i l).countP p + 1 = l.countP p := by
  induction l generalizing i with
  | nil => simp at ha
  | cons b l ih =>
    cases i with
    | zero =>
      simp at ha
      subst ha
      simp [modifyNth, List.countP_cons, hp, hf]
    | succ n =>
      simp at ha
      simp only [modifyNth, List.countP_cons]
      have := ih n ha
      omega

theorem firstWith_some {α : Type} (p : α → Bool) (l : List α) (i : Nat) (a : α)
    (h : firstWith p l = some (i, a)) : l[i]? = some a ∧ p a = true := by
  induction l generalizing i with
  | nil => simp [firstWith] at h
  | cons b l ih =>
    simp only [firstWith] at h
    split at h
    · simp at h
      obtain ⟨rfl, rfl⟩ := h
      simp [*]
    · cases hr : firstWith p l with
      | none => simp [hr] at h
      | some r =>
        simp [hr] at h
        obtain ⟨rfl, rfl⟩ := h
        have := ih r.1 (by simp [hr])
        simpa using this

theorem mapFind_mapAssign {β : Type} (k k' : String) (v w : β) (m : List (String × β))
    (h : mapFind k m = some w) :
    mapFind k' (mapAssign k v m) = if k' = k then some v else mapFind k' m := by
  induction m with
  | nil => simp [mapFind] at h
  | cons e m ih =>
    obtain ⟨k0, v0⟩ := e
    simp only [mapFind] at h
    by_cases h0 : k0 = k
    · subst h0
      simp only [mapAssign, if_true, mapFind]
      by_cases h1 : k0 = k'
      · subst h1; simp
      · have h2 : ¬ k' = k0 := fun e => h1 e.symm
        simp [h1, h2]
    · simp only [h0, if_false] at h
      simp only [mapAssign, h0, if_false, mapFind, ih h]
      by_cases h1 : k0 = k'
      · subst h1; simp [h0]
      · simp [h1]

theorem map_fst_mapAssign {β : Type} (k : String) (v : β) (m : List (String × β)) :
    (mapAssign k v m).map Prod.fst = m.map Prod.fst := by
  induction m with
  | nil => rfl
  | cons e m ih =>
    obtain ⟨k0, v0⟩ := e
    simp only [mapAssign]
    split <;> simp [ih]

theorem mem_modifyNth {α : Type} (f : α → α) (i : Nat) (l : List α) (x : α)
    (h : x ∈ modifyNth f i l) : x ∈ l ∨ ∃ a, l[i]? = some a ∧ x = f a := by
  induction l generalizing i with
  | nil => cases i <;> simp [modifyNth] at h
  | cons b l ih =>
    cases i with
    | zero =>
      simp only [modifyNth, List.mem_cons] at h
      rcases h with h | h
      · exact Or.inr ⟨b, by simp, h⟩
      · exact Or.inl (List.mem_cons_of_mem _ h)
    | succ n =>
      simp only [modifyNth, List.mem_cons] at h
      rcases h with h | h
      · exact Or.inl (by simp [h])
      · rcases ih n h with h1 | ⟨a, h1, h2⟩
        · exact Or.inl (List.mem_cons_of_mem _ h1)
        · exact Or.inr ⟨a, by simpa using h1, h2⟩

theorem mem_mapAssign {β : Type} (k : String) (v : β) (m : List (String × β))
    (e : String × β) (h : e ∈ mapAssign k v m) : e ∈ m ∨ e = (k, v) := by
  induction m with
  | nil => simp [mapAssign] at h
  | cons e0 m ih =>
    obtain ⟨k0, v0⟩ := e0
    simp only [mapAssign] at h
    split at h
    · rename_i hk
      simp only [List.mem_cons] at h
      rcases h with h | h
      · exact Or.inr (by rw [h, hk])
      · exact Or.inl (List.mem_cons_of_mem _ h)
    · simp only [List.mem_cons] at h
      rcases h with h | h
      · exact Or.inl (by simp [h])
      · rcases ih h with h1 | h1
        · exact Or.inl (List.mem_cons_of_mem _ h1)
        · exact Or.inr h1

theorem mapFind_mem {β : Type} (k : String) (v : β) (m : List (String × β))
    (h : mapFind k m = some v) : (k, v) ∈ m := by
  induction m with
  | nil => simp [mapFind] at h
  | cons e0 m ih =>
    obtain ⟨k0, v0⟩ := e0
    simp only [mapFind] at h
    split at h
    · rename_i hk
      simp only [Option.some.injEq] at h
      simp [hk, h]
    · exact List.mem_cons_of_mem _ (ih h)

theorem mapFind_eq_none_iff {β : Type} (k : String) (m : List (String × β)) :
    mapFind k m = none ↔ k ∉ m.map Prod.fst := by
  induction m with
  | nil => simp [mapFind]
  | cons e m ih =>
    obtain ⟨k0, v0⟩ := e
    simp only [mapFind, List.map_cons, List.mem_cons, not_or]
    split
    · rename_i h
      simp [h]
    · rename_i h
      rw [ih]
      constructor
      · intro h1
        exact ⟨fun e => h e.symm, h1⟩
      · intro h1
        exact h1.2

theorem mapInsert_perm {β : Type} (k : String) (v : β) (m : List (String × β))
    (h : mapFind k m = none) : (mapInsert k v m).Perm ((k, v) :: m) := by
  simp only [mapInsert, h]
  exact List.perm_orderedInsert _ _ _

theorem mem_mapInsert {β : Type} (k : String) (v : β) (m : List (String × β))
    (e : String × β) (h : e ∈ mapInsert k v m) : e ∈ m ∨ e = (k, v) := by
  unfold mapInsert at h
  split at h
  · exact Or.inl h
  · have := (List.perm_orderedInsert _ _ _).mem_iff.mp h
    simp only [List.mem_cons] at this
    rcases this with h1 | h1
    · exact Or.inr h1
    · exact Or.inl h1

theorem mem_mapInsert_of_mem {β : Type} (k : String) (v : β) (m : List (String × β))
    (e : String × β) (h : e ∈ m) : e ∈ mapInsert k v m := by
  unfold mapInsert
  split
  · exact h
  · exact (List.perm_orderedInsert _ _ _).mem_iff.mpr (List.mem_cons_of_mem _ h)

theorem nodup_keys_mapInsert {β : Type} (k : String) (v : β) (m : List (String × β))
    (h : (m.map Prod.fst).Nodup) : ((mapInsert k v m).map Prod.fst).Nodup := by
  cases hf : mapFind k m with
  | some w => simpa [mapInsert, hf] using h
  | none =>
    have hp := (mapInsert_perm k v m hf).map Prod.fst
    rw [hp.nodup_iff]
    simp only [List.map_cons, List.nodup_cons]
    exact ⟨(mapFind_eq_none_iff k m).mp hf, h⟩

theorem mapFind_orderedInsert {β : Type} (r : String × β → String × β → Prop)
    [DecidableRel r] (k : String) (v : β) (m : List (String × β))
    (h : mapFind k m = none) : mapFind k (List.orderedInsert r (k, v) m) = some v := by
  induction m with
  | nil => simp [mapFind]
  | cons e m ih =>
    obtain ⟨k0, v0⟩ := e
    simp only [mapFind] at h
    split at h
    · simp at h
    · rename_i hk
      simp only [List.orderedInsert]
      split
      · simp [mapFind]
      · simp only [mapFind, hk, if_false]
        exact ih h

theorem mapFind_orderedInsert_ne {β : Type} (r : String × β → String × β → Prop)
    [DecidableRel r] (k q : String) (v : β) (m : List (String × β)) (h : k ≠ q) :
    mapFind q (List.orderedInsert r (k, v) m) = mapFind q m := by
  induction m with
  | nil => simp [mapFind, h]
  | cons e m ih =>
    obtain ⟨k0, v0⟩ := e
    simp only [List.orderedInsert]
    split
    · simp [mapFind, h]
    · simp only [mapFind, ih]

theorem mapFind_mapInsert {β : Type} (k q : String) (v : β) (m : List (String × β)) :
    mapFind q (mapInsert k v m) =
      match mapFind q m with
      | some w => some w
      | none => if k = q then some v else none := by
  unfold mapInsert
  cases hk : mapFind k m with
  | some w0 =>
    simp only
    cases hq : mapFind q m with
    | some w => rfl
    | none =>
      simp only
      by_cases hkq : k = q
      · rw [hkq] at hk
        rw [hk] at hq
        simp at hq
      · simp [hkq]
  | none =>
    simp only
    by_cases hkq : k = q
    · subst hkq
      rw [mapFind_orderedInsert _ _ _ _ hk, hk]
      simp
    · rw [mapFind_orderedInsert_ne _ _ _ _ _ hkq]
      cases hq : mapFind q m with
      | some w => rfl
      | none => simp [hkq]

/-! ## The coordination store: lemmas -/

theorem mapFind_append_some {β : Type} (p q : String) (v w : β) (m : List (String × β))
    (h : mapFind p m = some w) : mapFind p (m ++ [(q, v)]) = some w := by
  induction m with
  | nil => simp [mapFind] at h
  | cons e m ih =>
    obtain ⟨k0, v0⟩ := e
    simp only [mapFind, List.cons_append] at h ⊢
    split
    · rename_i hk
      simpa [hk] using h
    · rename_i hk
      simp only [hk, if_false] at h
      exact ih h

theorem mapFind_append_none {β : Type} (p q : String) (v : β) (m : List (String × β))
    (h : mapFind p m = none) :
    mapFind p (m ++ [(q, v)]) = if q = p then some v else none := by
  induction m with
  | nil => simp [mapFind]
  | cons e m ih =>
    obtain ⟨k0, v0⟩ := e
    simp only [mapFind, List.cons_append] at h ⊢
    split
    · rename_i hk
      simp [hk] at h
    · rename_i hk
      simp only [hk, if_false] at h
      exact ih h

theorem mapFind_mapAssign_ne {β : Type} (k q : String) (v : β) (m : List (String × β))
    (h : k ≠ q) : mapFind q (mapAssign k v m) = mapFind q m := by
  induction m with
  | nil => rfl
  | cons e m ih =>
    obtain ⟨k0, v0⟩ := e
    simp only [mapAssign]
    split
    · rename_i hk
      subst hk
      simp [mapFind, h]
    · simp only [mapFind, ih]

namespace ZkClient

theorem next_nodes (zk : ZkClient) : zk.next.2.nodes = zk.nodes := by
  unfold next
  split <;> rfl

theorem GetNodeValue_nodes (zk : ZkClient) (q : String) :
    (zk.GetNodeValue q).2.nodes = zk.nodes := by
  unfold GetNodeValue
  simp only
  split <;> exact next_nodes zk

theorem GetNodeValue_some (zk : ZkClient) (q : String) (v : ZkValue)
    (h : (zk.GetNodeValue q).1 = some v) : mapFind q zk.nodes = some v := by
  unfold GetNodeValue at h
  simp only at h
  split at h
  · exact h
  · simp at h

theorem SetNodeValue_true (zk : ZkClient) (q : String) (v : ZkValue)
    (h : (zk.SetNodeValue q v).1 = true) :
    (zk.SetNodeValue q v).2.nodes = mapAssign q v zk.nodes ∧
      ∃ w, mapFind q zk.nodes = some w := by
  unfold SetNodeValue at h ⊢
  by_cases hn : zk.next.1 = true
  · cases hw : mapFind q zk.nodes with
    | none => simp [hn, hw] at h
    | some w => simp [hn]
  · simp [hn] at h

theorem SetNodeValue_false (zk : ZkClient) (q : String) (v : ZkValue)
    (h : (zk.SetNodeValue q v).1 = false) :
    (zk.SetNodeValue q v).2.nodes = zk.nodes := by
  unfold SetNodeValue at h ⊢
  by_cases hn : zk.next.1 = true
  · cases hw : mapFind q zk.nodes with
    | none => simp [hn, next_nodes]
    | some w => simp [hn, hw] at h
  · simp [hn, next_nodes]

theorem SetNodeValue_find_ne (zk : ZkClient) (q p : String) (v : ZkValue) (h : q ≠ p) :
    mapFind p (zk.SetNodeValue q v).2.nodes = mapFind p zk.nodes := by
  cases hr : (zk.SetNodeValue q v).1 with
  | true => rw [(SetNodeValue_true zk q v hr).1, mapFind_mapAssign_ne _ _ _ _ h]
  | false => rw [SetNodeValue_false zk q v hr]

theorem SetNodeValue_find (zk : ZkClient) (q : String) (v : ZkValue)
    (h : (zk.SetNodeValue q v).1 = true) :
    mapFind q (zk.SetNodeValue q v).2.nodes = some v := by
  obtain ⟨h1, w, hw⟩ := SetNodeValue_true zk q v h
  rw [h1, mapFind_mapAssign q q v w zk.nodes hw]
  simp

theorem CreateNode_true (zk : ZkClient) (q : String) (v : ZkValue)
    (h : (zk.CreateNode q v).1 = true) :
    (zk.CreateNode q v).2.nodes = zk.nodes ++ [(q, v)] ∧ mapFind q zk.nodes = none := by
  unfold CreateNode at h ⊢
  by_cases hn : zk.next.1 = true
  · cases hw : mapFind q zk.nodes with
    | none => simp [hn]
    | some w => simp [hn, hw] at h
  · simp [hn] at h

theorem CreateNode_false (zk : ZkClient) (q : String) (v : ZkValue)
    (h : (zk.CreateNode q v).1 = false) :
    (zk.CreateNode q v).2.nodes = zk.nodes := by
  unfold CreateNode at h ⊢
  by_cases hn : zk.next.1 = true
  · cases hw : mapFind q zk.nodes with
    | none => simp [hn, hw] at h
    | some w => simp [hn, next_nodes]
  · simp [hn, next_nodes]

theorem CreateNode_find_some (zk : ZkClient) (q p : String) (v w : ZkValue)
    (h : mapFind p zk.nodes = some w) :
    mapFind p (zk.CreateNode q v).2.nodes = some w := by
  cases hr : (zk.CreateNode q v).1 with
  | true => rw [(CreateNode_true zk q v hr).1, mapFind_append_some _ _ _ _ _ h]
  | false => rw [CreateNode_false zk q v hr, h]

theorem CreateNode_find_ne (zk : ZkClient) (q p : String) (v : ZkValue) (h : q ≠ p) :
    mapFind p (zk.CreateNode q v).2.nodes = mapFind p zk.nodes := by
  cases hf : mapFind p zk.nodes with
  | some w => exact CreateNode_find_some zk q p v w hf
  | none =>
    cases hr : (zk.CreateNode q v).1 with
    | true => rw [(CreateNode_true zk q v hr).1, mapFind_append_none _ _ _ _ hf, if_neg h]
    | false => rw [CreateNode_false zk q v hr, hf]

end ZkClient

/-! ## UpdateLeaderInfo -/

namespace NameServerImpl

theorem NotifyTableChanged_table_info_ (ns : NameServerImpl) :
    (NotifyTableChanged ns).table_info_ = ns.table_info_ := by
  unfold NotifyTableChanged
  split <;> rfl

theorem scanLeaderIndex_old (leader : String) (l : List PartitionMeta) (k : Nat)
    (acc : Option Nat × Option Nat) (i : Nat)
    (h : (scanLeaderIndex leader l k acc).1 = some i) :
    acc.1 = some i ∨
      (k ≤ i ∧ ∃ m, l[i - k]? = some m ∧ (m.is_leader && m.is_alive) = true) := by
  induction l generalizing k acc with
  | nil => exact Or.inl h
  | cons a rest ih =>
    simp only [scanLeaderIndex] at h
    split at h
    · rename_i hc
      rcases ih _ _ h with h1 | ⟨h1, m, h2, h3⟩
      · simp only [Option.some.injEq] at h1
        subst h1
        exact Or.inr ⟨le_refl _, a, by simp, hc⟩
      · refine Or.inr ⟨by omega, m, ?_, h3⟩
        have : i - k = (i - (k + 1)) + 1 := by omega
        rw [this]
        simpa using h2
    · split at h
      · rcases ih _ _ h with h1 | ⟨h1, m, h2, h3⟩
        · exact Or.inl h1
        · refine Or.inr ⟨by omega, m, ?_, h3⟩
          have : i - k = (i - (k + 1)) + 1 := by omega
          rw [this]
          simpa using h2
      · rcases ih _ _ h with h1 | ⟨h1, m, h2, h3⟩
        · exact Or.inl h1
        · refine Or.inr ⟨by omega, m, ?_, h3⟩
          have : i - k = (i - (k + 1)) + 1 := by omega
          rw [this]
          simpa using h2

theorem scanLeaderIndex_old_isSome (leader : String) (l : List PartitionMeta) (k : Nat)
    (acc : Option Nat × Option Nat) (h : acc.1.isSome = true) :
    (scanLeaderIndex leader l k acc).1.isSome = true := by
  induction l generalizing k acc with
  | nil => exact h
  | cons a rest ih =>
    simp only [scanLeaderIndex]
    split
    · exact ih _ _ rfl
    · split
      · exact ih _ _ h
      · exact ih _ _ h

theorem scanLeaderIndex_old_none (leader : String) (l : List PartitionMeta) (k : Nat)
    (acc : Option Nat × Option Nat) (h : (scanLeaderIndex leader l k acc).1 = none) :
    l.countP (fun m => m.is_leader && m.is_alive) = 0 := by
  induction l generalizing k acc with
  | nil => rfl
  | cons a rest ih =>
    simp only [scanLeaderIndex] at h
    split at h
    · have := scanLeaderIndex_old_isSome leader rest (k + 1) (some k, acc.2) rfl
      rw [h] at this
      exact absurd this (by simp)
    · rename_i hc
      have hrest : rest.countP (fun m => m.is_leader && m.is_alive) = 0 := by
        split at h
        · exact ih _ _ h
        · exact ih _ _ h
      rw [List.countP_cons, hrest]
      simp [hc]

theorem scanLeaderIndex_new (leader : String) (l : List PartitionMeta) (k : Nat)
    (acc : Option Nat × Option Nat) (j : Nat)
    (h : (scanLeaderIndex leader l k acc).2 = some j) :
    acc.2 = some j ∨
      (k ≤ j ∧ ∃ m, l[j - k]? = some m ∧ (m.is_leader && m.is_alive) = false ∧
        m.endpoint = leader) := by
  induction l generalizing k acc with
  | nil => exact Or.inl h
  | cons a rest ih =>
    simp only [scanLeaderIndex] at h
    split at h
    · rcases ih _ _ h with h1 | ⟨h1, m, h2, h3⟩
      · exact Or.inl h1
      · refine Or.inr ⟨by omega, m, ?_, h3⟩
        have : j - k = (j - (k + 1)) + 1 := by omega
        rw [this]
        simpa using h2
    · rename_i hc
      split at h
      · rename_i he
        rcases ih _ _ h with h1 | ⟨h1, m, h2, h3⟩
        · simp only [Option.some.injEq] at h1
          subst h1
          exact Or.inr ⟨le_refl _, a, by simp, by simpa using hc, he⟩
        · refine Or.inr ⟨by omega, m, ?_, h3⟩
          have : j - k = (j - (k + 1)) + 1 := by omega
          rw [this]
          simpa using h2
      · rcases ih _ _ h with h1 | ⟨h1, m, h2, h3⟩
        · exact Or.inl h1
        · refine Or.inr ⟨by omega, m, ?_, h3⟩
          have : j - k = (j - (k + 1)) + 1 := by omega
          rw [this]
          simpa using h2

/-- After the old leader is marked, no replica of the partition is leader and
alive, when at most one was before. -/
theorem aliveLeaderCount_markOldLeader (leader : String) (tp : TablePartition)
    (h : aliveLeaderCount tp ≤ 1) :
    aliveLeaderCount
      (markOldLeader (scanLeaderIndex leader tp.partition_meta 0 (none, none)).1 tp) = 0 := by
  cases ho : (scanLeaderIndex leader tp.partition_meta 0 (none, none)).1 with
  | none =>
    simp only [markOldLeader]
    exact scanLeaderIndex_old_none _ _ _ _ ho
  | some i =>
    rcases scanLeaderIndex_old _ _ _ _ _ ho with h1 | ⟨_, m, h2, h3⟩
    · simp at h1
    · have := countP_modifyNth_drop (fun m => m.is_leader && m.is_alive)
        (fun m => { m with is_alive := false }) i tp.partition_meta m (by simpa using h2) h3
        (by simp)
      simp only [markOldLeader, aliveLeaderCount] at *
      omega

theorem aliveLeaderCount_markNewLeader (j : Nat) (d : ChangeLeaderData) (tp : TablePartition) :
    aliveLeaderCount (markNewLeader j d tp) ≤ aliveLeaderCount tp + 1 := by
  simp only [markNewLeader, aliveLeaderCount]
  exact countP_modifyNth_le _ _ _ _

theorem withPartition_withPartition (t : TableInfo) (idx : Nat)
    (f g : TablePartition → TablePartition) :
    withPartition (withPartition t idx f) idx g = withPartition t idx (fun x => g (f x)) := by
  simp [withPartition, modifyNth_modifyNth]

/-- The catalog that `UpdateLeaderInfo` leaves: either the one it found, or the one
it found with one write `g` to the first partition of the table that has the pid
of the payload. -/
theorem UpdateLeaderInfo_catalog (ns : NameServerImpl) (task_info : TaskInfo)
    (op_data : OPData) (d : ChangeLeaderData)
    (hop : FindRunningOP ns task_info.op_id = some op_data)
    (hd : parseChangeLeaderData op_data.op_info_.data = some d) :
    (UpdateLeaderInfo ns task_info).1.table_info_ = ns.table_info_ ∨
    ∃ table idx tp0 g, mapFind d.name ns.table_info_ = some table ∧
      firstWith (fun tp => decide (tp.pid = d.pid)) table.table_partition = some (idx, tp0) ∧
      (UpdateLeaderInfo ns task_info).1.table_info_ =
        mapAssign d.name (withPartition table idx g) ns.table_info_ ∧
      (g tp0).pid = tp0.pid ∧
      (aliveLeaderCount tp0 ≤ 1 → aliveLeaderCount (g tp0) ≤ 1) := by
  cases ht : mapFind d.name ns.table_info_ with
  | none =>
    left
    simp only [UpdateLeaderInfo, hop, hd, ht]
  | some table =>
    cases hf : firstWith (fun tp => decide (tp.pid = d.pid)) table.table_partition with
    | none =>
      left
      simp only [UpdateLeaderInfo, hop, hd, ht, hf]
    | some r =>
      obtain ⟨idx, tp0⟩ := r
      right
      cases hn : (scanLeaderIndex d.leader tp0.partition_meta 0 (none, none)).2 with
      | none =>
        refine ⟨table, idx, tp0, markOldLeader
          (scanLeaderIndex d.leader tp0.partition_meta 0 (none, none)).1, rfl, hf, ?_, ?_, ?_⟩
        · simp only [UpdateLeaderInfo, hop, hd, ht, hf, hn]
        · unfold markOldLeader
          split <;> rfl
        · intro h
          rw [aliveLeaderCount_markOldLeader d.leader tp0 h]
          omega
      | some j =>
        refine ⟨table, idx, tp0, fun x => markNewLeader j d (markOldLeader
          (scanLeaderIndex d.leader tp0.partition_meta 0 (none, none)).1 x), rfl, hf, ?_, ?_, ?_⟩
        · simp only [UpdateLeaderInfo, hop, hd, ht, hf, hn, withPartition_withPartition]
          split
          · rw [NotifyTableChanged_table_info_]
          · rfl
        · simp only [markNewLeader]
          unfold markOldLeader
          split <;> rfl
        · intro h
          have h1 := aliveLeaderCount_markOldLeader d.leader tp0 h
          have h2 := aliveLeaderCount_markNewLeader j d (markOldLeader
            (scanLeaderIndex d.leader tp0.partition_meta 0 (none, none)).1 tp0)
          show aliveLeaderCount (markNewLeader j d (markOldLeader
            (scanLeaderIndex d.leader tp0.partition_meta 0 (none, none)).1 tp0)) ≤ 1
          omega

/-- C1. Whatever the payload of the ChangeLeaderOP and however the task ends
(Done or Failed), the catalog that `UpdateLeaderInfo` leaves holds the same
tables with the same number of partitions; every partition that had at most one
replica that is leader and alive still has at most one; and every partition
other than the target (the first partition with the pid of the payload, in the
table the payload names) is unchanged. -/
theorem UpdateLeaderInfo_at_most_one_alive_leader (ns : NameServerImpl)
    (task_info : TaskInfo) (op_data : OPData) (d : ChangeLeaderData)
    (hop : FindRunningOP ns task_info.op_id = some op_data)
    (hd : parseChangeLeaderData op_data.op_info_.data = some d) :
    (UpdateLeaderInfo ns task_info).1.table_info_.map Prod.fst = ns.table_info_.map Prod.fst ∧
    ∀ name t, mapFind name ns.table_info_ = some t →
      ∃ t', mapFind name (UpdateLeaderInfo ns task_info).1.table_info_ = some t' ∧
        t'.table_partition.length = t.table_partition.length ∧
        ∀ k tp, t.table_partition[k]? = some tp →
          ∃ tp', t'.table_partition[k]? = some tp' ∧
            (aliveLeaderCount tp ≤ 1 → aliveLeaderCount tp' ≤ 1) ∧
            (¬ (name = d.name ∧
                (firstWith (fun x => decide (x.pid = d.pid)) t.table_partition).map Prod.fst
                  = some k) → tp' = tp) := by
  rcases UpdateLeaderInfo_catalog ns task_info op_data d hop hd with h | h
  · rw [h]
    refine ⟨rfl, ?_⟩
    intro name t ht
    exact ⟨t, ht, rfl, fun k tp hk => ⟨tp, hk, fun hc => hc, fun _ => rfl⟩⟩
  · obtain ⟨table, idx, tp0, g, htab, hfirst, hcat, hpid, hcount⟩ := h
    rw [hcat]
    refine ⟨map_fst_mapAssign _ _ _, ?_⟩
    intro name t ht
    rw [mapFind_mapAssign d.name name _ table ns.table_info_ htab]
    by_cases hname : name = d.name
    · subst hname
      rw [htab] at ht
      simp only [Option.some.injEq] at ht
      subst ht
      refine ⟨withPartition table idx g, by simp, by simp [withPartition, length_modifyNth], ?_⟩
      intro k tp hk
      simp only [withPartition, getElem?_modifyNth]
      by_cases hki : k = idx
      · subst hki
        have h0 := (firstWith_some _ _ _ _ hfirst).1
        rw [hk] at h0
        simp only [Option.some.injEq] at h0
        subst h0
        refine ⟨g tp, by simp [hk], hcount, ?_⟩
        intro hnot
        exact absurd (by simp [hfirst]) hnot
      · exact ⟨tp, by simp [hki, hk], fun hc => hc, fun _ => rfl⟩
    · refine ⟨t, by simp [hname, ht], rfl, ?_⟩
      intro k tp hk
      exact ⟨tp, hk, fun hc => hc, fun _ => rfl⟩

/-- A task that ends Done has found the table, the partition and the new leader,
and has made both writes to the partition. -/
theorem UpdateLeaderInfo_done (ns : NameServerImpl) (task_info : TaskInfo)
    (op_data : OPData) (d : ChangeLeaderData)
    (hop : FindRunningOP ns task_info.op_id = some op_data)
    (hd : parseChangeLeaderData op_data.op_info_.data = some d)
    (hdone : (UpdateLeaderInfo ns task_info).2.status = TaskStatus.kDone) :
    ∃ table idx tp0 j, mapFind d.name ns.table_info_ = some table ∧
      firstWith (fun tp => decide (tp.pid = d.pid)) table.table_partition = some (idx, tp0) ∧
      (scanLeaderIndex d.leader tp0.partition_meta 0 (none, none)).2 = some j ∧
      (UpdateLeaderInfo ns task_info).1.table_info_ =
        mapAssign d.name (withPartition table idx (fun x => markNewLeader j d (markOldLeader
          (scanLeaderIndex d.leader tp0.partition_meta 0 (none, none)).1 x))) ns.table_info_ := by
  cases ht : mapFind d.name ns.table_info_ with
  | none => simp [UpdateLeaderInfo, hop, hd, ht] at hdone
  | some table =>
    cases hf : firstWith (fun tp => decide (tp.pid = d.pid)) table.table_partition with
    | none => simp [UpdateLeaderInfo, hop, hd, ht, hf] at hdone
    | some r =>
      obtain ⟨idx, tp0⟩ := r
      cases hn : (scanLeaderIndex d.leader tp0.partition_meta 0 (none, none)).2 with
      | none => simp [UpdateLeaderInfo, hop, hd, ht, hf, hn] at hdone
      | some j =>
        refine ⟨table, idx, tp0, j, rfl, hf, hn, ?_⟩
        simp only [UpdateLeaderInfo, hop, hd, ht, hf, hn, withPartition_withPartition]
        split
        · rw [NotifyTableChanged_table_info_]
        · rfl

theorem two_le_countP {α : Type} (p : α → Bool) (l : List α) (i j : Nat) (a b : α)
    (hij : i < j) (hi : l[i]? = some a) (hj : l[j]? = some b) (ha : p a = true)
    (hb : p b = true) : 2 ≤ l.countP p := by
  induction l generalizing i j with
  | nil => simp at hi
  | cons c l ih =>
    cases j with
    | zero => omega
    | succ j =>
      cases i with
      | zero =>
        simp at hi hj
        subst hi
        have h1 : 0 < l.countP p :=
          List.countP_pos_iff.mpr ⟨b, List.mem_iff_getElem?.mpr ⟨j, hj⟩, hb⟩
        rw [List.countP_cons_of_pos _ _ ha]
        omega
      | succ i =>
        simp at hi hj
        have := ih i j (by omega) hi hj
        rw [List.countP_cons]
        omega

theorem index_unique_of_countP_le_one {α : Type} (p : α → Bool) (l : List α) (i j : Nat)
    (a b : α) (h : l.countP p ≤ 1) (hi : l[i]? = some a) (hj : l[j]? = some b)
    (ha : p a = true) (hb : p b = true) : i = j := by
  rcases Nat.lt_trichotomy i j with hlt | heq | hgt
  · have := two_le_countP p l i j a b hlt hi hj ha hb
    omega
  · exact heq
  · have := two_le_countP p l j i b a hgt hj hi hb ha
    omega

/-- C1, evaluated: the theorem at the scenario, for its table "t". -/
theorem UpdateLeaderInfo_at_most_one_alive_leader_witness :
    FindRunningOP scenarioNs scenarioTask.op_id = some scenarioOp ∧
    parseChangeLeaderData scenarioOp.op_info_.data = some scenarioPayload ∧
    ∃ t', mapFind "t" (UpdateLeaderInfo scenarioNs scenarioTask).1.table_info_ = some t' ∧
      t'.table_partition.length = scenarioTable.table_partition.length ∧
      ∀ k tp, scenarioTable.table_partition[k]? = some tp →
        ∃ tp', t'.table_partition[k]? = some tp' ∧
          (aliveLeaderCount tp ≤ 1 → aliveLeaderCount tp' ≤ 1) ∧
          (¬ ("t" = scenarioPayload.name ∧
              (firstWith (fun x => decide (x.pid = scenarioPayload.pid))
                scenarioTable.table_partition).map Prod.fst = some k) → tp' = tp) :=
  ⟨by decide, by decide,
    (UpdateLeaderInfo_at_most_one_alive_leader scenarioNs scenarioTask scenarioOp
      scenarioPayload (by decide) (by decide)).2 "t" scenarioTable (by decide)⟩

/-- C2, as stated, fails: in the scenario the partition has the alive leader "a:1"
and the payload names the alive follower "b:1"; the task ends Done, and the
replica on "a:1" is then not alive but still has `is_leader = true`. -/
theorem UpdateLeaderInfo_old_leader_still_is_leader :
    (UpdateLeaderInfo scenarioNs scenarioTask).2.status = TaskStatus.kDone ∧
    (mapFind "t" (UpdateLeaderInfo scenarioNs scenarioTask).1.table_info_).map
        (fun t => t.table_partition.map (fun tp => tp.partition_meta)) =
      some [[{ endpoint := "a:1", is_leader := true, is_alive := false },
             { endpoint := "b:1", is_leader := true, is_alive := true }]] := by
  decide

/-- C2, amended. When the task ends Done on a partition whose only replica that is
leader and alive is `L` (at position `i`), and the payload names the endpoint of
the alive follower `F` (at position `j`, the only replica at that endpoint), then
afterwards the replica at `i` is `L` with `is_alive = false` and its `is_leader`
as before (true), and the replica at `j` is `F` with `is_leader = true` and its
`is_alive` as before (true). -/
theorem UpdateLeaderInfo_done_marks_leaders (ns : NameServerImpl) (task_info : TaskInfo)
    (op_data : OPData) (d : ChangeLeaderData)
    (hop : FindRunningOP ns task_info.op_id = some op_data)
    (hd : parseChangeLeaderData op_data.op_info_.data = some d)
    (table : TableInfo) (idx : Nat) (tp : TablePartition) (i j : Nat) (L F : PartitionMeta)
    (htab : mapFind d.name ns.table_info_ = some table)
    (hfirst : firstWith (fun x => decide (x.pid = d.pid)) table.table_partition = some (idx, tp))
    (hL : tp.partition_meta[i]? = some L) (hLl : L.is_leader = true) (hLa : L.is_alive = true)
    (hone : aliveLeaderCount tp ≤ 1)
    (hF : tp.partition_meta[j]? = some F) (hFe : F.endpoint = d.leader)
    (hFa : F.is_alive = true) (hFl : F.is_leader = false)
    (hFu : ∀ j' m, tp.partition_meta[j']? = some m → m.endpoint = d.leader → j' = j)
    (hdone : (UpdateLeaderInfo ns task_info).2.status = TaskStatus.kDone) :
    ∃ t' tp', mapFind d.name (UpdateLeaderInfo ns task_info).1.table_info_ = some t' ∧
      t'.table_partition[idx]? = some tp' ∧
      tp'.partition_meta[i]? = some { L with is_leader := true, is_alive := false } ∧
      tp'.partition_meta[j]? = some { F with is_leader := true, is_alive := true } := by
  obtain ⟨table0, idx0, tp0, j0, htab0, hfirst0, hn, hcat⟩ :=
    UpdateLeaderInfo_done ns task_info op_data d hop hd hdone
  rw [htab] at htab0
  simp only [Option.some.injEq] at htab0
  subst htab0
  rw [hfirst] at hfirst0
  simp only [Option.some.injEq, Prod.mk.injEq] at hfirst0
  obtain ⟨rfl, rfl⟩ := hfirst0
  have hj0 : j0 = j := by
    rcases scanLeaderIndex_new _ _ _ _ _ hn with h1 | ⟨_, m, h2, _, h4⟩
    · simp at h1
    · exact hFu j0 m (by simpa using h2) h4
  subst hj0
  have hLp : (fun m : PartitionMeta => m.is_leader && m.is_alive) L = true := by
    simp [hLl, hLa]
  have hi0 : (scanLeaderIndex d.leader tp.partition_meta 0 (none, none)).1 = some i := by
    cases ho : (scanLeaderIndex d.leader tp.partition_meta 0 (none, none)).1 with
    | none =>
      have h0 := scanLeaderIndex_old_none _ _ _ _ ho
      have h1 : 0 < tp.partition_meta.countP (fun m => m.is_leader && m.is_alive) :=
        List.countP_pos_iff.mpr ⟨L, List.getElem?_mem hL, hLp⟩
      omega
    | some i0 =>
      rcases scanLeaderIndex_old _ _ _ _ _ ho with h1 | ⟨_, m, h2, h3⟩
      · simp at h1
      · have := index_unique_of_countP_le_one _ _ i0 i m L hone (by simpa using h2) hL h3 hLp
        rw [this]
  have hij : i ≠ j0 := by
    intro h
    subst h
    rw [hL] at hF
    simp only [Option.some.injEq] at hF
    subst hF
    rw [hLl] at hFl
    exact absurd hFl (by simp)
  have hidx := (firstWith_some _ _ _ _ hfirst).1
  refine ⟨withPartition table idx (fun x => markNewLeader j0 d (markOldLeader
    (scanLeaderIndex d.leader tp.partition_meta 0 (none, none)).1 x)),
    markNewLeader j0 d (markOldLeader
      (scanLeaderIndex d.leader tp.partition_meta 0 (none, none)).1 tp), ?_, ?_, ?_, ?_⟩
  · rw [hcat, mapFind_mapAssign d.name d.name _ table ns.table_info_ htab]
    simp
  · simp only [withPartition, getElem?_modifyNth, hidx]
    simp
  · simp only [markNewLeader, markOldLeader, hi0, getElem?_modifyNth, hij, hL]
    simp [hLl]
  · simp only [markNewLeader, markOldLeader, hi0, getElem?_modifyNth, hF]
    simp [Ne.symm hij, hF, hFa]

/-! ## SelectLeader and the term of a leader -/

theorem findFront_setFrontData (op_id : Nat) (data : OPPayload) (tv : List (List OPData)) :
    findFront op_id (setFrontData op_id data tv) =
      (findFront op_id tv).map
        (fun op => { op with op_info_ := { op.op_info_ with data := data } }) := by
  induction tv with
  | nil => rfl
  | cons q rest ih =>
    cases q with
    | nil => simpa [findFront, setFrontData] using ih
    | cons front q =>
      by_cases h : front.op_info_.op_id = op_id
      · simp [findFront, setFrontData, h]
      · simp [findFront, setFrontData, h, ih]

theorem writeLeader_done (ns : NameServerImpl) (task_info : TaskInfo) (rand_next : Nat)
    (cur_term : Nat) (max_offset : Nat) (leader_endpoint_vec : List String)
    (hdone : (writeLeader ns task_info rand_next cur_term max_offset leader_endpoint_vec).2.status
      = TaskStatus.kDone) :
    (writeLeader ns task_info rand_next cur_term max_offset leader_endpoint_vec).1.table_info_
      = ns.table_info_ ∧
    (writeLeader ns task_info rand_next cur_term max_offset leader_endpoint_vec).1.term_
      = ns.term_ ∧
    ∃ op_data d,
      FindRunningOP (writeLeader ns task_info rand_next cur_term max_offset
        leader_endpoint_vec).1 task_info.op_id = some op_data ∧
      parseChangeLeaderData op_data.op_info_.data = some d ∧
      d.term = u64 (cur_term + 1) := by
  unfold writeLeader at hdone ⊢
  cases hop : FindRunningOP ns task_info.op_id with
  | none => simp [hop] at hdone
  | some op =>
    cases hcd : parseChangeLeaderData op.op_info_.data with
    | none => simp [hop, hcd] at hdone
    | some cd =>
      cases hle : chooseLeader cd.candidate_leader leader_endpoint_vec rand_next with
      | none => simp [hop, hcd, hle] at hdone
      | some le =>
        simp only [hop, hcd, hle]
        refine ⟨trivial, trivial, ?_⟩
        simp only [FindRunningOP] at hop ⊢
        simp only [findFront_setFrontData, hop]
        exact ⟨_, _, rfl, rfl, rfl⟩

/-- A SelectLeader task that ends Done has left the catalog as it was, has raised
the term counter by two, and has put that term into the payload of its OP. -/
theorem SelectLeader_done (ns : NameServerImpl) (name : String) (tid pid : Nat)
    (follower_endpoint : List String) (task_info : TaskInfo) (rand_next : Nat)
    (hdone : (SelectLeader ns name tid pid follower_endpoint task_info rand_next).2.status
      = TaskStatus.kDone) :
    (SelectLeader ns name tid pid follower_endpoint task_info rand_next).1.table_info_
      = ns.table_info_ ∧
    (SelectLeader ns name tid pid follower_endpoint task_info rand_next).1.term_
      = u64 (ns.term_ + 2) ∧
    ∃ op_data d,
      FindRunningOP (SelectLeader ns name tid pid follower_endpoint task_info rand_next).1
        task_info.op_id = some op_data ∧
      parseChangeLeaderData op_data.op_info_.data = some d ∧
      d.term = u64 (u64 (ns.term_ + 1) + 1) := by
  unfold SelectLeader at hdone ⊢
  by_cases hg : selectLeaderGuard ns name pid = true
  · cases hz : (ns.zk_client_.SetNodeValue zk_term_node_ (ZkValue.num (u64 (ns.term_ + 2)))).1 with
    | false => simp [hg, hz] at hdone
    | true =>
      cases hf : (followOfNoOne ns.tablets_ follower_endpoint ns.tablet_replies_ (0, [])).1 with
      | none => simp [hg, hz, hf] at hdone
      | some found =>
        simp only [hg, hz, hf, Bool.not_true, Bool.false_eq_true, if_false] at hdone ⊢
        exact writeLeader_done _ _ _ _ _ _ hdone
  · simp [hg] at hdone

/-- C2, amended, evaluated: the theorem at the scenario, with `L` the replica on
"a:1" and `F` the replica on "b:1". -/
theorem UpdateLeaderInfo_done_marks_leaders_witness :
    (UpdateLeaderInfo scenarioNs scenarioTask).2.status = TaskStatus.kDone ∧
    ∃ t' tp', mapFind "t" (UpdateLeaderInfo scenarioNs scenarioTask).1.table_info_ = some t' ∧
      t'.table_partition[0]? = some tp' ∧
      tp'.partition_meta[0]? =
        some { endpoint := "a:1", is_leader := true, is_alive := false } ∧
      tp'.partition_meta[1]? =
        some { endpoint := "b:1", is_leader := true, is_alive := true } :=
  ⟨by decide,
    UpdateLeaderInfo_done_marks_leaders scenarioNs scenarioTask scenarioOp scenarioPayload
      (by decide) (by decide) scenarioTable 0
      { pid := 0,
        partition_meta :=
          [{ endpoint := "a:1", is_leader := true, is_alive := true },
           { endpoint := "b:1", is_leader := false, is_alive := true }],
        term_offset := [{ term := 1, offset := 0 }] }
      0 1 { endpoint := "a:1", is_leader := true, is_alive := true }
      { endpoint := "b:1", is_leader := false, is_alive := true }
      (by decide) (by decide) (by decide) rfl rfl (by decide) (by decide) (by decide) rfl rfl
      (by
        intro j' m h he
        rcases j' with _ | _ | j'
        · simp at h
          subst h
          simp [scenarioPayload] at he
        · rfl
        · simp at h)
      (by decide)⟩

theorem NotifyTableChanged_table_index_ (ns : NameServerImpl) :
    (NotifyTableChanged ns).table_index_ = ns.table_index_ := by
  unfold NotifyTableChanged
  split <;> rfl

theorem NotifyTableChanged_term_ (ns : NameServerImpl) :
    (NotifyTableChanged ns).term_ = ns.term_ := by
  unfold NotifyTableChanged
  split <;> rfl

theorem UpdateLeaderInfo_term_ (ns : NameServerImpl) (task_info : TaskInfo) :
    (UpdateLeaderInfo ns task_info).1.term_ = ns.term_ := by
  unfold UpdateLeaderInfo
  split
  · rfl
  · split
    · rfl
    · simp only
      split
      · rfl
      · split
        · rfl
        · split
          · rfl
          · split
            · rw [NotifyTableChanged_term_]
            · rfl

theorem termOffsetOk_mono (a b : Nat) (tp : TablePartition) (hab : a ≤ b)
    (h : termOffsetOk a tp) : termOffsetOk b tp :=
  ⟨h.1, fun x hx => le_trans (h.2 x hx) hab⟩

theorem termOffsetOk_markNewLeader (term : Nat) (o : Option Nat) (j : Nat)
    (d : ChangeLeaderData) (tp : TablePartition) (h : termOffsetOk term tp)
    (hd : term < d.term) : termOffsetOk d.term (markNewLeader j d (markOldLeader o tp)) := by
  have hto : (markOldLeader o tp).term_offset = tp.term_offset := by
    unfold markOldLeader
    split <;> rfl
  constructor
  · simp only [markNewLeader, hto, List.map_append, List.map_cons, List.map_nil]
    rw [List.pairwise_append]
    refine ⟨h.1, by simp, ?_⟩
    intro a ha b hb
    simp only [List.mem_singleton] at hb
    subst hb
    simp only [List.mem_map] at ha
    obtain ⟨x, hx, rfl⟩ := ha
    exact lt_of_le_of_lt (h.2 x hx) hd
  · intro x hx
    simp only [markNewLeader, hto, List.mem_append, List.mem_singleton] at hx
    rcases hx with hx | hx
    · exact le_of_lt (lt_of_le_of_lt (h.2 x hx) hd)
    · subst hx
      exact le_refl _

/-- Leader change: a SelectLeader task that ends Done, followed by an
UpdateLeaderInfo task of the same OP that ends Done, keeps the invariant on the
term-offset lists, as long as the 64-bit term counter does not wrap. -/
theorem leader_change_keeps_termOffsetInv (ns : NameServerImpl) (name : String)
    (tid pid : Nat) (follower_endpoint : List String) (select update : TaskInfo)
    (rand_next : Nat) (hinv : termOffsetInv ns)
    (hrange : ns.term_ + 2 < 18446744073709551616)
    (hsame : update.op_id = select.op_id)
    (hsel : (SelectLeader ns name tid pid follower_endpoint select rand_next).2.status
      = TaskStatus.kDone)
    (hupd : (UpdateLeaderInfo
      (SelectLeader ns name tid pid follower_endpoint select rand_next).1 update).2.status
      = TaskStatus.kDone) :
    termOffsetInv (UpdateLeaderInfo
      (SelectLeader ns name tid pid follower_endpoint select rand_next).1 update).1 := by
  obtain ⟨hcat1, hterm1, op_data, d, hop, hd, hdterm⟩ :=
    SelectLeader_done ns name tid pid follower_endpoint select rand_next hsel
  rw [← hsame] at hop
  obtain ⟨table, idx, tp0, j, htab, hfirst, _, hcat2⟩ :=
    UpdateLeaderInfo_done _ update op_data d hop hd hupd
  have hu1 : u64 (ns.term_ + 1) = ns.term_ + 1 := by
    unfold u64
    exact Nat.mod_eq_of_lt (by omega)
  have hu2 : u64 (ns.term_ + 2) = ns.term_ + 2 := by
    unfold u64
    exact Nat.mod_eq_of_lt hrange
  have hdt : d.term = ns.term_ + 2 := by
    rw [hdterm, hu1, hu2]
  intro e he tp htp
  rw [UpdateLeaderInfo_term_, hterm1, hu2]
  rw [hcat2, hcat1] at he
  rw [hcat1] at htab
  rcases mem_mapAssign _ _ _ _ he with he | he
  · exact termOffsetOk_mono _ _ _ (by omega) (hinv e he tp htp)
  · subst he
    simp only [withPartition] at htp
    rcases mem_modifyNth _ _ _ _ htp with h1 | ⟨a, h1, h2⟩
    · exact termOffsetOk_mono _ _ _ (by omega)
        (hinv _ (mapFind_mem _ _ _ htab) tp h1)
    · have ha0 := (firstWith_some _ _ _ _ hfirst).1
      rw [h1] at ha0
      simp only [Option.some.injEq] at ha0
      subst ha0
      subst h2
      have hok := hinv _ (mapFind_mem _ _ _ htab) a (List.getElem?_mem h1)
      have := termOffsetOk_markNewLeader ns.term_
        (scanLeaderIndex d.leader a.partition_meta 0 (none, none)).1 j d a hok (by omega)
      rw [hdt] at this
      exact this

/-! ## CreateTableOnTablet -/

theorem createOnReplicas_follower (tablets : List (String × TabletInfo)) (term : Nat)
    (metas : List PartitionMeta) (replies : List (Option Nat)) (tos : List TermPair) :
    (createOnReplicas tablets false term metas replies tos).2.2 = tos := by
  induction metas generalizing replies with
  | nil => rfl
  | cons m rest ih =>
    simp only [createOnReplicas]
    split
    · exact ih _
    · split
      · rfl
      · split
        · rfl
        · split
          · rfl
          · exact ih _

theorem createOnReplicas_leader (tablets : List (String × TabletInfo)) (term : Nat)
    (metas : List PartitionMeta) (replies : List (Option Nat)) (tos : List TermPair) :
    ∃ k, k ≤ metas.countP PartitionMeta.is_leader ∧
      (createOnReplicas tablets true term metas replies tos).2.2 =
        tos ++ List.replicate k { term := term, offset := 0 } := by
  induction metas generalizing replies tos with
  | nil => exact ⟨0, by simp, by simp [createOnReplicas]⟩
  | cons m rest ih =>
    simp only [createOnReplicas]
    split
    · obtain ⟨k, hk, h⟩ := ih replies tos
      exact ⟨k, by rw [List.countP_cons]; omega, h⟩
    · rename_i hm
      have hlead : m.is_leader = true := by
        cases hl : m.is_leader
        · simp [hl] at hm
        · rfl
      split
      · exact ⟨0, by simp, by simp⟩
      · split
        · exact ⟨0, by simp, by simp⟩
        · split
          · refine ⟨1, ?_, by simp⟩
            rw [List.countP_cons_of_pos _ _ hlead]
            omega
          · rename_i replies1 _
            obtain ⟨k, hk, h⟩ := ih replies1 (tos ++ [{ term := term, offset := 0 }])
            refine ⟨k + 1, ?_, ?_⟩
            · rw [List.countP_cons_of_pos _ _ hlead]
              omega
            · simp only [if_true] at h ⊢
              rw [h, List.append_assoc]
              congr 1

theorem createOnPartitions_follower (tablets : List (String × TabletInfo)) (term : Nat)
    (l : List TablePartition) (replies : List (Option Nat)) :
    (createOnPartitions tablets false term l replies).2.2 = l := by
  induction l generalizing replies with
  | nil => rfl
  | cons tp rest ih =>
    simp only [createOnPartitions]
    split
    · simp only [createOnReplicas_follower, ih]
    · simp only [createOnReplicas_follower]

theorem createOnPartitions_leader (tablets : List (String × TabletInfo)) (term : Nat)
    (l : List TablePartition) (replies : List (Option Nat)) :
    List.Forall₂ (fun tp tp' : TablePartition =>
        tp'.pid = tp.pid ∧ tp'.partition_meta = tp.partition_meta ∧
        ∃ k, k ≤ tp.partition_meta.countP PartitionMeta.is_leader ∧
          tp'.term_offset = tp.term_offset ++ List.replicate k { term := term, offset := 0 })
      l (createOnPartitions tablets true term l replies).2.2 := by
  have hrefl : ∀ l : List TablePartition, List.Forall₂ (fun tp tp' : TablePartition =>
        tp'.pid = tp.pid ∧ tp'.partition_meta = tp.partition_meta ∧
        ∃ k, k ≤ tp.partition_meta.countP PartitionMeta.is_leader ∧
          tp'.term_offset = tp.term_offset ++ List.replicate k { term := term, offset := 0 })
      l l := by
    intro l
    induction l with
    | nil => exact List.Forall₂.nil
    | cons a l ih => exact List.Forall₂.cons ⟨rfl, rfl, 0, by simp, by simp⟩ ih
  induction l generalizing replies with
  | nil => exact List.Forall₂.nil
  | cons tp rest ih =>
    obtain ⟨k, hk, h⟩ := createOnReplicas_leader tablets term tp.partition_meta replies
      tp.term_offset
    simp only [createOnPartitions]
    split
    · exact List.Forall₂.cons ⟨rfl, rfl, k, hk, h⟩ (ih _)
    · exact List.Forall₂.cons ⟨rfl, rfl, k, hk, h⟩ (hrefl rest)

theorem CreateTableOnTablet_state (ns : NameServerImpl) (t : TableInfo) (is_leader : Bool)
    (codec_ok : Bool) (term : Nat) :
    ∃ replies, (CreateTableOnTablet ns t is_leader codec_ok term).2.1 =
      { ns with tablet_replies_ := replies } := by
  unfold CreateTableOnTablet
  split
  · split
    · exact ⟨ns.tablet_replies_, rfl⟩
    · exact ⟨_, rfl⟩
  · exact ⟨ns.tablet_replies_, rfl⟩

theorem CreateTableOnTablet_follower (ns : NameServerImpl) (t : TableInfo)
    (codec_ok : Bool) (term : Nat) :
    (CreateTableOnTablet ns t false codec_ok term).2.2 = t := by
  unfold CreateTableOnTablet
  split
  · split
    · rfl
    · simp only [createOnPartitions_follower]
  · rfl

theorem forall₂_leader_refl (term : Nat) (l : List TablePartition) :
    List.Forall₂ (fun tp tp' : TablePartition =>
        tp'.pid = tp.pid ∧ tp'.partition_meta = tp.partition_meta ∧
        ∃ k, k ≤ tp.partition_meta.countP PartitionMeta.is_leader ∧
          tp'.term_offset = tp.term_offset ++ List.replicate k { term := term, offset := 0 })
      l l := by
  induction l with
  | nil => exact List.Forall₂.nil
  | cons a l ih => exact List.Forall₂.cons ⟨rfl, rfl, 0, by simp, by simp⟩ ih

theorem CreateTableOnTablet_leader (ns : NameServerImpl) (t : TableInfo)
    (codec_ok : Bool) (term : Nat) :
    ∃ l', (CreateTableOnTablet ns t true codec_ok term).2.2 = { t with table_partition := l' } ∧
      List.Forall₂ (fun tp tp' : TablePartition =>
        tp'.pid = tp.pid ∧ tp'.partition_meta = tp.partition_meta ∧
        ∃ k, k ≤ tp.partition_meta.countP PartitionMeta.is_leader ∧
          tp'.term_offset = tp.term_offset ++ List.replicate k { term := term, offset := 0 })
        t.table_partition l' := by
  unfold CreateTableOnTablet
  split
  · split
    · exact ⟨t.table_partition, rfl, forall₂_leader_refl term _⟩
    · exact ⟨_, rfl, createOnPartitions_leader _ _ _ _⟩
  · exact ⟨t.table_partition, rfl, forall₂_leader_refl term _⟩

/-- A table that `commitTable` enters into the catalog is the table it was given,
with at most one pair `(cur_term, 0)` per leader replica added to the
`term_offset` list of each partition. -/
theorem commitTable_ok (ns : NameServerImpl) (codec : SchemaCodec) (t : TableInfo)
    (term : Nat) (h : (commitTable ns codec t term).2 = 0) :
    ∃ l', List.Forall₂ (fun tp tp' : TablePartition =>
        tp'.pid = tp.pid ∧ tp'.partition_meta = tp.partition_meta ∧
        ∃ k, k ≤ tp.partition_meta.countP PartitionMeta.is_leader ∧
          tp'.term_offset = tp.term_offset ++ List.replicate k { term := term, offset := 0 })
        t.table_partition l' ∧
      (commitTable ns codec t term).1.table_info_ =
        mapInsert t.name { t with table_partition := l' } ns.table_info_ ∧
      (commitTable ns codec t term).1.term_ = ns.term_ ∧
      (commitTable ns codec t term).1.table_index_ = ns.table_index_ := by
  unfold commitTable at h ⊢
  cases hc : codec.ConvertColumnDesc t with
  | none => simp [hc] at h
  | some columns =>
    simp only [hc] at h ⊢
    rw [CreateTableOnTablet_follower] at h ⊢
    obtain ⟨r1, hr1⟩ := CreateTableOnTablet_state ns t false (codec.Encode columns) term
    rw [hr1] at h ⊢
    obtain ⟨l', hl', hforall⟩ := CreateTableOnTablet_leader
      { ns with tablet_replies_ := r1 } t (codec.Encode columns) term
    obtain ⟨r2, hr2⟩ := CreateTableOnTablet_state
      { ns with tablet_replies_ := r1 } t true (codec.Encode columns) term
    rw [hl', hr2] at h ⊢
    refine ⟨l', hforall, ?_⟩
    split at h
    · simp at h
    · split at h
      · simp at h
      · split at h
        · simp at h
        · rename_i h1 h2 h3
          simp only [h1, h2, h3, if_false]
          simp [NotifyTableChanged_table_info_, NotifyTableChanged_term_,
            NotifyTableChanged_table_index_]

/-! ## SetPartitionInfo -/

theorem healthyBuckets_nodup (tablets : List (String × TabletInfo)) (acc : List (String × Nat))
    (h : (acc.map Prod.fst).Nodup) : ((healthyBuckets tablets acc).map Prod.fst).Nodup := by
  induction tablets generalizing acc with
  | nil => exact h
  | cons e rest ih =>
    obtain ⟨endpoint, tablet⟩ := e
    simp only [healthyBuckets]
    split
    · exact ih _ (nodup_keys_mapInsert _ _ _ h)
    · exact ih _ h

theorem healthyBuckets_healthy (tablets : List (String × TabletInfo))
    (acc : List (String × Nat)) (k : String)
    (h : k ∈ (healthyBuckets tablets acc).map Prod.fst) :
    k ∈ acc.map Prod.fst ∨
      ∃ t, (k, t) ∈ tablets ∧ t.state_ = TabletState.kTabletHealthy := by
  induction tablets generalizing acc with
  | nil => exact Or.inl h
  | cons e rest ih =>
    obtain ⟨endpoint, tablet⟩ := e
    simp only [healthyBuckets] at h
    split at h
    · rename_i hs
      rcases ih _ h with h1 | ⟨t, h1, h2⟩
      · simp only [List.mem_map] at h1
        obtain ⟨x, hx, rfl⟩ := h1
        rcases mem_mapInsert _ _ _ _ hx with h3 | h3
        · exact Or.inl (List.mem_map.mpr ⟨x, h3, rfl⟩)
        · subst h3
          exact Or.inr ⟨tablet, by simp, hs⟩
      · exact Or.inr ⟨t, List.mem_cons_of_mem _ h1, h2⟩
    · rcases ih _ h with h1 | ⟨t, h1, h2⟩
      · exact Or.inl h1
      · exact Or.inr ⟨t, List.mem_cons_of_mem _ h1, h2⟩

theorem map_fst_mapIncr (endpoint : String) (m : List (String × Nat)) :
    (mapIncr endpoint m).map Prod.fst = m.map Prod.fst := by
  unfold mapIncr
  split
  · exact map_fst_mapAssign _ _ _
  · rfl

theorem countReplica_keys (acc : List (String × Nat) × List (String × Nat))
    (m : PartitionMeta) :
    (countReplica acc m).1.map Prod.fst = acc.1.map Prod.fst ∧
    (countReplica acc m).2.map Prod.fst = acc.2.map Prod.fst := by
  unfold countReplica
  split
  · exact ⟨rfl, rfl⟩
  · refine ⟨map_fst_mapIncr _ _, ?_⟩
    simp only
    split
    · exact map_fst_mapIncr _ _
    · rfl

theorem foldl_keys {α : Type} (f : List (String × Nat) × List (String × Nat) → α →
      List (String × Nat) × List (String × Nat))
    (hf : ∀ acc a, (f acc a).1.map Prod.fst = acc.1.map Prod.fst ∧
      (f acc a).2.map Prod.fst = acc.2.map Prod.fst)
    (l : List α) (acc : List (String × Nat) × List (String × Nat)) :
    (l.foldl f acc).1.map Prod.fst = acc.1.map Prod.fst ∧
    (l.foldl f acc).2.map Prod.fst = acc.2.map Prod.fst := by
  induction l generalizing acc with
  | nil => exact ⟨rfl, rfl⟩
  | cons a l ih =>
    simp only [List.foldl_cons]
    have h1 := ih (f acc a)
    have h2 := hf acc a
    exact ⟨h1.1.trans h2.1, h1.2.trans h2.2⟩

theorem countReplicas_keys (catalog : List (String × TableInfo))
    (acc : List (String × Nat) × List (String × Nat)) :
    (countReplicas catalog acc).1.map Prod.fst = acc.1.map Prod.fst ∧
    (countReplicas catalog acc).2.map Prod.fst = acc.2.map Prod.fst := by
  unfold countReplicas
  apply foldl_keys
  intro acc1 entry
  apply foldl_keys
  intro acc2 tp
  apply foldl_keys
  exact countReplica_keys

theorem placeReplicas_length (endpoint_vec : List String)
    (endpoint_leader : List (String × Nat)) (n idx pos min_leader_num : Nat)
    (leader : Option Nat) :
    (placeReplicas endpoint_vec endpoint_leader n idx pos min_leader_num leader).1.length = n := by
  induction n generalizing idx pos min_leader_num leader with
  | zero => rfl
  | succ n ih =>
    simp only [placeReplicas, List.length_cons]
    split <;> simp [ih]

theorem placeReplicas_not_leader (endpoint_vec : List String)
    (endpoint_leader : List (String × Nat)) (n idx pos min_leader_num : Nat)
    (leader : Option Nat) :
    ∀ m ∈ (placeReplicas endpoint_vec endpoint_leader n idx pos min_leader_num leader).1,
      m.is_leader = false := by
  induction n generalizing idx pos min_leader_num leader with
  | zero => simp [placeReplicas]
  | succ n ih =>
    intro m hm
    simp only [placeReplicas, List.mem_cons] at hm
    rcases hm with hm | hm
    · rw [hm]
    · split at hm
      · exact ih _ _ _ _ m hm
      · exact ih _ _ _ _ m hm

theorem placeReplicas_endpoints (endpoint_vec : List String)
    (endpoint_leader : List (String × Nat)) (n idx pos min_leader_num : Nat)
    (leader : Option Nat) :
    (placeReplicas endpoint_vec endpoint_leader n idx pos min_leader_num leader).1.map
        PartitionMeta.endpoint =
      (List.range n).map (fun i => endpoint_vec.getD ((pos + i) % endpoint_vec.length) "") := by
  induction n generalizing idx pos min_leader_num leader with
  | zero => rfl
  | succ n ih =>
    have hr : ∀ (a c : Nat) (d : Option Nat),
        (placeReplicas endpoint_vec endpoint_leader n a (pos + 1) c d).1.map
          PartitionMeta.endpoint =
        (List.range n).map
          (fun i => endpoint_vec.getD ((pos + (i + 1)) % endpoint_vec.length) "") := by
      intro a c d
      rw [ih]
      apply List.map_congr_left
      intro i _
      congr 2
      omega
    simp only [placeReplicas, List.map_cons, List.range_succ_eq_map, List.map_map]
    congr 1
    split
    · exact hr _ _ _
    · exact hr _ _ _

theorem placeReplicas_leader_isSome (endpoint_vec : List String)
    (endpoint_leader : List (String × Nat)) (n idx pos min_leader_num : Nat)
    (leader : Option Nat) (h : leader.isSome = true) :
    (placeReplicas endpoint_vec endpoint_leader n idx pos min_leader_num leader).2.isSome
      = true := by
  induction n generalizing idx pos min_leader_num leader with
  | zero => exact h
  | succ n ih =>
    simp only [placeReplicas]
    split
    · exact ih _ _ _ _ rfl
    · exact ih _ _ _ _ h

theorem placeReplicas_leader_lt (endpoint_vec : List String)
    (endpoint_leader : List (String × Nat)) (n idx pos min_leader_num : Nat)
    (leader : Option Nat) (k : Nat)
    (h : (placeReplicas endpoint_vec endpoint_leader n idx pos min_leader_num leader).2
      = some k) :
    leader = some k ∨ (idx ≤ k ∧ k < idx + n) := by
  induction n generalizing idx pos min_leader_num leader with
  | zero => exact Or.inl h
  | succ n ih =>
    simp only [placeReplicas] at h
    split at h
    · rcases ih _ _ _ _ h with h1 | h1
      · simp only [Option.some.injEq] at h1
        exact Or.inr ⟨by omega, by omega⟩
      · exact Or.inr ⟨by omega, by omega⟩
    · rcases ih _ _ _ _ h with h1 | h1
      · exact Or.inl h1
      · exact Or.inr ⟨by omega, by omega⟩

theorem countP_modifyNth_of_none {α : Type} (p : α → Bool) (f : α → α) (l : List α)
    (k : Nat) (hl : ∀ a ∈ l, p a = false) (hf : ∀ a, p (f a) = true) (hk : k < l.length) :
    (modifyNth f k l).countP p = 1 := by
  induction l generalizing k with
  | nil => simp at hk
  | cons a l ih =>
    have hl0 : l.countP p = 0 := by
      rw [List.countP_eq_zero]
      intro b hb
      simp [hl b (List.mem_cons_of_mem _ hb)]
    cases k with
    | zero =>
      simp only [modifyNth]
      rw [List.countP_cons_of_pos _ _ (hf a), hl0]
    | succ k =>
      simp only [modifyNth]
      have ha : ¬ p a = true := by simp [hl a (List.mem_cons_self _ _)]
      rw [List.countP_cons_of_neg _ _ ha]
      exact ih k (fun b hb => hl b (List.mem_cons_of_mem _ hb))
        (by simpa using hk)

theorem map_endpoint_modifyNth (k : Nat) (l : List PartitionMeta) :
    (modifyNth (fun m : PartitionMeta => { m with is_leader := true }) k l).map
      PartitionMeta.endpoint = l.map PartitionMeta.endpoint := by
  induction l generalizing k with
  | nil => cases k <;> rfl
  | cons a l ih =>
    cases k with
    | zero => rfl
    | succ k => simp [modifyNth, ih]

theorem flagLeader_endpoints (placed : List PartitionMeta × Option Nat) :
    (flagLeader placed).map PartitionMeta.endpoint = placed.1.map PartitionMeta.endpoint := by
  unfold flagLeader
  split
  · exact map_endpoint_modifyNth _ _
  · rfl

theorem flagLeader_length (placed : List PartitionMeta × Option Nat) :
    (flagLeader placed).length = placed.1.length := by
  unfold flagLeader
  split
  · exact length_modifyNth _ _ _
  · rfl

theorem flagLeader_count_le (placed : List PartitionMeta × Option Nat)
    (h : ∀ m ∈ placed.1, m.is_leader = false) :
    (flagLeader placed).countP PartitionMeta.is_leader ≤ 1 := by
  have h0 : placed.1.countP PartitionMeta.is_leader = 0 := by
    rw [List.countP_eq_zero]
    intro b hb
    simp [h b hb]
  unfold flagLeader
  split
  · have := countP_modifyNth_le PartitionMeta.is_leader
      (fun m : PartitionMeta => { m with is_leader := true }) ‹Nat› placed.1
    omega
  · omega

theorem placePartitions_pids (endpoint_vec : List String) (replica_num n pid pos : Nat)
    (endpoint_leader : List (String × Nat)) :
    (placePartitions endpoint_vec replica_num n pid pos endpoint_leader).map TablePartition.pid
      = List.range' pid n := by
  induction n generalizing pid pos endpoint_leader with
  | zero => rfl
  | succ n ih => simp [placePartitions, List.range'_succ, ih]

theorem placePartitions_each (endpoint_vec : List String) (replica_num n pid pos : Nat)
    (endpoint_leader : List (String × Nat)) :
    ∀ tp ∈ placePartitions endpoint_vec replica_num n pid pos endpoint_leader,
      tp.term_offset = [] ∧ tp.partition_meta.length = replica_num ∧
      tp.partition_meta.countP PartitionMeta.is_leader ≤ 1 ∧
      ∃ pos', tp.partition_meta.map PartitionMeta.endpoint =
        (List.range replica_num).map
          (fun i => endpoint_vec.getD ((pos' + i) % endpoint_vec.length) "") := by
  induction n generalizing pid pos endpoint_leader with
  | zero => simp [placePartitions]
  | succ n ih =>
    intro tp htp
    simp only [placePartitions, List.mem_cons] at htp
    rcases htp with htp | htp
    · subst htp
      refine ⟨rfl, ?_, ?_, pos, ?_⟩
      · simp [flagLeader_length, placeReplicas_length]
      · exact flagLeader_count_le _ (placeReplicas_not_leader _ _ _ _ _ _ _)
      · simp only [flagLeader_endpoints, placeReplicas_endpoints]
    · exact ih _ _ _ tp htp

theorem u64_of_lt (n : Nat) (h : n < 18446744073709551616) : u64 n = n :=
  Nat.mod_eq_of_lt h

theorem countLeader_bound (placed : List PartitionMeta × Option Nat)
    (endpoint_leader : List (String × Nat)) (n : Nat)
    (hn : n + 1 < UINT32_MAX)
    (h : ∀ e ∈ endpoint_leader, e.2 + (n + 1) < UINT32_MAX) :
    ∀ e ∈ countLeader placed endpoint_leader, e.2 + n < UINT32_MAX := by
  intro e he
  unfold countLeader at he
  split at he
  · split at he
    · split at he
      · rename_i m _ v hv
        rcases mem_mapAssign _ _ _ _ he with h1 | h1
        · have := h e h1
          omega
        · have hb := h _ (mapFind_mem _ _ _ hv)
          simp only [UINT32_MAX] at hb hn ⊢
          rw [h1]
          simp only
          rw [u64_of_lt _ (by omega)]
          omega
      · rcases mem_mapInsert _ _ _ _ he with h1 | h1
        · have := h e h1
          omega
        · rw [h1]
          simp only [UINT32_MAX] at hn ⊢
          omega
    · have := h e he
      omega
  · have := h e he
    omega

theorem placePartitions_one_leader (endpoint_vec : List String) (replica_num n pid pos : Nat)
    (endpoint_leader : List (String × Nat)) (hr : 1 ≤ replica_num)
    (hn : n < UINT32_MAX)
    (h : ∀ e ∈ endpoint_leader, e.2 + n < UINT32_MAX) :
    ∀ tp ∈ placePartitions endpoint_vec replica_num n pid pos endpoint_leader,
      tp.partition_meta.countP PartitionMeta.is_leader = 1 := by
  induction n generalizing pid pos endpoint_leader with
  | zero => simp [placePartitions]
  | succ n ih =>
    intro tp htp
    simp only [placePartitions, List.mem_cons] at htp
    rcases htp with htp | htp
    · subst htp
      simp only
      obtain ⟨r, rfl⟩ : ∃ r, replica_num = r + 1 := ⟨replica_num - 1, by omega⟩
      have hsome : (placeReplicas endpoint_vec endpoint_leader (r + 1) 0 pos UINT32_MAX
          none).2.isSome = true := by
        simp only [placeReplicas]
        have hcount : (mapFind (endpoint_vec.getD (pos % endpoint_vec.length) "")
            endpoint_leader).getD 0 < UINT32_MAX := by
          cases hf : mapFind (endpoint_vec.getD (pos % endpoint_vec.length) "")
              endpoint_leader with
          | none => simp [UINT32_MAX]
          | some v =>
            have := h _ (mapFind_mem _ _ _ hf)
            simp only [Option.getD_some]
            omega
        rw [if_pos hcount]
        exact placeReplicas_leader_isSome _ _ _ _ _ _ _ rfl
      cases hk : (placeReplicas endpoint_vec endpoint_leader (r + 1) 0 pos UINT32_MAX none).2 with
      | none => simp [hk] at hsome
      | some k =>
        have hlt := placeReplicas_leader_lt _ _ _ _ _ _ _ _ hk
        simp only [flagLeader, hk]
        apply countP_modifyNth_of_none
        · exact placeReplicas_not_leader _ _ _ _ _ _ _
        · intro a
          rfl
        · rw [placeReplicas_length]
          rcases hlt with h1 | h1
          · simp at h1
          · omega
    · exact ih _ _ _ (by omega) (countLeader_bound _ _ _ hn h) tp htp

theorem rotation_nodup (endpoint_vec : List String) (hv : endpoint_vec.Nodup) (r pos : Nat)
    (hr : r ≤ endpoint_vec.length) :
    ((List.range r).map
      (fun i => endpoint_vec.getD ((pos + i) % endpoint_vec.length) "")).Nodup := by
  apply List.Nodup.map_on _ (List.nodup_range r)
  intro x hx y hy hxy
  rw [List.mem_range] at hx hy
  have hlen : 0 < endpoint_vec.length := by omega
  have ha : (pos + x) % endpoint_vec.length < endpoint_vec.length := Nat.mod_lt _ hlen
  have hb : (pos + y) % endpoint_vec.length < endpoint_vec.length := Nat.mod_lt _ hlen
  simp only [List.getD_eq_getElem _ _ ha, List.getD_eq_getElem _ _ hb] at hxy
  have hab := (hv.getElem_inj_iff).mp hxy
  have hmod : x ≡ y [MOD endpoint_vec.length] := Nat.ModEq.add_left_cancel' pos hab
  unfold Nat.ModEq at hmod
  rw [Nat.mod_eq_of_lt (by omega), Nat.mod_eq_of_lt (by omega)] at hmod
  exact hmod

theorem rotation_mem (endpoint_vec : List String) (r pos : Nat)
    (hr : 1 ≤ endpoint_vec.length) :
    ∀ e ∈ (List.range r).map
      (fun i => endpoint_vec.getD ((pos + i) % endpoint_vec.length) ""), e ∈ endpoint_vec := by
  intro e he
  simp only [List.mem_map] at he
  obtain ⟨i, _, rfl⟩ := he
  have ha : (pos + i) % endpoint_vec.length < endpoint_vec.length := Nat.mod_lt _ (by omega)
  rw [List.getD_eq_getElem _ _ ha]
  exact List.getElem_mem ha

theorem healthyBuckets_zero (tablets : List (String × TabletInfo)) (acc : List (String × Nat))
    (h : ∀ e ∈ acc, e.2 = 0) : ∀ e ∈ healthyBuckets tablets acc, e.2 = 0 := by
  induction tablets generalizing acc with
  | nil => exact h
  | cons e0 rest ih =>
    obtain ⟨endpoint, tablet⟩ := e0
    simp only [healthyBuckets]
    split
    · apply ih
      intro e he
      rcases mem_mapInsert _ _ _ _ he with h1 | h1
      · exact h e h1
      · rw [h1]
    · exact ih _ h

theorem mapIncr_bound (endpoint : String) (m : List (String × Nat)) (c : Nat)
    (h : ∀ e ∈ m, e.2 ≤ c) : ∀ e ∈ mapIncr endpoint m, e.2 ≤ c + 1 := by
  intro e he
  unfold mapIncr at he
  split at he
  · rename_i n hn
    rcases mem_mapAssign _ _ _ _ he with h1 | h1
    · have := h e h1
      omega
    · rw [h1]
      have := h _ (mapFind_mem _ _ _ hn)
      have h2 : u64 (n + 1) ≤ n + 1 := Nat.mod_le _ _
      simp only at this ⊢
      omega
  · have := h e he
    omega

theorem countReplica_bound (acc : List (String × Nat) × List (String × Nat))
    (m : PartitionMeta) (c : Nat) (h : ∀ e ∈ acc.2, e.2 ≤ c) :
    ∀ e ∈ (countReplica acc m).2, e.2 ≤ c + 1 := by
  unfold countReplica
  split
  · intro e he
    have := h e he
    omega
  · simp only
    split
    · exact mapIncr_bound _ _ _ h
    · intro e he
      have := h e he
      omega

theorem foldl_bound {α : Type} (f : List (String × Nat) × List (String × Nat) → α →
      List (String × Nat) × List (String × Nat)) (w : α → Nat)
    (hf : ∀ acc a c, (∀ e ∈ acc.2, e.2 ≤ c) → ∀ e ∈ (f acc a).2, e.2 ≤ c + w a)
    (l : List α) (acc : List (String × Nat) × List (String × Nat)) (c : Nat)
    (h : ∀ e ∈ acc.2, e.2 ≤ c) :
    ∀ e ∈ (l.foldl f acc).2, e.2 ≤ c + (l.map w).sum := by
  induction l generalizing acc c with
  | nil => simpa using h
  | cons a l ih =>
    simp only [List.foldl_cons, List.map_cons, List.sum_cons]
    have := ih (f acc a) (c + w a) (hf acc a c h)
    intro e he
    have := this e he
    omega

theorem countReplicas_bound (catalog : List (String × TableInfo))
    (acc : List (String × Nat) × List (String × Nat)) (c : Nat)
    (h : ∀ e ∈ acc.2, e.2 ≤ c) :
    ∀ e ∈ (countReplicas catalog acc).2, e.2 ≤ c + replicaCount catalog := by
  unfold countReplicas replicaCount
  apply foldl_bound _ (fun entry : String × TableInfo =>
    (entry.2.table_partition.map (fun tp => tp.partition_meta.length)).sum) _ _ _ _ h
  intro acc1 entry c1 h1
  apply foldl_bound _ (fun tp : TablePartition => tp.partition_meta.length) _ _ _ _ h1
  intro acc2 tp c2 h2
  have := foldl_bound countReplica (fun _ => 1) countReplica_bound tp.partition_meta acc2 c2 h2
  simpa using this

theorem SetPartitionInfo_ok (ns : NameServerImpl) (table_info : TableInfo)
    (h : ¬ (SetPartitionInfo ns table_info).1 < 0) :
    effectiveReplicaNum ns table_info ≤ (healthyBuckets ns.tablets_ []).length ∧
    (SetPartitionInfo ns table_info).2.table_partition = table_info.table_partition ++
      placePartitions
        ((countReplicas ns.table_info_
          (healthyBuckets ns.tablets_ [], healthyBuckets ns.tablets_ [])).1.map Prod.fst)
        (effectiveReplicaNum ns table_info) (effectivePartitionNum ns table_info) 0
        (minPos (countReplicas ns.table_info_
          (healthyBuckets ns.tablets_ [], healthyBuckets ns.tablets_ [])).1 0 0 UINT64_MAX)
        (countReplicas ns.table_info_
          (healthyBuckets ns.tablets_ [], healthyBuckets ns.tablets_ [])).2 := by
  unfold SetPartitionInfo at h ⊢
  simp only at h ⊢
  split
  · rename_i hlt
    simp [hlt] at h
  · rename_i hlt
    exact ⟨by omega, rfl⟩

/-- C7. For a request without partitions on which `SetPartitionInfo` succeeds with
replica number `r ≥ 1` and partition number `N` (and a catalog of fewer than
`2 ^ 32 - 1 - N` replicas, so that the 32-bit leader counts do not reach their
bound), the partitions it generates have the pids `0 .. N-1` in order; each has
`r` replicas, on pairwise different endpoints, each the endpoint of a healthy
tablet; and exactly one replica of each partition has `is_leader`. -/
theorem SetPartitionInfo_placement (ns : NameServerImpl) (table_info : TableInfo)
    (hnone : table_info.table_partition = [])
    (hok : (SetPartitionInfo ns table_info).1 = 0)
    (hr : 1 ≤ effectiveReplicaNum ns table_info)
    (hrange : replicaCount ns.table_info_ + effectivePartitionNum ns table_info < UINT32_MAX) :
    (SetPartitionInfo ns table_info).2.table_partition.map TablePartition.pid =
      List.range (effectivePartitionNum ns table_info) ∧
    ∀ tp ∈ (SetPartitionInfo ns table_info).2.table_partition,
      tp.partition_meta.length = effectiveReplicaNum ns table_info ∧
      (tp.partition_meta.map PartitionMeta.endpoint).Nodup ∧
      (∀ m ∈ tp.partition_meta,
        ∃ t, (m.endpoint, t) ∈ ns.tablets_ ∧ t.state_ = TabletState.kTabletHealthy) ∧
      tp.partition_meta.countP PartitionMeta.is_leader = 1 := by
  obtain ⟨hle, htp⟩ := SetPartitionInfo_ok ns table_info (by rw [hok]; decide)
  rw [htp, hnone, List.nil_append]
  have hkeys := (countReplicas_keys ns.table_info_
    (healthyBuckets ns.tablets_ [], healthyBuckets ns.tablets_ [])).1
  simp only at hkeys
  rw [hkeys]
  have hnodup : ((healthyBuckets ns.tablets_ []).map Prod.fst).Nodup :=
    healthyBuckets_nodup _ _ (by simp)
  have hlen : ((healthyBuckets ns.tablets_ []).map Prod.fst).length =
    (healthyBuckets ns.tablets_ []).length := by simp
  refine ⟨?_, ?_⟩
  · rw [placePartitions_pids, List.range_eq_range']
  · intro tp htp1
    obtain ⟨_, h2, _, pos', h4⟩ := placePartitions_each _ _ _ _ _ _ tp htp1
    refine ⟨h2, ?_, ?_, ?_⟩
    · rw [h4]
      exact rotation_nodup _ hnodup _ _ (by omega)
    · intro m hm
      have hmem : m.endpoint ∈ tp.partition_meta.map PartitionMeta.endpoint :=
        List.mem_map.mpr ⟨m, hm, rfl⟩
      rw [h4] at hmem
      have := rotation_mem _ _ _ (by omega) _ hmem
      rcases healthyBuckets_healthy _ _ _ this with h5 | h5
      · simp at h5
      · exact h5
    · apply placePartitions_one_leader _ _ _ _ _ _ hr (by omega) _ tp htp1
      intro e he
      have hb := countReplicas_bound ns.table_info_
        (healthyBuckets ns.tablets_ [], healthyBuckets ns.tablets_ []) 0
        (by
          intro e he
          have := healthyBuckets_zero ns.tablets_ [] (by simp) e he
          omega) e he
      omega

/-- C7, evaluated: the theorem at the request of scenario S1. -/
theorem SetPartitionInfo_placement_witness :
    (SetPartitionInfo scenarioNs scenarioRequest).2.table_partition.map TablePartition.pid =
      List.range 3 ∧
    ∀ tp ∈ (SetPartitionInfo scenarioNs scenarioRequest).2.table_partition,
      tp.partition_meta.length = 2 ∧
      (tp.partition_meta.map PartitionMeta.endpoint).Nodup ∧
      (∀ m ∈ tp.partition_meta,
        ∃ t, (m.endpoint, t) ∈ scenarioNs.tablets_ ∧ t.state_ = TabletState.kTabletHealthy) ∧
      tp.partition_meta.countP PartitionMeta.is_leader = 1 :=
  SetPartitionInfo_placement scenarioNs scenarioRequest rfl (by decide) (by decide) (by decide)

/-! ## CreateTable -/

theorem forall₂_mem_right {α β : Type} (R : α → β → Prop) (l : List α) (l' : List β)
    (h : List.Forall₂ R l l') : ∀ b ∈ l', ∃ a ∈ l, R a b := by
  induction h with
  | nil => simp
  | cons hab _ ih =>
    intro b hb
    simp only [List.mem_cons] at hb
    rcases hb with hb | hb
    · subst hb
      exact ⟨_, List.mem_cons_self _ _, hab⟩
    · obtain ⟨a, ha, hr⟩ := ih b hb
      exact ⟨a, List.mem_cons_of_mem _ ha, hr⟩

theorem FillColumnKey_table_partition (request : TableInfo) :
    (FillColumnKey request).2.table_partition = request.table_partition := by
  unfold FillColumnKey
  split
  · rfl
  · split
    · rfl
    · simp only
      split <;> rfl

theorem FillColumnKey_name (request : TableInfo) :
    (FillColumnKey request).2.name = request.name := by
  unfold FillColumnKey
  split
  · rfl
  · split
    · rfl
    · simp only
      split <;> rfl

theorem placeTable_ok (ns : NameServerImpl) (t : TableInfo) (h : (placeTable ns t).1 = 0) :
    (0 < t.table_partition.length ∧ pidCheck t.table_partition = true ∧
      (placeTable ns t).2 = t) ∨
    (t.table_partition = [] ∧ ¬ (SetPartitionInfo ns t).1 < 0 ∧
      (placeTable ns t).2 = (SetPartitionInfo ns t).2) := by
  unfold placeTable at h ⊢
  split
  · rename_i hlen
    simp only [hlen, if_true] at h
    split
    · rename_i hp
      exact Or.inl ⟨hlen, hp, rfl⟩
    · rename_i hp
      simp [hp] at h
  · rename_i hlen
    simp only [hlen, if_false] at h
    split
    · rename_i hs
      simp [hs] at h
    · rename_i hs
      refine Or.inr ⟨?_, hs, rfl⟩
      exact List.length_eq_zero.mp (by omega)

theorem SetPartitionInfo_name (ns : NameServerImpl) (t : TableInfo) :
    (SetPartitionInfo ns t).2.name = t.name := by
  unfold SetPartitionInfo
  simp only
  split <;> rfl

theorem placeTable_name (ns : NameServerImpl) (t : TableInfo) :
    (placeTable ns t).2.name = t.name := by
  unfold placeTable
  split
  · split <;> rfl
  · split
    · rfl
    · exact SetPartitionInfo_name ns t

/-- A call of `CreateTable` that answers 0: the name server is running, the name is
new, the pids passed `placeTable`, the write of the table index succeeded, and
the table that `placeTable` produced is in the catalog under the new tid, with
at most one pair `(term_, 0)` per leader replica added to each partition. -/
theorem CreateTable_ok (ns : NameServerImpl) (codec : SchemaCodec) (request : TableInfo)
    (h : (CreateTable ns codec request).2 = 0) :
    ns.running_ = true ∧
    mapFind request.name ns.table_info_ = none ∧
    (placeTable ns (FillColumnKey request).2).1 = 0 ∧
    (ns.zk_client_.SetNodeValue zk_table_index_node_
      (ZkValue.num (u64 (ns.table_index_ + 1)))).1 = true ∧
    (CreateTable ns codec request).1.table_index_ = u64 (ns.table_index_ + 1) ∧
    (CreateTable ns codec request).1.term_ = ns.term_ ∧
    ∃ l', List.Forall₂ (fun tp tp' : TablePartition =>
        tp'.pid = tp.pid ∧ tp'.partition_meta = tp.partition_meta ∧
        ∃ k, k ≤ tp.partition_meta.countP PartitionMeta.is_leader ∧
          tp'.term_offset = tp.term_offset ++
            List.replicate k { term := ns.term_, offset := 0 })
        (placeTable ns (FillColumnKey request).2).2.table_partition l' ∧
      (CreateTable ns codec request).1.table_info_ =
        mapInsert request.name
          { (placeTable ns (FillColumnKey request).2).2 with
            tid := u32 (u64 (ns.table_index_ + 1)), table_partition := l' }
          ns.table_info_ := by
  unfold CreateTable at h ⊢
  split at h
  · simp at h
  rename_i c1
  rw [if_neg c1]
  split at h
  · simp at h
  rename_i c2
  rw [if_neg c2]
  split at h
  · simp at h
  rename_i c3
  rw [if_neg c3]
  split at h
  · simp at h
  rename_i c4
  rw [if_neg c4]
  split at h
  · simp at h
  rename_i c5
  rw [if_neg c5]
  split at h
  · rename_i c6
    exact absurd h c6
  rename_i c6
  rw [if_neg c6]
  simp only at h ⊢
  split at h
  · simp at h
  rename_i c7
  rw [if_neg c7]
  obtain ⟨l', hforall, hcat, hterm, hidx⟩ := commitTable_ok _ _ _ _ h
  have hnone : mapFind request.name ns.table_info_ = none := by
    rw [FillColumnKey_name] at c4
    cases hf : mapFind request.name ns.table_info_ with
    | none => rfl
    | some v => simp [hf] at c4
  refine ⟨by simpa using c1, hnone, by simpa using c6, by simpa using c7, hidx, hterm,
    l', hforall, ?_⟩
  rw [hcat]
  simp only [placeTable_name, FillColumnKey_name]

/-- Table creation: a call of `CreateTable` that answers 0 keeps the invariant
on the term-offset lists.  The table it enters has, in each partition, the pair
`(term_, 0)` of its leader and nothing else. -/
theorem CreateTable_keeps_termOffsetInv (ns : NameServerImpl) (codec : SchemaCodec)
    (request : TableInfo)
    (hreq : ∀ tp ∈ request.table_partition,
      tp.term_offset = [] ∧ tp.partition_meta.countP PartitionMeta.is_leader ≤ 1)
    (hinv : termOffsetInv ns) (hok : (CreateTable ns codec request).2 = 0) :
    termOffsetInv (CreateTable ns codec request).1 := by
  obtain ⟨_, _, hplace, _, _, hterm, l', hforall, hcat⟩ := CreateTable_ok ns codec request hok
  have hplaced : ∀ tp ∈ (placeTable ns (FillColumnKey request).2).2.table_partition,
      tp.term_offset = [] ∧ tp.partition_meta.countP PartitionMeta.is_leader ≤ 1 := by
    rcases placeTable_ok _ _ hplace with ⟨_, _, h3⟩ | ⟨h1, h2, h3⟩
    · rw [h3, FillColumnKey_table_partition]
      exact hreq
    · rw [h3, (SetPartitionInfo_ok _ _ h2).2, h1, List.nil_append]
      intro tp htp
      obtain ⟨h4, _, h5, _⟩ := placePartitions_each _ _ _ _ _ _ tp htp
      exact ⟨h4, h5⟩
  intro e he tp htp
  rw [hterm]
  rw [hcat] at he
  rcases mem_mapInsert _ _ _ _ he with he | he
  · exact hinv e he tp htp
  · subst he
    simp only at htp
    obtain ⟨tp0, htp0, _, _, k, hk, hto⟩ := forall₂_mem_right _ _ _ hforall tp htp
    obtain ⟨h4, h5⟩ := hplaced tp0 htp0
    rw [h4, List.nil_append] at hto
    have hk1 : k = 0 ∨ k = 1 := by omega
    rcases hk1 with rfl | rfl
    · constructor
      · simp [hto]
      · simp [hto]
    · constructor
      · simp [hto]
      · simp [hto]

/-- C3, a counterexample: the scenario state satisfies `I`; `CreateTable` answers 0
to a request that brings partition 0 with two replicas that are both leader, the
pair `(3, 0)` is written once for each of them, and the state with the new table
does not satisfy `I`.  The same holds of a request whose partition brings a
term-offset entry of term 9: the pair `(3, 0)` is written after it. -/
theorem CreateTable_two_leaders_breaks_invariant :
    termOffsetInv scenarioNs ∧
    ((CreateTable scenarioNs scenarioCodec twoLeaderRequest).2 = 0 ∧
      (mapFind "u" (CreateTable scenarioNs scenarioCodec twoLeaderRequest).1.table_info_).map
          (fun t => t.table_partition.map (fun tp =>
            tp.term_offset.map (fun p => (p.term, p.offset))))
        = some [[(3, 0), (3, 0)]] ∧
      ¬ termOffsetInv (CreateTable scenarioNs scenarioCodec twoLeaderRequest).1) ∧
    ((CreateTable scenarioNs scenarioCodec staleTermRequest).2 = 0 ∧
      (mapFind "u" (CreateTable scenarioNs scenarioCodec staleTermRequest).1.table_info_).map
          (fun t => t.table_partition.map (fun tp =>
            tp.term_offset.map (fun p => (p.term, p.offset))))
        = some [[(9, 0), (3, 0)]] ∧
      ¬ termOffsetInv (CreateTable scenarioNs scenarioCodec staleTermRequest).1) := by
  decide

/-- C3, as the code has it.  Let `I` (`termOffsetInv`) say that in every partition
the terms of the term-offset list increase strictly and none exceeds the term
counter.  A `CreateTable` that answers 0 keeps `I` when the request brings no
partitions, or partitions that have no term-offset entry and at most one leader
each: the pair written at table creation is `(term_, 0)`, once for each leader.
And from a state with `I`, a SelectLeader task that ends Done followed by an
UpdateLeaderInfo task of the same OP that ends Done gives a state with `I`, the
64-bit term counter not wrapping. -/
theorem term_offset_invariant :
    (∀ (ns : NameServerImpl) (codec : SchemaCodec) (request : TableInfo),
      (∀ tp ∈ request.table_partition,
        tp.term_offset = [] ∧ tp.partition_meta.countP PartitionMeta.is_leader ≤ 1) →
      termOffsetInv ns → (CreateTable ns codec request).2 = 0 →
      termOffsetInv (CreateTable ns codec request).1) ∧
    (∀ (ns : NameServerImpl) (name : String) (tid pid : Nat)
      (follower_endpoint : List String) (select update : TaskInfo) (rand_next : Nat),
      termOffsetInv ns → ns.term_ + 2 < 18446744073709551616 →
      update.op_id = select.op_id →
      (SelectLeader ns name tid pid follower_endpoint select rand_next).2.status
        = TaskStatus.kDone →
      (UpdateLeaderInfo
        (SelectLeader ns name tid pid follower_endpoint select rand_next).1 update).2.status
        = TaskStatus.kDone →
      termOffsetInv (UpdateLeaderInfo
        (SelectLeader ns name tid pid follower_endpoint select rand_next).1 update).1) :=
  ⟨CreateTable_keeps_termOffsetInv, leader_change_keeps_termOffsetInv⟩

/-- C3, evaluated at the scenario: the creation of table "u" from a request that
brings its partition, with one leader, and from a request that brings none, and
the change of the leader of partition 0 of table "t". -/
theorem term_offset_invariant_witness :
    ((CreateTable scenarioNs scenarioCodec placedRequest).2 = 0 ∧
      termOffsetInv (CreateTable scenarioNs scenarioCodec placedRequest).1) ∧
    ((CreateTable scenarioNs scenarioCodec scenarioRequest).2 = 0 ∧
      termOffsetInv (CreateTable scenarioNs scenarioCodec scenarioRequest).1) ∧
    termOffsetInv (UpdateLeaderInfo
      (SelectLeader scenarioNs "t" 2 0 ["b:1"] scenarioSelect 0).1 scenarioTask).1 :=
  ⟨⟨by decide, term_offset_invariant.1 scenarioNs scenarioCodec placedRequest
      (by decide) (by decide) (by decide)⟩,
    ⟨by decide, term_offset_invariant.1 scenarioNs scenarioCodec scenarioRequest
      (by decide) (by decide) (by decide)⟩,
    term_offset_invariant.2 scenarioNs "t" 2 0 ["b:1"] scenarioSelect scenarioTask 0
      (by decide) (by decide) rfl (by decide) (by decide)⟩

/-! ## Recover and the counters -/

theorem counterStep_refl (node : String) (get : NameServerImpl → Nat) (ns : NameServerImpl) :
    counterStep node get ns ns := Or.inl ⟨rfl, rfl⟩

theorem counterStep_trans (node : String) (get : NameServerImpl → Nat)
    (a b c : NameServerImpl) (hab : counterStep node get a b) (hbc : counterStep node get b c) :
    counterStep node get a c := by
  rcases hab with ⟨h1, h2⟩ | ⟨h1, h2, h3⟩ | ⟨h1, h2⟩
  · rcases hbc with ⟨g1, g2⟩ | ⟨g1, g2, g3⟩ | ⟨g1, g2⟩
    · exact Or.inl ⟨g1.trans h1, g2.trans h2⟩
    · exact Or.inr (Or.inl ⟨by rw [← h2]; exact g1, g2, g3⟩)
    · exact Or.inr (Or.inr ⟨by rw [← h2]; exact g1, g2⟩)
  · rcases hbc with ⟨g1, g2⟩ | ⟨g1, g2, g3⟩ | ⟨g1, g2⟩
    · exact Or.inr (Or.inl ⟨h1, g1.trans h2, g2.trans h3⟩)
    · rw [h3] at g1
      simp at g1
    · rw [h3] at g1
      simp only [Option.some.injEq, ZkValue.num.injEq] at g1
      exact Or.inr (Or.inl ⟨h1, g1.symm, by rw [g2, ← g1]⟩)
  · rcases hbc with ⟨g1, g2⟩ | ⟨g1, g2, g3⟩ | ⟨g1, g2⟩
    · refine Or.inr (Or.inr ?_)
      rw [g1]
      exact ⟨h1, g2.trans h2⟩
    · rw [h2] at g1
      simp at g1
    · rw [h2] at g1
      simp only [Option.some.injEq, ZkValue.num.injEq] at g1
      exact Or.inr (Or.inr ⟨by rw [← g1]; exact h1, g2⟩)

theorem andThen_step (T : NameServerImpl → NameServerImpl → Prop)
    (htrans : ∀ a b c, T a b → T b c → T a c)
    (ns : NameServerImpl) (x : Option (Bool × NameServerImpl))
    (f : NameServerImpl → Option (Bool × NameServerImpl))
    (hx : ∀ r, x = some r → T ns r.2)
    (hf : ∀ ns1 r, f ns1 = some r → T ns1 r.2) :
    ∀ r, andThen x f = some r → T ns r.2 := by
  intro r h
  unfold andThen at h
  split at h
  · simp at h
  · rename_i ns1
    simp only [Option.some.injEq] at h
    subst h
    exact hx _ rfl
  · rename_i ns1
    exact htrans _ _ _ (hx _ rfl) (hf _ _ h)

theorem recoverCounter_failed (zk zk' : ZkClient) (node : String)
    (h : recoverCounter zk node = CounterRead.failed zk') : zk'.nodes = zk.nodes := by
  unfold recoverCounter at h
  split at h
  · rename_i zk1 hg
    simp only at h
    split at h
    · rename_i hc
      simp only [CounterRead.failed.injEq] at h
      subst h
      have h1 := ZkClient.CreateNode_false zk1 node (ZkValue.num 1) (by simpa using hc)
      have h2 := ZkClient.GetNodeValue_nodes zk node
      rw [hg] at h2
      rw [h1, h2]
    · simp at h
  · split at h <;> simp at h
  · simp at h

theorem recoverCounter_value (zk zk' : ZkClient) (node : String) (n : Nat)
    (h : recoverCounter zk node = CounterRead.value n zk') :
    (mapFind node zk.nodes = none ∧ n = 1 ∧
      mapFind node zk'.nodes = some (ZkValue.num 1)) ∨
    (mapFind node zk.nodes = some (ZkValue.num n) ∧ zk'.nodes = zk.nodes) := by
  unfold recoverCounter at h
  split at h
  · rename_i zk1 hg
    simp only at h
    split at h
    · simp at h
    · rename_i hc
      simp only [CounterRead.value.injEq] at h
      obtain ⟨rfl, rfl⟩ := h
      have h2 := ZkClient.GetNodeValue_nodes zk node
      rw [hg] at h2
      simp only at h2
      obtain ⟨h3, h4⟩ := ZkClient.CreateNode_true zk1 node (ZkValue.num 1) (by simpa using hc)
      left
      refine ⟨by rw [← h2]; exact h4, rfl, ?_⟩
      rw [h3, mapFind_append_none _ _ _ _ h4]
      simp
  · rename_i v zk1 hg
    split at h
    · simp only [CounterRead.value.injEq] at h
      obtain ⟨rfl, rfl⟩ := h
      have h1 := ZkClient.GetNodeValue_some zk node (ZkValue.num v) (by rw [hg])
      have h2 := ZkClient.GetNodeValue_nodes zk node
      rw [hg] at h2
      exact Or.inr ⟨h1, h2⟩
    · simp at h
  · simp at h

theorem recoverCounter_frame (zk : ZkClient) (node p : String) (hp : node ≠ p) :
    (∀ zk', recoverCounter zk node = CounterRead.failed zk' →
      mapFind p zk'.nodes = mapFind p zk.nodes) ∧
    (∀ n zk', recoverCounter zk node = CounterRead.value n zk' →
      mapFind p zk'.nodes = mapFind p zk.nodes) := by
  constructor
  · intro zk' h
    rw [recoverCounter_failed zk zk' node h]
  · intro n zk' h
    unfold recoverCounter at h
    split at h
    · rename_i zk1 hg
      simp only at h
      split at h
      · simp at h
      · simp only [CounterRead.value.injEq] at h
        obtain ⟨_, rfl⟩ := h
        have h2 := ZkClient.GetNodeValue_nodes zk node
        rw [hg] at h2
        simp only at h2
        rw [ZkClient.CreateNode_find_ne _ _ _ _ hp, h2]
    · rename_i v zk1 hg
      split at h
      · simp only [CounterRead.value.injEq] at h
        obtain ⟨_, rfl⟩ := h
        have h2 := ZkClient.GetNodeValue_nodes zk node
        rw [hg] at h2
        simp only at h2
        rw [h2]
      · simp at h
    · simp at h

theorem ensureNode_frame (zk : ZkClient) (node p : String) (v : ZkValue) (hp : node ≠ p) :
    mapFind p (ensureNode zk node v).2.nodes = mapFind p zk.nodes := by
  unfold ensureNode
  split
  · rename_i zk1 hg
    have h2 := ZkClient.GetNodeValue_nodes zk node
    rw [hg] at h2
    simp only at h2
    rw [ZkClient.CreateNode_find_ne _ _ _ _ hp, h2]
  · rename_i w zk1 hg
    have h2 := ZkClient.GetNodeValue_nodes zk node
    rw [hg] at h2
    simp only at h2
    rw [h2]

theorem recoverTableIndex_frame (ns : NameServerImpl) (r : Bool × NameServerImpl)
    (h : recoverTableIndex ns = some r) (p : String) (hp : zk_table_index_node_ ≠ p) :
    mapFind p r.2.zk_client_.nodes = mapFind p ns.zk_client_.nodes ∧
      r.2.op_index_ = ns.op_index_ := by
  unfold recoverTableIndex at h
  have hf := recoverCounter_frame ns.zk_client_ zk_table_index_node_ p hp
  split at h
  · simp at h
  · rename_i zk hc
    simp only [Option.some.injEq] at h
    subst h
    exact ⟨hf.1 zk hc, rfl⟩
  · rename_i n zk hc
    simp only [Option.some.injEq] at h
    subst h
    exact ⟨hf.2 n zk hc, rfl⟩

theorem recoverTableIndex_own (ns : NameServerImpl) (r : Bool × NameServerImpl)
    (h : recoverTableIndex ns = some r) :
    counterStep zk_table_index_node_ NameServerImpl.table_index_ ns r.2 ∧
    (r.1 = true → mapFind zk_table_index_node_ ns.zk_client_.nodes = none →
      r.2.table_index_ = 1 ∧
      mapFind zk_table_index_node_ r.2.zk_client_.nodes = some (ZkValue.num 1)) := by
  unfold recoverTableIndex at h
  split at h
  · simp at h
  · rename_i zk hc
    simp only [Option.some.injEq] at h
    subst h
    refine ⟨Or.inl ⟨rfl, ?_⟩, by simp⟩
    simp only
    rw [recoverCounter_failed _ _ _ hc]
  · rename_i n zk hc
    simp only [Option.some.injEq] at h
    subst h
    rcases recoverCounter_value _ _ _ _ hc with ⟨h1, h2, h3⟩ | ⟨h1, h2⟩
    · exact ⟨Or.inr (Or.inl ⟨h1, h2, h3⟩), fun _ _ => ⟨h2, h3⟩⟩
    · refine ⟨Or.inr (Or.inr ⟨h1, ?_⟩), ?_⟩
      · simp only
        rw [h2, h1]
      · intro _ h3
        rw [h3] at h1
        simp at h1

theorem recoverTerm_frame (ns : NameServerImpl) (r : Bool × NameServerImpl)
    (h : recoverTerm ns = some r) (p : String) (hp : zk_term_node_ ≠ p) :
    mapFind p r.2.zk_client_.nodes = mapFind p ns.zk_client_.nodes ∧
      r.2.op_index_ = ns.op_index_ ∧ r.2.table_index_ = ns.table_index_ := by
  unfold recoverTerm at h
  have hf := recoverCounter_frame ns.zk_client_ zk_term_node_ p hp
  split at h
  · simp at h
  · rename_i zk hc
    simp only [Option.some.injEq] at h
    subst h
    exact ⟨hf.1 zk hc, rfl, rfl⟩
  · rename_i n zk hc
    simp only [Option.some.injEq] at h
    subst h
    exact ⟨hf.2 n zk hc, rfl, rfl⟩

theorem recoverOpIndex_frame (ns : NameServerImpl) (r : Bool × NameServerImpl)
    (h : recoverOpIndex ns = some r) (p : String) (hp : zk_op_index_node_ ≠ p) :
    mapFind p r.2.zk_client_.nodes = mapFind p ns.zk_client_.nodes ∧
      r.2.table_index_ = ns.table_index_ := by
  unfold recoverOpIndex at h
  have hf := recoverCounter_frame ns.zk_client_ zk_op_index_node_ p hp
  split at h
  · simp at h
  · rename_i zk hc
    simp only [Option.some.injEq] at h
    subst h
    exact ⟨hf.1 zk hc, rfl⟩
  · rename_i n zk hc
    simp only [Option.some.injEq] at h
    subst h
    exact ⟨hf.2 n zk hc, rfl⟩

theorem recoverOpIndex_own (ns : NameServerImpl) (r : Bool × NameServerImpl)
    (h : recoverOpIndex ns = some r) :
    counterStep zk_op_index_node_ NameServerImpl.op_index_ ns r.2 := by
  unfold recoverOpIndex at h
  split at h
  · simp at h
  · rename_i zk hc
    simp only [Option.some.injEq] at h
    subst h
    refine Or.inl ⟨rfl, ?_⟩
    simp only
    rw [recoverCounter_failed _ _ _ hc]
  · rename_i n zk hc
    simp only [Option.some.injEq] at h
    subst h
    rcases recoverCounter_value _ _ _ _ hc with ⟨h1, h2, h3⟩ | ⟨h1, h2⟩
    · exact Or.inr (Or.inl ⟨h1, h2, h3⟩)
    · refine Or.inr (Or.inr ⟨h1, ?_⟩)
      simp only
      rw [h2, h1]

theorem recoverNotify_frame (ns : NameServerImpl) (r : Bool × NameServerImpl)
    (h : recoverNotify ns = some r) (p : String) (hp : zk_table_changed_notify_node_ ≠ p) :
    mapFind p r.2.zk_client_.nodes = mapFind p ns.zk_client_.nodes ∧
      r.2.op_index_ = ns.op_index_ ∧ r.2.table_index_ = ns.table_index_ := by
  unfold recoverNotify at h
  simp only [Option.some.injEq] at h
  subst h
  exact ⟨ensureNode_frame _ _ _ _ hp, rfl, rfl⟩

theorem recoverAutoFailover_frame (zk : ZkClient) (auto_failover : Bool) (p : String)
    (hp : zk_auto_failover_node_ ≠ p) :
    mapFind p (recoverAutoFailover zk auto_failover).2.nodes = mapFind p zk.nodes := by
  unfold recoverAutoFailover
  split
  · rename_i zk1 hg
    have h2 := ZkClient.GetNodeValue_nodes zk zk_auto_failover_node_
    rw [hg] at h2
    simp only at h2 ⊢
    rw [ZkClient.CreateNode_find_ne _ _ _ _ hp, h2]
  · rename_i w zk1 hg
    have h2 := ZkClient.GetNodeValue_nodes zk zk_auto_failover_node_
    rw [hg] at h2
    simp only at h2 ⊢
    rw [h2]

theorem recoverAutoFailoverFlag_frame (ns : NameServerImpl) (r : Bool × NameServerImpl)
    (h : recoverAutoFailoverFlag ns = some r) (p : String)
    (hp : zk_auto_failover_node_ ≠ p) :
    mapFind p r.2.zk_client_.nodes = mapFind p ns.zk_client_.nodes ∧
      r.2.op_index_ = ns.op_index_ ∧ r.2.table_index_ = ns.table_index_ := by
  unfold recoverAutoFailoverFlag at h
  have hf := recoverAutoFailover_frame ns.zk_client_ ns.auto_failover_ p hp
  split at h
  · rename_i zk hc
    simp only [Option.some.injEq] at h
    subst h
    rw [hc] at hf
    exact ⟨hf, rfl, rfl⟩
  · rename_i a zk hc
    simp only [Option.some.injEq] at h
    subst h
    rw [hc] at hf
    exact ⟨hf, rfl, rfl⟩

theorem recoverZoneTerm_frame (zk : ZkClient) (p : String)
    (hp : zk_zone_data_path_ ++ "/term" ≠ p) :
    (∀ zk', recoverZoneTerm zk = CounterRead.failed zk' →
      mapFind p zk'.nodes = mapFind p zk.nodes) ∧
    (∀ n zk', recoverZoneTerm zk = CounterRead.value n zk' →
      mapFind p zk'.nodes = mapFind p zk.nodes) := by
  constructor
  · intro zk' h
    unfold recoverZoneTerm at h
    split at h
    · rename_i zk1 hg
      simp only at h
      split at h
      · simp only [CounterRead.failed.injEq] at h
        subst h
        have h2 := ZkClient.GetNodeValue_nodes zk (zk_zone_data_path_ ++ "/term")
        rw [hg] at h2
        simp only at h2
        rw [ZkClient.CreateNode_find_ne _ _ _ _ hp, h2]
      · simp at h
    · split at h <;> simp at h
    · simp at h
  · intro n zk' h
    unfold recoverZoneTerm at h
    split at h
    · simp only at h
      split at h <;> simp at h
    · rename_i v zk1 hg
      split at h
      · simp only [CounterRead.value.injEq] at h
        obtain ⟨_, rfl⟩ := h
        have h2 := ZkClient.GetNodeValue_nodes zk (zk_zone_data_path_ ++ "/term")
        rw [hg] at h2
        simp only at h2
        rw [h2]
      · simp at h
    · simp at h

theorem recoverZone_frame (ns : NameServerImpl) (r : Bool × NameServerImpl)
    (h : recoverZone ns = some r) (p : String)
    (hp1 : zk_zone_data_path_ ++ "/term" ≠ p) (hp2 : zk_zone_data_path_ ++ "/name" ≠ p) :
    mapFind p r.2.zk_client_.nodes = mapFind p ns.zk_client_.nodes ∧
      r.2.op_index_ = ns.op_index_ ∧ r.2.table_index_ = ns.table_index_ := by
  unfold recoverZone at h
  have hf := recoverZoneTerm_frame ns.zk_client_ p hp1
  split at h
  · simp at h
  · rename_i zk hc
    simp only [Option.some.injEq] at h
    subst h
    exact ⟨hf.1 zk hc, rfl, rfl⟩
  · rename_i n zk hc
    simp only at h
    split at h
    · simp only [Option.some.injEq] at h
      subst h
      refine ⟨?_, rfl, rfl⟩
      show mapFind p (ensureNode zk (zk_zone_data_path_ ++ "/name") (ZkValue.text "")).2.nodes
        = mapFind p ns.zk_client_.nodes
      rw [ensureNode_frame _ _ _ _ hp2]
      exact hf.2 n zk hc
    · simp only [Option.some.injEq] at h
      subst h
      refine ⟨?_, rfl, rfl⟩
      show mapFind p ((ensureNode zk (zk_zone_data_path_ ++ "/name")
        (ZkValue.text "")).2.GetNodeValue (zk_zone_data_path_ ++ "/follower")).2.nodes
        = mapFind p ns.zk_client_.nodes
      rw [ZkClient.GetNodeValue_nodes, ensureNode_frame _ _ _ _ hp2]
      exact hf.2 n zk hc

theorem recoverCatalog_frame (env : RecoverEnv) (ns : NameServerImpl)
    (r : Bool × NameServerImpl) (h : recoverCatalog env ns = some r) :
    r.2.zk_client_ = ns.zk_client_ ∧
      r.2.op_index_ = ns.op_index_ ∧ r.2.table_index_ = ns.table_index_ := by
  unfold recoverCatalog at h
  split at h
  · simp only [Option.some.injEq] at h
    subst h
    exact ⟨rfl, rfl, rfl⟩
  · split at h
    · simp only [Option.some.injEq] at h
      subst h
      exact ⟨rfl, rfl, rfl⟩
    · simp only [Option.some.injEq] at h
      subst h
      exact ⟨rfl, rfl, rfl⟩

/-- Over a run of `Recover` the OP index and its store node change only by
`counterStep`. -/
theorem Recover_op_index (ns : NameServerImpl) (env : RecoverEnv) (r : Bool × NameServerImpl)
    (h : Recover ns env = some r) :
    counterStep zk_op_index_node_ NameServerImpl.op_index_ ns r.2 := by
  unfold Recover at h
  split at h
  · simp only [Option.some.injEq] at h
    subst h
    exact counterStep_refl _ _ _
  · rename_i tablets _
    have htrans := counterStep_trans zk_op_index_node_ NameServerImpl.op_index_
    have s1 : ∀ r, recoverTableIndex { ns with tablets_ := tablets } = some r →
        counterStep zk_op_index_node_ NameServerImpl.op_index_ ns r.2 := by
      intro r hr
      have := recoverTableIndex_frame _ r hr zk_op_index_node_ (by decide)
      exact Or.inl ⟨this.2, this.1⟩
    have s2 := andThen_step _ htrans ns _ recoverTerm s1 (by
      intro ns1 r hr
      have := recoverTerm_frame _ r hr zk_op_index_node_ (by decide)
      exact Or.inl ⟨this.2.1, this.1⟩)
    have s3 := andThen_step _ htrans ns _ recoverOpIndex s2 recoverOpIndex_own
    have s4 := andThen_step _ htrans ns _ recoverNotify s3 (by
      intro ns1 r hr
      have := recoverNotify_frame _ r hr zk_op_index_node_ (by decide)
      exact Or.inl ⟨this.2.1, this.1⟩)
    have s5 := andThen_step _ htrans ns _ recoverAutoFailoverFlag s4 (by
      intro ns1 r hr
      have := recoverAutoFailoverFlag_frame _ r hr zk_op_index_node_ (by decide)
      exact Or.inl ⟨this.2.1, this.1⟩)
    have s6 := andThen_step _ htrans ns _ recoverZone s5 (by
      intro ns1 r hr
      have := recoverZone_frame _ r hr zk_op_index_node_ (by decide) (by decide)
      exact Or.inl ⟨this.2.1, this.1⟩)
    have s7 := andThen_step _ htrans ns _ (recoverCatalog env) s6 (by
      intro ns1 r hr
      have := recoverCatalog_frame env _ r hr
      exact Or.inl ⟨this.2.1, by rw [this.1]⟩)
    exact s7 r h

theorem andThen_true (x : Option (Bool × NameServerImpl))
    (f : NameServerImpl → Option (Bool × NameServerImpl)) (r : NameServerImpl)
    (h : andThen x f = some (true, r)) :
    ∃ ns1, x = some (true, ns1) ∧ f ns1 = some (true, r) := by
  unfold andThen at h
  split at h
  · simp at h
  · simp at h
  · rename_i ns1
    exact ⟨ns1, rfl, h⟩

/-- A run of `Recover` that returns `true` on a store without the table index node
leaves the table index 1, in the member and in the node. -/
theorem Recover_fresh_table_index (ns : NameServerImpl) (env : RecoverEnv)
    (r : NameServerImpl) (h : Recover ns env = some (true, r))
    (hfresh : mapFind zk_table_index_node_ ns.zk_client_.nodes = none) :
    r.table_index_ = 1 ∧
      mapFind zk_table_index_node_ r.zk_client_.nodes = some (ZkValue.num 1) := by
  unfold Recover at h
  split at h
  · simp at h
  · rename_i tablets _
    obtain ⟨n6, h6, g7⟩ := andThen_true _ _ _ h
    obtain ⟨n5, h5, g6⟩ := andThen_true _ _ _ h6
    obtain ⟨n4, h4, g5⟩ := andThen_true _ _ _ h5
    obtain ⟨n3, h3, g4⟩ := andThen_true _ _ _ h4
    obtain ⟨n2, h2, g3⟩ := andThen_true _ _ _ h3
    obtain ⟨n1, h1, g2⟩ := andThen_true _ _ _ h2
    have a1 := (recoverTableIndex_own _ _ h1).2 rfl hfresh
    have a2 := recoverTerm_frame _ _ g2 zk_table_index_node_ (by decide)
    have a3 := recoverOpIndex_frame _ _ g3 zk_table_index_node_ (by decide)
    have a4 := recoverNotify_frame _ _ g4 zk_table_index_node_ (by decide)
    have a5 := recoverAutoFailoverFlag_frame _ _ g5 zk_table_index_node_ (by decide)
    have a6 := recoverZone_frame _ _ g6 zk_table_index_node_ (by decide) (by decide)
    have a7 := recoverCatalog_frame env _ _ g7
    simp only at a1 a2 a3 a4 a5 a6 a7
    constructor
    · rw [a7.2.2, a6.2.2, a5.2.2, a4.2.2, a3.2, a2.2.2, a1.1]
    · rw [a7.1, a6.1, a5.1, a4.1, a3.1, a2.1, a1.2]

/-! ## CreateOPData -/

theorem CreateOPData_ok (ns : NameServerImpl) (op_type : OPType) (value : OPPayload)
    (name : String) (pid parent_id : Nat)
    (h : (ns.zk_client_.SetNodeValue zk_op_index_node_
      (ZkValue.num (u64 (ns.op_index_ + 1)))).1 = true) :
    CreateOPData ns op_type value name pid parent_id =
      (0,
        { ns with
          zk_client_ := (ns.zk_client_.SetNodeValue zk_op_index_node_
            (ZkValue.num (u64 (ns.op_index_ + 1)))).2,
          op_index_ := u64 (ns.op_index_ + 1) },
        some { op_info_ :=
                 { op_id := u64 (ns.op_index_ + 1), op_type := op_type, task_index := 0,
                   data := value, task_status := TaskStatus.kInited, name := name, pid := pid,
                   parent_id := parent_id, vec_idx := none },
               task_list_ := [] }) := by
  unfold CreateOPData
  simp [h]

theorem CreateOPData_fail (ns : NameServerImpl) (op_type : OPType) (value : OPPayload)
    (name : String) (pid parent_id : Nat)
    (h : (ns.zk_client_.SetNodeValue zk_op_index_node_
      (ZkValue.num (u64 (ns.op_index_ + 1)))).1 = false) :
    CreateOPData ns op_type value name pid parent_id =
      (-1,
        { ns with
          zk_client_ := (ns.zk_client_.SetNodeValue zk_op_index_node_
            (ZkValue.num (u64 (ns.op_index_ + 1)))).2 },
        none) := by
  unfold CreateOPData
  simp [h]

/-- Once the OP index `L` is in the member and in the store node, every op_id
handed out later is greater than `L`, and they increase. -/
theorem opIds_synced (events : List OpEvent) (ns : NameServerImpl) (L : Nat)
    (hstore : mapFind zk_op_index_node_ ns.zk_client_.nodes = some (ZkValue.num L))
    (hmem : ns.op_index_ = L) (hrange : L + events.length < 18446744073709551616) :
    (opIds ns events).Pairwise (fun a b => a < b) ∧ ∀ id ∈ opIds ns events, L < id := by
  induction events generalizing ns L with
  | nil => simp [opIds]
  | cons ev rest ih =>
    simp only [List.length_cons] at hrange
    cases ev with
    | create op_type value name pid parent_id =>
      simp only [opIds]
      cases hw : (ns.zk_client_.SetNodeValue zk_op_index_node_
          (ZkValue.num (u64 (ns.op_index_ + 1)))).1 with
      | true =>
        rw [CreateOPData_ok _ _ _ _ _ _ hw]
        simp only
        have hu : u64 (ns.op_index_ + 1) = L + 1 := by
          rw [hmem]
          exact u64_of_lt _ (by omega)
        have := ih
          { ns with
            zk_client_ := (ns.zk_client_.SetNodeValue zk_op_index_node_
              (ZkValue.num (u64 (ns.op_index_ + 1)))).2,
            op_index_ := u64 (ns.op_index_ + 1) } (L + 1)
          (by
            rw [← hu]
            exact ZkClient.SetNodeValue_find _ _ _ hw)
          hu (by omega)
        rw [hu] at this ⊢
        refine ⟨List.pairwise_cons.mpr ⟨this.2, this.1⟩, ?_⟩
        intro id hid
        simp only [List.mem_cons] at hid
        rcases hid with hid | hid
        · omega
        · have := this.2 id hid
          omega
      | false =>
        rw [CreateOPData_fail _ _ _ _ _ _ hw]
        simp only
        exact ih
          { ns with
            zk_client_ := (ns.zk_client_.SetNodeValue zk_op_index_node_
              (ZkValue.num (u64 (ns.op_index_ + 1)))).2 } L
          (by
            show mapFind zk_op_index_node_ (ns.zk_client_.SetNodeValue zk_op_index_node_
              (ZkValue.num (u64 (ns.op_index_ + 1)))).2.nodes = some (ZkValue.num L)
            rw [ZkClient.SetNodeValue_false _ _ _ hw]
            exact hstore)
          hmem (by omega)
    | recover env =>
      simp only [opIds]
      cases hr : Recover ns env with
      | none => simp
      | some r =>
        obtain ⟨ok, ns1⟩ := r
        simp only
        have hstep := Recover_op_index ns env _ hr
        simp only at hstep
        rcases hstep with ⟨h1, h2⟩ | ⟨h1, _, _⟩ | ⟨h1, h2⟩
        · exact ih ns1 L (by rw [h2]; exact hstore) (by rw [h1]; exact hmem) (by omega)
        · rw [hstore] at h1
          simp at h1
        · rw [hstore] at h1
          simp only [Option.some.injEq, ZkValue.num.injEq] at h1
          exact ih ns1 L (by rw [h2, h1]) h1.symm (by omega)

/-- The op_ids handed out over a sequence of events increase strictly, as long as
the 64-bit OP index cannot wrap within the sequence. -/
theorem opIds_increasing (events : List OpEvent) (ns : NameServerImpl)
    (hmem : ns.op_index_ + events.length < 18446744073709551616)
    (hstore : ∀ v, mapFind zk_op_index_node_ ns.zk_client_.nodes = some (ZkValue.num v) →
      v + events.length < 18446744073709551616) :
    (opIds ns events).Pairwise (fun a b => a < b) := by
  induction events generalizing ns with
  | nil => simp [opIds]
  | cons ev rest ih =>
    simp only [List.length_cons] at hmem hstore
    cases ev with
    | create op_type value name pid parent_id =>
      simp only [opIds]
      cases hw : (ns.zk_client_.SetNodeValue zk_op_index_node_
          (ZkValue.num (u64 (ns.op_index_ + 1)))).1 with
      | true =>
        rw [CreateOPData_ok _ _ _ _ _ _ hw]
        simp only
        have hu : u64 (ns.op_index_ + 1) = ns.op_index_ + 1 := u64_of_lt _ (by omega)
        have := opIds_synced rest
          { ns with
            zk_client_ := (ns.zk_client_.SetNodeValue zk_op_index_node_
              (ZkValue.num (u64 (ns.op_index_ + 1)))).2,
            op_index_ := u64 (ns.op_index_ + 1) } (u64 (ns.op_index_ + 1))
          (ZkClient.SetNodeValue_find _ _ _ hw) rfl (by rw [hu]; omega)
        exact List.pairwise_cons.mpr ⟨this.2, this.1⟩
      | false =>
        rw [CreateOPData_fail _ _ _ _ _ _ hw]
        simp only
        apply ih
        · simp only
          omega
        · intro v hv
          simp only at hv
          rw [ZkClient.SetNodeValue_false _ _ _ hw] at hv
          have := hstore v hv
          omega
    | recover env =>
      simp only [opIds]
      cases hr : Recover ns env with
      | none => simp
      | some r =>
        obtain ⟨ok, ns1⟩ := r
        simp only
        have hstep := Recover_op_index ns env _ hr
        simp only at hstep
        rcases hstep with ⟨h1, h2⟩ | ⟨_, h2, h3⟩ | ⟨h1, h2⟩
        · apply ih
          · rw [h1]
            omega
          · intro v hv
            rw [h2] at hv
            have := hstore v hv
            omega
        · exact (opIds_synced rest ns1 1 h3 h2 (by omega)).1
        · have := hstore _ h1
          exact (opIds_synced rest ns1 ns1.op_index_ h2 rfl (by omega)).1

/-- C4. `CreateOPData` returns 0 exactly when the write of `op_index_ + 1` to the
OP index node succeeds.  Then the new OP has the op_id `op_index_ + 1` (the sum
taken in 64 bits), the member `op_index_` and the node both hold that number,
`task_index` is 0 and the status is Inited; when the write fails `op_index_` is
as before and there is no OP.  Hence, over a sequence of calls of `CreateOPData`
and runs of `Recover`, the op_ids handed out increase strictly, as long as the
64-bit index cannot wrap within the sequence. -/
theorem CreateOPData_op_ids :
    (∀ (ns : NameServerImpl) (op_type : OPType) (value : OPPayload) (name : String)
        (pid parent_id : Nat),
      ((CreateOPData ns op_type value name pid parent_id).1 = 0 ↔
        (ns.zk_client_.SetNodeValue zk_op_index_node_
          (ZkValue.num (u64 (ns.op_index_ + 1)))).1 = true) ∧
      ((ns.zk_client_.SetNodeValue zk_op_index_node_
          (ZkValue.num (u64 (ns.op_index_ + 1)))).1 = true →
        ∃ op, (CreateOPData ns op_type value name pid parent_id).2.2 = some op ∧
          op.op_info_.op_id = u64 (ns.op_index_ + 1) ∧
          (ns.op_index_ + 1 < 18446744073709551616 →
            op.op_info_.op_id = ns.op_index_ + 1) ∧
          (CreateOPData ns op_type value name pid parent_id).2.1.op_index_ =
            op.op_info_.op_id ∧
          mapFind zk_op_index_node_
            (CreateOPData ns op_type value name pid parent_id).2.1.zk_client_.nodes =
              some (ZkValue.num
                (CreateOPData ns op_type value name pid parent_id).2.1.op_index_) ∧
          op.op_info_.task_index = 0 ∧ op.op_info_.task_status = TaskStatus.kInited) ∧
      ((ns.zk_client_.SetNodeValue zk_op_index_node_
          (ZkValue.num (u64 (ns.op_index_ + 1)))).1 = false →
        (CreateOPData ns op_type value name pid parent_id).2.1.op_index_ = ns.op_index_ ∧
        (CreateOPData ns op_type value name pid parent_id).2.2 = none)) ∧
    (∀ (ns : NameServerImpl) (events : List OpEvent),
      ns.op_index_ + events.length < 18446744073709551616 →
      (∀ v, mapFind zk_op_index_node_ ns.zk_client_.nodes = some (ZkValue.num v) →
        v + events.length < 18446744073709551616) →
      (opIds ns events).Pairwise (fun a b => a < b)) := by
  refine ⟨?_, fun ns events h1 h2 => opIds_increasing events ns h1 h2⟩
  intro ns op_type value name pid parent_id
  cases hw : (ns.zk_client_.SetNodeValue zk_op_index_node_
      (ZkValue.num (u64 (ns.op_index_ + 1)))).1 with
  | true =>
    rw [CreateOPData_ok _ _ _ _ _ _ hw]
    refine ⟨by simp, ?_, by simp⟩
    intro _
    exact ⟨_, rfl, rfl, fun hlt => u64_of_lt _ hlt, rfl,
      ZkClient.SetNodeValue_find _ _ _ hw, rfl, rfl⟩
  | false =>
    rw [CreateOPData_fail _ _ _ _ _ _ hw]
    exact ⟨by simp, by simp, fun _ => ⟨rfl, rfl⟩⟩

/-- C4, evaluated: in the scenario an OP is created, the name server recovers, and
another OP is created; the op_ids are 3 and 4. -/
theorem CreateOPData_op_ids_witness :
    opIds scenarioNs scenarioEvents = [3, 4] ∧
    (opIds scenarioNs scenarioEvents).Pairwise (fun a b => a < b) :=
  ⟨by decide,
    CreateOPData_op_ids.2 scenarioNs scenarioEvents (by decide)
      (by
        intro v hv
        have h2 : mapFind zk_op_index_node_ scenarioNs.zk_client_.nodes
          = some (ZkValue.num 2) := by decide
        rw [h2] at hv
        simp only [Option.some.injEq, ZkValue.num.injEq] at hv
        subst hv
        decide)⟩

/-! ## The table index -/

theorem NotifyTableChanged_find_ne (ns : NameServerImpl) (p : String)
    (hp : zk_table_changed_notify_node_ ≠ p) :
    mapFind p (NotifyTableChanged ns).zk_client_.nodes = mapFind p ns.zk_client_.nodes := by
  have h2 := ZkClient.GetNodeValue_nodes ns.zk_client_ zk_table_changed_notify_node_
  unfold NotifyTableChanged
  generalize ns.zk_client_.GetNodeValue zk_table_changed_notify_node_ = g at h2 ⊢
  obtain ⟨o, zk⟩ := g
  simp only at h2
  cases o with
  | none => simp [h2]
  | some v =>
    cases v with
    | num n =>
      simp only
      rw [ZkClient.SetNodeValue_find_ne _ _ _ _ hp, h2]
    | text t => simp [h2]
    | table t => simp [h2]
    | op o => simp [h2]

theorem commitTable_find (ns : NameServerImpl) (codec : SchemaCodec) (t : TableInfo)
    (term : Nat) (p : String) (w : ZkValue) (hp : zk_table_changed_notify_node_ ≠ p)
    (h : mapFind p ns.zk_client_.nodes = some w) :
    mapFind p (commitTable ns codec t term).1.zk_client_.nodes = some w := by
  unfold commitTable
  cases hc : codec.ConvertColumnDesc t with
  | none => exact h
  | some columns =>
    simp only
    rw [CreateTableOnTablet_follower]
    obtain ⟨r1, hr1⟩ := CreateTableOnTablet_state ns t false (codec.Encode columns) term
    rw [hr1]
    obtain ⟨r2, hr2⟩ := CreateTableOnTablet_state
      { ns with tablet_replies_ := r1 } t true (codec.Encode columns) term
    rw [hr2]
    split
    · exact h
    · split
      · exact h
      · split
        · exact ZkClient.CreateNode_find_some _ _ _ _ _ h
        · rw [NotifyTableChanged_find_ne _ _ hp]
          exact ZkClient.CreateNode_find_some _ _ _ _ _ h

/-- After a call of `CreateTable` that answers 0 the table index node holds the
new table index. -/
theorem CreateTable_table_index_node (ns : NameServerImpl) (codec : SchemaCodec)
    (request : TableInfo) (h : (CreateTable ns codec request).2 = 0) :
    mapFind zk_table_index_node_ (CreateTable ns codec request).1.zk_client_.nodes =
      some (ZkValue.num (u64 (ns.table_index_ + 1))) := by
  unfold CreateTable at h ⊢
  split at h
  · simp at h
  rename_i c1
  rw [if_neg c1]
  split at h
  · simp at h
  rename_i c2
  rw [if_neg c2]
  split at h
  · simp at h
  rename_i c3
  rw [if_neg c3]
  split at h
  · simp at h
  rename_i c4
  rw [if_neg c4]
  split at h
  · simp at h
  rename_i c5
  rw [if_neg c5]
  split at h
  · rename_i c6
    exact absurd h c6
  rename_i c6
  rw [if_neg c6]
  simp only at h ⊢
  split at h
  · simp at h
  rename_i c7
  rw [if_neg c7]
  apply commitTable_find _ _ _ _ _ _ (by decide)
  exact ZkClient.SetNodeValue_find _ _ _ (by simpa using c7)

/-- C5, as stated, fails: on a store without the table index node, `OnLocked` (a
`Recover` that returns true) followed by a `CreateTable` that answers 0 leaves 2
in the node, and the table has the tid 2. -/
theorem first_table_has_tid_two :
    mapFind zk_table_index_node_ freshNs.zk_client_.nodes = none ∧
    (Recover freshNs freshEnv).map Prod.fst = some true ∧
    (OnLocked freshNs freshEnv).map (fun ns =>
        ((CreateTable ns scenarioCodec scenarioRequest).2,
          mapFind zk_table_index_node_
            (CreateTable ns scenarioCodec scenarioRequest).1.zk_client_.nodes,
          (mapFind "u" (CreateTable ns scenarioCodec scenarioRequest).1.table_info_).map
            TableInfo.tid)) =
      some (0, some (ZkValue.num 2), some 2) := by
  decide

/-- C5, amended. On a store without the table index node, after a `Recover` that
returns true and the `running_ = true` of `OnLocked`, a `CreateTable` that
answers 0 leaves 2 in the table index node, and the table it created has the
tid 2: `Recover` sets node and member to 1, and `CreateTable` adds one before it
assigns the tid. -/
theorem first_table_index_after_Recover (ns ns1 : NameServerImpl) (env : RecoverEnv)
    (codec : SchemaCodec) (request : TableInfo)
    (hfresh : mapFind zk_table_index_node_ ns.zk_client_.nodes = none)
    (hrec : Recover ns env = some (true, ns1))
    (hok : (CreateTable { ns1 with running_ := true } codec request).2 = 0) :
    mapFind zk_table_index_node_
        (CreateTable { ns1 with running_ := true } codec request).1.zk_client_.nodes =
      some (ZkValue.num 2) ∧
    ∃ t, mapFind request.name
        (CreateTable { ns1 with running_ := true } codec request).1.table_info_ = some t ∧
      t.tid = 2 := by
  obtain ⟨hidx, _⟩ := Recover_fresh_table_index ns env ns1 hrec hfresh
  have hnode := CreateTable_table_index_node _ codec request hok
  obtain ⟨_, hnone, _, _, _, _, l', _, hcat⟩ := CreateTable_ok _ codec request hok
  have h2 : u64 (ns1.table_index_ + 1) = 2 := by rw [hidx]; decide
  have h3 : u32 2 = 2 := by decide
  constructor
  · rw [hnode]
    show some (ZkValue.num (u64 (ns1.table_index_ + 1))) = some (ZkValue.num 2)
    rw [h2]
  · rw [hcat, mapFind_mapInsert]
    have hnone' : mapFind request.name ns1.table_info_ = none := hnone
    simp only [hnone', if_true]
    refine ⟨_, rfl, ?_⟩
    show u32 (u64 (ns1.table_index_ + 1)) = 2
    rw [h2, h3]

/-- C5, amended, evaluated: the theorem at `freshNs`. -/
theorem first_table_index_after_Recover_witness :
    ∃ ns1, Recover freshNs freshEnv = some (true, ns1) ∧
      mapFind zk_table_index_node_
          (CreateTable { ns1 with running_ := true } scenarioCodec
            scenarioRequest).1.zk_client_.nodes = some (ZkValue.num 2) ∧
      ∃ t, mapFind scenarioRequest.name
          (CreateTable { ns1 with running_ := true } scenarioCodec
            scenarioRequest).1.table_info_ = some t ∧ t.tid = 2 :=
  ⟨((Recover freshNs freshEnv).getD (false, freshNs)).2, by decide,
    first_table_index_after_Recover freshNs _ freshEnv scenarioCodec scenarioRequest
      (by decide) (by decide) (by decide)⟩

/-! ## The pids of a table -/

/-- C6, evaluated at the failing input: in the scenario `CreateTable` answers 0 to a
request with two partitions that both have the pid 1 (the greatest pid is the
number of partitions minus one), and the catalog then holds a table with the
pids 1, 1. -/
theorem CreateTable_accepts_duplicate_pids :
    (CreateTable scenarioNs scenarioCodec duplicatePidRequest).2 = 0 ∧
    (mapFind "v" (CreateTable scenarioNs scenarioCodec duplicatePidRequest).1.table_info_).map
        (fun t => t.table_partition.map TablePartition.pid) = some [1, 1] := by
  decide

/-! ## The replica number -/

theorem FillColumnKey_replica_num (request : TableInfo) :
    (FillColumnKey request).2.replica_num = request.replica_num := by
  unfold FillColumnKey
  split
  · rfl
  · split
    · rfl
    · simp only
      split <;> rfl

theorem FillColumnKey_ttl (request : TableInfo) :
    (FillColumnKey request).2.ttl = request.ttl ∧
      (FillColumnKey request).2.ttl_type = request.ttl_type := by
  unfold FillColumnKey
  split
  · exact ⟨rfl, rfl⟩
  · split
    · exact ⟨rfl, rfl⟩
    · simp only
      split <;> exact ⟨rfl, rfl⟩

theorem length_mapInsert_le {β : Type} (k : String) (v : β) (m : List (String × β)) :
    (mapInsert k v m).length ≤ m.length + 1 := by
  cases h : mapFind k m with
  | some w => simp [mapInsert, h]
  | none =>
    have := (mapInsert_perm k v m h).length_eq
    simp only [List.length_cons] at this
    omega

theorem healthyBuckets_length_le (tablets : List (String × TabletInfo))
    (bucked : List (String × Nat)) :
    (healthyBuckets tablets bucked).length ≤ bucked.length +
      tablets.countP (fun e => decide (e.2.state_ = TabletState.kTabletHealthy)) := by
  induction tablets generalizing bucked with
  | nil => simp [healthyBuckets]
  | cons e rest ih =>
    obtain ⟨endpoint, tablet⟩ := e
    simp only [healthyBuckets]
    split
    · rename_i hh
      have h1 := ih (mapInsert endpoint 0 bucked)
      have h2 := length_mapInsert_le endpoint 0 bucked
      rw [List.countP_cons_of_pos _ _ (by simpa using hh)]
      omega
    · rename_i hh
      have h1 := ih bucked
      rw [List.countP_cons_of_neg _ _ (by simpa using hh)]
      exact h1

/-- C8. A request to the running name server that passes `CheckTableMeta` and
`FillColumnKey`, has a new name and a TTL within the maximum, brings no
partitions, and asks for a `replica_num` greater than the number of healthy
tablets, is answered 314, and the name server is left exactly as it was: table
index, store and catalog included. -/
theorem CreateTable_too_many_replicas (ns : NameServerImpl) (codec : SchemaCodec)
    (request : TableInfo) (r : Nat)
    (hrun : ns.running_ = true)
    (hmeta : ¬ CheckTableMeta request < 0)
    (hfill : ¬ (FillColumnKey request).1 < 0)
    (hname : mapFind request.name ns.table_info_ = none)
    (httl : ¬ ((request.ttl_type = "kAbsoluteTime" ∧ request.ttl > ns.flags.absolute_ttl_max)
      ∨ (request.ttl_type = "kLatestTime" ∧ request.ttl > ns.flags.latest_ttl_max)))
    (hnone : request.table_partition = [])
    (hreplica : request.replica_num = some r)
    (hmany : ns.tablets_.countP
      (fun e => decide (e.2.state_ = TabletState.kTabletHealthy)) < r) :
    CreateTable ns codec request = (ns, 314) := by
  have hmany : (healthyBuckets ns.tablets_ []).length < r := by
    have := healthyBuckets_length_le ns.tablets_ []
    simp only [List.length_nil, Nat.zero_add] at this
    omega
  have hr : effectiveReplicaNum ns (FillColumnKey request).2 = r := by
    unfold effectiveReplicaNum
    rw [FillColumnKey_replica_num, hreplica]
    simp only
    rw [if_pos (by omega)]
  have hset : (SetPartitionInfo ns (FillColumnKey request).2).1 < 0 := by
    unfold SetPartitionInfo
    simp only [hr, hmany, if_true]
    decide
  have hplace : placeTable ns (FillColumnKey request).2 = (314, (FillColumnKey request).2) := by
    unfold placeTable
    rw [FillColumnKey_table_partition, hnone]
    simp [hset]
  have hne : (placeTable ns (FillColumnKey request).2).1 ≠ 0 := by
    rw [hplace]
    show (314 : Int) ≠ 0
    decide
  unfold CreateTable
  rw [if_neg (by simp [hrun]), if_neg hmeta, if_neg hfill,
    if_neg (by rw [FillColumnKey_name, hname]; simp),
    if_neg (by rw [(FillColumnKey_ttl request).1, (FillColumnKey_ttl request).2]; exact httl),
    if_pos hne, hplace]

/-- C8, evaluated: the theorem at the scenario, for a request of 4 replicas on 3
healthy tablets. -/
theorem CreateTable_too_many_replicas_witness :
    CreateTable scenarioNs scenarioCodec manyReplicasRequest = (scenarioNs, 314) :=
  CreateTable_too_many_replicas scenarioNs scenarioCodec manyReplicasRequest 4
    (by decide) (by decide) (by decide) (by decide) (by decide) rfl rfl (by decide)


/-! ## The index columns -/

theorem checkColumns_no_index (cols : List ColumnDesc) (m0 m : List (String × String))
    (h : checkColumns cols m0 = some m) :
    ∀ c ∈ cols, c.add_ts_idx = true → isFloatOrDouble c.type = false := by
  induction cols generalizing m0 with
  | nil => simp
  | cons c rest ih =>
    simp only [checkColumns] at h
    split at h
    · cases h
    · rename_i hc
      intro d hd
      rcases List.mem_cons.mp hd with rfl | hd
      · intro ha
        simpa [ha] using hc
      · exact ih _ h d hd

theorem checkColumns_find (cols : List ColumnDesc) (m0 m : List (String × String))
    (h : checkColumns cols m0 = some m) (n : String) :
    mapFind n m =
      match mapFind n m0 with
      | some t => some t
      | none => (cols.find? (fun c => c.name = n)).map ColumnDesc.type := by
  induction cols generalizing m0 with
  | nil =>
    simp only [checkColumns, Option.some.injEq] at h
    subst h
    cases mapFind n m0 <;> rfl
  | cons c rest ih =>
    simp only [checkColumns] at h
    split at h
    · cases h
    · rw [ih _ h, mapFind_mapInsert]
      cases h0 : mapFind n m0 with
      | some t => rfl
      | none =>
        simp only
        by_cases hn : c.name = n
        · simp [hn, List.find?]
        · simp [hn, List.find?]


theorem find_of_nodup_names (cols : List ColumnDesc) (c : ColumnDesc) (hc : c ∈ cols)
    (hn : (cols.map ColumnDesc.name).Nodup) :
    cols.find? (fun d => d.name = c.name) = some c := by
  induction cols with
  | nil => cases hc
  | cons d rest ih =>
    simp only [List.map_cons, List.nodup_cons] at hn
    rcases List.mem_cons.mp hc with rfl | hc
    · simp [List.find?]
    · have hne : d.name ≠ c.name := by
        intro he
        exact hn.1 (he ▸ List.mem_map_of_mem _ hc)
      simp only [List.find?, hne, decide_False]
      exact ih hc hn.2

theorem checkColumnKey_names (column_map : List (String × String)) (key : ColumnKey)
    (h : checkColumnKey column_map key = true) :
    ∀ n ∈ keyNames key, ∀ t, mapFind n column_map = some t → isFloatOrDouble t = false := by
  intro n hn t ht
  unfold checkColumnKey at h
  unfold keyNames at hn
  cases hcol : key.col_name with
  | nil =>
    rw [hcol] at h hn
    simp only [List.mem_singleton] at hn
    subst hn
    simp only [ht] at h
    simpa using h
  | cons a l =>
    rw [hcol] at h hn
    simp only at h hn
    have := List.all_eq_true.mp h n hn
    rw [ht] at this
    simpa using this

/-- C9, amended. If `CheckTableMeta` returns 0, then no column of the effective
schema (`column_desc_v1` when non-empty, otherwise `column_desc`) with `add_ts_idx`
has type float or double; and, for the `column_desc_v1` schema, every name that a
column key gives, through `col_name` or (when `col_name` is empty) through
`index_name`, resolves to a column that is not float or double, where a name
resolves to the first column of that name.  When the column names are pairwise
distinct, no column key names a float or double column at all. -/
theorem CheckTableMeta_accepts (table_info : TableInfo)
    (h : CheckTableMeta table_info = 0) :
    (∀ c ∈ effectiveSchema table_info, c.add_ts_idx = true → isFloatOrDouble c.type = false) ∧
    (table_info.column_desc_v1 ≠ [] →
      ∀ key ∈ table_info.column_key, ∀ n ∈ keyNames key, ∀ c,
        table_info.column_desc_v1.find? (fun d => d.name = n) = some c →
          isFloatOrDouble c.type = false) ∧
    (table_info.column_desc_v1 ≠ [] →
      (table_info.column_desc_v1.map ColumnDesc.name).Nodup →
      ∀ key ∈ table_info.column_key, ∀ c ∈ table_info.column_desc_v1,
        c.name ∈ keyNames key → isFloatOrDouble c.type = false) := by
  have key_part : table_info.column_desc_v1 ≠ [] →
      ∀ key ∈ table_info.column_key, ∀ n ∈ keyNames key, ∀ c,
        table_info.column_desc_v1.find? (fun d => d.name = n) = some c →
          isFloatOrDouble c.type = false := by
    intro hv1 key hkey n hn c hc
    have hlen : table_info.column_desc_v1.length > 0 := List.length_pos.mpr hv1
    unfold CheckTableMeta at h
    rw [if_pos hlen] at h
    cases hcols : checkColumns table_info.column_desc_v1 [] with
    | none => rw [hcols] at h; cases h
    | some column_map =>
      rw [hcols] at h
      simp only at h
      have hklen : table_info.column_key.length > 0 := List.length_pos.mpr (List.ne_nil_of_mem hkey)
      rw [if_pos hklen] at h
      split at h
      · rename_i hall
        have hk := List.all_eq_true.mp hall key hkey
        have hfind := checkColumns_find _ _ _ hcols n
        simp only [mapFind, hc, Option.map_some'] at hfind
        exact checkColumnKey_names column_map key hk n hn c.type hfind
      · cases h
  refine ⟨?_, key_part, ?_⟩
  · intro c hc ha
    unfold effectiveSchema at hc
    unfold CheckTableMeta at h
    split at hc
    · rename_i hlen
      rw [if_pos hlen] at h
      cases hcols : checkColumns table_info.column_desc_v1 [] with
      | none => rw [hcols] at h; cases h
      | some column_map => exact checkColumns_no_index _ _ _ hcols c hc ha
    · rename_i hlen
      rw [if_neg hlen] at h
      have hlen2 : table_info.column_desc.length > 0 := List.length_pos.mpr (List.ne_nil_of_mem hc)
      rw [if_pos hlen2] at h
      split at h
      · cases h
      · rename_i hany
        have := hany
        simp only [List.any_eq_true, Bool.and_eq_true, not_exists, not_and] at this
        have h2 := this c hc ha
        simpa using h2
  · intro hv1 hnodup key hkey c hc hn
    exact key_part hv1 key hkey c.name hn c (find_of_nodup_names _ c hc hnodup)

/-- C9, as stated, fails: `CheckTableMeta` returns 0 for the schema with the
columns "a" of type string and "a" of type float and a column key with `col_name`
"a", although the key names a float column.  Only the first column of a name
enters `column_map`. -/
theorem CheckTableMeta_accepts_shadowed_float :
    CheckTableMeta shadowedFloatTable = 0 ∧
    ∃ key ∈ shadowedFloatTable.column_key, ∃ c ∈ shadowedFloatTable.column_desc_v1,
      c.name ∈ key.col_name ∧ isFloatOrDouble c.type = true := by
  decide

/-- C9, amended, evaluated: the theorem at a schema with a string index column, a
float column and a column key over the string column. -/
theorem CheckTableMeta_accepts_witness :
    CheckTableMeta indexedStringTable = 0 ∧
    (∀ c ∈ effectiveSchema indexedStringTable, c.add_ts_idx = true →
      isFloatOrDouble c.type = false) ∧
    (∀ key ∈ indexedStringTable.column_key, ∀ c ∈ indexedStringTable.column_desc_v1,
        c.name ∈ keyNames key → isFloatOrDouble c.type = false) :=
  ⟨by decide, (CheckTableMeta_accepts indexedStringTable (by decide)).1,
    (CheckTableMeta_accepts indexedStringTable (by decide)).2.2 (by decide) (by decide)⟩

/-! ## The added columns -/

theorem AddTableField_added_le (ns : NameServerImpl) (codec : SchemaCodec) (name : String)
    (column_desc : ColumnDesc) (q : String)
    (h : ∀ t, mapFind q ns.table_info_ = some t → t.added_column_desc.length ≤ 63) :
    ∀ t, mapFind q (AddTableField ns codec name column_desc).1.table_info_ = some t →
      t.added_column_desc.length ≤ 63 := by
  unfold AddTableField
  split
  · exact h
  · cases hf : mapFind name ns.table_info_ with
    | none => exact h
    | some table_info =>
      simp only
      split
      · exact h
      · rename_i hfull
        split
        · exact h
        · split
          · exact h
          · split
            · exact h
            · split
              · exact h
              · split
                · exact h
                · split
                  · exact h
                  · intro t ht
                    rw [NotifyTableChanged_table_info_] at ht
                    simp only at ht
                    rw [mapFind_mapAssign name q _ table_info _ hf] at ht
                    split at ht
                    · rename_i hq
                      subst hq
                      have hle := h table_info hf
                      cases ht
                      simp only [List.length_append, List.length_singleton]
                      have : table_info.added_column_desc.length ≠ 63 := hfull
                      omega
                    · exact h t ht

theorem addTableFields_added_le (codec : SchemaCodec) (calls : List (String × ColumnDesc))
    (ns : NameServerImpl) (q : String)
    (h : ∀ t, mapFind q ns.table_info_ = some t → t.added_column_desc.length ≤ 63) :
    ∀ t, mapFind q (addTableFields codec ns calls).table_info_ = some t →
      t.added_column_desc.length ≤ 63 := by
  induction calls generalizing ns with
  | nil => exact h
  | cons c rest ih =>
    obtain ⟨name, column_desc⟩ := c
    exact ih _ (AddTableField_added_le ns codec name column_desc q h)

/-- C10. For a table of the catalog: the running name server answers 324 to
`AddTableField` when the table has 63 added columns, and is left exactly as it
was, catalog and store included; and when the table has at most 63 added columns,
it still has at most 63 after any sequence of calls of `AddTableField`, on this
table or on others. -/
theorem AddTableField_at_most_63_added (ns : NameServerImpl) (codec : SchemaCodec)
    (name : String) (column_desc : ColumnDesc) (table_info : TableInfo)
    (calls : List (String × ColumnDesc))
    (hfind : mapFind name ns.table_info_ = some table_info) :
    (ns.running_ = true → table_info.added_column_desc.length = 63 →
      AddTableField ns codec name column_desc = (ns, some 324)) ∧
    (table_info.added_column_desc.length ≤ 63 →
      ∀ t, mapFind name (addTableFields codec ns calls).table_info_ = some t →
        t.added_column_desc.length ≤ 63) := by
  constructor
  · intro hrun hfull
    unfold AddTableField
    rw [if_neg (by simp [hrun]), hfind]
    simp only
    rw [if_pos (show table_info.added_column_desc.length = MAX_ADD_TABLE_FIELD_COUNT from hfull)]
  · intro hle
    apply addTableFields_added_le
    intro t ht
    rw [hfind] at ht
    cases ht
    exact hle

/-- C10, evaluated: the theorem at the scenario with a table of 63 added columns,
for one call and for a sequence of two calls. -/
theorem AddTableField_at_most_63_added_witness :
    AddTableField fullNs scenarioCodec "t" scenarioColumn = (fullNs, some 324) ∧
    ∀ t, mapFind "t" (addTableFields scenarioCodec fullNs
        [("t", scenarioColumn), ("t", scenarioColumn)]).table_info_ = some t →
      t.added_column_desc.length ≤ 63 :=
  ⟨(AddTableField_at_most_63_added fullNs scenarioCodec "t" scenarioColumn fullTable
      [("t", scenarioColumn), ("t", scenarioColumn)] (by decide)).1 (by decide) (by decide),
   (AddTableField_at_most_63_added fullNs scenarioCodec "t" scenarioColumn fullTable
      [("t", scenarioColumn), ("t", scenarioColumn)] (by decide)).2 (by decide)⟩


end NameServerImpl

theorem mapFind_filter_key {β : Type} (p q : String) (m : List (String × β)) :
    mapFind p (m.filter (fun e => e.1 ≠ q)) = if p = q then none else mapFind p m := by
  induction m with
  | nil => simp [mapFind]
  | cons e m ih =>
    obtain ⟨k, v⟩ := e
    by_cases hk : k = q
    · subst hk
      simp only [List.filter, ne_eq, not_true_eq_false, decide_False, mapFind]
      rw [show (List.filter (fun e : String × β => decide (e.1 ≠ k)) m)
        = List.filter (fun e : String × β => decide (e.1 ≠ k)) m from rfl] at *
      simp only [ne_eq] at ih
      rw [ih]
      by_cases hp : p = k
      · simp [hp]
      · have : ¬ k = p := fun h => hp h.symm
        simp [hp, this]
    · simp only [List.filter, ne_eq, hk, not_false_eq_true, decide_True, mapFind]
      simp only [ne_eq] at ih
      rw [ih]
      by_cases hp : p = q
      · subst hp
        simp [hk]
      · simp [hp]

/-! ## The coordination store: deletion -/

namespace ZkClient

theorem DeleteNode_true (zk : ZkClient) (q : String) (h : (zk.DeleteNode q).1 = true) :
    (zk.DeleteNode q).2.nodes = zk.nodes.filter (fun e => e.1 ≠ q) ∧
      mapFind q (zk.DeleteNode q).2.nodes = none := by
  unfold DeleteNode at h ⊢
  by_cases hn : zk.next.1 = true
  · cases hw : mapFind q zk.nodes with
    | none => simp [hn, hw] at h
    | some w =>
      simp only [hn, if_true]
      exact ⟨trivial, by rw [mapFind_filter_key, if_pos rfl]⟩
  · simp [hn] at h

theorem DeleteNode_false (zk : ZkClient) (q : String) (h : (zk.DeleteNode q).1 = false) :
    (zk.DeleteNode q).2.nodes = zk.nodes := by
  unfold DeleteNode at h ⊢
  by_cases hn : zk.next.1 = true
  · cases hw : mapFind q zk.nodes with
    | none => simp [hn, next_nodes]
    | some w => simp [hn, hw] at h
  · simp [hn, next_nodes]

theorem DeleteNode_find_ne (zk : ZkClient) (q p : String) (h : q ≠ p) :
    mapFind p (zk.DeleteNode q).2.nodes = mapFind p zk.nodes := by
  cases hr : (zk.DeleteNode q).1 with
  | true =>
    rw [(DeleteNode_true zk q hr).1, mapFind_filter_key, if_neg (fun hp => h hp.symm)]
  | false => rw [DeleteNode_false zk q hr]

theorem DeleteNode_none (zk : ZkClient) (q p : String) (h : mapFind p zk.nodes = none) :
    mapFind p (zk.DeleteNode q).2.nodes = none := by
  cases hr : (zk.DeleteNode q).1 with
  | true =>
    rw [(DeleteNode_true zk q hr).1, mapFind_filter_key]
    split
    · rfl
    · exact h
  | false => rw [DeleteNode_false zk q hr, h]

theorem SetNodeValue_none (zk : ZkClient) (q p : String) (v : ZkValue)
    (h : mapFind p zk.nodes = none) : mapFind p (zk.SetNodeValue q v).2.nodes = none := by
  by_cases hq : q = p
  · subst hq
    have : (zk.SetNodeValue q v).1 = false := by
      cases hr : (zk.SetNodeValue q v).1 with
      | false => rfl
      | true =>
        obtain ⟨_, w, hw⟩ := SetNodeValue_true zk q v hr
        rw [h] at hw
        cases hw
    rw [SetNodeValue_false zk q v this, h]
  · rw [SetNodeValue_find_ne zk q p v hq, h]

theorem DeleteNode_ok (zk : ZkClient) (q : String) (w : ZkValue) (hf : zk.faults = [])
    (h : mapFind q zk.nodes = some w) :
    (zk.DeleteNode q).1 = true ∧ (zk.DeleteNode q).2.faults = [] := by
  unfold DeleteNode next
  simp [hf, h]

end ZkClient

namespace NameServerImpl

/-! ## The OP engine: lemmas -/

theorem forQueues_forall₂ {σ : Type} (body : σ → List OPData → σ × List OPData)
    (R : List OPData → List OPData → Prop) (h : ∀ s q, R q (body s q).2)
    (s : σ) (task_vec : List (List OPData)) :
    List.Forall₂ R task_vec (forQueues body s task_vec).2 := by
  induction task_vec generalizing s with
  | nil => exact List.Forall₂.nil
  | cons q rest ih => exact List.Forall₂.cons (h s q) (ih _)

theorem updateZKQueue_cases (zk : ZkClient) (q : List OPData) :
    ((updateZKQueue zk q).2 = q ∧
      ∀ op_data rest task tasks, q = op_data :: rest → op_data.task_list_ = task :: tasks →
        task.task_info_.status = TaskStatus.kDone →
        (zk.SetNodeValue (opNode op_data.op_info_.op_id)
          (ZkValue.op (advanced op_data).op_info_)).1 = false) ∨
    ∃ op_data rest task tasks, q = op_data :: rest ∧ op_data.task_list_ = task :: tasks ∧
      task.task_info_.status = TaskStatus.kDone ∧
      (zk.SetNodeValue (opNode op_data.op_info_.op_id)
        (ZkValue.op (advanced op_data).op_info_)).1 = true ∧
      (updateZKQueue zk q).2 = advanced op_data :: rest := by
  cases q with
  | nil => exact Or.inl ⟨rfl, by intro _ _ _ _ h; cases h⟩
  | cons op_data rest =>
    cases hl : op_data.task_list_ with
    | nil =>
      refine Or.inl ⟨by simp [updateZKQueue, hl], ?_⟩
      intro o r t ts hq ht
      simp only [List.cons.injEq] at hq
      rw [← hq.1, hl] at ht
      cases ht
    | cons task tasks =>
      by_cases hdone : task.task_info_.status = TaskStatus.kDone
      · cases hw : (zk.SetNodeValue (opNode op_data.op_info_.op_id)
            (ZkValue.op (advanced op_data).op_info_)).1 with
        | true =>
          refine Or.inr ⟨op_data, rest, task, tasks, rfl, hl, hdone, hw, ?_⟩
          have hw2 := hw
          simp only [advanced] at hw2
          simp only [updateZKQueue, hl, hdone, if_true, hw2]
          simp [advanced, hl]
        | false =>
          have hw2 := hw
          simp only [advanced] at hw2
          refine Or.inl ⟨?_, ?_⟩
          · simp only [updateZKQueue, hl, hdone, if_true, hw2]
            simp
          · intro o r t ts hq _ _
            simp only [List.cons.injEq] at hq
            rw [← hq.1]
            exact hw
      · refine Or.inl ⟨by simp [updateZKQueue, hl, hdone], ?_⟩
        intro o r t ts hq ht hd
        simp only [List.cons.injEq] at hq
        rw [← hq.1, hl] at ht
        simp only [List.cons.injEq] at ht
        rw [← ht.1] at hd
        exact absurd hd hdone


theorem forall₂_same {α : Type} (R : α → α → Prop) (h : ∀ a, R a a) (l : List α) :
    List.Forall₂ R l l := by
  induction l with
  | nil => exact List.Forall₂.nil
  | cons a l ih => exact List.Forall₂.cons (h a) ih

theorem forall₂_trans {α : Type} (R : α → α → Prop) (htrans : ∀ a b c, R a b → R b c → R a c)
    (l1 l2 l3 : List α) (h12 : List.Forall₂ R l1 l2) (h23 : List.Forall₂ R l2 l3) :
    List.Forall₂ R l1 l3 := by
  induction h12 generalizing l3 with
  | nil => cases h23; exact List.Forall₂.nil
  | cons hab _ ih =>
    cases h23 with
    | cons hbc h23' => exact List.Forall₂.cons (htrans _ _ _ hab hbc) (ih _ h23')

theorem forall₂_modifyNth {α : Type} (R : α → α → Prop) (hrefl : ∀ a, R a a) (f : α → α)
    (hf : ∀ a, R a (f a)) (i : Nat) (l : List α) : List.Forall₂ R l (modifyNth f i l) := by
  induction l generalizing i with
  | nil => cases i <;> exact List.Forall₂.nil
  | cons a l ih =>
    cases i with
    | zero => exact List.Forall₂.cons (hf a) (forall₂_same R hrefl l)
    | succ n => exact List.Forall₂.cons (hrefl a) (ih n)

theorem frontsRemoved_refl (task_vec : List (List OPData)) : frontsRemoved task_vec task_vec :=
  forall₂_same (fun q q' => List.IsSuffix q' q) (fun q => List.suffix_refl q) task_vec

theorem frontsRemoved_trans (a b c : List (List OPData)) (h1 : frontsRemoved a b)
    (h2 : frontsRemoved b c) : frontsRemoved a c :=
  forall₂_trans (fun q q' => List.IsSuffix q' q)
    (fun _ _ _ hab hbc => List.IsSuffix.trans hbc hab) a b c h1 h2

theorem frontsRemoved_tail (index : Nat) (task_vec : List (List OPData)) :
    frontsRemoved task_vec (modifyNth List.tail index task_vec) :=
  forall₂_modifyNth (fun q q' => List.IsSuffix q' q) (fun q => List.suffix_refl q) _
    (fun q => List.tail_suffix q) index task_vec

theorem frontHasId_id (op_id : Nat) (op_data : OPData) (rest : List OPData)
    (h : frontHasId op_id (op_data :: rest) = true) : op_data.op_info_.op_id = op_id := by
  simpa [frontHasId] using h

theorem deleteOne_step (now : Nat) (ns ns1 : NameServerImpl) (op_id : Nat)
    (h : doneNodesGone ns ns1) :
    doneNodesGone ns (deleteOne now ns1 op_id) ∧
      frontsRemoved ns1.task_vec_ (deleteOne now ns1 op_id).task_vec_ := by
  obtain ⟨moved, hm1, hm2⟩ := h
  unfold deleteOne
  cases hf : firstWith (frontHasId op_id) ns1.task_vec_ with
  | none => exact ⟨⟨moved, hm1, hm2⟩, frontsRemoved_refl _⟩
  | some r =>
    obtain ⟨index, q⟩ := r
    cases q with
    | nil => exact ⟨⟨moved, hm1, hm2⟩, frontsRemoved_refl _⟩
    | cons op_data rest =>
      have hid : op_data.op_info_.op_id = op_id :=
        frontHasId_id op_id op_data rest (firstWith_some _ _ _ _ hf).2
      simp only
      split
      · refine ⟨⟨moved ++ [markFailed now op_data], by simp only [hm1, List.append_assoc], ?_⟩,
          frontsRemoved_tail index _⟩
        intro o ho hd
        simp only [List.mem_append, List.mem_singleton] at ho
        rcases ho with ho | rfl
        · exact ZkClient.SetNodeValue_none _ _ _ _ (hm2 o ho hd)
        · simp [markFailed] at hd
      · split
        · rename_i hdel
          refine ⟨⟨moved ++ [markEnded now op_data], by simp only [hm1, List.append_assoc], ?_⟩,
            frontsRemoved_tail index _⟩
          intro o ho hd
          simp only [List.mem_append, List.mem_singleton] at ho
          rcases ho with ho | rfl
          · exact ZkClient.DeleteNode_none _ _ _ (hm2 o ho hd)
          · have hoid : (markEnded now op_data).op_info_.op_id = op_id := by
              unfold markEnded
              split <;> exact hid
            rw [hoid]
            exact (ZkClient.DeleteNode_true _ _ hdel).2
        · rename_i hdel
          refine ⟨⟨moved, hm1, ?_⟩, frontsRemoved_refl _⟩
          intro o ho hd
          show mapFind _ (ns1.zk_client_.DeleteNode (opNode op_id)).2.nodes = none
          exact ZkClient.DeleteNode_none _ _ _ (hm2 o ho hd)

theorem deleteOne_foldl (now : Nat) (ids : List Nat) (ns ns1 : NameServerImpl)
    (h : doneNodesGone ns ns1) :
    doneNodesGone ns (ids.foldl (deleteOne now) ns1) ∧
      frontsRemoved ns1.task_vec_ (ids.foldl (deleteOne now) ns1).task_vec_ := by
  induction ids generalizing ns1 with
  | nil => exact ⟨h, frontsRemoved_refl _⟩
  | cons op_id rest ih =>
    obtain ⟨h1, h2⟩ := deleteOne_step now ns ns1 op_id h
    obtain ⟨h3, h4⟩ := ih _ h1
    exact ⟨h3, frontsRemoved_trans _ _ _ h2 h4⟩

theorem DeleteTask_spec (ns : NameServerImpl) (now : Nat) :
    doneNodesGone ns (DeleteTask ns now) ∧
      frontsRemoved ns.task_vec_ (DeleteTask ns now).task_vec_ := by
  have h0 : doneNodesGone ns ns := ⟨[], by simp, by simp⟩
  unfold DeleteTask
  split
  · exact ⟨h0, frontsRemoved_refl _⟩
  · split
    · exact ⟨⟨[], by simp, by simp⟩, frontsRemoved_refl _⟩
    · exact deleteOne_foldl now _ ns _ ⟨[], by simp, by simp⟩

theorem deleteDoneOP_none (max_op_num : Nat) (l : List OPData) (zk : ZkClient) (p : String)
    (h : mapFind p zk.nodes = none) :
    mapFind p (deleteDoneOP max_op_num zk l).1.nodes = none := by
  induction l generalizing zk with
  | nil => exact h
  | cons op rest ih =>
    simp only [deleteDoneOP]
    split
    · split
      · split
        · exact ih _ (ZkClient.DeleteNode_none zk _ p h)
        · exact ZkClient.DeleteNode_none zk _ p h
      · exact ih _ h
    · exact h

theorem deleteDoneOP_spec (max_op_num : Nat) (l : List OPData) (zk : ZkClient) :
    ∃ n, n ≤ l.length - max_op_num ∧
      (deleteDoneOP max_op_num zk l).2 = l.drop n ∧
      (∀ op ∈ l.take n, op.op_info_.task_status = TaskStatus.kFailed →
        mapFind (opNode op.op_info_.op_id) (deleteDoneOP max_op_num zk l).1.nodes = none) ∧
      (n < l.length - max_op_num →
        ∃ (op : OPData) (zk1 : ZkClient), l[n]? = some op ∧ op.op_info_.task_status = TaskStatus.kFailed ∧
          (zk1.DeleteNode (opNode op.op_info_.op_id)).1 = false ∧
          (deleteDoneOP max_op_num zk l).1 = (zk1.DeleteNode (opNode op.op_info_.op_id)).2) := by
  induction l generalizing zk with
  | nil => exact ⟨0, by simp, rfl, by simp, by simp⟩
  | cons op rest ih =>
    simp only [deleteDoneOP]
    split
    · rename_i hlen
      simp only [List.length_cons] at hlen
      split
      · rename_i hfailed
        split
        · rename_i hdel
          obtain ⟨n, h1, h2, h3, h4⟩ := ih (zk.DeleteNode (opNode op.op_info_.op_id)).2
          refine ⟨n + 1, by simp only [List.length_cons]; omega, by simpa using h2, ?_, ?_⟩
          · intro o ho hf
            simp only [List.take_succ_cons, List.mem_cons] at ho
            rcases ho with rfl | ho
            · exact deleteDoneOP_none _ _ _ _ (ZkClient.DeleteNode_true zk _ hdel).2
            · exact h3 o ho hf
          · intro hn
            simp only [List.length_cons] at hn
            obtain ⟨o, zk1, g1, g2, g3, g4⟩ := h4 (by omega)
            exact ⟨o, zk1, by simpa using g1, g2, g3, g4⟩
        · rename_i hdel
          refine ⟨0, by omega, rfl, by simp, ?_⟩
          intro _
          exact ⟨op, zk, by simp, hfailed, by simpa using hdel, rfl⟩
      · rename_i hfailed
        obtain ⟨n, h1, h2, h3, h4⟩ := ih zk
        refine ⟨n + 1, by simp only [List.length_cons]; omega, by simpa using h2, ?_, ?_⟩
        · intro o ho hf
          simp only [List.take_succ_cons, List.mem_cons] at ho
          rcases ho with rfl | ho
          · exact absurd hf hfailed
          · exact h3 o ho hf
        · intro hn
          simp only [List.length_cons] at hn
          obtain ⟨o, zk1, g1, g2, g3, g4⟩ := h4 (by omega)
          exact ⟨o, zk1, by simpa using g1, g2, g3, g4⟩
    · rename_i hlen
      simp only [List.length_cons] at hlen
      refine ⟨0, by omega, rfl, by simp, ?_⟩
      intro hn
      simp only [List.length_cons] at hn
      omega


theorem deleteDoneOP_all (max_op_num : Nat) (l : List OPData) (zk : ZkClient)
    (hfaults : zk.faults = [])
    (hnodes : ∀ op ∈ l.take (l.length - max_op_num),
      op.op_info_.task_status = TaskStatus.kFailed →
        ∃ w, mapFind (opNode op.op_info_.op_id) zk.nodes = some w)
    (hnodup : (((l.take (l.length - max_op_num)).filter
      (fun op => op.op_info_.task_status = TaskStatus.kFailed)).map
        (fun op => opNode op.op_info_.op_id)).Nodup) :
    (deleteDoneOP max_op_num zk l).2 = l.drop (l.length - max_op_num) := by
  induction l generalizing zk with
  | nil => simp [deleteDoneOP]
  | cons op rest ih =>
    simp only [deleteDoneOP]
    split
    · rename_i hlen
      simp only [List.length_cons] at hlen
      have hsub : (op :: rest).length - max_op_num = (rest.length - max_op_num) + 1 := by
        simp only [List.length_cons]
        omega
      rw [hsub] at hnodes hnodup ⊢
      simp only [List.take_succ_cons, List.drop_succ_cons] at hnodes hnodup ⊢
      split
      · rename_i hfailed
        obtain ⟨w, hw⟩ := hnodes op (List.mem_cons_self _ _) hfailed
        obtain ⟨hok, hf2⟩ := ZkClient.DeleteNode_ok zk _ w hfaults hw
        rw [if_pos hok]
        simp only [List.filter, hfailed, decide_True, List.map_cons, List.nodup_cons] at hnodup
        apply ih _ hf2
        · intro o ho hof
          obtain ⟨w2, hw2⟩ := hnodes o (List.mem_cons_of_mem _ ho) hof
          refine ⟨w2, ?_⟩
          rw [ZkClient.DeleteNode_find_ne zk _ _ ?_, hw2]
          intro heq
          apply hnodup.1
          rw [heq]
          exact List.mem_map_of_mem _ (List.mem_filter.mpr ⟨ho, by simpa using hof⟩)
        · exact hnodup.2
      · rename_i hfailed
        apply ih zk hfaults
        · intro o ho hof
          exact hnodes o (List.mem_cons_of_mem _ ho) hof
        · simpa [List.filter, hfailed] using hnodup
    · rename_i hlen
      simp only [List.length_cons] at hlen
      have : (op :: rest).length - max_op_num = 0 := by
        simp only [List.length_cons]
        omega
      rw [this]
      rfl

theorem insertAfterParent_some (parent_id : Nat) (op_data p : OPData) (pre post : List OPData)
    (hp : p.op_info_.op_id = parent_id) (hpre : ∀ o ∈ pre, o.op_info_.op_id ≠ parent_id) :
    insertAfterParent parent_id op_data (pre ++ p :: post) = some (pre ++ p :: op_data :: post) := by
  induction pre with
  | nil => simp [insertAfterParent, hp]
  | cons a pre ih =>
    have ha : a.op_info_.op_id ≠ parent_id := hpre a (List.mem_cons_self _ _)
    have := ih (fun o ho => hpre o (List.mem_cons_of_mem _ ho))
    show insertAfterParent parent_id op_data (a :: (pre ++ p :: post)) = _
    simp only [insertAfterParent, if_neg ha, this]
    rfl

theorem insertAfterParent_none (parent_id : Nat) (op_data : OPData) (q : List OPData)
    (h : ∀ o ∈ q, o.op_info_.op_id ≠ parent_id) :
    insertAfterParent parent_id op_data q = none := by
  induction q with
  | nil => rfl
  | cons a q ih =>
    have ha : a.op_info_.op_id ≠ parent_id := h a (List.mem_cons_self _ _)
    simp only [insertAfterParent, if_neg ha]
    rw [ih (fun o ho => h o (List.mem_cons_of_mem _ ho))]
    rfl

theorem DeleteDoneOP_task_vec_ (ns : NameServerImpl) :
    (DeleteDoneOP ns).task_vec_ = ns.task_vec_ := rfl

theorem getD_of_getElem? {α : Type} (l : List α) (i : Nat) (a d : α) (h : l[i]? = some a) :
    l.getD i d = a := by
  simp [List.getD, h]

theorem modifyNth_const_of_getElem? {α : Type} (f : α → α) (l : List α) (i : Nat) (a : α)
    (h : l[i]? = some a) : modifyNth f i l = modifyNth (fun _ => f a) i l := by
  apply List.ext_getElem?
  intro k
  rw [getElem?_modifyNth, getElem?_modifyNth]
  split
  · rename_i hk
    subst hk
    rw [h]
    rfl
  · rfl

theorem AddOPData_enqueued (ns : NameServerImpl) (op_data : OPData) (concurrency : Nat)
    (hcreate : (ns.zk_client_.CreateNode (opNode op_data.op_info_.op_id)
      (ZkValue.op (withVecIdx op_data (selectQueue ns op_data concurrency)).op_info_)).1 = true) :
    (∀ task_vec, enqueueOP (withVecIdx op_data (selectQueue ns op_data concurrency))
        (selectQueue ns op_data concurrency) ns.task_vec_ = some task_vec →
      (AddOPData ns op_data concurrency).1 = 0 ∧
        (AddOPData ns op_data concurrency).2.task_vec_ = task_vec) ∧
    (enqueueOP (withVecIdx op_data (selectQueue ns op_data concurrency))
        (selectQueue ns op_data concurrency) ns.task_vec_ = none →
      (AddOPData ns op_data concurrency).1 = -1 ∧
        (AddOPData ns op_data concurrency).2.task_vec_ = ns.task_vec_) := by
  have hid : (withVecIdx op_data (selectQueue ns op_data concurrency)).op_info_.op_id
      = op_data.op_info_.op_id := rfl
  constructor
  · intro task_vec h
    unfold AddOPData
    simp only [hid, hcreate, h]
    exact ⟨rfl, rfl⟩
  · intro h
    unfold AddOPData
    simp only [hid, hcreate, h]
    exact ⟨rfl, rfl⟩


/-! ## CancelOP and the canceled OP -/

theorem isCanceled_cancel (op_data : OPData) : isCanceled (cancel op_data) := by
  refine ⟨rfl, ?_⟩
  intro task ht
  simp only [cancel, List.mem_map] at ht
  obtain ⟨t, _, rfl⟩ := ht
  rfl

theorem cancelFirst_none (op_id : Nat) (q : List OPData) (h : cancelFirst op_id q = none) :
    ∀ op_data ∈ q, op_data.op_info_.op_id ≠ op_id := by
  induction q with
  | nil => simp
  | cons a q ih =>
    simp only [cancelFirst] at h
    split at h
    · cases h
    · rename_i ha
      intro o ho
      rcases List.mem_cons.mp ho with rfl | ho
      · exact ha
      · apply ih _ o ho
        cases hc : cancelFirst op_id q with
        | none => rfl
        | some l => rw [hc] at h; cases h

theorem cancelFirst_of_absent (op_id : Nat) (q : List OPData)
    (h : ∀ op_data ∈ q, op_data.op_info_.op_id ≠ op_id) : cancelFirst op_id q = none := by
  induction q with
  | nil => rfl
  | cons a q ih =>
    simp only [cancelFirst, if_neg (h a (List.mem_cons_self _ _))]
    rw [ih (fun b hb => h b (List.mem_cons_of_mem _ hb))]
    rfl

theorem cancelFirst_some (op_id : Nat) (q l : List OPData) (h : cancelFirst op_id q = some l)
    (hone : q.countP (fun op_data => op_data.op_info_.op_id = op_id) ≤ 1) :
    (∀ op_data ∈ l, op_data.op_info_.op_id = op_id → isCanceled op_data) ∧
      ∃ op_data ∈ l, op_data.op_info_.op_id = op_id := by
  induction q generalizing l with
  | nil => cases h
  | cons a q ih =>
    simp only [cancelFirst] at h
    split at h
    · rename_i ha
      simp only [Option.some.injEq] at h
      subst h
      rw [List.countP_cons_of_pos _ _ (by simpa using ha)] at hone
      have hq : q.countP (fun op_data => op_data.op_info_.op_id = op_id) = 0 := by omega
      rw [List.countP_eq_zero] at hq
      refine ⟨?_, cancel a, List.mem_cons_self _ _, ha⟩
      intro o ho hid
      rcases List.mem_cons.mp ho with rfl | ho
      · exact isCanceled_cancel a
      · exact absurd (by simpa using hid) (hq o ho)
    · rename_i ha
      cases hc : cancelFirst op_id q with
      | none => rw [hc] at h; cases h
      | some l' =>
        rw [hc] at h
        simp only [Option.map_some', Option.some.injEq] at h
        subst h
        rw [List.countP_cons_of_neg _ _ (by simpa using ha)] at hone
        obtain ⟨h1, o, ho, hid⟩ := ih l' hc hone
        refine ⟨?_, o, List.mem_cons_of_mem _ ho, hid⟩
        intro o' ho' hid'
        rcases List.mem_cons.mp ho' with rfl | ho'
        · exact absurd hid' ha
        · exact h1 o' ho' hid'

theorem cancelInQueues_some (op_id : Nat) (task_vec task_vec' : List (List OPData))
    (h : cancelInQueues op_id task_vec = some task_vec') (hone : countId op_id task_vec ≤ 1) :
    (∀ q ∈ task_vec', ∀ op_data ∈ q, op_data.op_info_.op_id = op_id → isCanceled op_data) ∧
      ∃ q ∈ task_vec', ∃ op_data ∈ q, op_data.op_info_.op_id = op_id := by
  induction task_vec generalizing task_vec' with
  | nil => cases h
  | cons q rest ih =>
    simp only [countId, List.map_cons, List.sum_cons] at hone
    simp only [cancelInQueues] at h
    cases hc : cancelFirst op_id q with
    | some l =>
      rw [hc] at h
      simp only [Option.some.injEq] at h
      subst h
      obtain ⟨h1, o, ho, hid⟩ := cancelFirst_some op_id q l hc (by omega)
      have hq : 1 ≤ q.countP (fun op_data => op_data.op_info_.op_id = op_id) := by
        by_contra hlt
        have h0 : q.countP (fun op_data => op_data.op_info_.op_id = op_id) = 0 := by omega
        rw [List.countP_eq_zero] at h0
        rw [cancelFirst_of_absent op_id q (fun a ha => by simpa using h0 a ha)] at hc
        cases hc
      have hrest : (rest.map (fun q => q.countP
          (fun op_data => op_data.op_info_.op_id = op_id))).sum = 0 := by omega
      refine ⟨?_, l, List.mem_cons_self _ _, o, ho, hid⟩
      intro q' hq' o' ho' hid'
      rcases List.mem_cons.mp hq' with rfl | hq'
      · exact h1 o' ho' hid'
      · exfalso
        have hle : q'.countP (fun op_data => op_data.op_info_.op_id = op_id) ≤
            (rest.map (fun q => q.countP
              (fun op_data => op_data.op_info_.op_id = op_id))).sum :=
          List.single_le_sum (by simp) _ (List.mem_map_of_mem _ hq')
        have hpos : 0 < q'.countP (fun op_data => op_data.op_info_.op_id = op_id) :=
          List.countP_pos_iff.mpr ⟨o', ho', by simpa using hid'⟩
        omega
    | none =>
      rw [hc] at h
      cases hr : cancelInQueues op_id rest with
      | none => rw [hr] at h; cases h
      | some r =>
        rw [hr] at h
        simp only [Option.map_some', Option.some.injEq] at h
        subst h
        obtain ⟨h1, q', hq', o, ho, hid⟩ := ih r hr (by
          simp only [countId]
          omega)
        refine ⟨?_, q', List.mem_cons_of_mem _ hq', o, ho, hid⟩
        intro q'' hq'' o' ho' hid'
        rcases List.mem_cons.mp hq'' with rfl | hq''
        · exact absurd hid' (cancelFirst_none op_id _ hc o' ho')
        · exact h1 q'' hq'' o' ho' hid'


theorem countId_modifyNth_le (op_id : Nat) (f : List OPData → List OPData) (idx : Nat)
    (task_vec : List (List OPData))
    (hf : ∀ q, task_vec[idx]? = some q →
      (f q).countP (fun op_data => op_data.op_info_.op_id = op_id) ≤
        q.countP (fun op_data => op_data.op_info_.op_id = op_id) + 1) :
    countId op_id (modifyNth f idx task_vec) ≤ countId op_id task_vec + 1 := by
  induction task_vec generalizing idx with
  | nil => cases idx <;> simp [modifyNth, countId]
  | cons q rest ih =>
    cases idx with
    | zero =>
      have := hf q (by simp)
      simp only [modifyNth, countId, List.map_cons, List.sum_cons]
      omega
    | succ n =>
      have := ih n (fun q hq => hf q (by simpa using hq))
      simp only [modifyNth, countId, List.map_cons, List.sum_cons] at this ⊢
      omega

theorem insertAfterParent_count (op_id parent_id : Nat) (op_data : OPData) (q l : List OPData)
    (h : insertAfterParent parent_id op_data q = some l) :
    l.countP (fun o => o.op_info_.op_id = op_id) ≤
      q.countP (fun o => o.op_info_.op_id = op_id) + 1 := by
  induction q generalizing l with
  | nil => cases h
  | cons a q ih =>
    simp only [insertAfterParent] at h
    split at h
    · simp only [Option.some.injEq] at h
      subst h
      simp only [List.countP_cons]
      split <;> split <;> omega
    · cases hc : insertAfterParent parent_id op_data q with
      | none => rw [hc] at h; cases h
      | some l' =>
        rw [hc] at h
        simp only [Option.map_some', Option.some.injEq] at h
        subst h
        have := ih l' hc
        simp only [List.countP_cons]
        omega

theorem enqueueOP_count (op_id : Nat) (op_data : OPData) (idx : Nat)
    (task_vec task_vec' : List (List OPData))
    (h : enqueueOP op_data idx task_vec = some task_vec') :
    countId op_id task_vec' ≤ countId op_id task_vec + 1 := by
  unfold enqueueOP at h
  split at h
  · cases hi : insertAfterParent op_data.op_info_.parent_id op_data (task_vec.getD idx []) with
    | none => rw [hi] at h; cases h
    | some l =>
      rw [hi] at h
      simp only [Option.map_some', Option.some.injEq] at h
      subst h
      apply countId_modifyNth_le
      intro q hq
      rw [getD_of_getElem? _ _ _ _ hq] at hi
      exact insertAfterParent_count op_id _ op_data q l hi
  · simp only [Option.some.injEq] at h
    subst h
    apply countId_modifyNth_le
    intro q _
    simp only [List.countP_append, List.countP_cons, List.countP_nil]
    split <;> omega

theorem countId_zero (op_id : Nat) (task_vec : List (List OPData))
    (h : ∀ q ∈ task_vec, ∀ op_data ∈ q, op_data.op_info_.op_id ≠ op_id) :
    countId op_id task_vec = 0 := by
  unfold countId
  apply List.sum_eq_zero
  intro n hn
  simp only [List.mem_map] at hn
  obtain ⟨q, hq, rfl⟩ := hn
  rw [List.countP_eq_zero]
  intro a ha
  simpa using h q hq a ha

theorem AddOPData_ok (ns : NameServerImpl) (op_data : OPData) (concurrency : Nat)
    (h : (AddOPData ns op_data concurrency).1 = 0) :
    ∃ task_vec, enqueueOP (withVecIdx op_data (selectQueue ns op_data concurrency))
        (selectQueue ns op_data concurrency) ns.task_vec_ = some task_vec ∧
      (AddOPData ns op_data concurrency).2.task_vec_ = task_vec ∧
      (AddOPData ns op_data concurrency).2.task_thread_pool_ = ns.task_thread_pool_ ∧
      ∃ n, (AddOPData ns op_data concurrency).2.done_op_list_ = ns.done_op_list_.drop n := by
  unfold AddOPData at h ⊢
  simp only at h ⊢
  split at h
  · simp at h
  · rename_i hc
    rw [if_neg hc]
    cases he : enqueueOP (withVecIdx op_data (selectQueue ns op_data concurrency))
        (selectQueue ns op_data concurrency) ns.task_vec_ with
    | none => simp [he] at h
    | some task_vec =>
      refine ⟨task_vec, rfl, rfl, rfl, ?_⟩
      obtain ⟨n, _, hn, _⟩ := deleteDoneOP_spec ns.flags.max_op_num ns.done_op_list_
        (ns.zk_client_.CreateNode (opNode op_data.op_info_.op_id)
          (ZkValue.op (withVecIdx op_data (selectQueue ns op_data concurrency)).op_info_)).2
      exact ⟨n, hn⟩

theorem forQueues_inv {σ : Type} (body : σ → List OPData → σ × List OPData)
    (P : σ → Prop) (Rq : List OPData → Prop) (T : List OPData → List OPData → Prop)
    (h : ∀ s q, P s → Rq q → P (body s q).1 ∧ Rq (body s q).2 ∧ T q (body s q).2)
    (s : σ) (task_vec : List (List OPData)) (hs : P s) (hq : ∀ q ∈ task_vec, Rq q) :
    P (forQueues body s task_vec).1 ∧ (∀ q ∈ (forQueues body s task_vec).2, Rq q) ∧
      List.Forall₂ T task_vec (forQueues body s task_vec).2 := by
  induction task_vec generalizing s with
  | nil => exact ⟨hs, by simp [forQueues], List.Forall₂.nil⟩
  | cons q rest ih =>
    obtain ⟨h1, h2, h3⟩ := h s q hs (hq q (List.mem_cons_self _ _))
    obtain ⟨g1, g2, g3⟩ := ih (body s q).1 h1 (fun q' hq' => hq q' (List.mem_cons_of_mem _ hq'))
    refine ⟨g1, ?_, List.Forall₂.cons h3 g3⟩
    intro q' hq'
    simp only [forQueues, List.mem_cons] at hq'
    rcases hq' with rfl | hq'
    · exact h2
    · exact g2 q' hq'

theorem processQueue_canceled (op_id now : Nat) (s : ZkClient × List (Nat × Task))
    (q : List OPData) (hs : ∀ x ∈ s.2, x.1 ≠ op_id) (hq : canceledIn op_id q) :
    (∀ x ∈ (processQueue now s q).1.2, x.1 ≠ op_id) ∧ canceledIn op_id (processQueue now s q).2 ∧
      queueIds (processQueue now s q).2 = queueIds q := by
  cases q with
  | nil => exact ⟨hs, hq, rfl⟩
  | cons op_data rest =>
    cases hl : op_data.task_list_ with
    | nil =>
      simp only [processQueue, hl]
      exact ⟨hs, hq, trivial⟩
    | cons task tasks =>
      simp only [processQueue, hl]
      split
      · exact ⟨hs, hq, rfl⟩
      · rename_i hstat
        have hne : op_data.op_info_.op_id ≠ op_id := by
          intro hid
          exact hstat (Or.inr (hq op_data (List.mem_cons_self _ _) hid).1)
        have hrest : canceledIn op_id rest := fun o ho => hq o (List.mem_cons_of_mem _ ho)
        have hcons : ∀ o : OPData, o.op_info_.op_id = op_data.op_info_.op_id →
            canceledIn op_id (o :: rest) := by
          intro o ho o' ho' hid
          rcases List.mem_cons.mp ho' with rfl | ho'
          · exact absurd (ho ▸ hid) hne
          · exact hrest o' ho' hid
        split
        · exact ⟨hs, hcons _ rfl, rfl⟩
        · split
          · refine ⟨?_, hcons _ (by split <;> rfl), by simp [queueIds]; split <;> rfl⟩
            intro x hx
            simp only [List.mem_append, List.mem_singleton] at hx
            rcases hx with hx | rfl
            · exact hs x hx
            · exact hne
          · exact ⟨hs, hcons _ (by split <;> rfl), by simp [queueIds]; split <;> rfl⟩

theorem isCanceled_advanced (op_data : OPData) (h : isCanceled op_data) :
    isCanceled (advanced op_data) :=
  ⟨h.1, fun task ht => h.2 task (List.mem_of_mem_tail ht)⟩

theorem updateZKQueue_canceled (op_id : Nat) (zk : ZkClient) (q : List OPData)
    (hq : canceledIn op_id q) :
    canceledIn op_id (updateZKQueue zk q).2 ∧ queueIds (updateZKQueue zk q).2 = queueIds q := by
  rcases updateZKQueue_cases zk q with ⟨h, _⟩ | ⟨op_data, rest, task, tasks, h1, _, _, _, h5⟩
  · rw [h]
    exact ⟨hq, rfl⟩
  · rw [h5, h1]
    refine ⟨?_, rfl⟩
    intro o ho hid
    rcases List.mem_cons.mp ho with rfl | ho
    · exact isCanceled_advanced op_data (hq op_data (by rw [h1]; exact List.mem_cons_self _ _) hid)
    · exact hq o (by rw [h1]; exact List.mem_cons_of_mem _ ho) hid

theorem doingHead_some (q : List OPData) (op_id : Nat) (task : Task)
    (h : doingHead q = some (op_id, task)) :
    ∃ op_data rest tasks, q = op_data :: rest ∧ op_data.task_list_ = task :: tasks ∧
      op_data.op_info_.op_id = op_id ∧ task.task_info_.status = TaskStatus.kDoing := by
  cases q with
  | nil => cases h
  | cons op_data rest =>
    cases hl : op_data.task_list_ with
    | nil => simp [doingHead, hl] at h
    | cons t tasks =>
      simp only [doingHead, hl] at h
      split at h
      · rename_i hd
        simp only [Option.some.injEq, Prod.mk.injEq] at h
        obtain ⟨h1, h2⟩ := h
        subst h2
        exact ⟨op_data, rest, tasks, rfl, hl, h1, hd⟩
      · cases h

theorem setHeadStatus_canceled (op_id : Nat) (status : TaskStatus) (q : List OPData)
    (id : Nat) (task : Task) (hd : doingHead q = some (id, task)) (hq : canceledIn op_id q) :
    canceledIn op_id (setHeadStatus status q) ∧ queueIds (setHeadStatus status q) = queueIds q := by
  obtain ⟨op_data, rest, tasks, h1, h2, h3, h4⟩ := doingHead_some q id task hd
  subst h1
  have hne : op_data.op_info_.op_id ≠ op_id := by
    intro hid
    have := (hq op_data (List.mem_cons_self _ _) hid).2 task (by rw [h2]; exact List.mem_cons_self _ _)
    rw [h4] at this
    cases this
  simp only [setHeadStatus, h2]
  refine ⟨?_, rfl⟩
  intro o ho hid
  rcases List.mem_cons.mp ho with rfl | ho
  · exact absurd hid hne
  · exact hq o (List.mem_cons_of_mem _ ho) hid

theorem failOffline_canceled (op_id : Nat) (endpoint : String) (q : List OPData)
    (hq : canceledIn op_id q) :
    canceledIn op_id (failOffline endpoint q) ∧ queueIds (failOffline endpoint q) = queueIds q := by
  unfold failOffline
  cases hd : doingHead q with
  | none => exact ⟨hq, rfl⟩
  | some r =>
    obtain ⟨id, task⟩ := r
    simp only
    split
    · exact setHeadStatus_canceled op_id _ q id task hd hq
    · exact ⟨hq, rfl⟩

theorem mirrorStatus_canceled (op_id : Nat) (is_recover_op : Bool) (endpoint : String)
    (response : List TaskInfo) (q : List OPData) (hq : canceledIn op_id q) :
    canceledIn op_id (mirrorStatus is_recover_op endpoint response q) ∧
      queueIds (mirrorStatus is_recover_op endpoint response q) = queueIds q := by
  unfold mirrorStatus
  cases hd : doingHead q with
  | none => exact ⟨hq, rfl⟩
  | some r =>
    obtain ⟨id, task⟩ := r
    simp only
    split
    · split
      · exact setHeadStatus_canceled op_id _ q id task hd hq
      · exact ⟨hq, rfl⟩
    · split
      · exact setHeadStatus_canceled op_id _ q id task hd hq
      · exact ⟨hq, rfl⟩

theorem map_canceled (op_id : Nat) (f : List OPData → List OPData)
    (hf : ∀ q, canceledIn op_id q → canceledIn op_id (f q) ∧ queueIds (f q) = queueIds q)
    (task_vec : List (List OPData)) (h : ∀ q ∈ task_vec, canceledIn op_id q) :
    keptCanceled op_id task_vec (task_vec.map f) := by
  constructor
  · intro q hq
    simp only [List.mem_map] at hq
    obtain ⟨q0, hq0, rfl⟩ := hq
    exact (hf q0 (h q0 hq0)).1
  · rw [List.map_map]
    apply List.map_congr_left
    intro q hq
    exact (hf q (h q hq)).2

theorem failOfflineTasks_canceled (op_id cur_time timeout : Nat)
    (tablets : List (String × TabletInfo)) (task_vec : List (List OPData))
    (h : ∀ q ∈ task_vec, canceledIn op_id q) :
    keptCanceled op_id task_vec (failOfflineTasks cur_time timeout tablets task_vec) := by
  induction tablets generalizing task_vec with
  | nil => exact ⟨h, rfl⟩
  | cons t rest ih =>
    obtain ⟨endpoint, tablet⟩ := t
    simp only [failOfflineTasks]
    split
    · split
      · exact ih task_vec h
      · obtain ⟨h1, h2⟩ := map_canceled op_id (failOffline endpoint)
          (failOffline_canceled op_id endpoint) task_vec h
        obtain ⟨h3, h4⟩ := ih _ h1
        exact ⟨h3, h4.trans h2⟩
    · exact ih task_vec h

theorem mirrorTablets_canceled (op_id : Nat) (is_recover_op : Bool)
    (GetTaskStatus : String → Option (List TaskInfo))
    (tablets : List (String × TabletInfo)) (task_vec : List (List OPData))
    (h : ∀ q ∈ task_vec, canceledIn op_id q) :
    keptCanceled op_id task_vec (mirrorTablets is_recover_op GetTaskStatus tablets task_vec) := by
  induction tablets generalizing task_vec with
  | nil => exact ⟨h, rfl⟩
  | cons t rest ih =>
    obtain ⟨endpoint, tablet⟩ := t
    simp only [mirrorTablets]
    split
    · exact ih task_vec h
    · split
      · exact ih task_vec h
      · rename_i response _
        obtain ⟨h1, h2⟩ := map_canceled op_id (mirrorStatus is_recover_op endpoint response)
          (mirrorStatus_canceled op_id is_recover_op endpoint response) task_vec h
        obtain ⟨h3, h4⟩ := ih _ h1
        exact ⟨h3, h4.trans h2⟩


theorem inQueues_iff (op_id : Nat) (task_vec : List (List OPData)) :
    (∃ q ∈ task_vec, ∃ op_data ∈ q, op_data.op_info_.op_id = op_id) ↔
      op_id ∈ (task_vec.map queueIds).flatten := by
  constructor
  · rintro ⟨q, hq, o, ho, hid⟩
    apply List.mem_flatten.mpr
    exact ⟨queueIds q, List.mem_map_of_mem _ hq, hid ▸ List.mem_map_of_mem _ ho⟩
  · intro h
    obtain ⟨l, hl, hmem⟩ := List.mem_flatten.mp h
    obtain ⟨q, hq, rfl⟩ := List.mem_map.mp hl
    obtain ⟨o, ho, hid⟩ := List.mem_map.mp hmem
    exact ⟨q, hq, o, ho, hid⟩

theorem map_queueIds_of_forall₂ (task_vec task_vec' : List (List OPData))
    (h : List.Forall₂ (fun q q' => queueIds q' = queueIds q) task_vec task_vec') :
    task_vec'.map queueIds = task_vec.map queueIds := by
  induction h with
  | nil => rfl
  | cons hab _ ih => simp only [List.map_cons, hab, ih]

theorem canceledInv_of_kept (op_id : Nat) (ns ns' : NameServerImpl)
    (h : canceledInv op_id ns)
    (hq : (∀ q ∈ ns'.task_vec_, canceledIn op_id q) ∧
      ns'.task_vec_.map queueIds = ns.task_vec_.map queueIds)
    (hpool : ∀ x ∈ ns'.task_thread_pool_, x.1 ≠ op_id)
    (hdone : ns'.done_op_list_ = ns.done_op_list_) : canceledInv op_id ns' := by
  obtain ⟨_, _, h3, h4⟩ := h
  refine ⟨hq.1, hpool, by rw [hdone]; exact h3, ?_⟩
  rw [hdone, inQueues_iff, hq.2, ← inQueues_iff]
  exact h4

theorem processTasks_canceled (op_id now : Nat) (ns : NameServerImpl)
    (h : canceledInv op_id ns) : canceledInv op_id (processTasks ns now) := by
  unfold processTasks
  split
  · exact h
  · obtain ⟨g1, g2, g3⟩ := forQueues_inv (processQueue now)
      (fun s => ∀ x ∈ s.2, x.1 ≠ op_id) (canceledIn op_id)
      (fun q q' => queueIds q' = queueIds q)
      (fun s q hs hq => processQueue_canceled op_id now s q hs hq)
      (ns.zk_client_, ns.task_thread_pool_) ns.task_vec_ h.2.1 h.1
    exact canceledInv_of_kept op_id ns _ h ⟨g2, map_queueIds_of_forall₂ _ _ g3⟩ g1 rfl

theorem UpdateZKTaskStatus_canceled (op_id : Nat) (ns : NameServerImpl)
    (h : canceledInv op_id ns) : canceledInv op_id (UpdateZKTaskStatus ns) := by
  obtain ⟨_, g2, g3⟩ := forQueues_inv updateZKQueue (fun _ => True) (canceledIn op_id)
    (fun q q' => queueIds q' = queueIds q)
    (fun s q _ hq => ⟨trivial, updateZKQueue_canceled op_id s q hq⟩)
    ns.zk_client_ ns.task_vec_ trivial h.1
  exact canceledInv_of_kept op_id ns _ h ⟨g2, map_queueIds_of_forall₂ _ _ g3⟩ h.2.1 rfl

theorem UpdateTaskStatus_canceled (op_id : Nat) (ns : NameServerImpl) (is_recover_op : Bool)
    (cur_time : Nat) (GetTaskStatus : String → Option (List TaskInfo))
    (h : canceledInv op_id ns) :
    canceledInv op_id (UpdateTaskStatus ns is_recover_op cur_time GetTaskStatus) := by
  obtain ⟨h1, h2⟩ := failOfflineTasks_canceled op_id cur_time ns.flags.tablet_heartbeat_timeout
    ns.tablets_ ns.task_vec_ h.1
  obtain ⟨h3, h4⟩ := mirrorTablets_canceled op_id is_recover_op GetTaskStatus ns.tablets_ _ h1
  exact canceledInv_of_kept op_id ns _ h ⟨h3, h4.trans h2⟩ h.2.1 rfl

theorem mem_modifyNth_tail (index : Nat) (task_vec : List (List OPData)) (q : List OPData)
    (h : q ∈ modifyNth List.tail index task_vec) : ∃ q0 ∈ task_vec, List.IsSuffix q q0 := by
  rcases mem_modifyNth _ _ _ _ h with h | ⟨a, ha, rfl⟩
  · exact ⟨q, h, List.suffix_refl q⟩
  · exact ⟨a, List.mem_iff_getElem?.mpr ⟨_, ha⟩, List.tail_suffix a⟩

theorem inQueues_tail (op_id index : Nat) (task_vec : List (List OPData)) (op_data : OPData)
    (rest : List OPData) (hidx : task_vec[index]? = some (op_data :: rest))
    (h : ∃ q ∈ task_vec, ∃ o ∈ q, o.op_info_.op_id = op_id) :
    (∃ q ∈ modifyNth List.tail index task_vec, ∃ o ∈ q, o.op_info_.op_id = op_id) ∨
      op_data.op_info_.op_id = op_id := by
  obtain ⟨q, hq, o, ho, hid⟩ := h
  obtain ⟨k, hk⟩ := List.mem_iff_getElem?.mp hq
  by_cases hki : k = index
  · subst hki
    rw [hidx] at hk
    simp only [Option.some.injEq] at hk
    subst hk
    rcases List.mem_cons.mp ho with rfl | ho
    · exact Or.inr hid
    · refine Or.inl ⟨rest, ?_, o, ho, hid⟩
      apply List.mem_iff_getElem?.mpr
      exact ⟨k, by rw [getElem?_modifyNth, if_pos rfl, hidx]; rfl⟩
  · refine Or.inl ⟨q, ?_, o, ho, hid⟩
    apply List.mem_iff_getElem?.mpr
    exact ⟨k, by rw [getElem?_modifyNth, if_neg hki, hk]⟩

theorem deleteOne_canceled (op_id now : Nat) (ns : NameServerImpl) (id : Nat)
    (h : canceledInv op_id ns) : canceledInv op_id (deleteOne now ns id) := by
  obtain ⟨h1, h2, h3, h4⟩ := h
  unfold deleteOne
  cases hf : firstWith (frontHasId id) ns.task_vec_ with
  | none => exact ⟨h1, h2, h3, h4⟩
  | some r =>
    obtain ⟨index, q⟩ := r
    cases q with
    | nil => exact ⟨h1, h2, h3, h4⟩
    | cons op_data rest =>
      obtain ⟨hidx, _⟩ := firstWith_some _ _ _ _ hf
      have hmem : op_data ∈ op_data :: rest := List.mem_cons_self _ _
      have hq0 : op_data :: rest ∈ ns.task_vec_ := List.mem_iff_getElem?.mpr ⟨_, hidx⟩
      have hqueues : ∀ q ∈ modifyNth List.tail index ns.task_vec_, canceledIn op_id q := by
        intro q hq o ho hid
        obtain ⟨q0, hq0, hsuf⟩ := mem_modifyNth_tail index _ q hq
        exact h1 q0 hq0 o (hsuf.subset ho) hid
      have hin : ∀ moved : OPData, moved.op_info_.op_id = op_data.op_info_.op_id →
          ((∃ q ∈ modifyNth List.tail index ns.task_vec_, ∃ o ∈ q, o.op_info_.op_id = op_id) ∨
            ∃ o ∈ ns.done_op_list_ ++ [moved], o.op_info_.op_id = op_id) := by
        intro moved hmoved
        rcases h4 with h4 | ⟨o, ho, hid⟩
        · rcases inQueues_tail op_id index _ op_data rest hidx h4 with h5 | h5
          · exact Or.inl h5
          · exact Or.inr ⟨moved, by simp, hmoved.trans h5⟩
        · exact Or.inr ⟨o, by simp [ho], hid⟩
      simp only
      split
      · rename_i hfailed
        have hne : op_data.op_info_.op_id ≠ op_id := by
          intro hid
          have hc := h1 _ hq0 op_data hmem hid
          cases hl : op_data.task_list_ with
          | nil => simp [hl] at hfailed
          | cons task tasks =>
            have := hc.2 task (by rw [hl]; exact List.mem_cons_self _ _)
            simp [hl, this] at hfailed
        refine ⟨hqueues, h2, ?_, hin _ rfl⟩
        intro o ho hid
        simp only [List.mem_append, List.mem_singleton] at ho
        rcases ho with ho | rfl
        · exact h3 o ho hid
        · exact absurd hid hne
      · split
        · refine ⟨hqueues, h2, ?_, hin _ (by unfold markEnded; split <;> rfl)⟩
          intro o ho hid
          simp only [List.mem_append, List.mem_singleton] at ho
          rcases ho with ho | rfl
          · exact h3 o ho hid
          · have hid0 : op_data.op_info_.op_id = op_id := by
              unfold markEnded at hid
              split at hid <;> exact hid
            have hc := (h1 _ hq0 op_data hmem hid0).1
            unfold markEnded
            rw [if_neg (by rw [hc]; decide)]
            exact hc
        · exact ⟨h1, h2, h3, h4⟩

theorem DeleteTask_canceled (op_id now : Nat) (ns : NameServerImpl)
    (h : canceledInv op_id ns) : canceledInv op_id (DeleteTask ns now) := by
  have hfold : ∀ (ids : List Nat) (ns1 : NameServerImpl), canceledInv op_id ns1 →
      canceledInv op_id (ids.foldl (deleteOne now) ns1) := by
    intro ids
    induction ids with
    | nil => exact fun _ h1 => h1
    | cons id rest ih => exact fun ns1 h1 => ih _ (deleteOne_canceled op_id now ns1 id h1)
  unfold DeleteTask
  split
  · exact h
  · split
    · exact h
    · exact hfold _ _ h

theorem enginePass_canceled (op_id : Nat) (ns : NameServerImpl) (pass : EnginePass)
    (h : canceledInv op_id ns) : canceledInv op_id (enginePass ns pass) := by
  cases pass with
  | scan now => exact processTasks_canceled op_id now ns h
  | zkStatus => exact UpdateZKTaskStatus_canceled op_id ns h
  | reap now => exact DeleteTask_canceled op_id now ns h
  | poll is_recover_op cur_time GetTaskStatus =>
    exact UpdateTaskStatus_canceled op_id ns is_recover_op cur_time GetTaskStatus h

theorem runEngine_canceled (op_id : Nat) (passes : List EnginePass) (ns : NameServerImpl)
    (h : canceledInv op_id ns) : canceledInv op_id (runEngine ns passes) := by
  induction passes generalizing ns with
  | nil => exact h
  | cons pass rest ih => exact ih _ (enginePass_canceled op_id ns pass h)

theorem CancelOP_ok (ns : NameServerImpl) (op_id : Nat) (h : (CancelOP ns op_id).2 = 0) :
    ∃ task_vec, cancelInQueues op_id ns.task_vec_ = some task_vec ∧
      (CancelOP ns op_id).1 = { ns with task_vec_ := task_vec } := by
  unfold CancelOP at h ⊢
  split at h
  · simp at h
  · rename_i hrun
    rw [if_neg hrun]
    split at h
    · simp at h
    · rename_i hauto
      rw [if_neg hauto]
      cases hc : cancelInQueues op_id ns.task_vec_ with
      | none => simp [hc] at h
      | some task_vec => exact ⟨task_vec, rfl, rfl⟩

/-! ## The order of the tasks -/

theorem forQueues_mem_inv {σ : Type} (body : σ → List OPData → σ × List OPData)
    (P : σ → Prop) (T : List OPData → List OPData → Prop) (all : List (List OPData))
    (h : ∀ s q, q ∈ all → P s → P (body s q).1 ∧ T q (body s q).2)
    (s : σ) (task_vec : List (List OPData)) (hsub : ∀ q ∈ task_vec, q ∈ all) (hs : P s) :
    P (forQueues body s task_vec).1 ∧ List.Forall₂ T task_vec (forQueues body s task_vec).2 := by
  induction task_vec generalizing s with
  | nil => exact ⟨hs, List.Forall₂.nil⟩
  | cons q rest ih =>
    obtain ⟨h1, h2⟩ := h s q (hsub q (List.mem_cons_self _ _)) hs
    obtain ⟨g1, g2⟩ := ih (body s q).1 (fun q' hq' => hsub q' (List.mem_cons_of_mem _ hq')) h1
    exact ⟨g1, List.Forall₂.cons h2 g2⟩

theorem sameOP_refl (op_data : OPData) : sameOP op_data op_data := ⟨rfl, rfl⟩

theorem sameOP_trans (a b c : OPData) (h1 : sameOP a b) (h2 : sameOP b c) : sameOP a c :=
  ⟨h2.1.trans h1.1, h2.2.trans h1.2⟩

theorem sameQueue_refl (q : List OPData) : sameQueue q q := forall₂_same sameOP sameOP_refl q

theorem sameQueue_trans (a b c : List OPData) (h1 : sameQueue a b) (h2 : sameQueue b c) :
    sameQueue a c := forall₂_trans sameOP sameOP_trans a b c h1 h2

theorem sameQueue_head (op_data op_data' : OPData) (rest : List OPData)
    (h : sameOP op_data op_data') : sameQueue (op_data :: rest) (op_data' :: rest) :=
  List.Forall₂.cons h (sameQueue_refl rest)

theorem processQueue_submits (now : Nat) (s : ZkClient × List (Nat × Task)) (q : List OPData) :
    (∃ new, (processQueue now s q).1.2 = s.2 ++ new ∧
      ∀ x ∈ new, ∃ (op_data : OPData) (rest : List OPData) (tasks : List Task),
        q = op_data :: rest ∧ op_data.task_list_ = x.2 :: tasks ∧
        x.1 = op_data.op_info_.op_id ∧ x.2.task_info_.status = TaskStatus.kInited) ∧
    sameQueue q (processQueue now s q).2 := by
  have hnone : ∀ pool : List (Nat × Task), ∃ new, pool = pool ++ new ∧
      ∀ x ∈ new, ∃ (op_data : OPData) (rest : List OPData) (tasks : List Task),
        q = op_data :: rest ∧ op_data.task_list_ = x.2 :: tasks ∧
        x.1 = op_data.op_info_.op_id ∧ x.2.task_info_.status = TaskStatus.kInited :=
    fun pool => ⟨[], by simp, by simp⟩
  cases q with
  | nil => exact ⟨hnone _, sameQueue_refl _⟩
  | cons op_data rest =>
    cases hl : op_data.task_list_ with
    | nil =>
      simp only [processQueue, hl]
      exact ⟨hnone _, sameQueue_refl _⟩
    | cons task tasks =>
      simp only [processQueue, hl]
      split
      · exact ⟨hnone _, sameQueue_refl _⟩
      · split
        · exact ⟨hnone _, sameQueue_head _ _ _ ⟨rfl, by rw [hl]⟩⟩
        · split
          · rename_i hinit
            refine ⟨⟨[(op_data.op_info_.op_id, task)], rfl, ?_⟩,
              sameQueue_head _ _ _ ⟨by split <;> rfl, by rw [hl]; rfl⟩⟩
            intro x hx
            simp only [List.mem_singleton] at hx
            subst hx
            exact ⟨op_data, rest, tasks, rfl, hl, rfl, hinit⟩
          · exact ⟨hnone _, sameQueue_head _ _ _ ⟨by split <;> rfl, by rw [hl]⟩⟩


theorem setHeadStatus_same (status : TaskStatus) (q : List OPData) :
    sameQueue q (setHeadStatus status q) := by
  cases q with
  | nil => exact List.Forall₂.nil
  | cons op_data rest =>
    cases hl : op_data.task_list_ with
    | nil =>
      simp only [setHeadStatus, hl]
      exact sameQueue_refl _
    | cons task tasks =>
      simp only [setHeadStatus, hl]
      exact sameQueue_head _ _ _ ⟨rfl, by rw [hl]; rfl⟩

theorem failOffline_same (endpoint : String) (q : List OPData) :
    sameQueue q (failOffline endpoint q) := by
  unfold failOffline
  split
  · exact sameQueue_refl _
  · split
    · exact setHeadStatus_same _ q
    · exact sameQueue_refl _

theorem mirrorStatus_same (is_recover_op : Bool) (endpoint : String) (response : List TaskInfo)
    (q : List OPData) : sameQueue q (mirrorStatus is_recover_op endpoint response q) := by
  unfold mirrorStatus
  split
  · exact sameQueue_refl _
  · split
    · split
      · exact setHeadStatus_same _ q
      · exact sameQueue_refl _
    · split
      · exact setHeadStatus_same _ q
      · exact sameQueue_refl _

theorem sameQueues_refl (task_vec : List (List OPData)) : sameQueues task_vec task_vec :=
  forall₂_same sameQueue sameQueue_refl task_vec

theorem sameQueues_trans (a b c : List (List OPData)) (h1 : sameQueues a b)
    (h2 : sameQueues b c) : sameQueues a c :=
  forall₂_trans sameQueue sameQueue_trans a b c h1 h2

theorem sameQueues_map (f : List OPData → List OPData) (hf : ∀ q, sameQueue q (f q))
    (task_vec : List (List OPData)) : sameQueues task_vec (task_vec.map f) := by
  induction task_vec with
  | nil => exact List.Forall₂.nil
  | cons q rest ih => exact List.Forall₂.cons (hf q) ih

theorem failOfflineTasks_same (cur_time timeout : Nat) (tablets : List (String × TabletInfo))
    (task_vec : List (List OPData)) :
    sameQueues task_vec (failOfflineTasks cur_time timeout tablets task_vec) := by
  induction tablets generalizing task_vec with
  | nil => exact sameQueues_refl _
  | cons t rest ih =>
    obtain ⟨endpoint, tablet⟩ := t
    simp only [failOfflineTasks]
    split
    · split
      · exact ih task_vec
      · exact sameQueues_trans _ _ _ (sameQueues_map _ (failOffline_same endpoint) task_vec) (ih _)
    · exact ih task_vec

theorem mirrorTablets_same (is_recover_op : Bool)
    (GetTaskStatus : String → Option (List TaskInfo)) (tablets : List (String × TabletInfo))
    (task_vec : List (List OPData)) :
    sameQueues task_vec (mirrorTablets is_recover_op GetTaskStatus tablets task_vec) := by
  induction tablets generalizing task_vec with
  | nil => exact sameQueues_refl _
  | cons t rest ih =>
    obtain ⟨endpoint, tablet⟩ := t
    simp only [mirrorTablets]
    split
    · exact ih task_vec
    · split
      · exact ih task_vec
      · rename_i response _
        exact sameQueues_trans _ _ _
          (sameQueues_map _ (mirrorStatus_same is_recover_op endpoint response) task_vec) (ih _)

theorem writeTaskStatus_same (ns : NameServerImpl) (index op_pos task_pos : Nat)
    (status : TaskStatus) (is_rpc_send : Bool) :
    sameQueues ns.task_vec_
      (writeTaskStatus ns index op_pos task_pos status is_rpc_send).task_vec_ := by
  unfold writeTaskStatus
  apply forall₂_modifyNth sameQueue sameQueue_refl
  intro q
  apply forall₂_modifyNth sameOP sameOP_refl
  intro op_data
  refine ⟨rfl, ?_⟩
  show taskIds (modifyNth _ task_pos op_data.task_list_) = taskIds op_data.task_list_
  generalize op_data.task_list_ = l
  induction l generalizing task_pos with
  | nil => cases task_pos <;> rfl
  | cons a l ih =>
    cases task_pos with
    | zero => rfl
    | succ n =>
      simp only [modifyNth, taskIds, List.map_cons]
      have := ih n
      simp only [taskIds] at this
      rw [this]

theorem submitsHeads_none (ns ns' : NameServerImpl)
    (h : ns'.task_thread_pool_ = ns.task_thread_pool_) : submitsHeads ns ns' :=
  ⟨[], by simp [h], by simp⟩

theorem forall₂_imp {α β : Type} (R S : α → β → Prop) (l : List α) (l' : List β)
    (h : List.Forall₂ R l l') (himp : ∀ a b, R a b → S a b) : List.Forall₂ S l l' := by
  induction h with
  | nil => exact List.Forall₂.nil
  | cons hab _ ih => exact List.Forall₂.cons (himp _ _ hab) ih

theorem processTasks_step (ns : NameServerImpl) (now : Nat) :
    submitsHeads ns (processTasks ns now) ∧
      sameQueues ns.task_vec_ (processTasks ns now).task_vec_ := by
  unfold processTasks
  split
  · exact ⟨submitsHeads_none _ _ rfl, sameQueues_refl _⟩
  · exact forQueues_mem_inv (processQueue now)
      (fun s => ∃ new, s.2 = ns.task_thread_pool_ ++ new ∧ ∀ x ∈ new, isHeadTask ns x)
      sameQueue ns.task_vec_
      (fun s q hq hs => by
        obtain ⟨new, h1, h2⟩ := hs
        obtain ⟨⟨new2, g1, g2⟩, g3⟩ := processQueue_submits now s q
        refine ⟨⟨new ++ new2, by rw [g1, h1, List.append_assoc], ?_⟩, g3⟩
        intro x hx
        rcases List.mem_append.mp hx with hx | hx
        · exact h2 x hx
        · obtain ⟨op_data, rest, tasks, e1, e2, e3, e4⟩ := g2 x hx
          exact ⟨q, hq, op_data, rest, tasks, e1, e2, e3, e4⟩)
      (ns.zk_client_, ns.task_thread_pool_) ns.task_vec_ (fun q hq => hq) ⟨[], by simp, by simp⟩

theorem enginePass_step (ns : NameServerImpl) (p : EnginePass) :
    submitsHeads ns (enginePass ns p) ∧
      List.Forall₂ queueStep ns.task_vec_ (enginePass ns p).task_vec_ := by
  cases p with
  | scan now =>
    obtain ⟨h1, h2⟩ := processTasks_step ns now
    exact ⟨h1, forall₂_imp _ _ _ _ h2 (fun _ _ h => Or.inr (Or.inl h))⟩
  | zkStatus =>
    refine ⟨submitsHeads_none _ _ rfl, ?_⟩
    apply forQueues_forall₂
    intro zk q
    rcases updateZKQueue_cases zk q with ⟨h, _⟩ | ⟨op_data, rest, task, tasks, h1, h2, h3, _, h5⟩
    · rw [h]
      exact Or.inl (List.suffix_refl q)
    · exact Or.inr (Or.inr ⟨op_data, rest, task, tasks, (advanced op_data).op_info_, h1, h2, h3,
        rfl, by rw [h5]; simp [advanced, h2]⟩)
  | reap now =>
    refine ⟨submitsHeads_none _ _ ?_, ?_⟩
    · show (DeleteTask ns now).task_thread_pool_ = ns.task_thread_pool_
      have hone : ∀ (ns1 : NameServerImpl) (id : Nat),
          (deleteOne now ns1 id).task_thread_pool_ = ns1.task_thread_pool_ := by
        intro ns1 id
        unfold deleteOne
        split
        · rfl
        · rfl
        · split
          · rfl
          · split <;> rfl
      have hfold : ∀ (ids : List Nat) (ns1 : NameServerImpl),
          (ids.foldl (deleteOne now) ns1).task_thread_pool_ = ns1.task_thread_pool_ := by
        intro ids
        induction ids with
        | nil => exact fun _ => rfl
        | cons id rest ih => exact fun ns1 => (ih _).trans (hone ns1 id)
      unfold DeleteTask
      split
      · rfl
      · split
        · rfl
        · exact hfold _ _
    · exact forall₂_imp _ _ _ _ (DeleteTask_spec ns now).2 (fun _ _ h => Or.inl h)
  | poll is_recover_op cur_time GetTaskStatus =>
    refine ⟨submitsHeads_none _ _ rfl, ?_⟩
    exact forall₂_imp _ _ _ _
      (sameQueues_trans _ _ _ (failOfflineTasks_same cur_time _ ns.tablets_ ns.task_vec_)
        (mirrorTablets_same is_recover_op GetTaskStatus ns.tablets_ _))
      (fun _ _ h => Or.inr (Or.inl h))

theorem engineStep_step (ns : NameServerImpl) (e : EngineEvent) :
    submitsHeads ns (engineStep ns e) ∧
      List.Forall₂ queueStep ns.task_vec_ (engineStep ns e).task_vec_ := by
  cases e with
  | pass p => exact enginePass_step ns p
  | write index op_pos task_pos status is_rpc_send =>
    exact ⟨submitsHeads_none _ _ rfl,
      forall₂_imp _ _ _ _ (writeTaskStatus_same ns index op_pos task_pos status is_rpc_send)
        (fun _ _ h => Or.inr (Or.inl h))⟩

theorem runEvents_submits (events : List EngineEvent) (ns : NameServerImpl) :
    ∃ new, (runEvents ns events).task_thread_pool_ = ns.task_thread_pool_ ++ new ∧
      ∀ x ∈ new, ∃ k, k < events.length ∧ isHeadTask (runEvents ns (events.take k)) x := by
  induction events generalizing ns with
  | nil => exact ⟨[], by simp [runEvents], by simp⟩
  | cons e rest ih =>
    obtain ⟨⟨new1, h1, h2⟩, _⟩ := engineStep_step ns e
    obtain ⟨new2, g1, g2⟩ := ih (engineStep ns e)
    refine ⟨new1 ++ new2, ?_, ?_⟩
    · show (runEvents (engineStep ns e) rest).task_thread_pool_ = _
      rw [g1, h1, List.append_assoc]
    · intro x hx
      rcases List.mem_append.mp hx with hx | hx
      · exact ⟨0, by simp, h2 x hx⟩
      · obtain ⟨k, hk, hh⟩ := g2 x hx
        exact ⟨k + 1, by simp only [List.length_cons]; omega, hh⟩

theorem cancelInQueues_of_absent (op_id : Nat) (task_vec : List (List OPData))
    (h : ∀ q ∈ task_vec, ∀ op_data ∈ q, op_data.op_info_.op_id ≠ op_id) :
    cancelInQueues op_id task_vec = none := by
  induction task_vec with
  | nil => rfl
  | cons q rest ih =>
    simp only [cancelInQueues, cancelFirst_of_absent op_id q (h q (List.mem_cons_self _ _))]
    rw [ih (fun q' hq' => h q' (List.mem_cons_of_mem _ hq'))]
    rfl

theorem CancelOP_not_queued (ns : NameServerImpl) (op_id : Nat) (hrun : ns.running_ = true)
    (hauto : ns.auto_failover_ = false)
    (h : ∀ q ∈ ns.task_vec_, ∀ op_data ∈ q, op_data.op_info_.op_id ≠ op_id) :
    CancelOP ns op_id = (ns, 312) := by
  unfold CancelOP
  simp [hrun, hauto, cancelInQueues_of_absent op_id ns.task_vec_ h]

/-! ## The OP engine: the properties -/

/-- C11. Let an OP whose id is new to the queues, to `done_op_list_` and to the
thread pool be enqueued by `AddOPData` (return value 0) and then be canceled by
`CancelOP` (code 0).  Then after every sequence of passes of the engine (scans of
`ProcessTask`, `UpdateZKTaskStatus`, `UpdateTaskStatus`, `DeleteTask`), no closure
of a task of the OP is in the thread pool; every entry of `done_op_list_` with
the id is Canceled; and once no queue holds the OP, `done_op_list_` holds it,
Canceled.  This holds whatever the statuses of the OP and of its tasks were when
it was enqueued. -/
theorem canceled_op_never_runs (ns : NameServerImpl) (op_data : OPData) (concurrency : Nat)
    (passes : List EnginePass)
    (hqueues : ∀ q ∈ ns.task_vec_, ∀ o ∈ q, o.op_info_.op_id ≠ op_data.op_info_.op_id)
    (hpool : ∀ x ∈ ns.task_thread_pool_, x.1 ≠ op_data.op_info_.op_id)
    (hdone : ∀ o ∈ ns.done_op_list_, o.op_info_.op_id ≠ op_data.op_info_.op_id)
    (hadd : (AddOPData ns op_data concurrency).1 = 0)
    (hcancel : (CancelOP (AddOPData ns op_data concurrency).2 op_data.op_info_.op_id).2 = 0) :
    (∀ x ∈ (runEngine (CancelOP (AddOPData ns op_data concurrency).2
        op_data.op_info_.op_id).1 passes).task_thread_pool_, x.1 ≠ op_data.op_info_.op_id) ∧
    (∀ o ∈ (runEngine (CancelOP (AddOPData ns op_data concurrency).2
        op_data.op_info_.op_id).1 passes).done_op_list_,
      o.op_info_.op_id = op_data.op_info_.op_id →
        o.op_info_.task_status = TaskStatus.kCanceled) ∧
    ((∀ q ∈ (runEngine (CancelOP (AddOPData ns op_data concurrency).2
        op_data.op_info_.op_id).1 passes).task_vec_,
        ∀ o ∈ q, o.op_info_.op_id ≠ op_data.op_info_.op_id) →
      ∃ o ∈ (runEngine (CancelOP (AddOPData ns op_data concurrency).2
          op_data.op_info_.op_id).1 passes).done_op_list_,
        o.op_info_.op_id = op_data.op_info_.op_id ∧
          o.op_info_.task_status = TaskStatus.kCanceled) := by
  obtain ⟨task_vec, henq, htv, hpool1, n, hdone1⟩ := AddOPData_ok ns op_data concurrency hadd
  obtain ⟨task_vec2, hc, hstate⟩ := CancelOP_ok _ _ hcancel
  have hcount : countId op_data.op_info_.op_id (AddOPData ns op_data concurrency).2.task_vec_ ≤ 1 := by
    rw [htv]
    have := enqueueOP_count op_data.op_info_.op_id _ _ _ _ henq
    rw [countId_zero _ _ hqueues] at this
    exact this
  obtain ⟨h1, h2⟩ := cancelInQueues_some _ _ _ hc hcount
  have hinv : canceledInv op_data.op_info_.op_id
      (CancelOP (AddOPData ns op_data concurrency).2 op_data.op_info_.op_id).1 := by
    rw [hstate]
    refine ⟨h1, ?_, ?_, Or.inl h2⟩
    · show ∀ x ∈ (AddOPData ns op_data concurrency).2.task_thread_pool_, _
      rw [hpool1]
      exact hpool
    · show ∀ o ∈ (AddOPData ns op_data concurrency).2.done_op_list_, _
      rw [hdone1]
      intro o ho hid
      exact absurd hid (hdone o (List.mem_of_mem_drop ho))
  obtain ⟨g1, g2, g3, g4⟩ := runEngine_canceled _ passes _ hinv
  refine ⟨g2, g3, ?_⟩
  intro hnone
  rcases g4 with ⟨q, hq, o, ho, hid⟩ | ⟨o, ho, hid⟩
  · exact absurd hid (hnone q hq o ho)
  · exact ⟨o, ho, hid, g3 o ho hid⟩

/-- C11, evaluated: the theorem at the OP 7, enqueued on two empty queues and
canceled, for a scan, a pass of `UpdateZKTaskStatus` and a pass of `DeleteTask`,
after which the OP is in `done_op_list_`. -/
theorem canceled_op_never_runs_witness :
    (runEngine (CancelOP (AddOPData engineNs engineOp 0).2 engineOp.op_info_.op_id).1
      [EnginePass.scan 5, EnginePass.zkStatus, EnginePass.reap 6]).task_vec_ = [[], []] ∧
    (∀ x ∈ (runEngine (CancelOP (AddOPData engineNs engineOp 0).2 engineOp.op_info_.op_id).1
        [EnginePass.scan 5, EnginePass.zkStatus, EnginePass.reap 6]).task_thread_pool_,
      x.1 ≠ engineOp.op_info_.op_id) ∧
    ∃ o ∈ (runEngine (CancelOP (AddOPData engineNs engineOp 0).2 engineOp.op_info_.op_id).1
        [EnginePass.scan 5, EnginePass.zkStatus, EnginePass.reap 6]).done_op_list_,
      o.op_info_.op_id = engineOp.op_info_.op_id ∧
        o.op_info_.task_status = TaskStatus.kCanceled :=
  ⟨by decide,
    (canceled_op_never_runs engineNs engineOp 0
      [EnginePass.scan 5, EnginePass.zkStatus, EnginePass.reap 6]
      (by decide) (by decide) (by decide) (by decide) (by decide)).1,
    (canceled_op_never_runs engineNs engineOp 0
      [EnginePass.scan 5, EnginePass.zkStatus, EnginePass.reap 6]
      (by decide) (by decide) (by decide) (by decide) (by decide)).2.2 (by decide)⟩


/-- C12, evaluated at the failing input: the OP 7 is enqueued and canceled, so that
it is Canceled and still in its queue; a second `CancelOP` for the OP 7 is
answered 0, not a code other than 0. -/
theorem CancelOP_of_canceled_op_accepted :
    (AddOPData engineNs engineOp 0).1 = 0 ∧
    (CancelOP (AddOPData engineNs engineOp 0).2 7).2 = 0 ∧
    (CancelOP (AddOPData engineNs engineOp 0).2 7).1.task_vec_ =
      [[cancel (withVecIdx engineOp 0)], []] ∧
    (cancel (withVecIdx engineOp 0)).op_info_.task_status = TaskStatus.kCanceled ∧
    (CancelOP (CancelOP (AddOPData engineNs engineOp 0).2 7).1 7).2 = 0 := by
  decide


/-- C14. Whatever the state, a step of the engine (a scan of `ProcessTask`, a pass
of `UpdateZKTaskStatus`, `DeleteTask` or `UpdateTaskStatus`, or a write of a task
closure to the status of its task) hands to the thread pool only closures of
tasks that are, before the step, the head task of the front OP of a queue and
Inited; and each queue changes in one of three ways: OPs leave from its front,
or it keeps its OPs and their tasks, or the head task of its front OP, which is
Done, is taken off.  So over every sequence of steps each closure in the thread
pool was handed over in a state in which its task was the head task of the front
OP of its queue. -/
theorem tasks_start_at_queue_head :
    (∀ (ns : NameServerImpl) (e : EngineEvent),
      submitsHeads ns (engineStep ns e) ∧
        List.Forall₂ queueStep ns.task_vec_ (engineStep ns e).task_vec_) ∧
    (∀ (ns : NameServerImpl) (events : List EngineEvent),
      ∃ new, (runEvents ns events).task_thread_pool_ = ns.task_thread_pool_ ++ new ∧
        ∀ x ∈ new, ∃ k, k < events.length ∧ isHeadTask (runEvents ns (events.take k)) x) :=
  ⟨engineStep_step, fun ns events => runEvents_submits events ns⟩

/-- C14, evaluated: the theorem at the OP 7 enqueued on two empty queues, for a
scan, which hands the closure of its first task to the thread pool. -/
theorem tasks_start_at_queue_head_witness :
    (engineStep (AddOPData engineNs engineOp 0).2 (EngineEvent.pass (EnginePass.scan 5))
      ).task_thread_pool_ = [(7, createLeaderTask 7 OPType.kChangeLeaderOP TaskType.kSelectLeader)] ∧
    submitsHeads (AddOPData engineNs engineOp 0).2
      (engineStep (AddOPData engineNs engineOp 0).2 (EngineEvent.pass (EnginePass.scan 5))) :=
  ⟨by decide,
    (tasks_start_at_queue_head.1 (AddOPData engineNs engineOp 0).2
      (EngineEvent.pass (EnginePass.scan 5))).1⟩


/-- C16. `DeleteDoneOP` removes entries of `done_op_list_` from the front only, at
most as many as the list is longer than `max_op_num`; the node of every removed
entry that is Failed is not in the store afterwards; and when it removes fewer,
the entry it stopped at is Failed and the deletion of its node failed.  When
the store answers every call, and the Failed entries among the first
`length - max_op_num` have their nodes in the store, each its own, every
deletion succeeds and the list that is left is the original without its first
`length - max_op_num` entries: its longest end of at most `max_op_num` entries. -/
theorem DeleteDoneOP_trims (ns : NameServerImpl) :
    (∃ n, n ≤ ns.done_op_list_.length - ns.flags.max_op_num ∧
      (DeleteDoneOP ns).done_op_list_ = ns.done_op_list_.drop n ∧
      (∀ op_data ∈ ns.done_op_list_.take n,
        op_data.op_info_.task_status = TaskStatus.kFailed →
          mapFind (opNode op_data.op_info_.op_id) (DeleteDoneOP ns).zk_client_.nodes = none) ∧
      (n < ns.done_op_list_.length - ns.flags.max_op_num →
        ∃ (op_data : OPData) (zk : ZkClient), ns.done_op_list_[n]? = some op_data ∧
          op_data.op_info_.task_status = TaskStatus.kFailed ∧
          (zk.DeleteNode (opNode op_data.op_info_.op_id)).1 = false ∧
          (DeleteDoneOP ns).zk_client_ = (zk.DeleteNode (opNode op_data.op_info_.op_id)).2)) ∧
    (ns.zk_client_.faults = [] →
      (∀ op_data ∈ ns.done_op_list_.take (ns.done_op_list_.length - ns.flags.max_op_num),
        op_data.op_info_.task_status = TaskStatus.kFailed →
          (mapFind (opNode op_data.op_info_.op_id) ns.zk_client_.nodes).isSome = true) →
      (((ns.done_op_list_.take (ns.done_op_list_.length - ns.flags.max_op_num)).filter
        (fun op_data => op_data.op_info_.task_status = TaskStatus.kFailed)).map
          (fun op_data => opNode op_data.op_info_.op_id)).Nodup →
      (DeleteDoneOP ns).done_op_list_ =
        ns.done_op_list_.drop (ns.done_op_list_.length - ns.flags.max_op_num)) :=
  ⟨deleteDoneOP_spec ns.flags.max_op_num ns.done_op_list_ ns.zk_client_,
    fun hfaults hnodes hnodup =>
      deleteDoneOP_all ns.flags.max_op_num ns.done_op_list_ ns.zk_client_ hfaults
        (fun op_data hop hfailed => Option.isSome_iff_exists.mp (hnodes op_data hop hfailed))
        hnodup⟩

/-- C16, evaluated: the theorem at a list of three entries with `max_op_num` 1; the
Failed OP 5 and the OP 6 are removed, the node of the OP 5 is deleted, and the
OP 7 is left. -/
theorem DeleteDoneOP_trims_witness :
    (DeleteDoneOP trimNs).done_op_list_ = trimNs.done_op_list_.drop 2 ∧
    (DeleteDoneOP trimNs).done_op_list_.map (fun o => o.op_info_.op_id) = [7] ∧
    mapFind (opNode 5) (DeleteDoneOP trimNs).zk_client_.nodes = none :=
  ⟨(DeleteDoneOP_trims trimNs).2 (by decide) (by decide) (by decide), by decide, by decide⟩


/-- C17. Let `AddOPData` create the store node of the OP, and let `queue` be the
queue it selects.  For an OP with a parent: when `queue` holds an OP `p` with the
id `parent_id`, the first such, between `pre` and `post`, the call returns 0 and
the queue is `pre`, `p`, the new OP (with `vec_idx` set), `post`, every other
queue as it was; when no OP of `queue` has that id, the call returns -1 and the
queues are as they were.  For an OP with `INVALID_PARENT_ID` the call returns 0
and the queue is `queue` with the new OP at its end. -/
theorem AddOPData_position (ns : NameServerImpl) (op_data : OPData) (concurrency : Nat)
    (queue : List OPData)
    (hcreate : (ns.zk_client_.CreateNode (opNode op_data.op_info_.op_id)
      (ZkValue.op (withVecIdx op_data (selectQueue ns op_data concurrency)).op_info_)).1 = true)
    (hqueue : ns.task_vec_[selectQueue ns op_data concurrency]? = some queue) :
    (op_data.op_info_.parent_id ≠ INVALID_PARENT_ID →
      (∀ pre p post, queue = pre ++ p :: post →
        p.op_info_.op_id = op_data.op_info_.parent_id →
        (∀ o ∈ pre, o.op_info_.op_id ≠ op_data.op_info_.parent_id) →
        (AddOPData ns op_data concurrency).1 = 0 ∧
        (AddOPData ns op_data concurrency).2.task_vec_ =
          modifyNth (fun _ => pre ++ p ::
            withVecIdx op_data (selectQueue ns op_data concurrency) :: post)
            (selectQueue ns op_data concurrency) ns.task_vec_) ∧
      ((∀ o ∈ queue, o.op_info_.op_id ≠ op_data.op_info_.parent_id) →
        (AddOPData ns op_data concurrency).1 = -1 ∧
        (AddOPData ns op_data concurrency).2.task_vec_ = ns.task_vec_)) ∧
    (op_data.op_info_.parent_id = INVALID_PARENT_ID →
      (AddOPData ns op_data concurrency).1 = 0 ∧
      (AddOPData ns op_data concurrency).2.task_vec_ =
        modifyNth (fun _ => queue ++ [withVecIdx op_data (selectQueue ns op_data concurrency)])
          (selectQueue ns op_data concurrency) ns.task_vec_) := by
  have hget : ns.task_vec_.getD (selectQueue ns op_data concurrency) [] = queue :=
    getD_of_getElem? _ _ _ _ hqueue
  have hpar : (withVecIdx op_data (selectQueue ns op_data concurrency)).op_info_.parent_id
      = op_data.op_info_.parent_id := rfl
  obtain ⟨hsome, hnone⟩ := AddOPData_enqueued ns op_data concurrency hcreate
  refine ⟨fun hparent => ⟨?_, ?_⟩, ?_⟩
  · intro pre p post hq hp hpre
    apply hsome
    unfold enqueueOP
    rw [hpar, if_pos hparent, hget, hq, insertAfterParent_some _ _ p pre post hp hpre]
    rfl
  · intro hno
    apply hnone
    unfold enqueueOP
    rw [hpar, if_pos hparent, hget, insertAfterParent_none _ _ queue hno]
    rfl
  · intro hparent
    apply hsome
    unfold enqueueOP
    rw [hpar, if_neg (by simp [hparent])]
    rw [modifyNth_const_of_getElem? _ _ _ queue hqueue]

/-- C17, evaluated: the theorem at the queue that holds the OP 7, for the OP 8 with
the parent 7, which enters the queue right after it. -/
theorem AddOPData_position_witness :
    (AddOPData (AddOPData engineNs engineOp 0).2 childOp 0).1 = 0 ∧
    (AddOPData (AddOPData engineNs engineOp 0).2 childOp 0).2.task_vec_ =
      [[withVecIdx engineOp 0, withVecIdx childOp 0], []] :=
  ⟨(((AddOPData_position (AddOPData engineNs engineOp 0).2 childOp 0 [withVecIdx engineOp 0]
    (by decide) (by decide)).1 (by decide)).1 [] (withVecIdx engineOp 0) [] rfl (by decide)
    (by decide)).1, by decide⟩


/-- C19. For an OP that is Doing and whose `task_index` is less than the number of
its tasks, `SkipDoneTask` returns true and leaves the OP with its task list
without the first `task_index` tasks, of which the head has the status Inited
when its type is one of SelectLeader, UpdateLeaderInfo, UpdatePartitionStatus,
UpdateTableInfo, RecoverTable, AddTableInfo, CheckBinlogSyncProgress, and Doing
otherwise; the later tasks and the header are as they were. -/
theorem SkipDoneTask_doing (op_data : OPData)
    (hstatus : op_data.op_info_.task_status = TaskStatus.kDoing)
    (hidx : op_data.op_info_.task_index < op_data.task_list_.length) :
    ∃ task tasks, op_data.task_list_.drop op_data.op_info_.task_index = task :: tasks ∧
      SkipDoneTask op_data =
        (true,
          { op_data with
            task_list_ :=
              { task with
                task_info_ :=
                  { task.task_info_ with
                    status :=
                      if task.task_info_.task_type ∈ rerunTaskTypes then TaskStatus.kInited
                      else TaskStatus.kDoing } } :: tasks }) := by
  cases hd : op_data.task_list_.drop op_data.op_info_.task_index with
  | nil =>
    have := List.drop_eq_nil_iff.mp hd
    omega
  | cons task tasks =>
    refine ⟨task, tasks, rfl, ?_⟩
    have hne : op_data.task_list_.isEmpty = false := by
      cases hl : op_data.task_list_ with
      | nil => rw [hl] at hidx; simp at hidx
      | cons a l => rfl
    unfold SkipDoneTask
    rw [if_neg (by rw [hstatus]; decide), if_neg (by simp [hne]), if_neg (by omega), hd]
    simp only [hstatus]
    rw [if_neg (by decide)]
    cases htype : task.task_info_.task_type <;> simp [rerunTaskTypes]

/-- C19, evaluated: the theorem at the ChangeLeaderOP of the scenario with one task
done. -/
theorem SkipDoneTask_doing_witness :
    ∃ task tasks, recoveredOp.task_list_.drop recoveredOp.op_info_.task_index = task :: tasks ∧
      SkipDoneTask recoveredOp =
        (true,
          { recoveredOp with
            task_list_ :=
              { task with
                task_info_ :=
                  { task.task_info_ with
                    status :=
                      if task.task_info_.task_type ∈ rerunTaskTypes then TaskStatus.kInited
                      else TaskStatus.kDoing } } :: tasks }) :=
  SkipDoneTask_doing recoveredOp (by decide) (by decide)

/-- C20, evaluated at the failing input: on a store that holds the table "t" and
the Failed OP 5, a recovery (`RecoverTableInfo`, `RecoverOPTask`,
`RecoverOfflineTablet`) succeeds and leaves the OP 5 once in `done_op_list_`; a
second recovery right after it succeeds too and leaves the same catalog, queues
and `offline_endpoint_map_`, but the OP 5 twice in `done_op_list_`. -/
theorem recovery_twice_doubles_done_op_list :
    (recoverStructures noBuilders recoverNs).1 = true ∧
    (recoverStructures noBuilders (recoverStructures noBuilders recoverNs).2).1 = true ∧
    (recoverStructures noBuilders (recoverStructures noBuilders recoverNs).2).2.table_info_ =
      (recoverStructures noBuilders recoverNs).2.table_info_ ∧
    (recoverStructures noBuilders (recoverStructures noBuilders recoverNs).2).2.task_vec_ =
      (recoverStructures noBuilders recoverNs).2.task_vec_ ∧
    (recoverStructures noBuilders
        (recoverStructures noBuilders recoverNs).2).2.offline_endpoint_map_ =
      (recoverStructures noBuilders recoverNs).2.offline_endpoint_map_ ∧
    (recoverStructures noBuilders recoverNs).2.done_op_list_.map
      (fun o => o.op_info_.op_id) = [5] ∧
    (recoverStructures noBuilders
        (recoverStructures noBuilders recoverNs).2).2.done_op_list_.map
      (fun o => o.op_info_.op_id) = [5, 5] := by
  decide

/-! ## The order of the queues after a recovery -/

/-- C21, evaluated at the failing input: `AddOPData` of the OP 7, which has no
parent, and then of the OP 8, whose `parent_id` is 7, leaves queue 0 as 7, 8: the
child right after its parent.  `RecoverOPTask` on that store succeeds, recovers
both OPs into queue 0, and its sort by (`parent_id`, `op_id`) leaves the queue as
8, 7: the parent carries `INVALID_PARENT_ID`, the greatest `parent_id`, and comes
after its child. -/
theorem RecoverOPTask_child_before_parent :
    storedOpsNs.task_vec_.map (fun q => q.map (fun o => (o.op_info_.op_id, o.op_info_.parent_id)))
      = [[(7, INVALID_PARENT_ID), (8, 7)], []] ∧
    (RecoverOPTask noBuilders storedOpsNs).1 = true ∧
    (RecoverOPTask noBuilders storedOpsNs).2.task_vec_.map
        (fun q => q.map (fun o => (o.op_info_.op_id, o.op_info_.parent_id)))
      = [[(8, 7), (7, INVALID_PARENT_ID)], []] := by
  decide

/-! ## The catalog steps of a MigrateOP -/

theorem modifyNth_congr {α : Type} (f g : α → α) (l : List α) (i : Nat) (a : α)
    (h : l[i]? = some a) (hfg : f a = g a) : modifyNth f i l = modifyNth g i l := by
  induction l generalizing i with
  | nil => simp at h
  | cons b l ih =>
    cases i with
    | zero =>
      simp at h
      subst h
      simp [modifyNth, hfg]
    | succ n =>
      simp at h
      simp [modifyNth, ih n h]

theorem modifyNth_append_right {α : Type} (f : α → α) (l1 l2 : List α) (k : Nat) :
    modifyNth f (l1.length + k) (l1 ++ l2) = l1 ++ modifyNth f k l2 := by
  induction l1 with
  | nil => simp
  | cons a l ih =>
    have : (a :: l).length + k = (l.length + k) + 1 := by simp; omega
    rw [this]
    simp [modifyNth, ih]

theorem firstWith_modifyNth {α : Type} (p : α → Bool) (f : α → α) (l : List α) (i : Nat) (a : α)
    (h : firstWith p l = some (i, a)) (hp : p (f a) = true) :
    firstWith p (modifyNth f i l) = some (i, f a) := by
  induction l generalizing i with
  | nil => simp [firstWith] at h
  | cons b l ih =>
    simp only [firstWith] at h
    split at h
    · simp at h
      obtain ⟨rfl, rfl⟩ := h
      simp [modifyNth, firstWith, hp]
    · rename_i hb
      cases hr : firstWith p l with
      | none => simp [hr] at h
      | some r =>
        obtain ⟨j, c⟩ := r
        simp [hr] at h
        obtain ⟨rfl, rfl⟩ := h
        simp [modifyNth, firstWith, hb, ih j hr]

theorem scanEndpointIndex_none (src dst : String) (l : List PartitionMeta) (k : Nat)
    (acc : Option Nat × Option Nat) (h : ∀ m ∈ l, m.endpoint ≠ src ∧ m.endpoint ≠ dst) :
    scanEndpointIndex src dst l k acc = acc := by
  induction l generalizing k acc with
  | nil => rfl
  | cons a rest ih =>
    have ha := h a (List.mem_cons_self _ _)
    simp only [scanEndpointIndex, if_neg ha.1, if_neg ha.2]
    exact ih _ _ (fun m hm => h m (List.mem_cons_of_mem _ hm))

theorem scanEndpointIndex_append (src dst : String) (l1 l2 : List PartitionMeta) (k : Nat)
    (acc : Option Nat × Option Nat) :
    scanEndpointIndex src dst (l1 ++ l2) k acc =
      scanEndpointIndex src dst l2 (k + l1.length) (scanEndpointIndex src dst l1 k acc) := by
  induction l1 generalizing k acc with
  | nil => rfl
  | cons a rest ih =>
    have hk : k + (a :: rest).length = k + 1 + rest.length := by simp; omega
    simp only [List.cons_append, scanEndpointIndex, hk]
    split
    · exact ih _ _
    · split
      · exact ih _ _
      · exact ih _ _

/-- The scan of `UpdateTableInfo` over a partition that `AddTableInfo` has added
the destination to. -/
theorem scanEndpointIndex_migrate (src dst : String) (pre post : List PartitionMeta)
    (s d : PartitionMeta) (hs : s.endpoint = src) (hd : d.endpoint = dst) (hne : src ≠ dst)
    (hother : ∀ m ∈ pre ++ post, m.endpoint ≠ src ∧ m.endpoint ≠ dst) :
    scanEndpointIndex src dst ((pre ++ s :: post) ++ [d]) 0 (none, none) =
      (some pre.length, some (pre.length + (post.length + 1))) := by
  have hpre : ∀ m ∈ pre, m.endpoint ≠ src ∧ m.endpoint ≠ dst :=
    fun m hm => hother m (List.mem_append_left _ hm)
  have hpost : ∀ m ∈ post, m.endpoint ≠ src ∧ m.endpoint ≠ dst :=
    fun m hm => hother m (List.mem_append_right _ hm)
  have hds : d.endpoint ≠ src := by rw [hd]; exact fun h => hne h.symm
  rw [List.append_assoc, scanEndpointIndex_append, scanEndpointIndex_none src dst pre _ _ hpre]
  simp only [List.cons_append, scanEndpointIndex, if_pos hs, Nat.zero_add]
  show scanEndpointIndex src dst (post ++ [d]) (pre.length + 1) (some pre.length, none) = _
  rw [scanEndpointIndex_append, scanEndpointIndex_none src dst post _ _ hpost]
  simp only [scanEndpointIndex, if_neg hds, if_pos hd]
  congr 2
  omega

theorem storeTable_ok (ns : NameServerImpl) (name : String) (table : TableInfo)
    (task_info : TaskInfo) (notify : Bool)
    (hw : (ns.zk_client_.SetNodeValue (zk_table_data_path_ ++ "/" ++ name)
      (ZkValue.table table)).1 = true) :
    (storeTable ns name table task_info notify).2.status = TaskStatus.kDone ∧
    (storeTable ns name table task_info notify).1.table_info_
      = mapAssign name table ns.table_info_ := by
  unfold storeTable
  simp only [hw]
  cases notify with
  | true => exact ⟨rfl, NotifyTableChanged_table_info_ _⟩
  | false => exact ⟨rfl, rfl⟩

theorem AddTableInfo_ok (ns : NameServerImpl) (name endpoint : String) (pid : Nat)
    (task_info : TaskInfo) (table : TableInfo) (idx : Nat) (tp : TablePartition)
    (htable : mapFind name ns.table_info_ = some table)
    (hpart : firstWith (fun tp => decide (tp.pid = pid)) table.table_partition = some (idx, tp))
    (hnew : ∀ m ∈ tp.partition_meta, m.endpoint ≠ endpoint) :
    AddTableInfo ns name endpoint pid task_info =
      storeTable ns name (withPartition table idx (addPartitionMeta endpoint)) task_info false := by
  unfold AddTableInfo
  simp only [htable, hpart]
  have : tp.partition_meta.any (fun m => decide (m.endpoint = endpoint)) = false := by
    rw [List.any_eq_false]
    intro m hm
    simpa using hnew m hm
  simp [this]

/-- C22. Let the first partition of the table `name` with the pid have the
replicas `pre`, `s`, `post`, where `s` is the one at `src` and no other is at `src`
or at `dest`.  When the store write of `AddTableInfo` for `dest` and then that of
`UpdateTableInfo` from `src` to `dest` succeed, both tasks end Done and the
catalog has the table with that partition's replicas as `pre`, `post` and the
replica at `dest`, alive and not leader: the replica at `src` is gone, and every
other replica, and every other partition, is as it was. -/
theorem migrate_catalog_steps (ns : NameServerImpl) (name src dest : String) (pid : Nat)
    (task1 task2 : TaskInfo) (table : TableInfo) (idx : Nat) (tp : TablePartition)
    (pre post : List PartitionMeta) (s : PartitionMeta)
    (htable : mapFind name ns.table_info_ = some table)
    (hpart : firstWith (fun tp => decide (tp.pid = pid)) table.table_partition = some (idx, tp))
    (hmetas : tp.partition_meta = pre ++ s :: post)
    (hsrc : s.endpoint = src) (hne : src ≠ dest)
    (hother : ∀ m ∈ pre ++ post, m.endpoint ≠ src ∧ m.endpoint ≠ dest)
    (hw1 : (ns.zk_client_.SetNodeValue (zk_table_data_path_ ++ "/" ++ name)
      (ZkValue.table (withPartition table idx (addPartitionMeta dest)))).1 = true)
    (hw2 : ((AddTableInfo ns name dest pid task1).1.zk_client_.SetNodeValue
      (zk_table_data_path_ ++ "/" ++ name)
      (ZkValue.table (withPartition table idx (fun p =>
        { p with
          partition_meta :=
            pre ++ post ++ [{ endpoint := dest, is_leader := false, is_alive := true }] })))).1
      = true) :
    (AddTableInfo ns name dest pid task1).2.status = TaskStatus.kDone ∧
    (UpdateTableInfo (AddTableInfo ns name dest pid task1).1 src name pid dest task2).2.status
      = TaskStatus.kDone ∧
    mapFind name
      (UpdateTableInfo (AddTableInfo ns name dest pid task1).1 src name pid dest
        task2).1.table_info_ =
      some (withPartition table idx (fun p =>
        { p with
          partition_meta :=
            pre ++ post ++ [{ endpoint := dest, is_leader := false, is_alive := true }] })) := by
  have hnew : ∀ m ∈ tp.partition_meta, m.endpoint ≠ dest := by
    intro m hm
    rw [hmetas] at hm
    rcases List.mem_append.mp hm with h | h
    · exact (hother m (List.mem_append_left _ h)).2
    · rcases List.mem_cons.mp h with rfl | h
      · rw [hsrc]; exact hne
      · exact (hother m (List.mem_append_right _ h)).2
  have hadd := AddTableInfo_ok ns name dest pid task1 table idx tp htable hpart hnew
  obtain ⟨hd1, hc1⟩ := storeTable_ok ns name
    (withPartition table idx (addPartitionMeta dest)) task1 false hw1
  rw [← hadd] at hd1 hc1
  have hidx := (firstWith_some _ _ _ _ hpart).1
  have hpid := (firstWith_some _ _ _ _ hpart).2
  -- the table that UpdateTableInfo finds
  have htable1 : mapFind name (AddTableInfo ns name dest pid task1).1.table_info_
      = some (withPartition table idx (addPartitionMeta dest)) := by
    rw [hc1, mapFind_mapAssign name name _ table _ htable, if_pos rfl]
  have hpart1 : firstWith (fun tp => decide (tp.pid = pid))
      (withPartition table idx (addPartitionMeta dest)).table_partition
      = some (idx, addPartitionMeta dest tp) :=
    firstWith_modifyNth _ _ _ _ _ hpart hpid
  have hscan : scanEndpointIndex src dest (addPartitionMeta dest tp).partition_meta 0 (none, none)
      = (some pre.length, some (pre.length + (post.length + 1))) := by
    show scanEndpointIndex src dest (tp.partition_meta ++ _) 0 (none, none) = _
    rw [hmetas]
    exact scanEndpointIndex_migrate src dest pre post s _ hsrc rfl hne hother
  have hfinal : withPartition (withPartition table idx (addPartitionMeta dest)) idx
      (moveReplica pre.length (some (pre.length + (post.length + 1))) dest)
      = withPartition table idx (fun p =>
        { p with
          partition_meta :=
            pre ++ post ++ [{ endpoint := dest, is_leader := false, is_alive := true }] }) := by
    rw [withPartition_withPartition]
    unfold withPartition
    congr 1
    apply modifyNth_congr _ _ _ _ tp hidx
    show moveReplica _ _ dest (addPartitionMeta dest tp) = _
    unfold moveReplica addPartitionMeta
    simp only [hmetas]
    congr 1
    have h1 : pre ++ s :: post ++ [({ endpoint := dest, is_leader := false, is_alive := false }
        : PartitionMeta)]
        = pre ++ (s :: post ++ [{ endpoint := dest, is_leader := false, is_alive := false }]) := by
      simp
    rw [h1, modifyNth_append_right]
    have h2 : s :: post ++ [({ endpoint := dest, is_leader := false, is_alive := false }
        : PartitionMeta)]
        = (s :: post) ++ [{ endpoint := dest, is_leader := false, is_alive := false }] := rfl
    have h3 : post.length + 1 = (s :: post).length + 0 := by simp
    rw [h2, h3, modifyNth_append_right]
    simp [modifyNth, List.eraseIdx_append_of_length_le]
  have hupd : UpdateTableInfo (AddTableInfo ns name dest pid task1).1 src name pid dest task2
      = storeTable (AddTableInfo ns name dest pid task1).1 name
          (withPartition table idx (fun p =>
            { p with
              partition_meta :=
                pre ++ post ++ [{ endpoint := dest, is_leader := false, is_alive := true }] }))
          task2 true := by
    unfold UpdateTableInfo
    simp only [htable1, hpart1, hscan, hfinal]
  obtain ⟨hd2, hc2⟩ := storeTable_ok _ name _ task2 true hw2
  rw [← hupd] at hd2 hc2
  refine ⟨hd1, hd2, ?_⟩
  rw [hc2, mapFind_mapAssign name name _ _ _ htable1, if_pos rfl]

theorem migrate_catalog_steps_witness :
    (AddTableInfo engineNs "t" "c:1" 0 migrateTask).2.status = TaskStatus.kDone ∧
    (UpdateTableInfo (AddTableInfo engineNs "t" "c:1" 0 migrateTask).1 "b:1" "t" 0 "c:1"
      migrateTask).2.status = TaskStatus.kDone ∧
    mapFind "t"
      (UpdateTableInfo (AddTableInfo engineNs "t" "c:1" 0 migrateTask).1 "b:1" "t" 0 "c:1"
        migrateTask).1.table_info_ =
      some (withPartition scenarioTable 0 (fun p =>
        { p with
          partition_meta :=
            [{ endpoint := "a:1", is_leader := true, is_alive := true }] ++ [] ++
              [{ endpoint := "c:1", is_leader := false, is_alive := true }] })) :=
  migrate_catalog_steps engineNs "t" "b:1" "c:1" 0 migrateTask migrateTask scenarioTable 0
    { pid := 0,
      partition_meta :=
        [{ endpoint := "a:1", is_leader := true, is_alive := true },
         { endpoint := "b:1", is_leader := false, is_alive := true }],
      term_offset := [{ term := 1, offset := 0 }] }
    [{ endpoint := "a:1", is_leader := true, is_alive := true }] []
    { endpoint := "b:1", is_leader := false, is_alive := true }
    (by decide) (by decide) rfl rfl (by decide) (by decide) (by decide) (by decide)

/-! ## SelectLeader: the term -/

theorem writeLeader_zk_term (ns : NameServerImpl) (task_info : TaskInfo) (rand_next : Nat)
    (cur_term : Nat) (max_offset : Nat) (leader_endpoint_vec : List String) :
    (writeLeader ns task_info rand_next cur_term max_offset leader_endpoint_vec).1.zk_client_
      = ns.zk_client_ ∧
    (writeLeader ns task_info rand_next cur_term max_offset leader_endpoint_vec).1.term_
      = ns.term_ := by
  unfold writeLeader
  cases FindRunningOP ns task_info.op_id with
  | none => exact ⟨rfl, rfl⟩
  | some op =>
    simp only
    cases parseChangeLeaderData op.op_info_.data with
    | none => exact ⟨rfl, rfl⟩
    | some cd =>
      simp only
      cases chooseLeader cd.candidate_leader leader_endpoint_vec rand_next with
      | none => exact ⟨rfl, rfl⟩
      | some le => exact ⟨rfl, rfl⟩

/-- What `writeLeader` does with the choice of `chooseLeader`. -/
theorem writeLeader_spec (ns : NameServerImpl) (task_info : TaskInfo) (rand_next : Nat)
    (cur_term : Nat) (max_offset : Nat) (leader_endpoint_vec : List String)
    (op_data : OPData) (d : ChangeLeaderData)
    (hop : FindRunningOP ns task_info.op_id = some op_data)
    (hd : parseChangeLeaderData op_data.op_info_.data = some d) :
    (∀ leader, chooseLeader d.candidate_leader leader_endpoint_vec rand_next = some leader →
      (writeLeader ns task_info rand_next cur_term max_offset leader_endpoint_vec).2.status
        = TaskStatus.kDone ∧
      FindRunningOP (writeLeader ns task_info rand_next cur_term max_offset
          leader_endpoint_vec).1 task_info.op_id =
        some { op_data with
          op_info_ :=
            { op_data.op_info_ with
              data := OPPayload.changeLeaderData
                { d with leader := leader, offset := max_offset, term := u64 (cur_term + 1) } } }) ∧
    (chooseLeader d.candidate_leader leader_endpoint_vec rand_next = none →
      (writeLeader ns task_info rand_next cur_term max_offset leader_endpoint_vec).2.status
        = TaskStatus.kFailed) := by
  constructor
  · intro leader hl
    unfold writeLeader
    simp only [hop, hd, hl]
    refine ⟨trivial, ?_⟩
    simp only [FindRunningOP] at hop ⊢
    simp only [findFront_setFrontData, hop]
    rfl
  · intro hl
    unfold writeLeader
    simp only [hop, hd, hl]

/-- After the guard and the write of the term, `SelectLeader` has the new term in
memory, and its store is the one that the write left. -/
theorem SelectLeader_written (ns : NameServerImpl) (name : String) (tid pid : Nat)
    (follower_endpoint : List String) (task_info : TaskInfo) (rand_next : Nat)
    (hguard : selectLeaderGuard ns name pid = true)
    (hwrite : (ns.zk_client_.SetNodeValue zk_term_node_
      (ZkValue.num (u64 (ns.term_ + 2)))).1 = true) :
    (SelectLeader ns name tid pid follower_endpoint task_info rand_next).1.term_
      = u64 (ns.term_ + 2) ∧
    (SelectLeader ns name tid pid follower_endpoint task_info rand_next).1.zk_client_
      = (ns.zk_client_.SetNodeValue zk_term_node_ (ZkValue.num (u64 (ns.term_ + 2)))).2 := by
  unfold SelectLeader
  simp only [hguard, hwrite, Bool.not_true, Bool.false_eq_true, if_false]
  cases (followOfNoOne ns.tablets_ follower_endpoint ns.tablet_replies_ (0, [])).1 with
  | none => exact ⟨rfl, rfl⟩
  | some found =>
    simp only
    obtain ⟨h1, h2⟩ := writeLeader_zk_term
      { ns with
        zk_client_ := (ns.zk_client_.SetNodeValue zk_term_node_
          (ZkValue.num (u64 (ns.term_ + 2)))).2
        term_ := u64 (ns.term_ + 2)
        tablet_replies_ :=
          (followOfNoOne ns.tablets_ follower_endpoint ns.tablet_replies_ (0, [])).2 }
      task_info rand_next (u64 (ns.term_ + 1)) found.1 found.2
    exact ⟨h2, h1⟩

theorem SelectLeader_write_failed (ns : NameServerImpl) (name : String) (tid pid : Nat)
    (follower_endpoint : List String) (task_info : TaskInfo) (rand_next : Nat)
    (hwrite : (ns.zk_client_.SetNodeValue zk_term_node_
      (ZkValue.num (u64 (ns.term_ + 2)))).1 = false) :
    (SelectLeader ns name tid pid follower_endpoint task_info rand_next).2.status
      = TaskStatus.kFailed ∧
    (SelectLeader ns name tid pid follower_endpoint task_info rand_next).1.term_ = ns.term_ ∧
    (SelectLeader ns name tid pid follower_endpoint task_info rand_next).1.zk_client_.nodes
      = ns.zk_client_.nodes := by
  unfold SelectLeader
  by_cases hg : selectLeaderGuard ns name pid = true
  · simp only [hg, hwrite, Bool.not_true, Bool.false_eq_true, if_false, Bool.not_false, if_true]
    exact ⟨trivial, trivial, ZkClient.SetNodeValue_false _ _ _ hwrite⟩
  · simp only [hg, Bool.not_false, if_true]
    simp [hg]

theorem followOfNoOneCalls_term (tablets : List (String × TabletInfo)) (tid pid cur_term : Nat)
    (follower_endpoint : List String) (replies : List (Option Nat)) :
    ∀ c ∈ followOfNoOneCalls tablets tid pid cur_term follower_endpoint replies,
      c.tid = tid ∧ c.pid = pid ∧ c.term = cur_term := by
  induction follower_endpoint generalizing replies with
  | nil => intro c hc; simp [followOfNoOneCalls] at hc
  | cons e rest ih =>
    intro c hc
    simp only [followOfNoOneCalls] at hc
    cases ht : mapFind e tablets with
    | none => simp [ht] at hc
    | some tablet =>
      simp only [ht] at hc
      split at hc
      · simp at hc
      · rcases List.mem_cons.mp hc with rfl | hc
        · exact ⟨rfl, rfl, rfl⟩
        · cases hr : nextReply replies with
          | mk o replies1 =>
            cases o with
            | none => simp [hr] at hc
            | some offset =>
              simp only [hr] at hc
              exact ih replies1 c hc

/-- The calls listed by `followOfNoOneCalls` are those of the loop `followOfNoOne`:
a loop that ends with a result has called every follower, in order. -/
theorem followOfNoOneCalls_all (tablets : List (String × TabletInfo)) (tid pid cur_term : Nat)
    (follower_endpoint : List String) (replies : List (Option Nat)) (acc : Nat × List String)
    (h : (followOfNoOne tablets follower_endpoint replies acc).1.isSome = true) :
    (followOfNoOneCalls tablets tid pid cur_term follower_endpoint replies).map
      (fun c => c.endpoint) = follower_endpoint := by
  induction follower_endpoint generalizing replies acc with
  | nil => rfl
  | cons e rest ih =>
    simp only [followOfNoOne] at h
    simp only [followOfNoOneCalls]
    cases ht : mapFind e tablets with
    | none => simp [ht] at h
    | some tablet =>
      simp only [ht] at h ⊢
      by_cases hs : tablet.state_ ≠ TabletState.kTabletHealthy
      · simp [hs] at h
      · rw [if_neg hs] at h ⊢
        cases hr : nextReply replies with
        | mk o replies1 =>
          cases o with
          | none => simp [hr] at h
          | some offset =>
            simp only [hr] at h ⊢
            simp only [List.map_cons, List.cons.injEq, true_and]
            split at h
            · exact ih replies1 _ h
            · split at h
              · exact ih replies1 _ h
              · exact ih replies1 _ h

/-- C23. For a `SelectLeader` task that passes its guard, on a store that holds the
in-memory term, below the range of `uint64_t`: when the write of the term
succeeds, the in-memory term and the node `/table/term` are the previous term
plus 2, every call `FollowOfNoOne` carries the previous term plus 1, and a task
that ends Done has put the previous term plus 2 into the payload of its OP.
When the write fails (with or without the guard), the task ends Failed, and the
in-memory term and the store are as they were. -/
theorem SelectLeader_term_plus_two (ns : NameServerImpl) (name : String) (tid pid : Nat)
    (follower_endpoint : List String) (task_info : TaskInfo) (rand_next : Nat)
    (hrange : ns.term_ + 2 < 2 ^ 64)
    (hstored : mapFind zk_term_node_ ns.zk_client_.nodes = some (ZkValue.num ns.term_)) :
    (selectLeaderGuard ns name pid = true →
      (ns.zk_client_.SetNodeValue zk_term_node_ (ZkValue.num (u64 (ns.term_ + 2)))).1 = true →
      (SelectLeader ns name tid pid follower_endpoint task_info rand_next).1.term_
        = ns.term_ + 2 ∧
      mapFind zk_term_node_
        (SelectLeader ns name tid pid follower_endpoint task_info rand_next).1.zk_client_.nodes
        = some (ZkValue.num (ns.term_ + 2)) ∧
      (∀ c ∈ SelectLeaderCalls ns name tid pid follower_endpoint, c.term = ns.term_ + 1) ∧
      ((SelectLeader ns name tid pid follower_endpoint task_info rand_next).2.status
          = TaskStatus.kDone →
        ∃ op_data d,
          FindRunningOP (SelectLeader ns name tid pid follower_endpoint task_info rand_next).1
            task_info.op_id = some op_data ∧
          parseChangeLeaderData op_data.op_info_.data = some d ∧
          d.term = ns.term_ + 2)) ∧
    ((ns.zk_client_.SetNodeValue zk_term_node_ (ZkValue.num (u64 (ns.term_ + 2)))).1 = false →
      (SelectLeader ns name tid pid follower_endpoint task_info rand_next).2.status
        = TaskStatus.kFailed ∧
      (SelectLeader ns name tid pid follower_endpoint task_info rand_next).1.term_ = ns.term_ ∧
      mapFind zk_term_node_
        (SelectLeader ns name tid pid follower_endpoint task_info rand_next).1.zk_client_.nodes
        = some (ZkValue.num ns.term_)) := by
  have h2 : u64 (ns.term_ + 2) = ns.term_ + 2 := u64_of_lt _ (by simpa using hrange)
  have h1 : u64 (ns.term_ + 1) = ns.term_ + 1 := u64_of_lt _ (by
    have : ns.term_ + 2 < 18446744073709551616 := by simpa using hrange
    omega)
  constructor
  · intro hguard hwrite
    obtain ⟨ht, hz⟩ := SelectLeader_written ns name tid pid follower_endpoint task_info rand_next
      hguard hwrite
    refine ⟨by rw [ht, h2], ?_, ?_, ?_⟩
    · rw [hz, ZkClient.SetNodeValue_find _ _ _ hwrite, h2]
    · intro c hc
      unfold SelectLeaderCalls at hc
      simp only [hguard, hwrite, Bool.not_true, Bool.false_eq_true, if_false] at hc
      rw [(followOfNoOneCalls_term _ _ _ _ _ _ c hc).2.2, h1]
    · intro hdone
      obtain ⟨_, _, op_data, d, hop, hd, hterm⟩ :=
        SelectLeader_done ns name tid pid follower_endpoint task_info rand_next hdone
      refine ⟨op_data, d, hop, hd, ?_⟩
      rw [hterm, h1]
      exact h2
  · intro hwrite
    obtain ⟨hs, ht, hn⟩ := SelectLeader_write_failed ns name tid pid follower_endpoint task_info
      rand_next hwrite
    exact ⟨hs, ht, by rw [hn, hstored]⟩

theorem SelectLeader_term_plus_two_witness :
    (SelectLeader { scenarioNs with tablet_replies_ := [some 10] } "t" 2 0 ["b:1"]
      { scenarioTask with task_type := TaskType.kSelectLeader } 0).1.term_ = 3 + 2 ∧
    mapFind zk_term_node_
      (SelectLeader { scenarioNs with tablet_replies_ := [some 10] } "t" 2 0 ["b:1"]
        { scenarioTask with task_type := TaskType.kSelectLeader } 0).1.zk_client_.nodes
      = some (ZkValue.num (3 + 2)) ∧
    SelectLeaderCalls { scenarioNs with tablet_replies_ := [some 10] } "t" 2 0 ["b:1"]
      = [{ endpoint := "b:1", tid := 2, pid := 0, term := 4 }] ∧
    (SelectLeader { scenarioNs with tablet_replies_ := [some 10] } "t" 2 0 ["b:1"]
      { scenarioTask with task_type := TaskType.kSelectLeader } 0).2.status = TaskStatus.kDone :=
  ⟨((SelectLeader_term_plus_two { scenarioNs with tablet_replies_ := [some 10] } "t" 2 0 ["b:1"]
      { scenarioTask with task_type := TaskType.kSelectLeader } 0 (by decide) (by decide)).1
      (by decide) (by decide)).1,
    ((SelectLeader_term_plus_two { scenarioNs with tablet_replies_ := [some 10] } "t" 2 0 ["b:1"]
      { scenarioTask with task_type := TaskType.kSelectLeader } 0 (by decide) (by decide)).1
      (by decide) (by decide)).2.1,
    by decide, by decide⟩

/-! ## UpdateTableAliveStatus -/

/-- C24, evaluated at the failing input: in partition 0 of "t" the replica on "b:1"
is the only one alive.  `UpdateTableAliveStatus` for "b:1" with `is_alive = false`
answers 0, and the partition has no alive replica, in the catalog and in the
store. -/
theorem UpdateTableAliveStatus_clears_last_alive :
    (deadLeaderTable.table_partition.map (fun tp =>
      tp.partition_meta.countP (fun m => m.is_alive))) = [1] ∧
    (UpdateTableAliveStatus deadLeaderNs
      { name := "t", endpoint := "b:1", pid := some 0, is_alive := false }).2 = 0 ∧
    ((mapFind "t" (UpdateTableAliveStatus deadLeaderNs
      { name := "t", endpoint := "b:1", pid := some 0, is_alive := false }).1.table_info_).map
        (fun t => t.table_partition.map (fun tp => tp.partition_meta))) =
      some [[{ endpoint := "a:1", is_leader := true, is_alive := false },
             { endpoint := "b:1", is_leader := false, is_alive := false }]] ∧
    mapFind "/table/table_data/t" (UpdateTableAliveStatus deadLeaderNs
      { name := "t", endpoint := "b:1", pid := some 0, is_alive := false }).1.zk_client_.nodes =
      mapFind "t" ((UpdateTableAliveStatus deadLeaderNs
        { name := "t", endpoint := "b:1", pid := some 0, is_alive := false }).1.table_info_.map
          (fun kv => (kv.1, ZkValue.table kv.2))) := by
  decide

/-! ## The RPC ChangeLeader -/

/-- C25, evaluated at the failing input: the name server runs with auto-failover
off; partition 0 of "t" has a dead leader on "a:1" and an alive follower on "b:1",
whose tablet is offline.  The RPC `ChangeLeader` answers 0 and the state is as it
was: no OP is in the store or in a queue, and `op_index_` has not moved. -/
theorem ChangeLeader_ok_without_op :
    offlineFollowerNs.running_ = true ∧ offlineFollowerNs.auto_failover_ = false ∧
    ChangeLeader offlineFollowerNs changeLeaderRequest = (offlineFollowerNs, 0) ∧
    offlineFollowerNs.task_vec_ = [[], []] := by
  decide

/-! ## The flag follower_ -/

theorem CreateOPData_follower (ns : NameServerImpl) (b : Bool) (op_type : OPType)
    (value : OPPayload) (name : String) (pid parent_id : Nat) :
    CreateOPData { ns with follower_ := b } op_type value name pid parent_id =
      ((CreateOPData ns op_type value name pid parent_id).1,
        { (CreateOPData ns op_type value name pid parent_id).2.1 with follower_ := b },
        (CreateOPData ns op_type value name pid parent_id).2.2) := by
  unfold CreateOPData
  simp only
  split <;> rfl

theorem AddOPData_follower (ns : NameServerImpl) (b : Bool) (op_data : OPData)
    (concurrency : Nat) :
    AddOPData { ns with follower_ := b } op_data concurrency =
      ((AddOPData ns op_data concurrency).1,
        { (AddOPData ns op_data concurrency).2 with follower_ := b }) := by
  unfold AddOPData
  simp only
  have hs : selectQueue { ns with follower_ := b } op_data concurrency
      = selectQueue ns op_data concurrency := rfl
  rw [hs]
  split
  · rfl
  · split <;> rfl

theorem addChangeLeaderOP_follower (ns : NameServerImpl) (b : Bool) (name : String) (pid : Nat)
    (d : ChangeLeaderData) (concurrency : Nat) :
    addChangeLeaderOP { ns with follower_ := b } name pid d concurrency =
      ((addChangeLeaderOP ns name pid d concurrency).1,
        { (addChangeLeaderOP ns name pid d concurrency).2 with follower_ := b }) := by
  unfold addChangeLeaderOP
  rw [CreateOPData_follower]
  generalize CreateOPData ns OPType.kChangeLeaderOP (OPPayload.changeLeaderData d) name pid
    INVALID_PARENT_ID = r
  obtain ⟨code, ns1, o⟩ := r
  cases o with
  | none => rfl
  | some op_data =>
    simp only
    cases CreateChangeLeaderOPTask op_data.op_info_ with
    | none => rfl
    | some task_list =>
      simp only [AddOPData_follower]
      split <;> rfl

theorem CreateChangeLeaderOP_follower (ns : NameServerImpl) (b : Bool) (name : String)
    (pid : Nat) (candidate_leader : String) (need_restore : Bool) (concurrency : Nat) :
    CreateChangeLeaderOP { ns with follower_ := b } name pid candidate_leader need_restore
        concurrency =
      ((CreateChangeLeaderOP ns name pid candidate_leader need_restore concurrency).1,
        { (CreateChangeLeaderOP ns name pid candidate_leader need_restore concurrency).2 with
          follower_ := b }) := by
  unfold CreateChangeLeaderOP
  simp only
  cases mapFind name ns.table_info_ with
  | none => rfl
  | some table =>
    simp only
    have hf : healthyFollowers { ns with follower_ := b } table pid = healthyFollowers ns table pid :=
      rfl
    rw [hf]
    split
    · rfl
    · split
      · rfl
      · exact addChangeLeaderOP_follower ns b name pid _ concurrency

theorem changeLeaderOf_follower (ns : NameServerImpl) (b : Bool) (request : ChangeLeaderRequest)
    (follower_endpoint : List String) :
    changeLeaderOf { ns with follower_ := b } request follower_endpoint =
      ({ (changeLeaderOf ns request follower_endpoint).1 with follower_ := b },
        (changeLeaderOf ns request follower_endpoint).2) := by
  unfold changeLeaderOf
  simp only [CreateChangeLeaderOP_follower]
  split
  · rfl
  · split <;> rfl

theorem ChangeLeader_follower (ns : NameServerImpl) (b : Bool) (request : ChangeLeaderRequest) :
    ChangeLeader { ns with follower_ := b } request =
      ({ (ChangeLeader ns request).1 with follower_ := b }, (ChangeLeader ns request).2) := by
  unfold ChangeLeader
  simp only
  split
  · rfl
  · split
    · rfl
    · cases mapFind request.name ns.table_info_ with
      | none => rfl
      | some table =>
        simp only
        split
        · rfl
        · cases firstWith (fun tp => decide (tp.pid = request.pid)) table.table_partition with
          | none => exact changeLeaderOf_follower ns b request []
          | some r =>
            simp only
            split
            · rfl
            · cases aliveFollowers request.candidate_leader.isSome r.2.partition_meta with
              | none => rfl
              | some follower_endpoint =>
                exact changeLeaderOf_follower ns b request follower_endpoint

/-- C26, evaluated at the failing input: on a running name server with
`follower_ = true`, `ShowTable` answers 300 and returns no table, and the RPC
`ChangeLeader` for partition 0 of "t" answers 0 and creates the ChangeLeaderOP 3,
which is in the store and in queue 0. -/
theorem ChangeLeader_creates_op_on_follower :
    followerNs.follower_ = true ∧ followerNs.running_ = true ∧
    ShowTable followerNs none = (300, []) ∧
    (ChangeLeader followerNs changeLeaderRequest).2 = 0 ∧
    followerNs.task_vec_ = [[], []] ∧
    (ChangeLeader followerNs changeLeaderRequest).1.task_vec_.map
        (fun q => q.map (fun o => (o.op_info_.op_id, o.op_info_.op_type)))
      = [[(3, OPType.kChangeLeaderOP)], []] ∧
    (mapFind "/op/op_data/3"
      (ChangeLeader followerNs changeLeaderRequest).1.zk_client_.nodes).isSome = true := by
  decide

/-- The flag `follower_` in the two RPCs, for every state: when it is true,
`ShowTable` answers 300 and returns no table; the RPC `ChangeLeader` does not read
it: its response code and the state it leaves are those of the same state with
the flag at any other value. -/
theorem follower_flag_read_by_ShowTable (ns : NameServerImpl) :
    (ns.follower_ = true → ∀ name, ShowTable ns name = (300, [])) ∧
    ∀ (b : Bool) (request : ChangeLeaderRequest),
      ChangeLeader { ns with follower_ := b } request =
        ({ (ChangeLeader ns request).1 with follower_ := b }, (ChangeLeader ns request).2) := by
  constructor
  · intro h name
    unfold ShowTable
    simp [h]
  · intro b request
    exact ChangeLeader_follower ns b request

theorem follower_flag_read_by_ShowTable_witness :
    followerNs.follower_ = true ∧ ShowTable followerNs none = (300, []) :=
  ⟨by decide, (follower_flag_read_by_ShowTable followerNs).1 (by decide) none⟩

/-! ## The flag running_ and the tasks -/

/-- C27, evaluated at the failing input: with `running_ = false` the task
`AddTableInfo` for "c:1" ends Done and has set the node of the table "t" to the
table with the new replica, and the task `SelectLeader` has set the node
`/table/term` from 3 to 5; `DelTableInfo` and `UpdatePartitionStatus`, which test
`running_`, leave the state as it was. -/
theorem tasks_write_when_not_running :
    stoppedNs.running_ = false ∧
    (AddTableInfo stoppedNs "t" "c:1" 0 migrateTask).2.status = TaskStatus.kDone ∧
    mapFind "/table/table_data/t" stoppedNs.zk_client_.nodes = some (ZkValue.table scenarioTable) ∧
    mapFind "/table/table_data/t" (AddTableInfo stoppedNs "t" "c:1" 0 migrateTask).1.zk_client_.nodes
      = some (ZkValue.table (withPartition scenarioTable 0 (addPartitionMeta "c:1"))) ∧
    mapFind "/table/term" stoppedNs.zk_client_.nodes = some (ZkValue.num 3) ∧
    mapFind "/table/term"
      (SelectLeader stoppedNs "t" 2 0 ["b:1"] migrateTask 0).1.zk_client_.nodes
      = some (ZkValue.num 5) ∧
    DelTableInfo stoppedNs "t" "b:1" 0 migrateTask = (stoppedNs, migrateTask) ∧
    UpdatePartitionStatus stoppedNs "t" "b:1" 0 false false migrateTask
      = (stoppedNs, migrateTask) := by
  decide

/-! ## The catalog after a failed write -/

/-- C28, evaluated at the failing input: on a store whose next call fails, each of
the tasks `AddTableInfo`, `DelTableInfo`, `UpdateTableInfo`, `UpdatePartitionStatus`
and `UpdateLeaderInfo` ends Failed, the store is as it was, and the table "t" of
the catalog is not: it has the change that the task made. -/
theorem catalog_changed_after_failed_write :
    ((AddTableInfo faultyNs "t" "c:1" 0 migrateTask).2.status = TaskStatus.kFailed ∧
      (AddTableInfo faultyNs "t" "c:1" 0 migrateTask).1.zk_client_.nodes
        = faultyNs.zk_client_.nodes ∧
      mapFind "t" (AddTableInfo faultyNs "t" "c:1" 0 migrateTask).1.table_info_
        = some (withPartition scenarioTable 0 (addPartitionMeta "c:1"))) ∧
    ((DelTableInfo faultyNs "t" "b:1" 0 migrateTask).2.status = TaskStatus.kFailed ∧
      (DelTableInfo faultyNs "t" "b:1" 0 migrateTask).1.zk_client_.nodes
        = faultyNs.zk_client_.nodes ∧
      (mapFind "t" (DelTableInfo faultyNs "t" "b:1" 0 migrateTask).1.table_info_).map
          (fun t => t.table_partition.map (fun tp => tp.partition_meta))
        = some [[{ endpoint := "a:1", is_leader := true, is_alive := true }]]) ∧
    ((UpdateTableInfo faultyNs "b:1" "t" 0 "c:1" migrateTask).2.status = TaskStatus.kFailed ∧
      (UpdateTableInfo faultyNs "b:1" "t" 0 "c:1" migrateTask).1.zk_client_.nodes
        = faultyNs.zk_client_.nodes ∧
      (mapFind "t" (UpdateTableInfo faultyNs "b:1" "t" 0 "c:1" migrateTask).1.table_info_).map
          (fun t => t.table_partition.map (fun tp => tp.partition_meta))
        = some [[{ endpoint := "a:1", is_leader := true, is_alive := true },
                 { endpoint := "c:1", is_leader := false, is_alive := true }]]) ∧
    ((UpdatePartitionStatus faultyNs "t" "b:1" 0 false false migrateTask).2.status
        = TaskStatus.kFailed ∧
      (UpdatePartitionStatus faultyNs "t" "b:1" 0 false false migrateTask).1.zk_client_.nodes
        = faultyNs.zk_client_.nodes ∧
      (mapFind "t"
          (UpdatePartitionStatus faultyNs "t" "b:1" 0 false false migrateTask).1.table_info_).map
          (fun t => t.table_partition.map (fun tp => tp.partition_meta))
        = some [[{ endpoint := "a:1", is_leader := true, is_alive := true },
                 { endpoint := "b:1", is_leader := false, is_alive := false }]]) ∧
    ((UpdateLeaderInfo { scenarioNs with zk_client_ := faultyNs.zk_client_ } scenarioTask).2.status
        = TaskStatus.kFailed ∧
      (UpdateLeaderInfo { scenarioNs with zk_client_ := faultyNs.zk_client_ }
          scenarioTask).1.zk_client_.nodes = faultyNs.zk_client_.nodes ∧
      (mapFind "t" (UpdateLeaderInfo { scenarioNs with zk_client_ := faultyNs.zk_client_ }
          scenarioTask).1.table_info_).map
          (fun t => t.table_partition.map (fun tp => tp.partition_meta))
        = some [[{ endpoint := "a:1", is_leader := true, is_alive := false },
                 { endpoint := "b:1", is_leader := true, is_alive := true }]]) ∧
    mapFind "t" faultyNs.table_info_ = some scenarioTable := by
  decide

/-! ## SelectLeader: the choice of the leader -/

theorem maxOffsetInv_step (acc : Nat × List String) (done : List (String × Nat))
    (e : String) (o : Nat) (h : maxOffsetInv acc done) :
    maxOffsetInv
      (if o > acc.1 ∨ acc.2 = [] then (o, [e])
        else if o = acc.1 then (acc.1, acc.2 ++ [e]) else acc)
      (done ++ [(e, o)]) := by
  obtain ⟨hle, hmem, hempty⟩ := h
  by_cases h1 : o > acc.1 ∨ acc.2 = []
  · rw [if_pos h1]
    have hlt : ∀ p ∈ done, p.2 < o ∨ done = [] := by
      intro p hp
      rcases h1 with h1 | h1
      · exact Or.inl (Nat.lt_of_le_of_lt (hle p hp) h1)
      · exact Or.inr (hempty h1)
    refine ⟨?_, ?_, ?_⟩
    · intro p hp
      rcases List.mem_append.mp hp with hp | hp
      · rcases hlt p hp with h | h
        · exact Nat.le_of_lt h
        · rw [h] at hp; cases hp
      · simp at hp
        rw [hp]
    · intro x
      constructor
      · intro hx
        simp at hx
        exact ⟨(e, o), by simp, hx.symm, rfl⟩
      · rintro ⟨p, hp, hpe, hpo⟩
        rcases List.mem_append.mp hp with hp | hp
        · rcases hlt p hp with h | h
          · simp at hpo
            omega
          · rw [h] at hp; cases hp
        · simp at hp
          rw [hp] at hpe
          simp at hpe
          simp [hpe]
    · intro h
      simp at h
  · rw [if_neg h1]
    have hno : ¬ o > acc.1 := fun h => h1 (Or.inl h)
    by_cases h2 : o = acc.1
    · rw [if_pos h2]
      refine ⟨?_, ?_, ?_⟩
      · intro p hp
        rcases List.mem_append.mp hp with hp | hp
        · exact hle p hp
        · simp at hp
          rw [hp]
          exact Nat.le_of_eq h2
      · intro x
        constructor
        · intro hx
          rcases List.mem_append.mp hx with hx | hx
          · obtain ⟨p, hp, hpe, hpo⟩ := (hmem x).mp hx
            exact ⟨p, List.mem_append_left _ hp, hpe, hpo⟩
          · simp at hx
            exact ⟨(e, o), by simp, hx.symm, h2⟩
        · rintro ⟨p, hp, hpe, hpo⟩
          rcases List.mem_append.mp hp with hp | hp
          · exact List.mem_append_left _ ((hmem x).mpr ⟨p, hp, hpe, hpo⟩)
          · simp at hp
            rw [hp] at hpe
            simp at hpe
            simp [hpe]
      · intro h
        simp at h
    · rw [if_neg h2]
      refine ⟨?_, ?_, ?_⟩
      · intro p hp
        rcases List.mem_append.mp hp with hp | hp
        · exact hle p hp
        · simp at hp
          rw [hp]
          simp
          omega
      · intro x
        constructor
        · intro hx
          obtain ⟨p, hp, hpe, hpo⟩ := (hmem x).mp hx
          exact ⟨p, List.mem_append_left _ hp, hpe, hpo⟩
        · rintro ⟨p, hp, hpe, hpo⟩
          rcases List.mem_append.mp hp with hp | hp
          · exact (hmem x).mpr ⟨p, hp, hpe, hpo⟩
          · simp at hp
            rw [hp] at hpo
            simp at hpo
            exact absurd hpo h2
      · intro h
        exact absurd (Or.inr h) h1

/-- The loop of `SelectLeader` over followers that are all on healthy tablets and
all answer: it ends with a result, has taken one reply for each follower, and
`maxOffsetInv` holds of the result. -/
theorem followOfNoOne_spec (tablets : List (String × TabletInfo))
    (follower_endpoint : List String) (offsets : List Nat) (rest : List (Option Nat))
    (acc : Nat × List String) (done : List (String × Nat))
    (hhealthy : ∀ e ∈ follower_endpoint, ∃ tablet, mapFind e tablets = some tablet ∧
      tablet.state_ = TabletState.kTabletHealthy)
    (hlen : offsets.length = follower_endpoint.length)
    (hinv : maxOffsetInv acc done) :
    ∃ res, followOfNoOne tablets follower_endpoint (offsets.map some ++ rest) acc
        = (some res, rest) ∧
      maxOffsetInv res (done ++ follower_endpoint.zip offsets) := by
  induction follower_endpoint generalizing offsets acc done with
  | nil =>
    cases offsets with
    | nil => exact ⟨acc, rfl, by simpa using hinv⟩
    | cons o os => simp at hlen
  | cons e es ih =>
    cases offsets with
    | nil => simp at hlen
    | cons o os =>
      obtain ⟨tablet, ht, hs⟩ := hhealthy e (List.mem_cons_self _ _)
      have hstep := maxOffsetInv_step acc done e o hinv
      have hl : os.length = es.length := by simpa using hlen
      have hh : ∀ e ∈ es, ∃ tablet, mapFind e tablets = some tablet ∧
          tablet.state_ = TabletState.kTabletHealthy :=
        fun x hx => hhealthy x (List.mem_cons_of_mem _ hx)
      have hz : done ++ (e :: es).zip (o :: os) = (done ++ [(e, o)]) ++ es.zip os := by simp
      rw [hz]
      simp only [followOfNoOne, ht, hs, List.map_cons, List.cons_append, nextReply, ne_eq,
        not_true_eq_false, if_false]
      by_cases h1 : o > acc.1 ∨ acc.2 = []
      · rw [if_pos h1] at hstep
        rw [if_pos h1]
        exact ih os (o, [e]) (done ++ [(e, o)]) hh hl hstep
      · rw [if_neg h1] at hstep
        rw [if_neg h1]
        by_cases h2 : o = acc.1
        · rw [if_pos h2] at hstep
          rw [if_pos h2]
          exact ih os (acc.1, acc.2 ++ [e]) (done ++ [(e, o)]) hh hl hstep
        · rw [if_neg h2] at hstep
          rw [if_neg h2]
          exact ih os acc (done ++ [(e, o)]) hh hl hstep

theorem mem_zip_iff_getElem? (l1 : List String) (l2 : List Nat) (e : String) (o : Nat) :
    (e, o) ∈ l1.zip l2 ↔ ∃ i : Nat, l1[i]? = some e ∧ l2[i]? = some o := by
  rw [List.mem_iff_getElem?]
  constructor
  · rintro ⟨i, hi⟩
    rw [List.getElem?_zip_eq_some] at hi
    exact ⟨i, hi⟩
  · rintro ⟨i, hi⟩
    exact ⟨i, by rw [List.getElem?_zip_eq_some]; exact hi⟩

/-- C29. Let a `SelectLeader` task pass its guard and the write of the term, with
its OP at the front of a queue and a ChangeLeaderData payload `d`, and let the
followers, at least one, all be on healthy tablets and answer `FollowOfNoOne` with
`offsets`, in their order.  Without `candidate_leader` in `d` the task ends Done,
and the payload has a leader and an offset such that the leader is a follower
that answered this offset, and no follower answered a greater one.  With the
candidate `c`: when `c` is a follower that answered an offset that no follower
exceeded, the task ends Done with the leader `c` and that offset in the
payload; otherwise the task ends Failed. -/
theorem SelectLeader_max_offset (ns : NameServerImpl) (name : String) (tid pid : Nat)
    (follower_endpoint : List String) (task_info : TaskInfo) (rand_next : Nat)
    (offsets : List Nat) (rest : List (Option Nat)) (op_data : OPData) (d : ChangeLeaderData)
    (hguard : selectLeaderGuard ns name pid = true)
    (hwrite : (ns.zk_client_.SetNodeValue zk_term_node_
      (ZkValue.num (u64 (ns.term_ + 2)))).1 = true)
    (hop : FindRunningOP ns task_info.op_id = some op_data)
    (hd : parseChangeLeaderData op_data.op_info_.data = some d)
    (hnonempty : follower_endpoint ≠ [])
    (hhealthy : ∀ e ∈ follower_endpoint, ∃ tablet, mapFind e ns.tablets_ = some tablet ∧
      tablet.state_ = TabletState.kTabletHealthy)
    (hreplies : ns.tablet_replies_ = offsets.map some ++ rest)
    (hlen : offsets.length = follower_endpoint.length) :
    (d.candidate_leader = none →
      (SelectLeader ns name tid pid follower_endpoint task_info rand_next).2.status
        = TaskStatus.kDone ∧
      ∃ (op_data1 : OPData) (d1 : ChangeLeaderData) (i : Nat),
        FindRunningOP (SelectLeader ns name tid pid follower_endpoint task_info rand_next).1
          task_info.op_id = some op_data1 ∧
        parseChangeLeaderData op_data1.op_info_.data = some d1 ∧
        follower_endpoint[i]? = some d1.leader ∧ offsets[i]? = some d1.offset ∧
        ∀ o ∈ offsets, o ≤ d1.offset) ∧
    (∀ c, d.candidate_leader = some c →
      ((∃ (i : Nat) (o : Nat), follower_endpoint[i]? = some c ∧ offsets[i]? = some o ∧
          ∀ o1 ∈ offsets, o1 ≤ o) →
        (SelectLeader ns name tid pid follower_endpoint task_info rand_next).2.status
          = TaskStatus.kDone ∧
        ∃ (op_data1 : OPData) (d1 : ChangeLeaderData) (i : Nat),
          FindRunningOP (SelectLeader ns name tid pid follower_endpoint task_info rand_next).1
            task_info.op_id = some op_data1 ∧
          parseChangeLeaderData op_data1.op_info_.data = some d1 ∧
          d1.leader = c ∧
          follower_endpoint[i]? = some c ∧ offsets[i]? = some d1.offset ∧
          ∀ o ∈ offsets, o ≤ d1.offset) ∧
      (¬ (∃ (i : Nat) (o : Nat), follower_endpoint[i]? = some c ∧ offsets[i]? = some o ∧
          ∀ o1 ∈ offsets, o1 ≤ o) →
        (SelectLeader ns name tid pid follower_endpoint task_info rand_next).2.status
          = TaskStatus.kFailed)) := by
  obtain ⟨res, hres, hle, hmem, hempty⟩ := followOfNoOne_spec ns.tablets_ follower_endpoint
    offsets rest (0, []) [] hhealthy hlen
    ⟨fun p hp => (by cases hp), fun e => (by simp), fun _ => rfl⟩
  rw [List.nil_append] at hle hmem hempty
  -- the state that `writeLeader` starts from
  have hsel : SelectLeader ns name tid pid follower_endpoint task_info rand_next =
      writeLeader
        { ns with
          zk_client_ := (ns.zk_client_.SetNodeValue zk_term_node_
            (ZkValue.num (u64 (ns.term_ + 2)))).2
          term_ := u64 (ns.term_ + 2)
          tablet_replies_ := rest }
        task_info rand_next (u64 (ns.term_ + 1)) res.1 res.2 := by
    unfold SelectLeader
    simp only [hguard, hwrite, hreplies, hres, Bool.not_true, Bool.false_eq_true, if_false]
  have hspec := writeLeader_spec
    { ns with
      zk_client_ := (ns.zk_client_.SetNodeValue zk_term_node_
        (ZkValue.num (u64 (ns.term_ + 2)))).2
      term_ := u64 (ns.term_ + 2)
      tablet_replies_ := rest }
    task_info rand_next (u64 (ns.term_ + 1)) res.1 res.2 op_data d hop hd
  rw [← hsel] at hspec
  obtain ⟨hsome, hnone⟩ := hspec
  -- the offsets are all at most the greatest
  have hmax : ∀ o ∈ offsets, o ≤ res.1 := by
    intro o ho
    obtain ⟨i, hi⟩ := List.mem_iff_getElem?.mp ho
    have hlt : i < follower_endpoint.length := by
      rw [← hlen]
      exact (List.getElem?_eq_some_iff.mp hi).1
    have : (follower_endpoint[i], o) ∈ follower_endpoint.zip offsets :=
      (mem_zip_iff_getElem? _ _ _ _).mpr ⟨i, List.getElem?_eq_getElem hlt, hi⟩
    exact hle _ this
  have hvec : ∀ e, e ∈ res.2 ↔ ∃ i : Nat, follower_endpoint[i]? = some e ∧ offsets[i]? = some res.1 := by
    intro e
    rw [hmem e]
    constructor
    · rintro ⟨p, hp, hpe, hpo⟩
      obtain ⟨p1, p2⟩ := p
      simp only at hpe hpo
      subst hpe hpo
      exact (mem_zip_iff_getElem? _ _ _ _).mp hp
    · rintro ⟨i, hi⟩
      exact ⟨(e, res.1), (mem_zip_iff_getElem? _ _ _ _).mpr ⟨i, hi⟩, rfl, rfl⟩
  have hvne : res.2 ≠ [] := by
    intro h
    have hz := hempty h
    cases follower_endpoint with
    | nil => exact hnonempty rfl
    | cons e es =>
      cases offsets with
      | nil => simp at hlen
      | cons o os => simp at hz
  constructor
  · intro hc
    have hlt : rand_next % res.2.length < res.2.length :=
      Nat.mod_lt _ (List.length_pos.mpr hvne)
    have hch : chooseLeader d.candidate_leader res.2 rand_next
        = some (res.2[rand_next % res.2.length]) := by
      unfold chooseLeader
      rw [hc]
      simp only [hvne, if_false]
      exact List.getElem?_eq_getElem hlt
    obtain ⟨hdone, hfind⟩ := hsome _ hch
    obtain ⟨i, hi1, hi2⟩ := (hvec _).mp (List.getElem_mem hlt)
    exact ⟨hdone, _, _, i, hfind, rfl, hi1, hi2, hmax⟩
  · intro c hc
    constructor
    · rintro ⟨i, o, hi1, hi2, hio⟩
      have ho : o = res.1 := by
        apply Nat.le_antisymm
        · exact hmax o (List.mem_iff_getElem?.mpr ⟨i, hi2⟩)
        · -- the greatest offset was answered by a follower
          obtain ⟨e, he⟩ := List.exists_mem_of_ne_nil _ hvne
          obtain ⟨j, _, hj⟩ := (hvec e).mp he
          exact hio _ (List.mem_iff_getElem?.mpr ⟨j, hj⟩)
      subst ho
      have hin : c ∈ res.2 := (hvec c).mpr ⟨i, hi1, hi2⟩
      have hch : chooseLeader d.candidate_leader res.2 rand_next = some c := by
        unfold chooseLeader
        rw [hc]
        simp [hin]
      obtain ⟨hdone, hfind⟩ := hsome _ hch
      exact ⟨hdone, _, _, i, hfind, rfl, rfl, hi1, hi2, hmax⟩
    · intro hnot
      have hin : c ∉ res.2 := by
        intro h
        obtain ⟨i, hi1, hi2⟩ := (hvec c).mp h
        exact hnot ⟨i, res.1, hi1, hi2, hmax⟩
      apply hnone
      unfold chooseLeader
      rw [hc]
      simp [hin]

theorem SelectLeader_max_offset_witness :
    (SelectLeader { scenarioNs with tablet_replies_ := [some 7, some 10] } "t" 2 0
      ["c:1", "b:1"] scenarioTask 0).2.status = TaskStatus.kDone ∧
    ∃ (op_data1 : OPData) (d1 : ChangeLeaderData) (i : Nat),
      FindRunningOP (SelectLeader { scenarioNs with tablet_replies_ := [some 7, some 10] } "t" 2 0
        ["c:1", "b:1"] scenarioTask 0).1 scenarioTask.op_id = some op_data1 ∧
      parseChangeLeaderData op_data1.op_info_.data = some d1 ∧
      ["c:1", "b:1"][i]? = some d1.leader ∧ [7, 10][i]? = some d1.offset ∧
      ∀ o ∈ [7, 10], o ≤ d1.offset :=
  (SelectLeader_max_offset { scenarioNs with tablet_replies_ := [some 7, some 10] } "t" 2 0
    ["c:1", "b:1"] scenarioTask 0 [7, 10] [] scenarioOp scenarioPayload
    (by decide) (by decide) (by decide) (by decide) (by decide) (by decide) (by decide)
    (by decide)).1 (by decide)

/-! ## OfflineEndpointInternal -/

theorem scanAliveLeader_fst_none (endpoint : String) (l : List PartitionMeta) (k : Nat)
    (acc : String × Option Nat) (h : ∀ m ∈ l, ¬ aliveLeader m) :
    (scanAliveLeader endpoint l k acc).1 = acc.1 := by
  induction l generalizing k acc with
  | nil => rfl
  | cons a rest ih =>
    simp only [scanAliveLeader]
    rw [ih _ _ (fun m hm => h m (List.mem_cons_of_mem _ hm))]
    have ha := h a (List.mem_cons_self _ _)
    have : (a.is_leader && a.is_alive) = false := by
      cases h1 : a.is_leader <;> cases h2 : a.is_alive <;> simp_all [aliveLeader]
    simp [this]

theorem scanAliveLeader_fst_some (endpoint : String) (l : List PartitionMeta) (k : Nat)
    (acc : String × Option Nat) (h : ∃ m ∈ l, aliveLeader m) :
    ∃ m ∈ l, aliveLeader m ∧ (scanAliveLeader endpoint l k acc).1 = m.endpoint := by
  induction l generalizing k acc with
  | nil => obtain ⟨m, hm, _⟩ := h; cases hm
  | cons a rest ih =>
    simp only [scanAliveLeader]
    by_cases hr : ∃ m ∈ rest, aliveLeader m
    · obtain ⟨m, hm, hl, he⟩ := ih (k + 1)
        (if (a.is_leader && a.is_alive) = true then a.endpoint else acc.1,
          if a.endpoint = endpoint then some k else acc.2) hr
      exact ⟨m, List.mem_cons_of_mem _ hm, hl, he⟩
    · have hn : ∀ m ∈ rest, ¬ aliveLeader m := fun m hm hl => hr ⟨m, hm, hl⟩
      rw [scanAliveLeader_fst_none endpoint rest _ _ hn]
      obtain ⟨m, hm, hl⟩ := h
      rcases List.mem_cons.mp hm with rfl | hm
      · refine ⟨m, List.mem_cons_self _ _, hl, ?_⟩
        simp [hl.1, hl.2]
      · exact absurd hl (hn m hm)

theorem scanAliveLeader_snd_none (endpoint : String) (l : List PartitionMeta) (k : Nat)
    (acc : String × Option Nat) (h : ∀ m ∈ l, m.endpoint ≠ endpoint) :
    (scanAliveLeader endpoint l k acc).2 = acc.2 := by
  induction l generalizing k acc with
  | nil => rfl
  | cons a rest ih =>
    simp only [scanAliveLeader]
    rw [ih _ _ (fun m hm => h m (List.mem_cons_of_mem _ hm))]
    simp [h a (List.mem_cons_self _ _)]

theorem scanAliveLeader_snd_some (endpoint : String) (l : List PartitionMeta) (k : Nat)
    (acc : String × Option Nat) (h : ∃ m ∈ l, m.endpoint = endpoint) :
    ∃ i m, (scanAliveLeader endpoint l k acc).2 = some (k + i) ∧ l[i]? = some m ∧
      m.endpoint = endpoint := by
  induction l generalizing k acc with
  | nil => obtain ⟨m, hm, _⟩ := h; cases hm
  | cons a rest ih =>
    simp only [scanAliveLeader]
    by_cases hr : ∃ m ∈ rest, m.endpoint = endpoint
    · obtain ⟨i, m, hi, hm, he⟩ := ih (k + 1)
        (if (a.is_leader && a.is_alive) = true then a.endpoint else acc.1,
          if a.endpoint = endpoint then some k else acc.2) hr
      refine ⟨i + 1, m, ?_, by simpa using hm, he⟩
      rw [hi]
      congr 1
      omega
    · have hn : ∀ m ∈ rest, m.endpoint ≠ endpoint := fun m hm he => hr ⟨m, hm, he⟩
      rw [scanAliveLeader_snd_none endpoint rest _ _ hn]
      obtain ⟨m, hm, he⟩ := h
      rcases List.mem_cons.mp hm with rfl | hm
      · exact ⟨0, m, by simp [he], by simp, he⟩
      · exact absurd he (hn m hm)

/-- The partition is not the single replica `m`: the first test of
`offlinePartition` fails. -/
theorem offlinePartition_general (name endpoint : String) (concurrency : Nat)
    (tp : TablePartition) (m : PartitionMeta) (hm : m ∈ tp.partition_meta)
    (hne : tp.partition_meta ≠ [m])
    (hdistinct : ∀ m1 ∈ tp.partition_meta, ∀ m2 ∈ tp.partition_meta,
      m1.endpoint = m2.endpoint → m1 = m2)
    (he : m.endpoint = endpoint) :
    offlinePartition name endpoint concurrency tp =
      offlineReplica name endpoint concurrency tp.pid
        (scanAliveLeader endpoint tp.partition_meta 0 ("", none)).1 m := by
  unfold offlinePartition
  have h1 : ¬ (tp.partition_meta.length = 1 ∧
      (tp.partition_meta.map (fun m => m.endpoint))[0]? = some endpoint) := by
    rintro ⟨hlen, _⟩
    obtain ⟨x, hx⟩ := List.length_eq_one.mp hlen
    rw [hx] at hm
    simp at hm
    exact hne (by rw [hx, hm])
  rw [if_neg h1]
  obtain ⟨i, m', hi, hm', he'⟩ :=
    scanAliveLeader_snd_some endpoint tp.partition_meta 0 ("", none) ⟨m, hm, he⟩
  have hmem : m' ∈ tp.partition_meta := List.mem_iff_getElem?.mpr ⟨i, hm'⟩
  have heq : m' = m := hdistinct m' hmem m hm (by rw [he, he'])
  rw [Nat.zero_add] at hi
  simp only [hi, hm', heq]

/-- C30, a counterexample: partition 0 of "t" has a dead leader on "a:1" and an
alive follower on "b:1"; for "b:1", which is not the alive leader and whose meta
has not `is_leader`, `OfflineEndpointInternal` calls `CreateChangeLeaderOP`, not
`CreateOfflineReplicaOP`.  And for a partition with a dead leader slot on "a:1",
an alive leader on "b:1" and a follower on "c:1", it makes no call for "a:1". -/
theorem OfflineEndpointInternal_other_choices :
    OfflineEndpointInternal deadLeaderNs "b:1" 2 = [OPRequest.changeLeaderOP "t" 0 "" false 2] ∧
    offlinePartition "t" "a:1" 2 twoLeaderSlots = none ∧
    OfflineEndpointInternal { deadLeaderNs with
      table_info_ := [("t", { deadLeaderTable with table_partition := [twoLeaderSlots] })] }
      "a:1" 2 = [] := by
  decide

/-- C30, as the code has it.  `OfflineEndpointInternal` makes, in the order of the
catalog, the calls that `offlinePartition` gives for the partitions.  For a
partition whose replicas have distinct endpoints, at most one replica that is
leader and alive, and no such replica at the empty endpoint: without a replica at
`endpoint` there is no call; with the replica `m` at `endpoint`, the call is
`CreateUpdatePartitionStatusOP` (leader, not alive, `INVALID_PARENT_ID`) when `m`
is the only replica; otherwise `CreateChangeLeaderOP` (no candidate) when no
replica is leader and alive or `m` is; no call when another replica is leader and
alive and `m` has `is_leader` without being alive; and `CreateOfflineReplicaOP`
when another replica is leader and alive and `m` has not `is_leader`. -/
theorem OfflineEndpointInternal_choice (ns : NameServerImpl) (endpoint : String)
    (concurrency : Nat) :
    OfflineEndpointInternal ns endpoint concurrency =
      ns.table_info_.flatMap (fun kv =>
        kv.2.table_partition.filterMap (offlinePartition kv.1 endpoint concurrency)) ∧
    ∀ (name : String) (tp : TablePartition),
      (∀ m1 ∈ tp.partition_meta, ∀ m2 ∈ tp.partition_meta, m1.endpoint = m2.endpoint → m1 = m2) →
      (∀ m1 ∈ tp.partition_meta, ∀ m2 ∈ tp.partition_meta,
        aliveLeader m1 → aliveLeader m2 → m1 = m2) →
      (∀ m ∈ tp.partition_meta, aliveLeader m → m.endpoint ≠ "") →
      ((∀ m ∈ tp.partition_meta, m.endpoint ≠ endpoint) →
        offlinePartition name endpoint concurrency tp = none) ∧
      ∀ m ∈ tp.partition_meta, m.endpoint = endpoint →
        (tp.partition_meta = [m] →
          offlinePartition name endpoint concurrency tp =
            some (OPRequest.updatePartitionStatusOP name tp.pid endpoint true false
              INVALID_PARENT_ID concurrency)) ∧
        (tp.partition_meta ≠ [m] →
          (((∀ m2 ∈ tp.partition_meta, ¬ aliveLeader m2) ∨ aliveLeader m) →
            offlinePartition name endpoint concurrency tp =
              some (OPRequest.changeLeaderOP name tp.pid "" false concurrency)) ∧
          ((∃ m2 ∈ tp.partition_meta, aliveLeader m2) → m.is_leader = true →
            m.is_alive = false → offlinePartition name endpoint concurrency tp = none) ∧
          ((∃ m2 ∈ tp.partition_meta, aliveLeader m2) → m.is_leader = false →
            offlinePartition name endpoint concurrency tp =
              some (OPRequest.offlineReplicaOP name tp.pid endpoint concurrency))) := by
  refine ⟨rfl, ?_⟩
  intro name tp hdistinct hone hnonempty
  refine ⟨?_, ?_⟩
  · intro hnot
    unfold offlinePartition
    have h1 : ¬ (tp.partition_meta.length = 1 ∧
        (tp.partition_meta.map (fun m => m.endpoint))[0]? = some endpoint) := by
      rintro ⟨hlen, h0⟩
      obtain ⟨x, hx⟩ := List.length_eq_one.mp hlen
      rw [hx] at h0
      simp at h0
      exact hnot x (by rw [hx]; simp) h0
    rw [if_neg h1, scanAliveLeader_snd_none endpoint _ _ _ hnot]
  · intro m hm he
    refine ⟨?_, ?_⟩
    · intro hsingle
      unfold offlinePartition
      rw [if_pos (by rw [hsingle]; simp [he])]
    · intro hne
      rw [offlinePartition_general name endpoint concurrency tp m hm hne hdistinct he]
      refine ⟨?_, ?_, ?_⟩
      · rintro (hnone | hlead)
        · rw [scanAliveLeader_fst_none endpoint _ _ _ hnone]
          simp [offlineReplica]
        · obtain ⟨m2, hm2, hl2, h2⟩ :=
            scanAliveLeader_fst_some endpoint tp.partition_meta 0 ("", none) ⟨m, hm, hlead⟩
          have : m2 = m := hone m2 hm2 m hm hl2 hlead
          rw [h2, this, he]
          simp [offlineReplica, hlead.1]
      · intro hex hl ha
        obtain ⟨m2, hm2, hl2, h2⟩ :=
          scanAliveLeader_fst_some endpoint tp.partition_meta 0 ("", none) hex
        have hne2 : m2.endpoint ≠ endpoint := by
          intro h
          have : m2 = m := hdistinct m2 hm2 m hm (by rw [h, he])
          rw [this] at hl2
          have h3 : m.is_alive = true := hl2.2
          rw [ha] at h3
          exact absurd h3 (by decide)
        rw [h2]
        simp [offlineReplica, hl, hnonempty m2 hm2 hl2, hne2]
      · intro hex hl
        obtain ⟨m2, hm2, hl2, h2⟩ :=
          scanAliveLeader_fst_some endpoint tp.partition_meta 0 ("", none) hex
        rw [h2]
        simp [offlineReplica, hl, hnonempty m2 hm2 hl2]

theorem OfflineEndpointInternal_choice_witness :
    offlinePartition "t" "a:1" 2 twoLeaderSlots = none :=
  (((OfflineEndpointInternal_choice engineNs "a:1" 2).2 "t" twoLeaderSlots
    (by decide) (by decide) (by decide)).2
      { endpoint := "a:1", is_leader := true, is_alive := false } (by decide) rfl).2
    (by decide) |>.2.1 ⟨{ endpoint := "b:1", is_leader := true, is_alive := true },
      by decide, by decide⟩ rfl rfl

/-! ## RecoverEndpointTable: the child OP -/

theorem scanLeaderTablet_kept (tablets : List (String × TabletInfo)) (m : PartitionMeta)
    (endpoint : String) (leader_tablet_ptr : Option TabletInfo)
    (hoff : endpoint ≠ OFFLINE_LEADER_ENDPOINT)
    (hleader : aliveLeader m → ∃ tablet, mapFind m.endpoint tablets = some tablet ∧
      tablet.state_ = TabletState.kTabletHealthy) :
    ∃ leader1, scanLeaderTablet tablets m endpoint leader_tablet_ptr = some (endpoint, leader1) ∧
      (leader_tablet_ptr.isSome = true ∨ aliveLeader m → leader1.isSome = true) := by
  unfold scanLeaderTablet
  cases hl : m.is_leader with
  | false =>
    refine ⟨leader_tablet_ptr, by simp, ?_⟩
    rintro (h | h)
    · exact h
    · rw [h.1] at hl
      cases hl
  | true =>
    cases ha : m.is_alive with
    | false =>
      refine ⟨leader_tablet_ptr, by simp [hoff], ?_⟩
      rintro (h | h)
      · exact h
      · rw [h.2] at ha
        cases ha
    | true =>
      obtain ⟨tablet, ht, hs⟩ := hleader ⟨hl, ha⟩
      exact ⟨some tablet, by simp [ht, hs], fun _ => rfl⟩

/-- The loop of `RecoverEndpointTable` over a partition with another size than
one, for a target that is not `OFFLINE_LEADER_ENDPOINT`, is listed only as not
alive and is on a healthy tablet, with the alive leaders on healthy tablets: the
loop runs to its end and keeps `endpoint`. -/
theorem recoverScan_followers (tablets : List (String × TabletInfo)) (size : Nat)
    (l : List PartitionMeta) (endpoint : String) (leader_tablet_ptr tablet_ptr : Option TabletInfo)
    (target : TabletInfo)
    (hsize : size ≠ 1)
    (hoff : endpoint ≠ OFFLINE_LEADER_ENDPOINT)
    (htarget : mapFind endpoint tablets = some target)
    (hhealthy : target.state_ = TabletState.kTabletHealthy)
    (hdead : ∀ m ∈ l, m.endpoint = endpoint → m.is_alive = false)
    (hleader : ∀ m ∈ l, aliveLeader m → ∃ tablet, mapFind m.endpoint tablets = some tablet ∧
      tablet.state_ = TabletState.kTabletHealthy) :
    ∃ leader1 tablet1,
      recoverScan tablets size l endpoint leader_tablet_ptr tablet_ptr
        = RecoverScan.found endpoint leader1 tablet1 true ∧
      (leader_tablet_ptr.isSome = true ∨ (∃ m ∈ l, aliveLeader m) → leader1.isSome = true) ∧
      (tablet_ptr.isSome = true ∨ (∃ m ∈ l, m.endpoint = endpoint) → tablet1.isSome = true) := by
  induction l generalizing leader_tablet_ptr tablet_ptr with
  | nil =>
    refine ⟨leader_tablet_ptr, tablet_ptr, rfl, ?_, ?_⟩
    · rintro (h | ⟨m, hm, _⟩)
      · exact h
      · cases hm
    · rintro (h | ⟨m, hm, _⟩)
      · exact h
      · cases hm
  | cons m rest ih =>
    obtain ⟨leader1, hscan, hl1⟩ := scanLeaderTablet_kept tablets m endpoint leader_tablet_ptr hoff
      (hleader m (List.mem_cons_self _ _))
    have hdead1 : ∀ x ∈ rest, x.endpoint = endpoint → x.is_alive = false :=
      fun x hx => hdead x (List.mem_cons_of_mem _ hx)
    have hleader1 : ∀ x ∈ rest, aliveLeader x → ∃ tablet, mapFind x.endpoint tablets = some tablet ∧
        tablet.state_ = TabletState.kTabletHealthy :=
      fun x hx => hleader x (List.mem_cons_of_mem _ hx)
    simp only [recoverScan, hscan]
    by_cases he : m.endpoint = endpoint
    · have ha : m.is_alive = false := hdead m (List.mem_cons_self _ _) he
      rw [if_pos he, ha]
      simp only [Bool.false_eq_true, if_false, htarget, hhealthy, ne_eq, not_true_eq_false]
      rw [if_neg hsize]
      obtain ⟨l2, t2, h2, hl2, ht2⟩ := ih leader1 (some target) hdead1 hleader1
      refine ⟨l2, t2, h2, ?_, fun _ => ht2 (Or.inl rfl)⟩
      rintro (h | ⟨x, hx, hxl⟩)
      · exact hl2 (Or.inl (hl1 (Or.inl h)))
      · rcases List.mem_cons.mp hx with rfl | hx
        · exact hl2 (Or.inl (hl1 (Or.inr hxl)))
        · exact hl2 (Or.inr ⟨x, hx, hxl⟩)
    · rw [if_neg he]
      obtain ⟨l2, t2, h2, hl2, ht2⟩ := ih leader1 tablet_ptr hdead1 hleader1
      refine ⟨l2, t2, h2, ?_, ?_⟩
      · rintro (h | ⟨x, hx, hxl⟩)
        · exact hl2 (Or.inl (hl1 (Or.inl h)))
        · rcases List.mem_cons.mp hx with rfl | hx
          · exact hl2 (Or.inl (hl1 (Or.inr hxl)))
          · exact hl2 (Or.inr ⟨x, hx, hxl⟩)
      · rintro (h | ⟨x, hx, hxe⟩)
        · exact ht2 (Or.inl h)
        · rcases List.mem_cons.mp hx with rfl | hx
          · exact absurd hxe he
          · exact ht2 (Or.inr ⟨x, hx, hxe⟩)

/-- The loop of `RecoverEndpointTable` over a partition of one replica, the target,
not alive and on a healthy tablet. -/
theorem recoverScan_single (tablets : List (String × TabletInfo)) (m : PartitionMeta)
    (endpoint : String) (target : TabletInfo)
    (hoff : endpoint ≠ OFFLINE_LEADER_ENDPOINT)
    (htarget : mapFind endpoint tablets = some target)
    (hhealthy : target.state_ = TabletState.kTabletHealthy)
    (he : m.endpoint = endpoint) (ha : m.is_alive = false) :
    ∃ leader1, recoverScan tablets 1 [m] endpoint none none
      = RecoverScan.found endpoint leader1 (some target) false := by
  obtain ⟨leader1, hscan, _⟩ := scanLeaderTablet_kept tablets m endpoint none hoff
    (fun h => by rw [h.2] at ha; cases ha)
  refine ⟨leader1, ?_⟩
  simp only [recoverScan, hscan]
  rw [if_pos he, ha]
  simp [htarget, hhealthy]

/-- C31. Let the name server be running, let `tp` be the first partition with this
pid of the table `name`, and let the target `endpoint`, which is not
`OFFLINE_LEADER_ENDPOINT`, be a replica of `tp` that is listed as not alive and is
on a Healthy tablet; let the replicas that are leader and alive be on Healthy
tablets, and let `GetTermPair` answer `r`.  If `tp` has one replica, the task
calls `CreateUpdatePartitionStatusOP` with leader and alive true when
`r.has_table`, and `CreateReLoadTableOP` otherwise.  If `tp` has more replicas,
one of them leader and alive, and `ChangeRole` or `DeleteBinlog`, whichever is
called, succeeds, `MatchTermOffset` is not negative and `GetManifest` answers the
offset `manifest_offset`, then with ok for `MatchTermOffset = 0` and
`r.offset ≥ manifest_offset` the task calls `CreateReAddReplicaSimplifyOP` when
`r.has_table` and ok, `CreateReAddReplicaWithDropOP` when `r.has_table` and not
ok, `CreateReAddReplicaNoSendOP` when not `r.has_table` and ok, and
`CreateReAddReplicaOP` otherwise.  Every call has the `op_id` of the task as
`parent_id`, and the task ends Done. -/
theorem RecoverEndpointTable_child_op (ns : NameServerImpl) (replies : RecoverReplies)
    (name : String) (pid : Nat) (endpoint : String) (offset_delta concurrency : Nat)
    (task_info : TaskInfo) (table : TableInfo) (i : Nat) (tp : TablePartition)
    (target : TabletInfo) (r : TermPairResponse)
    (hrun : ns.running_ = true)
    (htable : mapFind name ns.table_info_ = some table)
    (hpart : firstWith (fun tp => decide (tp.pid = pid)) table.table_partition = some (i, tp))
    (hoff : endpoint ≠ OFFLINE_LEADER_ENDPOINT)
    (hlisted : ∃ m ∈ tp.partition_meta, m.endpoint = endpoint)
    (hdead : ∀ m ∈ tp.partition_meta, m.endpoint = endpoint → m.is_alive = false)
    (htarget : mapFind endpoint ns.tablets_ = some target)
    (hhealthy : target.state_ = TabletState.kTabletHealthy)
    (hleader : ∀ m ∈ tp.partition_meta, aliveLeader m →
      ∃ tablet, mapFind m.endpoint ns.tablets_ = some tablet ∧
        tablet.state_ = TabletState.kTabletHealthy)
    (hterm : replies.GetTermPair = some r) :
    (tp.partition_meta.length = 1 →
      RecoverEndpointTable ns replies name pid endpoint offset_delta concurrency task_info =
        (some (if r.has_table = true then
            OPRequest.updatePartitionStatusOP name pid endpoint true true task_info.op_id
              concurrency
          else OPRequest.reLoadTableOP name pid endpoint task_info.op_id concurrency),
          { task_info with status := TaskStatus.kDone })) ∧
    (tp.partition_meta.length ≠ 1 →
      (∃ m ∈ tp.partition_meta, aliveLeader m) →
      (r.has_table = true → r.is_leader = true → replies.ChangeRole = true) →
      (r.has_table = false → replies.DeleteBinlog = true) →
      0 ≤ MatchTermOffset ns name pid r.has_table r.term r.offset →
      ∀ manifest_offset, replies.GetManifest = some manifest_offset →
      RecoverEndpointTable ns replies name pid endpoint offset_delta concurrency task_info =
        (some (if r.has_table = true then
            if MatchTermOffset ns name pid r.has_table r.term r.offset = 0
                ∧ r.offset ≥ manifest_offset then
              OPRequest.reAddReplicaSimplifyOP name pid endpoint offset_delta task_info.op_id
                concurrency
            else
              OPRequest.reAddReplicaWithDropOP name pid endpoint offset_delta task_info.op_id
                concurrency
          else
            if MatchTermOffset ns name pid r.has_table r.term r.offset = 0
                ∧ r.offset ≥ manifest_offset then
              OPRequest.reAddReplicaNoSendOP name pid endpoint offset_delta task_info.op_id
                concurrency
            else
              OPRequest.reAddReplicaOP name pid endpoint offset_delta task_info.op_id
                concurrency),
          { task_info with status := TaskStatus.kDone })) := by
  constructor
  · intro hlen
    obtain ⟨m, hm⟩ : ∃ m, tp.partition_meta = [m] := List.length_eq_one.mp hlen
    have hme : m.endpoint = endpoint := by
      obtain ⟨x, hx, hxe⟩ := hlisted
      rw [hm, List.mem_singleton] at hx
      exact hx ▸ hxe
    have hma : m.is_alive = false := hdead m (by rw [hm]; exact List.mem_cons_self _ _) hme
    obtain ⟨leader1, hscan⟩ := recoverScan_single ns.tablets_ m endpoint target hoff htarget
      hhealthy hme hma
    unfold RecoverEndpointTable
    simp only [hrun, htable, hpart, hlen, Bool.not_true, Bool.false_eq_true, if_false]
    rw [hm, hscan]
    simp only [recoverFound, hterm]
    simp
  · intro hlen hal hrole hbinlog hmatch manifest_offset hmanifest
    obtain ⟨leader1, tablet1, hscan, hl1, ht1⟩ := recoverScan_followers ns.tablets_
      tp.partition_meta.length tp.partition_meta endpoint none none target hlen hoff htarget
      hhealthy hdead hleader
    have hls : leader1.isSome = true := hl1 (Or.inr hal)
    have hts : tablet1.isSome = true := ht1 (Or.inr hlisted)
    have hg : ¬ ((True ∧ leader1.isNone = true) ∨ tablet1.isNone = true) := by
      cases leader1 with
      | none => cases hls
      | some a =>
        cases tablet1 with
        | none => cases hts
        | some b => simp
    have h1 : ¬ (r.has_table = true ∧ r.is_leader = true ∧ replies.ChangeRole = false) := by
      rintro ⟨a, b, c⟩
      rw [hrole a b] at c
      cases c
    have h2 : ¬ (r.has_table = false ∧ replies.DeleteBinlog = false) := by
      rintro ⟨a, c⟩
      rw [hbinlog a] at c
      cases c
    have h3 : ¬ (MatchTermOffset ns name pid r.has_table r.term r.offset < 0) := by omega
    unfold RecoverEndpointTable
    simp only [hrun, htable, hpart, Bool.not_true, Bool.false_eq_true, if_false]
    rw [hscan]
    simp only [recoverFound]
    rw [if_neg hg]
    simp only [hterm, Bool.true_eq_false, if_false, recoverFollower]
    rw [if_neg h1, if_neg h2, if_neg h3]
    simp only [hmanifest, reAddReplicaRequest]
    cases r.has_table with
    | true =>
      by_cases hok : MatchTermOffset ns name pid true r.term r.offset = 0
          ∧ r.offset ≥ manifest_offset
      · simp [hok]
      · simp only [hok, decide_False, if_true, Bool.false_eq_true, if_false]
    | false =>
      by_cases hok : MatchTermOffset ns name pid false r.term r.offset = 0
          ∧ r.offset ≥ manifest_offset
      · simp [hok]
      · simp only [hok, decide_False, Bool.false_eq_true, if_false]

theorem RecoverEndpointTable_child_op_witness :
    RecoverEndpointTable deadFollowerNs okReplies "t" 0 "b:1" 5 2 recoverTask =
      (some (OPRequest.reAddReplicaSimplifyOP "t" 0 "b:1" 5 7 2),
        { recoverTask with status := TaskStatus.kDone }) ∧
    RecoverEndpointTable singleReplicaNs okReplies "t" 0 "b:1" 5 2 recoverTask =
      (some (OPRequest.updatePartitionStatusOP "t" 0 "b:1" true true 7 2),
        { recoverTask with status := TaskStatus.kDone }) :=
  ⟨(RecoverEndpointTable_child_op deadFollowerNs okReplies "t" 0 "b:1" 5 2 recoverTask
      deadFollowerTable 0
      { pid := 0,
        partition_meta :=
          [{ endpoint := "a:1", is_leader := true, is_alive := true },
           { endpoint := "b:1", is_leader := false, is_alive := false }],
        term_offset := [{ term := 1, offset := 0 }] }
      { state_ := TabletState.kTabletHealthy, ctime_ := 0 }
      { term := 1, offset := 20, has_table := true, is_leader := false }
      (by decide) (by decide) (by decide) (by decide) (by decide) (by decide) (by decide)
      (by decide) (by decide) (by decide)).2
      (by decide) (by decide) (by decide) (by decide) (by decide) 10 (by decide),
    (RecoverEndpointTable_child_op singleReplicaNs okReplies "t" 0 "b:1" 5 2 recoverTask
      singleReplicaTable 0
      { pid := 0,
        partition_meta := [{ endpoint := "b:1", is_leader := true, is_alive := false }],
        term_offset := [{ term := 1, offset := 0 }] }
      { state_ := TabletState.kTabletHealthy, ctime_ := 0 }
      { term := 1, offset := 20, has_table := true, is_leader := false }
      (by decide) (by decide) (by decide) (by decide) (by decide) (by decide) (by decide)
      (by decide) (by decide) (by decide)).1 (by decide)⟩

/-! ## CheckBinlogSyncProgress -/

/-- C32, a counterexample: in partition 0 of "t" the leader on "a:1" is at offset
100 and has not `tablet_has_partition`; the follower "b:1", the target, is at
offset 10 and has `tablet_has_partition`.  With `offset_delta = 5` the follower is
90 behind, and one run of the task sets it to Done, without a new `DelayTask`. -/
theorem CheckBinlogSyncProgress_done_by_other_replica :
    (laggingTable.table_partition.map (fun tp =>
      tp.partition_meta.map (fun m => (m.endpoint, m.offset, m.tablet_has_partition))))
      = [[("a:1", some 100, false), ("b:1", some 10, true)]] ∧
    CheckBinlogSyncProgress { engineNs with table_info_ := [("t", laggingTable)] } "t" 0 "b:1" 5
      doingTask = ({ doingTask with status := TaskStatus.kDone }, false) := by
  decide

theorem scanOffsets_none (follower : String) (l : List PartitionMeta) (acc : Nat × Nat)
    (h : ∃ m ∈ l, m.tablet_has_partition = false) : scanOffsets follower l acc = none := by
  induction l generalizing acc with
  | nil => obtain ⟨m, hm, _⟩ := h; cases hm
  | cons a rest ih =>
    simp only [scanOffsets]
    by_cases ha : a.tablet_has_partition = false
    · simp [ha]
    · have ha1 : a.tablet_has_partition = true := by simpa using ha
      have hr : ∃ m ∈ rest, m.tablet_has_partition = false := by
        obtain ⟨m, hm, hp⟩ := h
        rcases List.mem_cons.mp hm with rfl | hm
        · exact absurd hp ha
        · exact ⟨m, hm, hp⟩
      simp only [ha1, Bool.not_true, Bool.false_eq_true, if_false]
      cases a.offset with
      | none => exact ih _ hr
      | some o =>
        simp only
        split
        · exact ih _ hr
        · split
          · exact ih _ hr
          · exact ih _ hr

/-- The scan of `CheckBinlogSyncProgress` over replicas that all have
`tablet_has_partition`, of which `L` is the only one that is leader and alive and
`F` the only one at the follower: the offsets are theirs. -/
theorem scanOffsets_leader_follower (follower : String) (L F : PartitionMeta) (a b : Nat)
    (hLl : aliveLeader L) (hLo : L.offset = some a) (hFe : F.endpoint = follower)
    (hFn : ¬ aliveLeader F) (hFo : F.offset = some b)
    (l : List PartitionMeta) (acc : Nat × Nat)
    (hall : ∀ m ∈ l, m.tablet_has_partition = true)
    (hLu : ∀ m ∈ l, aliveLeader m → m = L)
    (hFu : ∀ m ∈ l, m.endpoint = follower → m = F) :
    scanOffsets follower l acc =
      some (if L ∈ l then a else acc.1, if F ∈ l then b else acc.2) := by
  have hLF : L ≠ F := fun h => hFn (h ▸ hLl)
  induction l generalizing acc with
  | nil => simp [scanOffsets]
  | cons m rest ih =>
    have hm := hall m (List.mem_cons_self _ _)
    have ih1 := fun acc1 => ih acc1 (fun x hx => hall x (List.mem_cons_of_mem _ hx))
      (fun x hx => hLu x (List.mem_cons_of_mem _ hx))
      (fun x hx => hFu x (List.mem_cons_of_mem _ hx))
    simp only [scanOffsets, hm, Bool.not_true, Bool.false_eq_true, if_false]
    cases ho : m.offset with
    | none =>
      have h1 : L ≠ m := fun h => by rw [← h, hLo] at ho; cases ho
      have h2 : F ≠ m := fun h => by rw [← h, hFo] at ho; cases ho
      simp only [List.mem_cons, h1, h2, false_or]
      exact ih1 acc
    | some o =>
      simp only
      by_cases hl : (m.is_leader && m.is_alive) = true
      · have hmL : m = L := hLu m (List.mem_cons_self _ _) (by simpa [aliveLeader] using hl)
        have hoa : o = a := by rw [hmL, hLo] at ho; cases ho; rfl
        have h2 : F ≠ m := fun h => hLF (hmL ▸ h.symm ▸ rfl)
        rw [if_pos hl, ih1]
        simp [hmL, hoa, hLF.symm]
      · have h1 : L ≠ m := fun h => hl (by rw [← h]; simp [hLl.1, hLl.2])
        rw [if_neg hl]
        by_cases he : m.endpoint = follower
        · have hmF : m = F := hFu m (List.mem_cons_self _ _) he
          have hob : o = b := by rw [hmF, hFo] at ho; cases ho; rfl
          rw [if_pos he, ih1]
          simp [hmF, hob, hLF]
        · have h2 : F ≠ m := fun h => he (by rw [← h]; exact hFe)
          rw [if_neg he, ih1]
          simp [h1, h2]

/-- C32, as the code has it.  For a partition in which `L`, at offset `a`, is the
only replica that is leader and alive, and `F`, at offset `b`, the only replica at
the follower: a run on a task that is not Doing changes nothing; a run on a task
that is Doing sets it to Done when some replica of the partition (not only `F`)
has not `tablet_has_partition`; when all have it, the run sets the task to Done
if `a ≤ b + offset_delta` (in `uint64_t`), and otherwise leaves it Doing and hands
itself to `DelayTask` again, if the name server is running. -/
theorem CheckBinlogSyncProgress_run (ns : NameServerImpl) (name : String) (pid : Nat)
    (follower : String) (offset_delta : Nat) (task_info : TaskInfo) (table : TableInfo)
    (idx : Nat) (tp : TablePartition) (L F : PartitionMeta) (a b : Nat)
    (htable : mapFind name ns.table_info_ = some table)
    (hpart : firstWith (fun tp => decide (tp.pid = pid)) table.table_partition = some (idx, tp))
    (hL : L ∈ tp.partition_meta) (hLl : aliveLeader L) (hLo : L.offset = some a)
    (hLu : ∀ m ∈ tp.partition_meta, aliveLeader m → m = L)
    (hF : F ∈ tp.partition_meta) (hFe : F.endpoint = follower) (hFn : ¬ aliveLeader F)
    (hFo : F.offset = some b)
    (hFu : ∀ m ∈ tp.partition_meta, m.endpoint = follower → m = F) :
    (task_info.status ≠ TaskStatus.kDoing →
      CheckBinlogSyncProgress ns name pid follower offset_delta task_info = (task_info, false)) ∧
    (task_info.status = TaskStatus.kDoing →
      ((∃ m ∈ tp.partition_meta, m.tablet_has_partition = false) →
        CheckBinlogSyncProgress ns name pid follower offset_delta task_info =
          ({ task_info with status := TaskStatus.kDone }, false)) ∧
      ((∀ m ∈ tp.partition_meta, m.tablet_has_partition = true) →
        (a ≤ u64 (b + offset_delta) →
          CheckBinlogSyncProgress ns name pid follower offset_delta task_info =
            ({ task_info with status := TaskStatus.kDone }, false)) ∧
        (¬ a ≤ u64 (b + offset_delta) →
          CheckBinlogSyncProgress ns name pid follower offset_delta task_info =
            (task_info, ns.running_)))) := by
  constructor
  · intro h
    unfold CheckBinlogSyncProgress
    rw [if_pos h]
  · intro h
    have hd : ¬ task_info.status ≠ TaskStatus.kDoing := fun hn => hn h
    refine ⟨?_, ?_⟩
    · intro hex
      unfold CheckBinlogSyncProgress
      rw [if_neg hd]
      simp only [htable, hpart, scanOffsets_none follower _ _ hex]
    · intro hall
      have hscan := scanOffsets_leader_follower follower L F a b hLl hLo hFe hFn hFo
        tp.partition_meta (0, 0) hall hLu hFu
      rw [if_pos hL, if_pos hF] at hscan
      refine ⟨?_, ?_⟩
      · intro hle
        unfold CheckBinlogSyncProgress
        rw [if_neg hd]
        simp only [htable, hpart, hscan]
        rw [if_pos hle]
      · intro hle
        unfold CheckBinlogSyncProgress
        rw [if_neg hd]
        simp only [htable, hpart, hscan]
        rw [if_neg hle]

theorem CheckBinlogSyncProgress_run_witness :
    CheckBinlogSyncProgress { engineNs with table_info_ := [("t", laggingTable)] } "t" 0 "b:1" 5
      doingTask = ({ doingTask with status := TaskStatus.kDone }, false) :=
  ((CheckBinlogSyncProgress_run { engineNs with table_info_ := [("t", laggingTable)] } "t" 0
    "b:1" 5 doingTask laggingTable 0
    { pid := 0,
      partition_meta :=
        [{ endpoint := "a:1", is_leader := true, is_alive := true, offset := some 100,
           tablet_has_partition := false },
         { endpoint := "b:1", is_leader := false, is_alive := true, offset := some 10 }],
      term_offset := [{ term := 1, offset := 0 }] }
    { endpoint := "a:1", is_leader := true, is_alive := true, offset := some 100,
      tablet_has_partition := false }
    { endpoint := "b:1", is_leader := false, is_alive := true, offset := some 10 } 100 10
    (by decide) (by decide) (by decide) (by decide) rfl (by decide) (by decide) rfl (by decide)
    rfl (by decide)).2 (by decide)).1
    ⟨{ endpoint := "a:1", is_leader := true, is_alive := true, offset := some 100,
       tablet_has_partition := false }, by decide, rfl⟩

/-! ## MatchTermOffset: the return codes -/

theorem matchTermOffset_codes (term_map : List (Nat × Nat)) (term offset : Nat) :
    matchTermOffset term_map term offset = 0 ∨ matchTermOffset term_map term offset = 1 := by
  unfold matchTermOffset
  cases term_map.dropWhile (fun e => decide (e.1 ≠ term)) with
  | nil => exact Or.inr rfl
  | cons e rest =>
    obtain ⟨t, start⟩ := e
    simp only
    split
    · split
      · exact Or.inl rfl
      · exact Or.inr rfl
    · cases rest with
      | nil => exact Or.inl rfl
      | cons e2 rest2 =>
        simp only
        split
        · exact Or.inr rfl
        · exact Or.inl rfl

/-- C33, a counterexample: the catalog has no table "missing", and `MatchTermOffset`
for it with `has_table = false` and `offset = 0` returns 1, not a negative
code. -/
theorem MatchTermOffset_absent_table_one :
    mapFind "missing" engineNs.table_info_ = none ∧
    MatchTermOffset engineNs "missing" 0 false 5 0 = 1 := by
  decide

/-- C33, as the code has it: `MatchTermOffset` returns only -1, 0 or 1, and it
returns a negative code if and only if the table is absent from the catalog and
the arguments are not `has_table = false` with `offset = 0`; for these it returns
1 before the catalog is read. -/
theorem MatchTermOffset_codes (ns : NameServerImpl) (name : String) (pid : Nat)
    (has_table : Bool) (term offset : Nat) :
    (MatchTermOffset ns name pid has_table term offset = -1 ∨
      MatchTermOffset ns name pid has_table term offset = 0 ∨
      MatchTermOffset ns name pid has_table term offset = 1) ∧
    (MatchTermOffset ns name pid has_table term offset < 0 ↔
      mapFind name ns.table_info_ = none ∧ ¬ (has_table = false ∧ offset = 0)) ∧
    (has_table = false → offset = 0 → MatchTermOffset ns name pid has_table term offset = 1) := by
  unfold MatchTermOffset
  by_cases h0 : (!has_table) = true ∧ offset = 0
  · rw [if_pos h0]
    have h1 : has_table = false ∧ offset = 0 := by
      cases has_table <;> simp_all
    exact ⟨Or.inr (Or.inr rfl), ⟨fun h => absurd h (by decide), fun h => absurd h1 h.2⟩,
      fun _ _ => rfl⟩
  · rw [if_neg h0]
    have h1 : ¬ (has_table = false ∧ offset = 0) := by
      cases has_table <;> simp_all
    cases ht : mapFind name ns.table_info_ with
    | none =>
      exact ⟨Or.inl rfl, ⟨fun _ => ⟨rfl, h1⟩, fun _ => (by show (-1 : Int) < 0; decide)⟩,
        fun ha hb => absurd ⟨ha, hb⟩ h1⟩
    | some table =>
      simp only
      have hc : ∀ m, (matchTermOffset m term offset = -1 ∨ matchTermOffset m term offset = 0 ∨
          matchTermOffset m term offset = 1) ∧
          (matchTermOffset m term offset < 0 ↔
            (some table : Option TableInfo) = none ∧ ¬ (has_table = false ∧ offset = 0)) := by
        intro m
        rcases matchTermOffset_codes m term offset with h | h
        · rw [h]
          exact ⟨Or.inr (Or.inl rfl), ⟨fun h => absurd h (by decide), fun h => by simp at h⟩⟩
        · rw [h]
          exact ⟨Or.inr (Or.inr rfl), ⟨fun h => absurd h (by decide), fun h => by simp at h⟩⟩
      cases firstWith (fun tp => decide (tp.pid = pid)) table.table_partition with
      | none => exact ⟨(hc _).1, (hc _).2, fun ha hb => absurd ⟨ha, hb⟩ h1⟩
      | some r => exact ⟨(hc _).1, (hc _).2, fun ha hb => absurd ⟨ha, hb⟩ h1⟩

theorem MatchTermOffset_codes_witness :
    MatchTermOffset engineNs "missing" 0 false 5 0 = 1 :=
  (MatchTermOffset_codes engineNs "missing" 0 false 5 0).2.2 rfl rfl

/-! ## DeleteTask when a tablet does not answer -/

theorem deleteOPTask_failed_iff (tablets : List (String × TabletInfo))
    (replies : List (Option Nat)) :
    (deleteOPTask tablets replies).1 = true ↔
      ∃ i : Nat,
        i < (tablets.filter (fun e => decide (e.2.state_ = TabletState.kTabletHealthy))).length ∧
        replies[i]? = some none := by
  induction tablets generalizing replies with
  | nil => simp [deleteOPTask]
  | cons e rest ih =>
    obtain ⟨name, tablet⟩ := e
    simp only [deleteOPTask]
    by_cases hs : tablet.state_ = TabletState.kTabletHealthy
    · simp only [hs, ne_eq, not_true_eq_false, if_false, decide_True, List.filter_cons_of_pos,
        List.length_cons, Bool.or_eq_true]
      rw [ih]
      cases replies with
      | nil => simp [nextReply]
      | cons r rs =>
        simp only [nextReply]
        constructor
        · rintro (h | ⟨i, hi, hr⟩)
          · refine ⟨0, by omega, ?_⟩
            cases r with
            | none => simp
            | some v => simp at h
          · exact ⟨i + 1, by omega, by simpa using hr⟩
        · rintro ⟨i, hi, hr⟩
          cases i with
          | zero =>
            simp at hr
            left
            rw [hr]
            rfl
          | succ j =>
            right
            exact ⟨j, by omega, by simpa using hr⟩
    · have hf : decide (tablet.state_ = TabletState.kTabletHealthy) = false := by simp [hs]
      simp only [ne_eq, hs, not_false_eq_true, if_true]
      rw [ih, List.filter_cons_of_neg (by simp [hs])]

/-- C34. When the call `DeleteOPTask` to a Healthy tablet fails in a pass of
`DeleteTask` (the reply to the `i`-th Healthy tablet is a failure), the pass
leaves the queues, with every OP in them (status, end time and tasks),
`done_op_list_`, the store and the thread pool as they were: the finished OPs are
still at the fronts of their queues. -/
theorem DeleteTask_retains_on_failure (ns : NameServerImpl) (now : Nat) (i : Nat)
    (hhealthy : i < (ns.tablets_.filter
      (fun e => decide (e.2.state_ = TabletState.kTabletHealthy))).length)
    (hfailed : ns.tablet_replies_[i]? = some none) :
    (DeleteTask ns now).task_vec_ = ns.task_vec_ ∧
    (DeleteTask ns now).done_op_list_ = ns.done_op_list_ ∧
    (DeleteTask ns now).zk_client_ = ns.zk_client_ ∧
    (DeleteTask ns now).table_info_ = ns.table_info_ ∧
    (DeleteTask ns now).task_thread_pool_ = ns.task_thread_pool_ ∧
    doneTaskVec (DeleteTask ns now).task_vec_ = doneTaskVec ns.task_vec_ := by
  have hf : (deleteOPTask ns.tablets_ ns.tablet_replies_).1 = true :=
    (deleteOPTask_failed_iff _ _).mpr ⟨i, hhealthy, hfailed⟩
  unfold DeleteTask
  by_cases he : (doneTaskVec ns.task_vec_).isEmpty = true
  · rw [if_pos he]
    exact ⟨rfl, rfl, rfl, rfl, rfl, rfl⟩
  · rw [if_neg he, if_pos hf]
    exact ⟨rfl, rfl, rfl, rfl, rfl, rfl⟩

theorem DeleteTask_retains_on_failure_witness :
    (DeleteTask { finishedNs with tablet_replies_ := [some 0, none] } 9).task_vec_
      = finishedNs.task_vec_ ∧
    doneTaskVec finishedNs.task_vec_ = [7] :=
  ⟨(DeleteTask_retains_on_failure { finishedNs with tablet_replies_ := [some 0, none] } 9 1
      (by decide) (by decide)).1, by decide⟩

/-! ## UpdateEndpointTableAlive -/

/-- C35, a counterexample: in partition 0 of "t" the replica on "b:1" is the only
one alive.  On the running name server `UpdateEndpointTableAlive` for "b:1" with
`is_alive = false` returns 0, and the replica on "b:1" is still alive. -/
theorem UpdateEndpointTableAlive_keeps_last_alive :
    deadLeaderNs.running_ = true ∧
    (UpdateEndpointTableAlive deadLeaderNs "b:1" false).1 = 0 ∧
    (mapFind "t" (UpdateEndpointTableAlive deadLeaderNs "b:1" false).2.table_info_).map
        (fun t => t.table_partition.map (fun tp =>
          tp.partition_meta.map (fun m => (m.endpoint, m.is_alive))))
      = some [[("a:1", false), ("b:1", true)]] := by
  decide

theorem updateTablesAlive_ok (endpoint : String) (is_alive : Bool)
    (l : List (String × TableInfo)) (zk : ZkClient)
    (h : (updateTablesAlive endpoint is_alive l zk).1 = true) :
    (updateTablesAlive endpoint is_alive l zk).2.1 =
      l.map (fun kv => (kv.1, setTableAlive endpoint is_alive kv.2)) := by
  induction l generalizing zk with
  | nil => rfl
  | cons e rest ih =>
    obtain ⟨name, table⟩ := e
    simp only [updateTablesAlive] at h ⊢
    split at h
    · split at h
      · simp at h
      · rename_i h1 h2
        rw [if_pos h1, if_neg h2]
        simp only [List.map_cons]
        rw [ih _ h]
    · rename_i h1
      rw [if_neg h1]
      simp only [List.map_cons]
      rw [ih _ h]

/-- C35, as the code has it.  When `UpdateEndpointTableAlive(endpoint, false)`
returns 0 on the running name server, the catalog holds every table with every
partition changed as follows: a partition that had exactly one alive replica is
as it was, also when that replica is at `endpoint`; in every other partition each
replica at `endpoint` has `is_alive = false` and the others are as they were. -/
theorem UpdateEndpointTableAlive_marks (ns : NameServerImpl) (endpoint : String)
    (hrun : ns.running_ = true)
    (hok : (UpdateEndpointTableAlive ns endpoint false).1 = 0) :
    (UpdateEndpointTableAlive ns endpoint false).2.table_info_ =
      ns.table_info_.map (fun kv =>
        (kv.1,
          { kv.2 with
            table_partition :=
              kv.2.table_partition.map (fun tp => (setEndpointAlive endpoint false tp).1) })) ∧
    ∀ tp : TablePartition,
      (tp.partition_meta.countP (fun m => m.is_alive) = 1 →
        (setEndpointAlive endpoint false tp).1 = tp) ∧
      (tp.partition_meta.countP (fun m => m.is_alive) ≠ 1 →
        (setEndpointAlive endpoint false tp).1.partition_meta =
          tp.partition_meta.map (fun m =>
            if m.endpoint = endpoint then { m with is_alive := false } else m) ∧
        ∀ m ∈ (setEndpointAlive endpoint false tp).1.partition_meta,
          m.endpoint = endpoint → m.is_alive = false) := by
  constructor
  · unfold UpdateEndpointTableAlive at hok ⊢
    simp only [hrun, Bool.not_true, Bool.false_eq_true, if_false] at hok ⊢
    split at hok
    · exact absurd hok (by show ¬ ((-1 : Int) = 0); decide)
    · rename_i h1
      rw [if_neg h1, NotifyTableChanged_table_info_]
      exact updateTablesAlive_ok endpoint false _ _ (by simpa using h1)
  · intro tp
    constructor
    · intro h1
      unfold setEndpointAlive
      rw [if_pos ⟨h1, rfl⟩]
    · intro h1
      have : (setEndpointAlive endpoint false tp).1.partition_meta =
          tp.partition_meta.map (fun m =>
            if m.endpoint = endpoint then { m with is_alive := false } else m) := by
        unfold setEndpointAlive
        rw [if_neg (fun h => h1 h.1)]
      refine ⟨this, ?_⟩
      intro m hm he
      rw [this] at hm
      obtain ⟨m0, _, rfl⟩ := List.mem_map.mp hm
      by_cases h0 : m0.endpoint = endpoint
      · simp [h0]
      · simp only [h0, if_false] at he

theorem UpdateEndpointTableAlive_marks_witness :
    (UpdateEndpointTableAlive engineNs "b:1" false).2.table_info_ =
      engineNs.table_info_.map (fun kv =>
        (kv.1,
          { kv.2 with
            table_partition :=
              kv.2.table_partition.map (fun tp => (setEndpointAlive "b:1" false tp).1) })) :=
  (UpdateEndpointTableAlive_marks engineNs "b:1" (by decide) (by decide)).1

/-! ## The catalog tasks run twice -/

/-- C36, evaluated at the failing input: each task is run, ends Done, and is run
again at once with the same arguments, all store calls succeeding.  The second
`AddTableInfo` ends Failed (the replica is there); the second `UpdateTableInfo`
ends Failed (the source is gone); the second `UpdateLeaderInfo` ends Failed and
has marked the new leader "b:1" as not alive, so that the catalog differs from
the one after the first run.  The second `UpdatePartitionStatus` ends Done with
the catalog of the first. -/
theorem catalog_tasks_second_run :
    ((AddTableInfo engineNs "t" "c:1" 0 migrateTask).2.status = TaskStatus.kDone ∧
      (AddTableInfo (AddTableInfo engineNs "t" "c:1" 0 migrateTask).1 "t" "c:1" 0
        migrateTask).2.status = TaskStatus.kFailed) ∧
    ((UpdateTableInfo engineNs "b:1" "t" 0 "c:1" migrateTask).2.status = TaskStatus.kDone ∧
      (UpdateTableInfo (UpdateTableInfo engineNs "b:1" "t" 0 "c:1" migrateTask).1 "b:1" "t" 0
        "c:1" migrateTask).2.status = TaskStatus.kFailed) ∧
    ((UpdateLeaderInfo scenarioNs scenarioTask).2.status = TaskStatus.kDone ∧
      (UpdateLeaderInfo (UpdateLeaderInfo scenarioNs scenarioTask).1 scenarioTask).2.status
        = TaskStatus.kFailed ∧
      (mapFind "t" (UpdateLeaderInfo scenarioNs scenarioTask).1.table_info_).map
          (fun t => t.table_partition.map (fun tp =>
            tp.partition_meta.map (fun m => (m.endpoint, m.is_leader, m.is_alive))))
        = some [[("a:1", true, false), ("b:1", true, true)]] ∧
      (mapFind "t"
          (UpdateLeaderInfo (UpdateLeaderInfo scenarioNs scenarioTask).1
            scenarioTask).1.table_info_).map
          (fun t => t.table_partition.map (fun tp =>
            tp.partition_meta.map (fun m => (m.endpoint, m.is_leader, m.is_alive))))
        = some [[("a:1", true, false), ("b:1", true, false)]]) ∧
    ((UpdatePartitionStatus engineNs "t" "b:1" 0 false false migrateTask).2.status
        = TaskStatus.kDone ∧
      (UpdatePartitionStatus (UpdatePartitionStatus engineNs "t" "b:1" 0 false false
        migrateTask).1 "t" "b:1" 0 false false migrateTask).2.status = TaskStatus.kDone ∧
      (UpdatePartitionStatus (UpdatePartitionStatus engineNs "t" "b:1" 0 false false
        migrateTask).1 "t" "b:1" 0 false false migrateTask).1.table_info_ =
        (UpdatePartitionStatus engineNs "t" "b:1" 0 false false migrateTask).1.table_info_) := by
  decide

/-! ## The tasks of AddReplicaOP and ReAddReplicaOP -/

theorem pushTask_some (task_list : Option (List Task)) (task : Option Task) (l : List Task)
    (h : pushTask task_list task = some l) :
    ∃ l0 t, task_list = some l0 ∧ task = some t ∧ l = l0 ++ [t] := by
  cases task_list with
  | none => simp [pushTask] at h
  | some l0 =>
    cases task with
    | none => simp [pushTask] at h
    | some t =>
      simp [pushTask] at h
      exact ⟨l0, t, rfl, rfl, h.symm⟩

theorem createTabletTask_some (ns : NameServerImpl) (endpoint : String) (op_index : Nat)
    (op_type : OPType) (task_type : TaskType) (t : Task)
    (h : createTabletTask ns endpoint op_index op_type task_type = some t) :
    t.task_info_.task_type = task_type ∧ t.task_info_.status = TaskStatus.kInited := by
  unfold createTabletTask at h
  cases ht : mapFind endpoint ns.tablets_ with
  | none => simp [ht] at h
  | some tablet =>
    simp only [ht] at h
    split at h
    · simp at h
    · simp at h
      rw [← h]
      exact ⟨rfl, rfl⟩

theorem addReplicaTasks_some (ns : NameServerImpl) (op_index : Nat)
    (request : AddReplicaNSRequest) (tid : Nat) (leader_endpoint : String) (delta : Nat)
    (l : List Task) (h : addReplicaTasks ns op_index request tid leader_endpoint delta = some l) :
    l.map (fun t => t.task_info_.task_type) =
      [TaskType.kPauseSnapshot, TaskType.kSendSnapshot, TaskType.kLoadTable, TaskType.kAddReplica,
        TaskType.kRecoverSnapshot, TaskType.kAddTableInfo, TaskType.kCheckBinlogSyncProgress,
        TaskType.kUpdatePartitionStatus] ∧
    ∀ t ∈ l, t.task_info_.status = TaskStatus.kInited := by
  unfold addReplicaTasks at h
  obtain ⟨l7, t8, h7, e8, rfl⟩ := pushTask_some _ _ _ h
  obtain ⟨l6, t7, h6, e7, rfl⟩ := pushTask_some _ _ _ h7
  obtain ⟨l5, t6, h5, e6, rfl⟩ := pushTask_some _ _ _ h6
  obtain ⟨l4, t5, h4, e5, rfl⟩ := pushTask_some _ _ _ h5
  obtain ⟨l3, t4, h3, e4, rfl⟩ := pushTask_some _ _ _ h4
  obtain ⟨l2, t3, h2, e3, rfl⟩ := pushTask_some _ _ _ h3
  obtain ⟨l1, t2, h1, e2, rfl⟩ := pushTask_some _ _ _ h2
  obtain ⟨l0, t1, h0, e1, rfl⟩ := pushTask_some _ _ _ h1
  simp only [Option.some.injEq] at h0
  subst h0
  have p1 := createTabletTask_some _ _ _ _ _ _ e1
  have p2 := createTabletTask_some _ _ _ _ _ _ e2
  have p3 := createTabletTask_some _ _ _ _ _ _ e3
  have p4 := createTabletTask_some _ _ _ _ _ _ e4
  have p5 := createTabletTask_some _ _ _ _ _ _ e5
  simp only [CreateAddTableInfoTask, CreateCheckBinlogSyncProgressTask,
    CreateUpdatePartitionStatusTask, Option.some.injEq] at e6 e7 e8
  subst e6 e7 e8
  constructor
  · simp [p1.1, p2.1, p3.1, p4.1, p5.1]
  · intro t ht
    simp at ht
    rcases ht with rfl | rfl | rfl | rfl | rfl | rfl | rfl | rfl
    · exact p1.2
    · exact p2.2
    · exact p3.2
    · exact p4.2
    · exact p5.2
    · rfl
    · rfl
    · rfl

theorem reAddReplicaTasks_some (ns : NameServerImpl) (op_index : Nat) (name : String)
    (pid : Nat) (d : RecoverTableData) (tid : Nat) (leader_endpoint : String)
    (l : List Task) (h : reAddReplicaTasks ns op_index name pid d tid leader_endpoint = some l) :
    l.map (fun t => t.task_info_.task_type) =
      [TaskType.kPauseSnapshot, TaskType.kSendSnapshot, TaskType.kLoadTable, TaskType.kAddReplica,
        TaskType.kRecoverSnapshot, TaskType.kCheckBinlogSyncProgress,
        TaskType.kUpdatePartitionStatus] ∧
    ∀ t ∈ l, t.task_info_.status = TaskStatus.kInited := by
  unfold reAddReplicaTasks at h
  obtain ⟨l6, t7, h6, e7, rfl⟩ := pushTask_some _ _ _ h
  obtain ⟨l5, t6, h5, e6, rfl⟩ := pushTask_some _ _ _ h6
  obtain ⟨l4, t5, h4, e5, rfl⟩ := pushTask_some _ _ _ h5
  obtain ⟨l3, t4, h3, e4, rfl⟩ := pushTask_some _ _ _ h4
  obtain ⟨l2, t3, h2, e3, rfl⟩ := pushTask_some _ _ _ h3
  obtain ⟨l1, t2, h1, e2, rfl⟩ := pushTask_some _ _ _ h2
  obtain ⟨l0, t1, h0, e1, rfl⟩ := pushTask_some _ _ _ h1
  simp only [Option.some.injEq] at h0
  subst h0
  have p1 := createTabletTask_some _ _ _ _ _ _ e1
  have p2 := createTabletTask_some _ _ _ _ _ _ e2
  have p3 := createTabletTask_some _ _ _ _ _ _ e3
  have p4 := createTabletTask_some _ _ _ _ _ _ e4
  have p5 := createTabletTask_some _ _ _ _ _ _ e5
  simp only [CreateCheckBinlogSyncProgressTask, CreateUpdatePartitionStatusTask,
    Option.some.injEq] at e6 e7
  subst e6 e7
  constructor
  · simp [p1.1, p2.1, p3.1, p4.1, p5.1]
  · intro t ht
    simp at ht
    rcases ht with rfl | rfl | rfl | rfl | rfl | rfl | rfl
    · exact p1.2
    · exact p2.2
    · exact p3.2
    · exact p4.2
    · exact p5.2
    · rfl
    · rfl

theorem CreateAddReplicaOPTask_some (ns : NameServerImpl) (op_info : OPInfo) (delta : Nat)
    (l : List Task) (h : CreateAddReplicaOPTask ns op_info delta = some l) :
    ∃ request tid leader_endpoint,
      addReplicaTasks ns op_info.op_id request tid leader_endpoint delta = some l := by
  unfold CreateAddReplicaOPTask at h
  cases hp : parseAddReplicaNSRequest op_info.data with
  | none => simp [hp] at h
  | some request =>
    simp only [hp] at h
    cases ht : mapFind request.endpoint ns.tablets_ with
    | none => simp [ht] at h
    | some tablet =>
      simp only [ht] at h
      split at h
      · simp at h
      · cases hn : mapFind request.name ns.table_info_ with
        | none => simp [hn] at h
        | some table =>
          simp only [hn] at h
          cases hl : GetLeader table request.pid with
          | none => simp [hl] at h
          | some leader_endpoint =>
            simp only [hl] at h
            split at h
            · simp at h
            · exact ⟨request, table.tid, leader_endpoint, h⟩

theorem CreateReAddReplicaTask_some (ns : NameServerImpl) (op_info : OPInfo)
    (l : List Task) (h : CreateReAddReplicaTask ns op_info = some l) :
    ∃ d tid leader_endpoint,
      reAddReplicaTasks ns op_info.op_id op_info.name op_info.pid d tid leader_endpoint
        = some l := by
  unfold CreateReAddReplicaTask at h
  cases hp : parseRecoverTableData op_info.data with
  | none => simp [hp] at h
  | some d =>
    simp only [hp] at h
    cases hn : mapFind op_info.name ns.table_info_ with
    | none => simp [hn] at h
    | some table =>
      simp only [hn] at h
      cases hl : GetLeader table op_info.pid with
      | none => simp [hl] at h
      | some leader_endpoint =>
        simp only [hl] at h
        split at h
        · simp at h
        · exact ⟨d, table.tid, leader_endpoint, h⟩

/-- C37. Whenever `CreateAddReplicaOPTask` succeeds with the tasks `l` and
`CreateReAddReplicaTask` succeeds with the tasks `l1` (for any two OPs, so also
for the same table, pid and endpoint), the task types of `l1` are those of `l`
without AddTableInfo: PauseSnapshot, SendSnapshot, LoadTable, AddReplica,
RecoverSnapshot, CheckBinlogSyncProgress, UpdatePartitionStatus, where `l` has
AddTableInfo after RecoverSnapshot; and every task of `l` and `l1` is Inited. -/
theorem ReAddReplica_tasks_of_AddReplica (ns : NameServerImpl) (op_info op_info1 : OPInfo)
    (delta : Nat) (l l1 : List Task)
    (h : CreateAddReplicaOPTask ns op_info delta = some l)
    (h1 : CreateReAddReplicaTask ns op_info1 = some l1) :
    l1.map (fun t => t.task_info_.task_type) =
      (l.map (fun t => t.task_info_.task_type)).filter
        (fun task_type => decide (task_type ≠ TaskType.kAddTableInfo)) ∧
    l1.map (fun t => t.task_info_.task_type) =
      [TaskType.kPauseSnapshot, TaskType.kSendSnapshot, TaskType.kLoadTable, TaskType.kAddReplica,
        TaskType.kRecoverSnapshot, TaskType.kCheckBinlogSyncProgress,
        TaskType.kUpdatePartitionStatus] ∧
    l.map (fun t => t.task_info_.task_type) =
      [TaskType.kPauseSnapshot, TaskType.kSendSnapshot, TaskType.kLoadTable, TaskType.kAddReplica,
        TaskType.kRecoverSnapshot, TaskType.kAddTableInfo, TaskType.kCheckBinlogSyncProgress,
        TaskType.kUpdatePartitionStatus] ∧
    (∀ t ∈ l, t.task_info_.status = TaskStatus.kInited) ∧
    (∀ t ∈ l1, t.task_info_.status = TaskStatus.kInited) := by
  obtain ⟨request, tid, le, ha⟩ := CreateAddReplicaOPTask_some ns op_info delta l h
  obtain ⟨d, tid1, le1, hb⟩ := CreateReAddReplicaTask_some ns op_info1 l1 h1
  obtain ⟨a1, a2⟩ := addReplicaTasks_some _ _ _ _ _ _ _ ha
  obtain ⟨b1, b2⟩ := reAddReplicaTasks_some _ _ _ _ _ _ _ _ hb
  refine ⟨?_, b1, a1, a2, b2⟩
  rw [a1, b1]
  decide

theorem ReAddReplica_tasks_of_AddReplica_witness :
    ∃ l l1, CreateAddReplicaOPTask engineNs addReplicaOp 5 = some l ∧
      CreateReAddReplicaTask engineNs reAddReplicaOp = some l1 ∧
      l1.map (fun t => t.task_info_.task_type) =
        (l.map (fun t => t.task_info_.task_type)).filter
          (fun task_type => decide (task_type ≠ TaskType.kAddTableInfo)) :=
  ⟨_, _, rfl, rfl,
    (ReAddReplica_tasks_of_AddReplica engineNs addReplicaOp reAddReplicaOp 5 _ _ rfl rfl).1⟩

/-! ## SkipDoneTask: when it succeeds -/

/-- C38. For an OP whose status is not Inited, `SkipDoneTask` returns true exactly
when the task list is not empty and `task_index` is at most its length minus
one; so an OP with `task_index` equal to the number of its tasks is rejected, and
`RecoverOPTask` then passes over it: its step `recoverOP` leaves the queues and
`done_op_list_` as they were.  For an OP whose status is Inited, `SkipDoneTask`
returns true and the OP as it is. -/
theorem SkipDoneTask_succeeds_iff (op_data : OPData) :
    (op_data.op_info_.task_status ≠ TaskStatus.kInited →
      ((SkipDoneTask op_data).1 = true ↔
        op_data.task_list_ ≠ [] ∧ op_data.op_info_.task_index ≤ op_data.task_list_.length - 1) ∧
      (op_data.op_info_.task_index = op_data.task_list_.length →
        (SkipDoneTask op_data).1 = false ∧
        ∀ (builders : OPTaskBuilders) (ns : NameServerImpl)
          (acc : List (List OPData) × List OPData),
          createOPTask builders ns op_data.op_info_ = some op_data.task_list_ →
          recoverOP builders ns (some (ZkValue.op op_data.op_info_)) acc = acc)) ∧
    (op_data.op_info_.task_status = TaskStatus.kInited →
      SkipDoneTask op_data = (true, op_data)) := by
  constructor
  · intro hs
    have hiff : (SkipDoneTask op_data).1 = true ↔
        op_data.task_list_ ≠ [] ∧
          op_data.op_info_.task_index ≤ op_data.task_list_.length - 1 := by
      unfold SkipDoneTask
      rw [if_neg hs]
      by_cases he : op_data.task_list_.isEmpty = true
      · rw [if_pos he]
        have : op_data.task_list_ = [] := List.isEmpty_iff.mp he
        simp [this]
      · rw [if_neg he]
        have hne : op_data.task_list_ ≠ [] := fun h => he (List.isEmpty_iff.mpr h)
        by_cases hi : op_data.op_info_.task_index > op_data.task_list_.length - 1
        · rw [if_pos hi]
          simp only [Bool.false_eq_true, false_iff, not_and, not_le]
          exact fun _ => hi
        · rw [if_neg hi]
          have hle : op_data.op_info_.task_index ≤ op_data.task_list_.length - 1 := by omega
          cases op_data.task_list_.drop op_data.op_info_.task_index with
          | nil => exact ⟨fun _ => ⟨hne, hle⟩, fun _ => rfl⟩
          | cons task tasks => exact ⟨fun _ => ⟨hne, hle⟩, fun _ => rfl⟩
    refine ⟨hiff, ?_⟩
    intro hidx
    have hfalse : (SkipDoneTask op_data).1 = false := by
      cases hr : (SkipDoneTask op_data).1 with
      | false => rfl
      | true =>
        obtain ⟨hne, hle⟩ := hiff.mp hr
        have : 0 < op_data.task_list_.length := List.length_pos.mpr hne
        omega
    refine ⟨hfalse, ?_⟩
    intro builders ns acc hc
    unfold recoverOP
    simp only
    split
    · rfl
    · rw [hc]
      simp only
      have : ({ op_info_ := op_data.op_info_, task_list_ := op_data.task_list_ } : OPData)
          = op_data := rfl
      rw [this, hfalse]
      simp
  · intro hs
    unfold SkipDoneTask
    rw [if_pos hs]

theorem SkipDoneTask_succeeds_iff_witness :
    (SkipDoneTask { recoveredOp with op_info_ := { recoveredOp.op_info_ with task_index := 3 } }).1
      = false ∧
    recoverOP noBuilders recoverNs
      (some (ZkValue.op { recoveredOp.op_info_ with task_index := 3 })) ([[]], []) = ([[]], []) :=
  ⟨(((SkipDoneTask_succeeds_iff
      { recoveredOp with op_info_ := { recoveredOp.op_info_ with task_index := 3 } }).1
      (by decide)).2 (by decide)).1,
    (((SkipDoneTask_succeeds_iff
      { recoveredOp with op_info_ := { recoveredOp.op_info_ with task_index := 3 } }).1
      (by decide)).2 (by decide)).2 noBuilders recoverNs ([[]], []) (by decide)⟩

/-! ## MatchTermOffset: the terms of the partition -/

theorem orderedInsert_pairwise_lt (a : Nat × Nat) (l : List (Nat × Nat))
    (hl : l.Pairwise (fun x y => x.1 < y.1)) (hne : ∀ e ∈ l, e.1 ≠ a.1) :
    (List.orderedInsert (fun x y : Nat × Nat => x.1 ≤ y.1) a l).Pairwise
      (fun x y => x.1 < y.1) := by
  induction l with
  | nil => simp
  | cons b l ih =>
    rw [List.pairwise_cons] at hl
    have hb : b.1 ≠ a.1 := hne b (List.mem_cons_self _ _)
    have hrest : ∀ e ∈ l, e.1 ≠ a.1 := fun e he => hne e (List.mem_cons_of_mem _ he)
    simp only [List.orderedInsert]
    by_cases h : a.1 ≤ b.1
    · rw [if_pos h]
      have hab : a.1 < b.1 := by omega
      rw [List.pairwise_cons, List.pairwise_cons]
      refine ⟨fun e he => ?_, hl.1, hl.2⟩
      rcases List.mem_cons.mp he with rfl | he
      · exact hab
      · exact Nat.lt_trans hab (hl.1 e he)
    · rw [if_neg h]
      rw [List.pairwise_cons]
      refine ⟨fun e he => ?_, ih hl.2 hrest⟩
      rcases (List.mem_orderedInsert _).mp he with rfl | he
      · omega
      · exact hl.1 e he

theorem termMapInsert_spec (term offset : Nat) (term_map : List (Nat × Nat))
    (hs : term_map.Pairwise (fun x y => x.1 < y.1)) (hne : ∀ e ∈ term_map, e.1 ≠ term) :
    (termMapInsert term offset term_map).Pairwise (fun x y => x.1 < y.1) ∧
    ∀ e, e ∈ termMapInsert term offset term_map ↔ e = (term, offset) ∨ e ∈ term_map := by
  have hany : term_map.any (fun e => decide (e.1 = term)) = false := by
    rw [List.any_eq_false]
    intro e he
    simpa using hne e he
  unfold termMapInsert
  rw [hany]
  simp only [Bool.false_eq_true, if_false]
  exact ⟨orderedInsert_pairwise_lt (term, offset) term_map hs hne,
    fun e => List.mem_orderedInsert _⟩

theorem termMapOf_foldl (l : List TermPair) (acc : List (Nat × Nat))
    (hacc : acc.Pairwise (fun x y => x.1 < y.1))
    (hnd : (l.map (fun p => p.term)).Nodup)
    (hdis : ∀ p ∈ l, ∀ e ∈ acc, e.1 ≠ p.term) :
    (l.foldl (fun term_map p => termMapInsert p.term p.offset term_map) acc).Pairwise
      (fun x y => x.1 < y.1) ∧
    ∀ e, e ∈ l.foldl (fun term_map p => termMapInsert p.term p.offset term_map) acc ↔
      e ∈ acc ∨ ∃ p ∈ l, e = (p.term, p.offset) := by
  induction l generalizing acc with
  | nil => exact ⟨hacc, fun e => by simp⟩
  | cons p rest ih =>
    rw [List.map_cons, List.nodup_cons] at hnd
    obtain ⟨hs, hm⟩ := termMapInsert_spec p.term p.offset acc hacc
      (hdis p (List.mem_cons_self _ _))
    have hdis1 : ∀ q ∈ rest, ∀ e ∈ termMapInsert p.term p.offset acc, e.1 ≠ q.term := by
      intro q hq e he
      rcases (hm e).mp he with rfl | he
      · intro h
        exact hnd.1 (List.mem_map.mpr ⟨q, hq, h.symm⟩)
      · exact hdis q (List.mem_cons_of_mem _ hq) e he
    obtain ⟨h1, h2⟩ := ih (termMapInsert p.term p.offset acc) hs hnd.2 hdis1
    refine ⟨h1, fun e => ?_⟩
    rw [List.foldl_cons, h2 e, hm e]
    constructor
    · rintro ((rfl | h) | ⟨q, hq, rfl⟩)
      · exact Or.inr ⟨p, List.mem_cons_self _ _, rfl⟩
      · exact Or.inl h
      · exact Or.inr ⟨q, List.mem_cons_of_mem _ hq, rfl⟩
    · rintro (h | ⟨q, hq, rfl⟩)
      · exact Or.inl (Or.inr h)
      · rcases List.mem_cons.mp hq with rfl | hq
        · exact Or.inl (Or.inl rfl)
        · exact Or.inr ⟨q, hq, rfl⟩

/-- The map `term_map` of a `term_offset` list with distinct terms: its keys
ascend, and its entries are those of the list. -/
theorem termMapOf_spec (l : List TermPair) (hnd : (l.map (fun p => p.term)).Nodup) :
    (termMapOf l).Pairwise (fun x y => x.1 < y.1) ∧
    ∀ e, e ∈ termMapOf l ↔ ∃ p ∈ l, e = (p.term, p.offset) := by
  obtain ⟨h1, h2⟩ := termMapOf_foldl l [] List.Pairwise.nil hnd (fun _ _ e he => by cases he)
  exact ⟨h1, fun e => by rw [termMapOf, h2 e]; simp⟩

theorem dropWhile_split (pre rest : List (Nat × Nat)) (term s : Nat)
    (hpre : ∀ e ∈ pre, e.1 ≠ term) :
    (pre ++ (term, s) :: rest).dropWhile (fun e => decide (e.1 ≠ term)) = (term, s) :: rest := by
  induction pre with
  | nil => simp [List.dropWhile]
  | cons a pre ih =>
    have ha : a.1 ≠ term := hpre a (List.mem_cons_self _ _)
    simp only [List.cons_append, List.dropWhile, ha, ne_eq, not_false_eq_true, decide_True]
    exact ih (fun e he => hpre e (List.mem_cons_of_mem _ he))

theorem dropWhile_absent (m : List (Nat × Nat)) (term : Nat) (h : ∀ e ∈ m, e.1 ≠ term) :
    m.dropWhile (fun e => decide (e.1 ≠ term)) = [] := by
  induction m with
  | nil => rfl
  | cons a m ih =>
    have ha : a.1 ≠ term := h a (List.mem_cons_self _ _)
    simp only [List.dropWhile, ha, ne_eq, not_false_eq_true, decide_True]
    exact ih (fun e he => h e (List.mem_cons_of_mem _ he))

theorem key_unique (m : List (Nat × Nat)) (hs : m.Pairwise (fun x y => x.1 < y.1))
    (a b : Nat × Nat) (ha : a ∈ m) (hb : b ∈ m) (h : a.1 = b.1) : a = b := by
  by_contra hab
  have hne : m.Pairwise (fun x y => x.1 ≠ y.1) := hs.imp (fun h => Nat.ne_of_lt h)
  exact List.Pairwise.forall (fun x y hxy => fun h => hxy h.symm) hne ha hb hab h

theorem getLast_max (m : List (Nat × Nat)) (hs : m.Pairwise (fun x y => x.1 < y.1))
    (q : Nat × Nat) (h : m.getLast? = some q) : q ∈ m ∧ ∀ r ∈ m, r.1 ≤ q.1 := by
  obtain ⟨ys, rfl⟩ := List.getLast?_eq_some_iff.mp h
  rw [List.pairwise_append] at hs
  refine ⟨by simp, fun r hr => ?_⟩
  rcases List.mem_append.mp hr with hr | hr
  · exact Nat.le_of_lt (hs.2.2 r hr q (by simp))
  · simp only [List.mem_singleton] at hr
    rw [hr]

/-- Lines 4130-4158 on a map whose keys ascend. -/
theorem matchTermOffset_sorted (m : List (Nat × Nat))
    (hs : m.Pairwise (fun x y => x.1 < y.1)) (term offset : Nat) :
    ((∀ e ∈ m, e.1 ≠ term) → matchTermOffset m term offset = 1) ∧
    (∀ s, (term, s) ∈ m →
      (matchTermOffset m term offset = 0 ∨ matchTermOffset m term offset = 1) ∧
      (s ≤ offset →
        (matchTermOffset m term offset = 0 ↔
          (∀ q ∈ m, q.1 ≤ term) ∨
          ∃ q ∈ m, term < q.1 ∧ (∀ r ∈ m, term < r.1 → q.1 ≤ r.1) ∧ offset < q.2)) ∧
      (offset < s →
        (matchTermOffset m term offset = 0 ↔
          ∃ q ∈ m, (∀ r ∈ m, r.1 ≤ q.1) ∧ q.2 = u64 (offset + 1)))) := by
  constructor
  · intro h
    unfold matchTermOffset
    rw [dropWhile_absent m term h]
  · intro s hmem
    obtain ⟨pre, rest, hm⟩ := List.append_of_mem hmem
    have hs0 := hs
    rw [hm, List.pairwise_append, List.pairwise_cons] at hs
    obtain ⟨hpre, ⟨hrest, hrs⟩, hcross⟩ := hs
    have hprelt : ∀ e ∈ pre, e.1 < term := fun e he => hcross e he (term, s) (List.mem_cons_self _ _)
    have hdrop : m.dropWhile (fun e => decide (e.1 ≠ term)) = (term, s) :: rest := by
      rw [hm]
      exact dropWhile_split pre rest term s (fun e he => Nat.ne_of_lt (hprelt e he))
    have hmem_iff : ∀ e, e ∈ m ↔ e ∈ pre ∨ e = (term, s) ∨ e ∈ rest := by
      intro e
      rw [hm]
      simp
    have hlast : m ≠ [] := List.ne_nil_of_mem hmem
    obtain ⟨last, hl⟩ : ∃ last, m.getLast? = some last := by
      cases hg : m.getLast? with
      | none => exact absurd (List.getLast?_eq_none_iff.mp hg) hlast
      | some last => exact ⟨last, rfl⟩
    obtain ⟨hlm, hlmax⟩ := getLast_max m hs0 last hl
    have hsecond : offset < s →
        (matchTermOffset m term offset = 0 ∨ matchTermOffset m term offset = 1) ∧
        (matchTermOffset m term offset = 0 ↔
          ∃ q ∈ m, (∀ r ∈ m, r.1 ≤ q.1) ∧ q.2 = u64 (offset + 1)) := by
      intro hlt
      unfold matchTermOffset
      rw [hdrop]
      simp only
      rw [if_pos hlt, hl]
      simp only [Option.map_some', Option.some.injEq]
      by_cases heq : last.2 = u64 (offset + 1)
      · rw [if_pos heq]
        exact ⟨Or.inl rfl, fun _ => ⟨last, hlm, hlmax, heq⟩, fun _ => rfl⟩
      · rw [if_neg heq]
        refine ⟨Or.inr rfl, fun h => absurd h (by decide), ?_⟩
        rintro ⟨q, hq, hqmax, hq2⟩
        have : q = last :=
          key_unique m hs0 q last hq hlm (Nat.le_antisymm (hlmax q hq) (hqmax last hlm))
        exact absurd (this ▸ hq2) heq
    have hfirst : s ≤ offset →
        (matchTermOffset m term offset = 0 ∨ matchTermOffset m term offset = 1) ∧
        (matchTermOffset m term offset = 0 ↔
          (∀ q ∈ m, q.1 ≤ term) ∨
          ∃ q ∈ m, term < q.1 ∧ (∀ r ∈ m, term < r.1 → q.1 ≤ r.1) ∧ offset < q.2) := by
      intro hle
      unfold matchTermOffset
      rw [hdrop]
      simp only
      rw [if_neg (by omega)]
      cases hr : rest with
      | nil =>
        dsimp only
        refine ⟨Or.inl rfl, fun _ => Or.inl ?_, fun _ => rfl⟩
        intro q hq
        rcases (hmem_iff q).mp hq with h | h | h
        · exact Nat.le_of_lt (hprelt q h)
        · rw [h]
        · rw [hr] at h
          cases h
      | cons nx rest1 =>
        obtain ⟨t1, next⟩ := nx
        simp only
        have hnxmem : (t1, next) ∈ rest := by rw [hr]; exact List.mem_cons_self _ _
        have hnxm : (t1, next) ∈ m := (hmem_iff _).mpr (Or.inr (Or.inr hnxmem))
        have hnxlt : term < t1 := hrest (t1, next) hnxmem
        have hnxmin : ∀ r ∈ m, term < r.1 → t1 ≤ r.1 := by
          intro r hrm hlt
          rcases (hmem_iff r).mp hrm with h | h | h
          · exact absurd (hprelt r h) (by omega)
          · rw [h] at hlt
            exact absurd hlt (Nat.lt_irrefl _)
          · rw [hr] at h hrs
            rw [List.pairwise_cons] at hrs
            rcases List.mem_cons.mp h with rfl | h
            · exact Nat.le_refl _
            · exact Nat.le_of_lt (hrs.1 r h)
        by_cases hn : next ≤ offset
        · rw [if_pos hn]
          refine ⟨Or.inr rfl, fun h => absurd h (by decide), ?_⟩
          rintro (h | ⟨q, hq, hqlt, hqmin, hqo⟩)
          · exact absurd (h (t1, next) hnxm) (by simp only; omega)
          · have h1 : q.1 ≤ t1 := hqmin (t1, next) hnxm hnxlt
            have h2 : t1 ≤ q.1 := hnxmin q hq hqlt
            have : q = (t1, next) := key_unique m hs0 q (t1, next) hq hnxm (Nat.le_antisymm h1 h2)
            rw [this] at hqo
            simp only at hqo
            omega
        · rw [if_neg hn]
          exact ⟨Or.inl rfl, fun _ => Or.inr ⟨(t1, next), hnxm, hnxlt, hnxmin, by simp only; omega⟩,
            fun _ => rfl⟩
    refine ⟨?_, fun h => (hfirst h).2, fun h => (hsecond h).2⟩
    by_cases h : s ≤ offset
    · exact (hfirst h).1
    · exact (hsecond (by omega)).1

/-- C39. Let the table `name` exist, let `tp` be its first partition with this
pid, let the terms of its `term_offset` list be distinct and its offsets below
2^64, and let `has_table` be true.  If no entry has `term`, `MatchTermOffset`
returns 1.  For the entry `p` of `term` the result is 0 or 1; if
`p.offset ≤ offset`, it is 0 exactly when no entry has a larger term or the entry
with the next larger term has an offset above `offset`; if `p.offset > offset`,
it is 0 exactly when the entry with the largest term has the offset `offset + 1`. -/
theorem MatchTermOffset_by_terms (ns : NameServerImpl) (name : String) (pid : Nat)
    (term offset : Nat) (table : TableInfo) (i : Nat) (tp : TablePartition)
    (htable : mapFind name ns.table_info_ = some table)
    (hpart : firstWith (fun tp => decide (tp.pid = pid)) table.table_partition = some (i, tp))
    (hdistinct : (tp.term_offset.map (fun p => p.term)).Nodup)
    (hrange : ∀ p ∈ tp.term_offset, p.offset < 2 ^ 64) :
    ((∀ p ∈ tp.term_offset, p.term ≠ term) →
      MatchTermOffset ns name pid true term offset = 1) ∧
    (∀ p ∈ tp.term_offset, p.term = term →
      (MatchTermOffset ns name pid true term offset = 0 ∨
        MatchTermOffset ns name pid true term offset = 1) ∧
      (p.offset ≤ offset →
        (MatchTermOffset ns name pid true term offset = 0 ↔
          (∀ q ∈ tp.term_offset, q.term ≤ term) ∨
          ∃ q ∈ tp.term_offset, term < q.term ∧
            (∀ r ∈ tp.term_offset, term < r.term → q.term ≤ r.term) ∧ offset < q.offset)) ∧
      (offset < p.offset →
        (MatchTermOffset ns name pid true term offset = 0 ↔
          ∃ q ∈ tp.term_offset, (∀ r ∈ tp.term_offset, r.term ≤ q.term) ∧
            q.offset = offset + 1))) := by
  have hM : MatchTermOffset ns name pid true term offset
      = matchTermOffset (termMapOf tp.term_offset) term offset := by
    unfold MatchTermOffset
    simp [htable, hpart]
  rw [hM]
  obtain ⟨hs, hmem⟩ := termMapOf_spec tp.term_offset hdistinct
  obtain ⟨h1, h2⟩ := matchTermOffset_sorted (termMapOf tp.term_offset) hs term offset
  constructor
  · intro h
    apply h1
    intro e he
    obtain ⟨p, hp, rfl⟩ := (hmem e).mp he
    exact h p hp
  · intro p hp hpt
    have hpm : (term, p.offset) ∈ termMapOf tp.term_offset :=
      (hmem _).mpr ⟨p, hp, by rw [hpt]⟩
    obtain ⟨a, b, c⟩ := h2 p.offset hpm
    refine ⟨a, fun hle => ?_, fun hlt => ?_⟩
    · rw [b hle]
      constructor
      · rintro (h | ⟨q, hq, hqlt, hqmin, hqo⟩)
        · exact Or.inl (fun q hq => h (q.term, q.offset) ((hmem _).mpr ⟨q, hq, rfl⟩))
        · obtain ⟨q1, hq1, rfl⟩ := (hmem q).mp hq
          exact Or.inr ⟨q1, hq1, hqlt,
            fun r hr hlt => hqmin (r.term, r.offset) ((hmem _).mpr ⟨r, hr, rfl⟩) hlt, hqo⟩
      · rintro (h | ⟨q, hq, hqlt, hqmin, hqo⟩)
        · left
          intro e he
          obtain ⟨q1, hq1, rfl⟩ := (hmem e).mp he
          exact h q1 hq1
        · right
          refine ⟨(q.term, q.offset), (hmem _).mpr ⟨q, hq, rfl⟩, hqlt, ?_, hqo⟩
          intro e he hlt
          obtain ⟨r1, hr1, rfl⟩ := (hmem e).mp he
          exact hqmin r1 hr1 hlt
    · have hu : u64 (offset + 1) = offset + 1 := by
        have := hrange p hp
        unfold u64
        exact Nat.mod_eq_of_lt (by omega)
      rw [c hlt, hu]
      constructor
      · rintro ⟨q, hq, hqmax, hq2⟩
        obtain ⟨q1, hq1, rfl⟩ := (hmem q).mp hq
        exact ⟨q1, hq1,
          fun r hr => hqmax (r.term, r.offset) ((hmem _).mpr ⟨r, hr, rfl⟩), hq2⟩
      · rintro ⟨q, hq, hqmax, hq2⟩
        refine ⟨(q.term, q.offset), (hmem _).mpr ⟨q, hq, rfl⟩, ?_, hq2⟩
        intro e he
        obtain ⟨r1, hr1, rfl⟩ := (hmem e).mp he
        exact hqmax r1 hr1
theorem MatchTermOffset_by_terms_witness :
    MatchTermOffset termsNs "t" 0 true 3 20 = 0 ∧ MatchTermOffset termsNs "t" 0 true 3 30 = 1 ∧
    MatchTermOffset termsNs "t" 0 true 3 9 = 1 ∧ MatchTermOffset termsNs "t" 0 true 4 20 = 1 :=
  ⟨(((MatchTermOffset_by_terms termsNs "t" 0 3 20 termsTable 0
        { pid := 0,
          partition_meta :=
            [{ endpoint := "a:1", is_leader := true, is_alive := true },
             { endpoint := "b:1", is_leader := false, is_alive := true }],
          term_offset :=
            [{ term := 1, offset := 0 }, { term := 5, offset := 30 }, { term := 3, offset := 10 }] }
        (by decide) (by decide) (by decide) (by decide)).2
        { term := 3, offset := 10 } (by decide) rfl).2.1 (by decide)).mpr
      (Or.inr ⟨{ term := 5, offset := 30 }, by decide, by decide, by decide, by decide⟩),
    by decide, by decide,
    (MatchTermOffset_by_terms termsNs "t" 0 4 20 termsTable 0
        { pid := 0,
          partition_meta :=
            [{ endpoint := "a:1", is_leader := true, is_alive := true },
             { endpoint := "b:1", is_leader := false, is_alive := true }],
          term_offset :=
            [{ term := 1, offset := 0 }, { term := 5, offset := 30 }, { term := 3, offset := 10 }] }
        (by decide) (by decide) (by decide) (by decide)).1 (by decide)⟩

/-! ## SelectLeader and ChangeLeader: the leader among the followers -/

theorem followOfNoOne_mem (tablets : List (String × TabletInfo))
    (follower_endpoint : List String) (replies : List (Option Nat)) (acc res : Nat × List String)
    (h : (followOfNoOne tablets follower_endpoint replies acc).1 = some res) :
    (∀ e ∈ res.2, e ∈ acc.2 ∨ e ∈ follower_endpoint) ∧
    (follower_endpoint ≠ [] ∨ acc.2 ≠ [] → res.2 ≠ []) := by
  induction follower_endpoint generalizing replies acc with
  | nil =>
    simp only [followOfNoOne, Option.some.injEq] at h
    subst h
    refine ⟨fun e he => Or.inl he, ?_⟩
    rintro (h | h)
    · exact absurd rfl h
    · exact h
  | cons x rest ih =>
    simp only [followOfNoOne] at h
    cases ht : mapFind x tablets with
    | none => simp [ht] at h
    | some tablet =>
      simp only [ht] at h
      by_cases hs : tablet.state_ ≠ TabletState.kTabletHealthy
      · rw [if_pos hs] at h
        simp at h
      · rw [if_neg hs] at h
        cases hr : nextReply replies with
        | mk reply replies1 =>
          cases reply with
          | none => simp [hr] at h
          | some offset =>
            simp only [hr] at h
            by_cases h1 : offset > acc.1 ∨ acc.2 = []
            · rw [if_pos h1] at h
              obtain ⟨m, n⟩ := ih replies1 (offset, [x]) h
              refine ⟨fun e he => ?_, fun _ => n (Or.inr (by simp))⟩
              rcases m e he with hm | hm
              · simp only [List.mem_singleton] at hm
                exact Or.inr (hm ▸ List.mem_cons_self _ _)
              · exact Or.inr (List.mem_cons_of_mem _ hm)
            · rw [if_neg h1] at h
              by_cases h2 : offset = acc.1
              · rw [if_pos h2] at h
                obtain ⟨m, n⟩ := ih replies1 (acc.1, acc.2 ++ [x]) h
                refine ⟨fun e he => ?_, fun _ => n (Or.inr (by simp))⟩
                rcases m e he with hm | hm
                · simp only [List.mem_append, List.mem_singleton] at hm
                  rcases hm with hm | hm
                  · exact Or.inl hm
                  · exact Or.inr (hm ▸ List.mem_cons_self _ _)
                · exact Or.inr (List.mem_cons_of_mem _ hm)
              · rw [if_neg h2] at h
                obtain ⟨m, n⟩ := ih replies1 acc h
                have hacc : acc.2 ≠ [] := fun hn => h1 (Or.inr hn)
                refine ⟨fun e he => ?_, fun _ => n (Or.inr hacc)⟩
                rcases m e he with hm | hm
                · exact Or.inl hm
                · exact Or.inr (List.mem_cons_of_mem _ hm)

theorem chooseLeader_mem (candidate_leader : Option String) (leader_endpoint_vec : List String)
    (rand_next : Nat) (leader : String)
    (h : chooseLeader candidate_leader leader_endpoint_vec rand_next = some leader) :
    leader ∈ leader_endpoint_vec := by
  unfold chooseLeader at h
  cases candidate_leader with
  | some candidate =>
    simp only at h
    by_cases hc : candidate ∈ leader_endpoint_vec
    · rw [if_pos hc] at h
      simp only [Option.some.injEq] at h
      exact h ▸ hc
    · rw [if_neg hc] at h
      simp at h
  | none =>
    simp only at h
    by_cases he : leader_endpoint_vec = []
    · rw [if_pos he] at h
      simp at h
    · rw [if_neg he] at h
      exact List.mem_iff_getElem?.mpr ⟨_, h⟩

theorem chooseLeader_nonempty (leader_endpoint_vec : List String) (rand_next : Nat)
    (h : leader_endpoint_vec ≠ []) :
    rand_next % leader_endpoint_vec.length < leader_endpoint_vec.length ∧
    ∃ leader, chooseLeader none leader_endpoint_vec rand_next = some leader ∧
      leader_endpoint_vec[rand_next % leader_endpoint_vec.length]? = some leader := by
  have hlt : rand_next % leader_endpoint_vec.length < leader_endpoint_vec.length :=
    Nat.mod_lt _ (List.length_pos.mpr h)
  refine ⟨hlt, leader_endpoint_vec[rand_next % leader_endpoint_vec.length], ?_, ?_⟩
  · unfold chooseLeader
    simp only
    rw [if_neg h]
    exact List.getElem?_eq_getElem hlt
  · exact List.getElem?_eq_getElem hlt

theorem writeLeader_leader_mem (ns : NameServerImpl) (task_info : TaskInfo) (rand_next : Nat)
    (cur_term : Nat) (max_offset : Nat) (leader_endpoint_vec : List String)
    (op_data : OPData) (d : ChangeLeaderData)
    (hop : FindRunningOP ns task_info.op_id = some op_data)
    (hd : parseChangeLeaderData op_data.op_info_.data = some d)
    (hdone : (writeLeader ns task_info rand_next cur_term max_offset leader_endpoint_vec).2.status
      = TaskStatus.kDone) :
    ∃ (op_data1 : OPData) (d1 : ChangeLeaderData),
      FindRunningOP (writeLeader ns task_info rand_next cur_term max_offset
        leader_endpoint_vec).1 task_info.op_id = some op_data1 ∧
      parseChangeLeaderData op_data1.op_info_.data = some d1 ∧
      d1.follower = d.follower ∧ d1.leader ∈ leader_endpoint_vec := by
  obtain ⟨h1, h2⟩ := writeLeader_spec ns task_info rand_next cur_term max_offset
    leader_endpoint_vec op_data d hop hd
  cases hc : chooseLeader d.candidate_leader leader_endpoint_vec rand_next with
  | none =>
    rw [h2 hc] at hdone
    exact absurd hdone (by decide)
  | some leader =>
    obtain ⟨_, hf⟩ := h1 leader hc
    exact ⟨_, _, hf, rfl, rfl, chooseLeader_mem _ _ _ _ hc⟩

theorem ChangeLeaderTask_some (ns : NameServerImpl) (task_info : TaskInfo) (op_data : OPData)
    (d : ChangeLeaderData)
    (hop : FindRunningOP ns task_info.op_id = some op_data)
    (hd : parseChangeLeaderData op_data.op_info_.data = some d)
    (hmem : d.leader ∈ d.follower) :
    (ChangeLeaderTask ns task_info).isSome = true := by
  unfold ChangeLeaderTask
  simp only [hop, hd]
  cases mapFind d.leader ns.tablets_ with
  | none => rfl
  | some tablet =>
    simp only
    by_cases hs : tablet.state_ ≠ TabletState.kTabletHealthy
    · rw [if_pos hs]
      rfl
    · rw [if_neg hs, if_neg (not_not.mpr hmem)]
      rfl

/-- C40. In `SelectLeader` on a non-empty `follower_endpoint`, whenever the loop
over the followers ends with a `leader_endpoint_vec`, this vector is not empty,
the index `rand_.Next() % size` is below its size, and the random choice has an
element at that index.  Let the OP of the task be at the front of a queue with a
payload that parses, and let `follower_endpoint` be the followers of that
payload, as `CreateChangeLeaderOPTask` binds them: when the task ends Done, the
payload of the OP has the same followers and a leader that is one of them, and
the ChangeLeader task of the OP, run on that state, finds the leader it erases
from the followers. -/
theorem SelectLeader_leader_among_followers (ns : NameServerImpl) (name : String)
    (tid pid : Nat) (follower_endpoint : List String) (task_info : TaskInfo) (rand_next : Nat) :
    (follower_endpoint ≠ [] →
      ∀ (replies : List (Option Nat)) (found : Nat × List String),
        (followOfNoOne ns.tablets_ follower_endpoint replies (0, [])).1 = some found →
        found.2 ≠ [] ∧ rand_next % found.2.length < found.2.length ∧
        ∃ leader, chooseLeader none found.2 rand_next = some leader ∧
          found.2[rand_next % found.2.length]? = some leader) ∧
    (∀ op_data : OPData, FindRunningOP ns task_info.op_id = some op_data →
      selectLeaderFollowers op_data.op_info_ = some follower_endpoint →
      (SelectLeader ns name tid pid follower_endpoint task_info rand_next).2.status
        = TaskStatus.kDone →
      (∃ (op_data1 : OPData) (d1 : ChangeLeaderData),
        FindRunningOP (SelectLeader ns name tid pid follower_endpoint task_info rand_next).1
          task_info.op_id = some op_data1 ∧
        parseChangeLeaderData op_data1.op_info_.data = some d1 ∧
        d1.follower = follower_endpoint ∧ d1.leader ∈ d1.follower) ∧
      ∀ change : TaskInfo, change.op_id = task_info.op_id →
        (ChangeLeaderTask (SelectLeader ns name tid pid follower_endpoint task_info rand_next).1
          change).isSome = true) := by
  constructor
  · intro hne replies found hf
    have hv : found.2 ≠ [] := (followOfNoOne_mem _ _ _ _ _ hf).2 (Or.inl hne)
    exact ⟨hv, chooseLeader_nonempty found.2 rand_next hv⟩
  · intro op_data hop hbind hdone
    have hd : ∃ d, parseChangeLeaderData op_data.op_info_.data = some d ∧
        d.follower = follower_endpoint := by
      unfold selectLeaderFollowers at hbind
      cases hp : parseChangeLeaderData op_data.op_info_.data with
      | none => simp [hp] at hbind
      | some d =>
        simp only [hp, Option.some.injEq] at hbind
        exact ⟨d, rfl, hbind⟩
    obtain ⟨d, hd, hfol⟩ := hd
    have key : ∃ (op_data1 : OPData) (d1 : ChangeLeaderData),
        FindRunningOP (SelectLeader ns name tid pid follower_endpoint task_info rand_next).1
          task_info.op_id = some op_data1 ∧
        parseChangeLeaderData op_data1.op_info_.data = some d1 ∧
        d1.follower = follower_endpoint ∧ d1.leader ∈ d1.follower := by
      unfold SelectLeader at hdone ⊢
      by_cases hg : selectLeaderGuard ns name pid = true
      · cases hz : (ns.zk_client_.SetNodeValue zk_term_node_
            (ZkValue.num (u64 (ns.term_ + 2)))).1 with
        | false => simp [hg, hz] at hdone
        | true =>
          cases hf : (followOfNoOne ns.tablets_ follower_endpoint ns.tablet_replies_ (0, [])).1 with
          | none => simp [hg, hz, hf] at hdone
          | some found =>
            simp only [hg, hz, hf, Bool.not_true, Bool.false_eq_true, if_false] at hdone ⊢
            obtain ⟨op_data1, d1, h1, h2, h3, h4⟩ :=
              writeLeader_leader_mem
                { ns with
                  zk_client_ := (ns.zk_client_.SetNodeValue zk_term_node_
                    (ZkValue.num (u64 (ns.term_ + 2)))).2
                  term_ := u64 (ns.term_ + 2)
                  tablet_replies_ :=
                    (followOfNoOne ns.tablets_ follower_endpoint ns.tablet_replies_ (0, [])).2 }
                task_info rand_next (u64 (ns.term_ + 1)) found.1 found.2 op_data d hop hd hdone
            refine ⟨op_data1, d1, h1, h2, h3.trans hfol, ?_⟩
            rw [h3, hfol]
            rcases (followOfNoOne_mem _ _ _ _ _ hf).1 _ h4 with hm | hm
            · simp at hm
            · exact hm
      · simp [hg] at hdone
    refine ⟨key, ?_⟩
    intro change hid
    obtain ⟨op_data1, d1, h1, h2, _, h4⟩ := key
    exact ChangeLeaderTask_some _ change op_data1 d1 (hid ▸ h1) h2 h4

theorem SelectLeader_leader_among_followers_witness :
    (followOfNoOne scenarioNs.tablets_ ["c:1", "b:1"] [some 7, some 7] (0, [])).1
      = some (7, ["c:1", "b:1"]) ∧
    (1 % 2 < 2 ∧ ∃ leader, chooseLeader none ["c:1", "b:1"] 1 = some leader ∧
      ["c:1", "b:1"][1 % 2]? = some leader) ∧
    (SelectLeader scenarioNs "t" 2 0 ["b:1"] scenarioTask 0).2.status = TaskStatus.kDone ∧
    (ChangeLeaderTask (SelectLeader scenarioNs "t" 2 0 ["b:1"] scenarioTask 0).1
      { scenarioTask with task_type := TaskType.kChangeLeader }).isSome = true :=
  ⟨by decide,
    ((SelectLeader_leader_among_followers scenarioNs "t" 2 0 ["c:1", "b:1"] scenarioTask 1).1
      (by decide) [some 7, some 7] (7, ["c:1", "b:1"]) (by decide)).2,
    by decide,
    ((SelectLeader_leader_among_followers scenarioNs "t" 2 0 ["b:1"] scenarioTask 0).2
      scenarioOp (by decide) (by decide) (by decide)).2
      { scenarioTask with task_type := TaskType.kChangeLeader } rfl⟩

end NameServerImpl

end rtidb
